import Mathlib

/-!
# SandStorm: entity/component composition layer

A shallow embedding of `src/Engine/components/gameobject.cpp`.

Raw pointers are addresses (`Ptr`, with `nullptr = 0`).  The objects a
`GameObject` points at live in `Memory`: one table per object type, indexed by
address.  A call either returns, or aborts the process (a failed `assert`, or a
dereference of a null pointer); an aborted call keeps the state in which it
stopped, so that what had already been written can be inspected.

Floating-point values are carried as rationals.  Most operations embedded here
only copy or compare them; where they are added or multiplied the arithmetic is
exact, and where the rounding of the `float` format matters it is applied
explicitly (`roundFloat`).
-/

namespace SandStorm

/-- Carrier of the `float` values: every finite `float` is a rational.  The
arithmetic on `Scalar` is exact; where the rounding of the machine matters the
result of an operation is put through `roundFloat`.  Infinities and NaN have no
value here. -/
abbrev Scalar := Rat

/-- A raw pointer: the address of the object. -/
abbrev Ptr := Nat

/-- The null pointer. -/
abbrev nullptr : Ptr := 0

/-- Stands for `glm::vec3` (and `rp3d::Vector3`). -/
structure Vec3 where
  x : Scalar
  y : Scalar
  z : Scalar
deriving DecidableEq, Repr

/-- Stands for `glm::quat` (and `rp3d::Quaternion`). -/
structure Quat where
  w : Scalar
  x : Scalar
  y : Scalar
  z : Scalar
deriving DecidableEq, Repr

/-- Stands for `glm::vec4`, one column of a `glm::mat4`. -/
structure Vec4 where
  x : Scalar
  y : Scalar
  z : Scalar
  w : Scalar
deriving DecidableEq, Repr

/-- Stands for `glm::mat4`, stored by columns. -/
structure Mat4 where
  c0 : Vec4
  c1 : Vec4
  c2 : Vec4
  c3 : Vec4
deriving DecidableEq, Repr

/-- The data members of `class Transform` (`source/Engine/types/transform.h`). -/
structure Transform where
  position : Vec3
  orientation : Quat
  scale : Vec3
  matrix : Mat4
deriving DecidableEq, Repr

/-- Modelled from the spec: the `ComponentType` tag and the constants of
`Components` are declared in a header that is not among the sources; the spec
lists the nine kinds. -/
inductive ComponentType where
  | Transform
  | MeshRenderer
  | Camera
  | Light
  | Script
  | RigidBody
  | Actor
  | Text
  | Panel
deriving DecidableEq, Repr

/-- Modelled from the spec: the generic component wrapper, a type tag paired
with a pointer to the payload (`GetType()` and `GetComponent()` read the two
members; `Engine.cpp` names the second one `mObject`). -/
structure Component where
  mType : ComponentType
  mObject : Ptr
deriving DecidableEq, Repr

/-- The members of `struct Script` read or written by the entity
(`source/Scripting/components/script.h`). -/
structure Script where
  isActive : Bool
  hasBeenInitiated : Bool
  gameObject : Ptr
deriving DecidableEq, Repr

/-- The data members of `class MeshRenderer`
(`include/GameEngineFramework/Renderer/components/meshrenderer.h`). -/
structure MeshRenderer where
  isActive : Bool
  mesh : Ptr
  material : Ptr
  transform : Transform
deriving DecidableEq, Repr

/-- The two look angles of a camera, yaw in `x` and pitch in `y`. -/
structure LookAngle where
  x : Scalar
  y : Scalar
deriving DecidableEq, Repr

/-- The members of `Camera` used by `gameobject.cpp` and by the camera step of
`EngineSystemManager::Update`. -/
structure Camera where
  transform : Transform
  useMouseLook : Bool
  lookAngle : LookAngle
  MouseSensitivityYaw : Scalar
  MouseSensitivityPitch : Scalar
deriving DecidableEq, Repr

/-- The members of `Light` used by `gameobject.cpp` and `Engine.cpp`. -/
structure Light where
  isActive : Bool
  position : Vec3
  direction : Vec3
deriving DecidableEq, Repr

/-- Modelled from the spec: the AI actor is reached through `SetPosition`,
`GetVelocity`, `GetActive` and `SetActive` only; its state is what those
calls set and return. -/
structure Actor where
  active : Bool
  position : Vec3
  velocity : Vec3
deriving DecidableEq, Repr

/-- Stands for `Color`: four `float` channels. -/
structure Color where
  r : Scalar
  g : Scalar
  b : Scalar
  a : Scalar
deriving DecidableEq, Repr

/-- The members of `text->canvas` read by `Update`: the offset in glyph cells
and the four anchor switches. -/
structure Canvas where
  x : Int
  y : Int
  anchorRight : Bool
  anchorTop : Bool
  anchorCenterHorz : Bool
  anchorCenterVert : Bool
deriving DecidableEq, Repr

/-- The members of `text->sprite` read by `AddMeshSubSprite`: the sub-sprite
rectangle and the size of the glyph map in cells. -/
structure Sprite where
  subSpriteX : Scalar
  subSpriteY : Scalar
  subSpriteWidth : Scalar
  subSpriteHeight : Scalar
  width : Int
  height : Int
deriving DecidableEq, Repr

/-- The members of `Text` read by `Engine.cpp`; the entity itself never looks
inside.  The `std::string` is kept as its bytes; `size`, the canvas offsets and
the map size take part in integer arithmetic there and are integers. -/
structure Text where
  text : List Nat
  color : Color
  size : Int
  width : Scalar
  height : Scalar
  glyphWidth : Scalar
  glyphHeight : Scalar
  canvas : Canvas
  sprite : Sprite
deriving DecidableEq, Repr

/-- The `Panel` declaration is not among the sources and no member of it is
used; the object is kept as its raw content. -/
structure Panel where
  content : List Nat
deriving DecidableEq, Repr

/-- Stands for `rp3d::Transform`: the position and orientation of a body. -/
structure BodyTransform where
  position : Vec3
  orientation : Quat
deriving DecidableEq, Repr

/-- Modelled from the spec: the physics handle (`rp3d::RigidBody`), an external
collaborator.  Its observable state is what `getTransform`/`setTransform`,
`setIsActive` and `setUserData` read and write. -/
structure RigidBody where
  transform : BodyTransform
  isActive : Bool
  userData : Ptr
deriving DecidableEq, Repr

/-- Stands for `rp3d::BodyType`. -/
inductive BodyType where
  | STATIC
  | KINEMATIC
  | DYNAMIC
deriving DecidableEq, Repr

/-- One call made on the physics collaborator, with its arguments.  The first
argument is the body the call is made on. -/
inductive PhysicsCall where
  | setUserData (body : Ptr) (data : Ptr)
  | getTransform (body : Ptr)
  | setTransform (body : Ptr) (t : BodyTransform)
  | setIsActive (body : Ptr) (b : Bool)
  | applyLocalForceAtCenterOfMass (body : Ptr) (force : Vec3)
  | applyLocalTorque (body : Ptr) (torque : Vec3)
  | setMass (body : Ptr) (mass : Scalar)
  | setLinearDamping (body : Ptr) (damping : Scalar)
  | setAngularDamping (body : Ptr) (damping : Scalar)
  | enableGravity (body : Ptr) (b : Bool)
  | updateMassFromColliders (body : Ptr)
  | updateLocalCenterOfMassFromColliders (body : Ptr)
  | updateLocalInertiaTensorFromColliders (body : Ptr)
  | setLinearLockAxisFactor (body : Ptr) (factor : Vec3)
  | setAngularLockAxisFactor (body : Ptr) (factor : Vec3)
  | addCollider (body : Ptr) (shape : Ptr) (offset : Vec3)
  | setCollideWithMaskBits (body : Ptr) (shape : Ptr) (bits : Nat)
  | setType (body : Ptr) (type : BodyType)
deriving DecidableEq, Repr

/-- The objects reachable from an entity, one table per type, and the calls
made so far on the physics collaborator (oldest first). -/
structure Memory where
  components : Ptr → Component
  transforms : Ptr → Transform
  rigidBodies : Ptr → RigidBody
  meshRenderers : Ptr → MeshRenderer
  cameras : Ptr → Camera
  lights : Ptr → Light
  actors : Ptr → Actor
  scripts : Ptr → Script
  texts : Ptr → Text
  panels : Ptr → Panel
  physicsCalls : List PhysicsCall

/-- The data members of `class GameObject`: those initialised by the
constructor and used in `gameobject.cpp`, and `transform` and `parent`, which
`Engine.cpp` reads. -/
structure GameObject where
  name : String
  isActive : Bool
  renderDistance : Int
  transform : Transform
  parent : Ptr
  mUserData : Ptr
  mComponentList : List Ptr
  mTransformCache : Ptr
  mCameraCache : Ptr
  mRigidBodyCache : Ptr
  mMeshRendererCache : Ptr
  mLightCache : Ptr
  mActorCache : Ptr
  mTextCache : Ptr
  mPanelCache : Ptr
deriving DecidableEq, Repr

/-- An entity together with the memory around it. -/
structure State where
  obj : GameObject
  mem : Memory

/-- Why a call did not return. -/
inductive Fault where
  | assertFailed
  | nullDereference
  | capacityExhausted
deriving DecidableEq, Repr

/-- The result of a call: it returned a value, or the process was aborted.
Either way the state reached is kept. -/
inductive Outcome (α : Type) where
  | returned (value : α) (after : State)
  | aborted (fault : Fault) (reached : State)

/-- The state a call ended in. -/
def Outcome.state {α : Type} : Outcome α → State
  | .returned _ s => s
  | .aborted _ s => s

/-- Whether the call returned. -/
def Outcome.isReturned {α : Type} : Outcome α → Bool
  | .returned _ _ => true
  | .aborted _ _ => false

/-- Overwrite one entry of a table. -/
def store {β : Type} (table : Ptr → β) (p : Ptr) (v : β) : Ptr → β :=
  fun q => if q = p then v else table q

/-- The identity transform (`SetIdentity`), taken as the value of a
default-constructed `Transform`; the constructor's body is not among the
sources. -/
def Transform.identity : Transform :=
  { position := ⟨0, 0, 0⟩
    orientation := ⟨1, 0, 0, 0⟩
    scale := ⟨1, 1, 1⟩
    matrix := ⟨⟨1, 0, 0, 0⟩, ⟨0, 1, 0, 0⟩, ⟨0, 0, 1, 0⟩, ⟨0, 0, 0, 1⟩⟩ }

/-- Embeds `GameObject::GameObject()`: the member initialiser list.  The members
the list does not name are taken as the identity transform and null pointers. -/
def GameObject.new : GameObject :=
  { name := ""
    isActive := true
    renderDistance := -1
    transform := Transform.identity
    parent := nullptr
    mUserData := nullptr
    mComponentList := []
    mTransformCache := nullptr
    mCameraCache := nullptr
    mRigidBodyCache := nullptr
    mMeshRendererCache := nullptr
    mLightCache := nullptr
    mActorCache := nullptr
    mTextCache := nullptr
    mPanelCache := nullptr }

/-- Stands for `rp3d::RigidBody::setUserData`, recorded in the call log. -/
def Memory.setUserData (m : Memory) (body : Ptr) (data : Ptr) : Memory :=
  { m with
    rigidBodies := store m.rigidBodies body { m.rigidBodies body with userData := data }
    physicsCalls := m.physicsCalls ++ [PhysicsCall.setUserData body data] }

/-- Embeds `GameObject::AddComponent(Component* component)`; `this` is the address of
the entity. -/
def GameObject.AddComponent (this : Ptr) (s : State) (component : Ptr) : Outcome Unit :=
  let s1 : State :=
    { s with obj := { s.obj with mComponentList := s.obj.mComponentList ++ [component] } }
  if component = nullptr then .aborted .nullDereference s1 else
  let payload := (s1.mem.components component).mObject
  match (s1.mem.components component).mType with
  | .Transform =>
      if s1.obj.mTransformCache ≠ nullptr then .aborted .assertFailed s1 else
      .returned () { s1 with obj := { s1.obj with mTransformCache := payload } }
  | .RigidBody =>
      if s1.obj.mRigidBodyCache ≠ nullptr then .aborted .assertFailed s1 else
      let s2 : State := { s1 with obj := { s1.obj with mRigidBodyCache := payload } }
      if s2.obj.mRigidBodyCache = nullptr then .aborted .nullDereference s2 else
      .returned () { s2 with mem := s2.mem.setUserData s2.obj.mRigidBodyCache this }
  | .MeshRenderer =>
      if s1.obj.mMeshRendererCache ≠ nullptr then .aborted .assertFailed s1 else
      .returned () { s1 with obj := { s1.obj with mMeshRendererCache := payload } }
  | .Camera =>
      if s1.obj.mCameraCache ≠ nullptr then .aborted .assertFailed s1 else
      .returned () { s1 with obj := { s1.obj with mCameraCache := payload } }
  | .Light =>
      if s1.obj.mLightCache ≠ nullptr then .aborted .assertFailed s1 else
      .returned () { s1 with obj := { s1.obj with mLightCache := payload } }
  | .Actor =>
      if s1.obj.mActorCache ≠ nullptr then .aborted .assertFailed s1 else
      .returned () { s1 with obj := { s1.obj with mActorCache := payload } }
  | .Text =>
      if s1.obj.mTextCache ≠ nullptr then .aborted .assertFailed s1 else
      .returned () { s1 with obj := { s1.obj with mTextCache := payload } }
  | .Panel =>
      if s1.obj.mPanelCache ≠ nullptr then .aborted .assertFailed s1 else
      .returned () { s1 with obj := { s1.obj with mPanelCache := payload } }
  | .Script => .returned () s1

/-- The search of `RemoveComponent`: the list without its first element equal
to `component`, or `none` when the loop reaches the end without a match. -/
def eraseFirst (component : Ptr) : List Ptr → Option (List Ptr)
  | [] => none
  | thisComponentPtr :: rest =>
      if component ≠ thisComponentPtr then
        (eraseFirst component rest).map (fun l => thisComponentPtr :: l)
      else some rest

/-- Embeds `GameObject::RemoveComponent(Component* component)`. -/
def GameObject.RemoveComponent (s : State) (component : Ptr) : Outcome Bool :=
  match eraseFirst component s.obj.mComponentList with
  | none => .returned false s
  | some remaining =>
      let s1 : State := { s with obj := { s.obj with mComponentList := remaining } }
      if component = nullptr then .aborted .nullDereference s1 else
      match (s1.mem.components component).mType with
      | .Transform =>
          if s1.obj.mTransformCache = nullptr then .aborted .assertFailed s1 else
          .returned true { s1 with obj := { s1.obj with mTransformCache := nullptr } }
      | .MeshRenderer =>
          if s1.obj.mMeshRendererCache = nullptr then .aborted .assertFailed s1 else
          .returned true { s1 with obj := { s1.obj with mMeshRendererCache := nullptr } }
      | .RigidBody =>
          if s1.obj.mRigidBodyCache = nullptr then .aborted .assertFailed s1 else
          let s2 : State :=
            { s1 with mem := s1.mem.setUserData s1.obj.mRigidBodyCache nullptr }
          .returned true { s2 with obj := { s2.obj with mRigidBodyCache := nullptr } }
      | .Camera =>
          if s1.obj.mCameraCache = nullptr then .aborted .assertFailed s1 else
          .returned true { s1 with obj := { s1.obj with mCameraCache := nullptr } }
      | .Light =>
          if s1.obj.mLightCache = nullptr then .aborted .assertFailed s1 else
          .returned true { s1 with obj := { s1.obj with mLightCache := nullptr } }
      | .Actor =>
          if s1.obj.mActorCache = nullptr then .aborted .assertFailed s1 else
          .returned true { s1 with obj := { s1.obj with mActorCache := nullptr } }
      | .Text =>
          if s1.obj.mTextCache = nullptr then .aborted .assertFailed s1 else
          .returned true { s1 with obj := { s1.obj with mTextCache := nullptr } }
      | .Panel =>
          if s1.obj.mPanelCache = nullptr then .aborted .assertFailed s1 else
          .returned true { s1 with obj := { s1.obj with mPanelCache := nullptr } }
      | .Script => .returned true s1

/-- Embeds `GameObject::GetComponentIndex(unsigned int index)`: unchecked indexing,
`none` past the end. -/
def GameObject.GetComponentIndex (o : GameObject) (index : Nat) : Option Ptr :=
  o.mComponentList[index]?

/-- Embeds `GameObject::GetComponentCount()`. -/
def GameObject.GetComponentCount (o : GameObject) : Nat :=
  o.mComponentList.length

/-- The cache member that belongs to a kind; `Script` has none. -/
def GameObject.cache (o : GameObject) : ComponentType → Option Ptr
  | .Transform => some o.mTransformCache
  | .MeshRenderer => some o.mMeshRendererCache
  | .Camera => some o.mCameraCache
  | .Light => some o.mLightCache
  | .RigidBody => some o.mRigidBodyCache
  | .Actor => some o.mActorCache
  | .Text => some o.mTextCache
  | .Panel => some o.mPanelCache
  | .Script => none

/-- Embeds `GameObject::GetPosition()`: reads through the transform cache. -/
def GameObject.GetPosition (s : State) : Outcome Vec3 :=
  if s.obj.mTransformCache = nullptr then .aborted .nullDereference s else
  .returned (s.mem.transforms s.obj.mTransformCache).position s

/-- Record one call on the physics collaborator. -/
def Memory.call (m : Memory) (c : PhysicsCall) : Memory :=
  { m with physicsCalls := m.physicsCalls ++ [c] }

/-- Stands for `rp3d::RigidBody::getTransform`, recorded in the call log. -/
def Memory.getTransform (m : Memory) (body : Ptr) : BodyTransform × Memory :=
  ((m.rigidBodies body).transform, m.call (PhysicsCall.getTransform body))

/-- Stands for `rp3d::RigidBody::setTransform`, recorded in the call log. -/
def Memory.setTransform (m : Memory) (body : Ptr) (t : BodyTransform) : Memory :=
  { m with
    rigidBodies := store m.rigidBodies body { m.rigidBodies body with transform := t }
    physicsCalls := m.physicsCalls ++ [PhysicsCall.setTransform body t] }

/-- Stands for `rp3d::RigidBody::setIsActive`, recorded in the call log. -/
def Memory.setIsActive (m : Memory) (body : Ptr) (b : Bool) : Memory :=
  { m with
    rigidBodies := store m.rigidBodies body { m.rigidBodies body with isActive := b }
    physicsCalls := m.physicsCalls ++ [PhysicsCall.setIsActive body b] }

/-- Embeds `GameObject::SetPosition(float x, float y, float z)`. -/
def GameObject.SetPosition (s : State) (x y z : Scalar) : Outcome Unit :=
  if s.obj.mTransformCache = nullptr then .aborted .nullDereference s else
  let m0 : Memory :=
    { s.mem with
      transforms := store s.mem.transforms s.obj.mTransformCache
        { s.mem.transforms s.obj.mTransformCache with position := ⟨x, y, z⟩ } }
  let m1 : Memory :=
    if s.obj.mRigidBodyCache ≠ nullptr then
      let position : Vec3 := ⟨x, y, z⟩
      let got := m0.getTransform s.obj.mRigidBodyCache
      let bodyTransform : BodyTransform := { got.1 with position := position }
      got.2.setTransform s.obj.mRigidBodyCache bodyTransform
    else m0
  let m2 : Memory :=
    if s.obj.mMeshRendererCache ≠ nullptr then
      let r := m1.meshRenderers s.obj.mMeshRendererCache
      { m1 with
        meshRenderers := store m1.meshRenderers s.obj.mMeshRendererCache
          { r with transform := { r.transform with position := ⟨x, y, z⟩ } } }
    else m1
  let m3 : Memory :=
    if s.obj.mCameraCache ≠ nullptr then
      let c := m2.cameras s.obj.mCameraCache
      { m2 with
        cameras := store m2.cameras s.obj.mCameraCache
          { c with transform := { c.transform with position := ⟨x, y, z⟩ } } }
    else m2
  let m4 : Memory :=
    if s.obj.mActorCache ≠ nullptr then
      { m3 with
        actors := store m3.actors s.obj.mActorCache
          { m3.actors s.obj.mActorCache with position := ⟨x, y, z⟩ } }
    else m3
  let m5 : Memory :=
    if s.obj.mLightCache ≠ nullptr then
      { m4 with
        lights := store m4.lights s.obj.mLightCache
          { m4.lights s.obj.mLightCache with position := ⟨x, y, z⟩ } }
    else m4
  .returned () { s with mem := m5 }

/-- Embeds `GameObject::SetPosition(glm::vec3 newPosition)`. -/
def GameObject.SetPositionVec (s : State) (newPosition : Vec3) : Outcome Unit :=
  GameObject.SetPosition s newPosition.x newPosition.y newPosition.z

/-- The body of the loop of `Activate` (`value = true`) and of `Deactivate`
(`value = false`): the five tests on the type of one list entry. -/
def setActiveStep (value : Bool) (m : Memory) (componentPtr : Ptr) : Except Fault Memory :=
  if componentPtr = nullptr then .error .nullDereference else
  let payload := (m.components componentPtr).mObject
  match (m.components componentPtr).mType with
  | .Script =>
      if payload = nullptr then .error .nullDereference else
      .ok { m with scripts := store m.scripts payload { m.scripts payload with isActive := value } }
  | .RigidBody =>
      if payload = nullptr then .error .nullDereference else
      .ok (m.setIsActive payload value)
  | .MeshRenderer =>
      if payload = nullptr then .error .nullDereference else
      .ok { m with
            meshRenderers := store m.meshRenderers payload
              { m.meshRenderers payload with isActive := value } }
  | .Light =>
      if payload = nullptr then .error .nullDereference else
      .ok { m with lights := store m.lights payload { m.lights payload with isActive := value } }
  | .Actor =>
      if payload = nullptr then .error .nullDereference else
      .ok { m with actors := store m.actors payload { m.actors payload with active := value } }
  | _ => .ok m

/-- The loop of `Activate`/`Deactivate` over the entries of the component list
that are still to be visited. -/
def setActiveLoop (value : Bool) (o : GameObject) : List Ptr → Memory → Outcome Unit
  | [], m => .returned () { obj := o, mem := m }
  | componentPtr :: rest, m =>
      match setActiveStep value m componentPtr with
      | .ok m1 => setActiveLoop value o rest m1
      | .error f => .aborted f { obj := o, mem := m }

/-- Embeds `GameObject::Activate()`. -/
def GameObject.Activate (s : State) : Outcome Unit :=
  let o : GameObject := { s.obj with renderDistance := -1, isActive := true }
  setActiveLoop true o o.mComponentList s.mem

/-- Embeds `GameObject::Deactivate()`. -/
def GameObject.Deactivate (s : State) : Outcome Unit :=
  let o : GameObject := { s.obj with renderDistance := -1, isActive := false }
  setActiveLoop false o o.mComponentList s.mem

/-- Embeds `GameObject::AddForce(float x, float y, float z)`. -/
def GameObject.AddForce (s : State) (x y z : Scalar) : Outcome Unit :=
  if s.obj.mRigidBodyCache = nullptr then .returned () s else
  let body := s.obj.mRigidBodyCache
  let m1 := s.mem.call (.applyLocalForceAtCenterOfMass body ⟨x, y, z⟩)
  .returned () { s with mem := m1 }

/-- Embeds `GameObject::AddForce(glm::vec3 force)`. -/
def GameObject.AddForceVec (s : State) (force : Vec3) : Outcome Unit :=
  if s.obj.mRigidBodyCache = nullptr then .returned () s else
  let body := s.obj.mRigidBodyCache
  let m1 := s.mem.call (.applyLocalForceAtCenterOfMass body ⟨force.x, force.y, force.z⟩)
  .returned () { s with mem := m1 }

/-- Embeds `GameObject::AddTorque(float x, float y, float z)`. -/
def GameObject.AddTorque (s : State) (x y z : Scalar) : Outcome Unit :=
  if s.obj.mRigidBodyCache = nullptr then .returned () s else
  let body := s.obj.mRigidBodyCache
  let m1 := s.mem.call (.applyLocalTorque body ⟨x, y, z⟩)
  .returned () { s with mem := m1 }

/-- Embeds `GameObject::AddTorque(glm::vec3 force)`. -/
def GameObject.AddTorqueVec (s : State) (force : Vec3) : Outcome Unit :=
  if s.obj.mRigidBodyCache = nullptr then .returned () s else
  let body := s.obj.mRigidBodyCache
  let m1 := s.mem.call (.applyLocalTorque body ⟨force.x, force.y, force.z⟩)
  .returned () { s with mem := m1 }

/-- Embeds `GameObject::SetMass(float mass)`. -/
def GameObject.SetMass (s : State) (mass : Scalar) : Outcome Unit :=
  if s.obj.mRigidBodyCache = nullptr then .returned () s else
  let body := s.obj.mRigidBodyCache
  let m1 := s.mem.call (.setMass body mass)
  .returned () { s with mem := m1 }

/-- Embeds `GameObject::SetLinearDamping(float damping)`. -/
def GameObject.SetLinearDamping (s : State) (damping : Scalar) : Outcome Unit :=
  if s.obj.mRigidBodyCache = nullptr then .returned () s else
  let body := s.obj.mRigidBodyCache
  let m1 := s.mem.call (.setLinearDamping body damping)
  .returned () { s with mem := m1 }

/-- Embeds `GameObject::SetAngularDamping(float damping)`. -/
def GameObject.SetAngularDamping (s : State) (damping : Scalar) : Outcome Unit :=
  if s.obj.mRigidBodyCache = nullptr then .returned () s else
  let body := s.obj.mRigidBodyCache
  let m1 := s.mem.call (.setAngularDamping body damping)
  .returned () { s with mem := m1 }

/-- Embeds `GameObject::EnableGravity()`. -/
def GameObject.EnableGravity (s : State) : Outcome Unit :=
  if s.obj.mRigidBodyCache = nullptr then .returned () s else
  let body := s.obj.mRigidBodyCache
  let m1 := s.mem.call (.enableGravity body true)
  .returned () { s with mem := m1 }

/-- Embeds `GameObject::DisableGravity()`. -/
def GameObject.DisableGravity (s : State) : Outcome Unit :=
  if s.obj.mRigidBodyCache = nullptr then .returned () s else
  let body := s.obj.mRigidBodyCache
  let m1 := s.mem.call (.enableGravity body false)
  .returned () { s with mem := m1 }

/-- Embeds `GameObject::CalculatePhysics()`. -/
def GameObject.CalculatePhysics (s : State) : Outcome Unit :=
  if s.obj.mRigidBodyCache = nullptr then .returned () s else
  let body := s.obj.mRigidBodyCache
  let m1 := s.mem.call (.updateMassFromColliders body)
  let m2 := m1.call (.updateLocalCenterOfMassFromColliders body)
  let m3 := m2.call (.updateLocalInertiaTensorFromColliders body)
  .returned () { s with mem := m3 }

/-- Embeds `GameObject::SetLinearAxisLockFactor(float x, float y, float z)`. -/
def GameObject.SetLinearAxisLockFactor (s : State) (x y z : Scalar) : Outcome Unit :=
  if s.obj.mRigidBodyCache = nullptr then .returned () s else
  let body := s.obj.mRigidBodyCache
  let m1 := s.mem.call (.setLinearLockAxisFactor body ⟨x, y, z⟩)
  .returned () { s with mem := m1 }

/-- Embeds `GameObject::SetAngularAxisLockFactor(float x, float y, float z)`. -/
def GameObject.SetAngularAxisLockFactor (s : State) (x y z : Scalar) : Outcome Unit :=
  if s.obj.mRigidBodyCache = nullptr then .returned () s else
  let body := s.obj.mRigidBodyCache
  let m1 := s.mem.call (.setAngularLockAxisFactor body ⟨x, y, z⟩)
  .returned () { s with mem := m1 }

/-- The cast `(unsigned short)layer` of a layer mask. -/
def maskBits (layer : Nat) : Nat :=
  layer % 2 ^ 16

/-- Embeds `GameObject::AddColliderBox(rp3d::BoxShape* boxShape,
float x, float y, float z, LayerMask layer)`. -/
def GameObject.AddColliderBox (s : State) (boxShape : Ptr) (x y z : Scalar)
    (layer : Nat) : Outcome Unit :=
  if s.obj.mRigidBodyCache = nullptr then .returned () s else
  let body := s.obj.mRigidBodyCache
  let m1 := s.mem.call (.addCollider body boxShape ⟨x, y, z⟩)
  let m2 := m1.call (.setCollideWithMaskBits body boxShape (maskBits layer))
  .returned () { s with mem := m2 }

/-- Embeds `GameObject::AddColliderCapsule(rp3d::CapsuleShape* capsuleShape,
float x, float y, float z, LayerMask layer)`. -/
def GameObject.AddColliderCapsule (s : State) (capsuleShape : Ptr) (x y z : Scalar)
    (layer : Nat) : Outcome Unit :=
  if s.obj.mRigidBodyCache = nullptr then .returned () s else
  let body := s.obj.mRigidBodyCache
  let m1 := s.mem.call (.addCollider body capsuleShape ⟨x, y, z⟩)
  let m2 := m1.call (.setCollideWithMaskBits body capsuleShape (maskBits layer))
  .returned () { s with mem := m2 }

/-- Embeds `GameObject::AddColliderSphere(rp3d::SphereShape* sphereShape,
float x, float y, float z, LayerMask layer)`. -/
def GameObject.AddColliderSphere (s : State) (sphereShape : Ptr) (x y z : Scalar)
    (layer : Nat) : Outcome Unit :=
  if s.obj.mRigidBodyCache = nullptr then .returned () s else
  let body := s.obj.mRigidBodyCache
  let m1 := s.mem.call (.addCollider body sphereShape ⟨x, y, z⟩)
  let m2 := m1.call (.setCollideWithMaskBits body sphereShape (maskBits layer))
  .returned () { s with mem := m2 }

/-- The members of `ColliderTag` read by `AddCollider`. -/
structure ColliderTag where
  isStatic : Bool
  colliderShape : Ptr
deriving DecidableEq, Repr

/-- The member of `MeshCollider` read by `AddCollider`. -/
structure MeshCollider where
  heightFieldShape : Ptr
deriving DecidableEq, Repr

/-- Embeds `GameObject::AddCollider(ColliderTag* colliderTag, float x, float y, float z,
LayerMask layer)`; the argument is `none` for a null pointer, else the object
pointed at. -/
def GameObject.AddCollider (s : State) (colliderTag : Option ColliderTag) (x y z : Scalar)
    (layer : Nat) : Outcome Unit :=
  if s.obj.mRigidBodyCache = nullptr then .returned () s else
  let body := s.obj.mRigidBodyCache
  match colliderTag with
  | none => .aborted .assertFailed s
  | some tag =>
      let m1 : Memory :=
        if tag.isStatic then s.mem.call (.setType body .STATIC)
        else s.mem.call (.setType body .DYNAMIC)
      let m2 := m1.call (.addCollider body tag.colliderShape ⟨x, y, z⟩)
      let m3 := m2.call (.setCollideWithMaskBits body tag.colliderShape (maskBits layer))
      .returned () { s with mem := m3 }

/-- Embeds `GameObject::AddCollider(MeshCollider* meshCollider, float x, float y, float z,
LayerMask layer)`; the argument is `none` for a null pointer, else the object
pointed at. -/
def GameObject.AddColliderMesh (s : State) (meshCollider : Option MeshCollider) (x y z : Scalar)
    (layer : Nat) : Outcome Unit :=
  if s.obj.mRigidBodyCache = nullptr then .returned () s else
  let body := s.obj.mRigidBodyCache
  match meshCollider with
  | none => .aborted .nullDereference s
  | some mc =>
      let m1 := s.mem.call (.addCollider body mc.heightFieldShape ⟨x, y, z⟩)
      let m2 := m1.call (.setCollideWithMaskBits body mc.heightFieldShape (maskBits layer))
      .returned () { s with mem := m2 }

/-- Embeds `GameObject::SetStatic()`. -/
def GameObject.SetStatic (s : State) : Outcome Unit :=
  if s.obj.mRigidBodyCache = nullptr then .returned () s else
  let body := s.obj.mRigidBodyCache
  let m1 := s.mem.call (.setType body .STATIC)
  .returned () { s with mem := m1 }

/-- Embeds `GameObject::SetDynamic()`. -/
def GameObject.SetDynamic (s : State) : Outcome Unit :=
  if s.obj.mRigidBodyCache = nullptr then .returned () s else
  let body := s.obj.mRigidBodyCache
  let m1 := s.mem.call (.setType body .DYNAMIC)
  .returned () { s with mem := m1 }

/-- Embeds `GameObject::SetKinematic()`. -/
def GameObject.SetKinematic (s : State) : Outcome Unit :=
  if s.obj.mRigidBodyCache = nullptr then .returned () s else
  let body := s.obj.mRigidBodyCache
  let m1 := s.mem.call (.setType body .KINEMATIC)
  .returned () { s with mem := m1 }

/-- Embeds `GameObject::SetUserData(void* ptr)`. -/
def GameObject.SetUserData (s : State) (ptr : Ptr) : Outcome Unit :=
  .returned () { s with obj := { s.obj with mUserData := ptr } }

/-- Embeds `GameObject::GetUserData()`. -/
def GameObject.GetUserData (s : State) : Outcome Ptr :=
  .returned s.obj.mUserData s

/-- A call of one of the physics-forwarding members of `GameObject` that start
with the test `mRigidBodyCache == nullptr`, with its arguments. -/
inductive PhysicsOp where
  | AddForce (x y z : Scalar)
  | AddForceVec (force : Vec3)
  | AddTorque (x y z : Scalar)
  | AddTorqueVec (force : Vec3)
  | SetMass (mass : Scalar)
  | SetLinearDamping (damping : Scalar)
  | SetAngularDamping (damping : Scalar)
  | EnableGravity
  | DisableGravity
  | CalculatePhysics
  | SetLinearAxisLockFactor (x y z : Scalar)
  | SetAngularAxisLockFactor (x y z : Scalar)
  | AddColliderBox (boxShape : Ptr) (x y z : Scalar) (layer : Nat)
  | AddColliderCapsule (capsuleShape : Ptr) (x y z : Scalar) (layer : Nat)
  | AddColliderSphere (sphereShape : Ptr) (x y z : Scalar) (layer : Nat)
  | AddCollider (colliderTag : Option ColliderTag) (x y z : Scalar) (layer : Nat)
  | AddColliderMesh (meshCollider : Option MeshCollider) (x y z : Scalar) (layer : Nat)
  | SetStatic
  | SetDynamic
  | SetKinematic

/-- Make the call `op` on the entity of `s`. -/
def GameObject.perform (s : State) : PhysicsOp → Outcome Unit
  | .AddForce x y z => GameObject.AddForce s x y z
  | .AddForceVec force => GameObject.AddForceVec s force
  | .AddTorque x y z => GameObject.AddTorque s x y z
  | .AddTorqueVec force => GameObject.AddTorqueVec s force
  | .SetMass mass => GameObject.SetMass s mass
  | .SetLinearDamping damping => GameObject.SetLinearDamping s damping
  | .SetAngularDamping damping => GameObject.SetAngularDamping s damping
  | .EnableGravity => GameObject.EnableGravity s
  | .DisableGravity => GameObject.DisableGravity s
  | .CalculatePhysics => GameObject.CalculatePhysics s
  | .SetLinearAxisLockFactor x y z => GameObject.SetLinearAxisLockFactor s x y z
  | .SetAngularAxisLockFactor x y z => GameObject.SetAngularAxisLockFactor s x y z
  | .AddColliderBox shape x y z layer => GameObject.AddColliderBox s shape x y z layer
  | .AddColliderCapsule shape x y z layer => GameObject.AddColliderCapsule s shape x y z layer
  | .AddColliderSphere shape x y z layer => GameObject.AddColliderSphere s shape x y z layer
  | .AddCollider tag x y z layer => GameObject.AddCollider s tag x y z layer
  | .AddColliderMesh mc x y z layer => GameObject.AddColliderMesh s mc x y z layer
  | .SetStatic => GameObject.SetStatic s
  | .SetDynamic => GameObject.SetDynamic s
  | .SetKinematic => GameObject.SetKinematic s

/-- The states an entity at address `this` can be in: the one its constructor
leaves, in a memory `m`, and those reached from it by calls of `AddComponent`
and `RemoveComponent` that return, the handles attached having a payload. -/
inductive Reachable (this : Ptr) : State → Prop where
  | init (m : Memory) : Reachable this { obj := GameObject.new, mem := m }
  | add {s s1 : State} (component : Ptr) :
      Reachable this s →
      (s.mem.components component).mObject ≠ nullptr →
      GameObject.AddComponent this s component = .returned () s1 →
      Reachable this s1
  | remove {s s1 : State} (component : Ptr) (found : Bool) :
      Reachable this s →
      GameObject.RemoveComponent s component = .returned found s1 →
      Reachable this s1

/-- The same, without any condition on the payload of the handles attached. -/
inductive ReachableAny (this : Ptr) : State → Prop where
  | init (m : Memory) : ReachableAny this { obj := GameObject.new, mem := m }
  | add {s s1 : State} (component : Ptr) :
      ReachableAny this s →
      GameObject.AddComponent this s component = .returned () s1 →
      ReachableAny this s1
  | remove {s s1 : State} (component : Ptr) (found : Bool) :
      ReachableAny this s →
      GameObject.RemoveComponent s component = .returned found s1 →
      ReachableAny this s1

/-- The handles of kind `k` in a component list. -/
def handlesOfKind (m : Memory) (k : ComponentType) (l : List Ptr) : List Ptr :=
  l.filter (fun c => decide ((m.components c).mType = k))

/-- The list and the caches of an entity agree: no entry of the list is null
and every handle in it has a payload; the cache of a handle's kind holds the
handle's payload; a non-null cache has a handle of its kind in the list; and a
kind that has a cache has at most one handle in the list. -/
structure Consistent (s : State) : Prop where
  nonnull : ∀ c ∈ s.obj.mComponentList, c ≠ nullptr
  payload : ∀ c ∈ s.obj.mComponentList, (s.mem.components c).mObject ≠ nullptr
  cached : ∀ c ∈ s.obj.mComponentList, ∀ p,
    s.obj.cache (s.mem.components c).mType = some p → p = (s.mem.components c).mObject
  attached : ∀ k p, s.obj.cache k = some p → p ≠ nullptr →
    ∃ c ∈ s.obj.mComponentList, (s.mem.components c).mType = k
  single : ∀ k p, s.obj.cache k = some p →
    (handlesOfKind s.mem k s.obj.mComponentList).length ≤ 1

/-- Every entry of the component list is a handle with a payload: neither
pointer is null. -/
def ValidHandles (s : State) : Prop :=
  ∀ c ∈ s.obj.mComponentList, c ≠ nullptr ∧ (s.mem.components c).mObject ≠ nullptr

/-- The active state of the component behind handle `c` is `b`, when `c` is of
one of the five kinds that have one. -/
def ActiveStateIs (m : Memory) (c : Ptr) (b : Bool) : Prop :=
  ((m.components c).mType = .Script → (m.scripts (m.components c).mObject).isActive = b) ∧
  ((m.components c).mType = .RigidBody → (m.rigidBodies (m.components c).mObject).isActive = b) ∧
  ((m.components c).mType = .MeshRenderer →
    (m.meshRenderers (m.components c).mObject).isActive = b) ∧
  ((m.components c).mType = .Light → (m.lights (m.components c).mObject).isActive = b) ∧
  ((m.components c).mType = .Actor → (m.actors (m.components c).mObject).active = b)

/-- A handle table for the examples: handle `n` for `n = 1 .. 11`, payload at
address `10 * n`; two cameras, two scripts, and one of every other kind. -/
def sampleComponents : Ptr → Component
  | 1 => ⟨.Camera, 10⟩
  | 2 => ⟨.Camera, 20⟩
  | 3 => ⟨.Script, 30⟩
  | 4 => ⟨.Script, 40⟩
  | 5 => ⟨.RigidBody, 50⟩
  | 6 => ⟨.Transform, 60⟩
  | 7 => ⟨.MeshRenderer, 70⟩
  | 8 => ⟨.Light, 80⟩
  | 9 => ⟨.Actor, 90⟩
  | 10 => ⟨.Text, 100⟩
  | 11 => ⟨.Panel, 110⟩
  | _ => ⟨.Camera, nullptr⟩

/-- A memory for the examples: the sample handles, every object in its initial
state, no physics call made yet. -/
def sampleMemory : Memory :=
  { components := sampleComponents
    transforms := fun _ => Transform.identity
    rigidBodies := fun _ => ⟨⟨⟨0, 0, 0⟩, ⟨1, 0, 0, 0⟩⟩, true, nullptr⟩
    meshRenderers := fun _ => ⟨true, nullptr, nullptr, Transform.identity⟩
    cameras := fun _ => ⟨Transform.identity, false, ⟨0, 0⟩, 1, 1⟩
    lights := fun _ => ⟨true, ⟨0, 0, 0⟩, ⟨0, 0, 0⟩⟩
    actors := fun _ => ⟨true, ⟨0, 0, 0⟩, ⟨0, 0, 0⟩⟩
    scripts := fun _ => ⟨false, false, nullptr⟩
    texts := fun _ =>
      ⟨[], ⟨0, 0, 0, 1⟩, 0, 0, 0, 0, 0, ⟨0, 0, false, false, false, false⟩, ⟨0, 0, 0, 0, 0, 0⟩⟩
    panels := fun _ => ⟨[]⟩
    physicsCalls := [] }

/-- A newly constructed entity in the sample memory. -/
def sampleNew : State :=
  { obj := GameObject.new, mem := sampleMemory }

/-- Attach the handles of `cs`, in order, to the entity at address `this`;
the state reached by the last call that was made. -/
def attachAll (this : Ptr) : List Ptr → State → State
  | [], s => s
  | c :: cs, s =>
      match GameObject.AddComponent this s c with
      | .returned _ s1 => attachAll this cs s1
      | .aborted _ s1 => s1

/-- A camera (handle 1), a script (handle 3) and a rigid body (handle 5)
attached to a new entity at address 1000. -/
def sampleAttached : State :=
  attachAll 1000 [1, 3, 5] sampleNew

/-- The camera of handle 1 attached to a new entity at address 1000. -/
def sampleCamera : State :=
  attachAll 1000 [1] sampleNew

/-- The script of handle 3 attached twice to a new entity at address 1000. -/
def sampleScriptTwice : State :=
  attachAll 1000 [3, 3] sampleNew

/-- The scripts of handles 3 and 4 attached to a new entity at address 1000. -/
def sampleTwoScripts : State :=
  attachAll 1000 [3, 4] sampleNew

/-- The entity of `sampleScriptTwice` after one `RemoveComponent` of handle 3. -/
def sampleScriptLeft : State :=
  (GameObject.RemoveComponent sampleScriptTwice 3).state

/-- The entity of `sampleCamera` after `RemoveComponent` of handle 1. -/
def sampleCameraRemoved : State :=
  (GameObject.RemoveComponent sampleCamera 1).state

/-- The transform of handle 6 attached to a new entity: no rigid body. -/
def sampleTransformOnly : State :=
  attachAll 1000 [6] sampleNew

/-- A transform, a rigid body, a mesh renderer, a camera, a light, an actor
and a script attached to a new entity at address 1000. -/
def sampleFull : State :=
  attachAll 1000 [6, 5, 7, 1, 8, 9, 3] sampleNew

/-- Handles 12 and 13, two camera handles whose payload is null, attached to a
new entity at address 1000. -/
def sampleNullCameras : State :=
  attachAll 1000 [12, 13] sampleNew

/-! ### Vector and matrix arithmetic of `glm` -/

/-- Stands for `glm::vec3` addition (`+=`). -/
def Vec3.add (a b : Vec3) : Vec3 :=
  ⟨a.x + b.x, a.y + b.y, a.z + b.z⟩

/-- Stands for `glm::vec3` component-wise multiplication (`*=`). -/
def Vec3.mul (a b : Vec3) : Vec3 :=
  ⟨a.x * b.x, a.y * b.y, a.z * b.z⟩

/-- Stands for `glm::quat` multiplication: `p *= q` stores `p * q`, the
Hamilton product. -/
def Quat.mul (p q : Quat) : Quat :=
  { w := p.w * q.w - p.x * q.x - p.y * q.y - p.z * q.z
    x := p.w * q.x + p.x * q.w + p.y * q.z - p.z * q.y
    y := p.w * q.y + p.y * q.w + p.z * q.x - p.x * q.z
    z := p.w * q.z + p.z * q.w + p.x * q.y - p.y * q.x }

/-- Stands for `glm::vec4` addition. -/
def Vec4.add (a b : Vec4) : Vec4 :=
  ⟨a.x + b.x, a.y + b.y, a.z + b.z, a.w + b.w⟩

/-- Stands for `glm::vec4` multiplication by a scalar. -/
def Vec4.smul (a : Vec4) (k : Scalar) : Vec4 :=
  ⟨a.x * k, a.y * k, a.z * k, a.w * k⟩

/-- Stands for `glm::mat4(1)`. -/
def Mat4.one : Mat4 :=
  ⟨⟨1, 0, 0, 0⟩, ⟨0, 1, 0, 0⟩, ⟨0, 0, 1, 0⟩, ⟨0, 0, 0, 1⟩⟩

/-- Stands for the product of a `glm::mat4` with a `glm::vec4`. -/
def Mat4.mulVec (m : Mat4) (v : Vec4) : Vec4 :=
  (((m.c0.smul v.x).add (m.c1.smul v.y)).add (m.c2.smul v.z)).add (m.c3.smul v.w)

/-- Stands for the product of two `glm::mat4`, column by column. -/
def Mat4.mul (a b : Mat4) : Mat4 :=
  ⟨a.mulVec b.c0, a.mulVec b.c1, a.mulVec b.c2, a.mulVec b.c3⟩

/-- Stands for `glm::translate(m, v)`. -/
def Mat4.translate (m : Mat4) (v : Vec3) : Mat4 :=
  { m with c3 := (((m.c0.smul v.x).add (m.c1.smul v.y)).add (m.c2.smul v.z)).add m.c3 }

/-- Stands for `glm::scale(m, v)`. -/
def Mat4.scale (m : Mat4) (v : Vec3) : Mat4 :=
  ⟨m.c0.smul v.x, m.c1.smul v.y, m.c2.smul v.z, m.c3⟩

/-- Stands for `glm::toMat4(q)`. -/
def Quat.toMat4 (q : Quat) : Mat4 :=
  { c0 := ⟨1 - 2 * (q.y * q.y + q.z * q.z), 2 * (q.x * q.y + q.w * q.z),
            2 * (q.x * q.z - q.w * q.y), 0⟩
    c1 := ⟨2 * (q.x * q.y - q.w * q.z), 1 - 2 * (q.x * q.x + q.z * q.z),
            2 * (q.y * q.z + q.w * q.x), 0⟩
    c2 := ⟨2 * (q.x * q.z + q.w * q.y), 2 * (q.y * q.z - q.w * q.x),
            1 - 2 * (q.x * q.x + q.y * q.y), 0⟩
    c3 := ⟨0, 0, 0, 1⟩ }

/-- The library functions called by `Update` whose value is not computed here:
`rp3d::Transform::getOpenGLMatrix` and `Transform::EulerAngles`. -/
structure Externals where
  getOpenGLMatrix : BodyTransform → Mat4
  eulerAngles : Quat → Vec3

/-! ### The engine -/

/-- Modelled from the spec: the pool allocator (`PoolAllocator`, not among the
sources), a fixed-capacity arena with slot reuse.  Its slots are the addresses
`1 .. capacity`; `live` lists the objects created and not destroyed, in index
order. -/
structure Pool where
  live : List Ptr
  capacity : Nat
deriving DecidableEq, Repr

/-- Modelled from the spec: `Size()`, the number of live objects. -/
def Pool.Size (p : Pool) : Nat :=
  p.live.length

/-- Modelled from the spec: indexed access, the object at index `i`. -/
def Pool.index (p : Pool) (i : Nat) : Option Ptr :=
  p.live[i]?

/-- The first slot of an arena that is not live. -/
def Pool.freeSlot (p : Pool) : Option Ptr :=
  ((List.range p.capacity).map (fun i => i + 1)).find? (fun a => decide (a ∉ p.live))

/-- Modelled from the spec: `Create()`, which takes a free slot, and has none to
give when the arena is exhausted. -/
def Pool.Create (p : Pool) : Option (Ptr × Pool) :=
  match p.freeSlot with
  | none => none
  | some a => some (a, { p with live := p.live ++ [a] })

/-- Modelled from the spec: `Destroy(ptr)`, which releases the slot of a live
object; destroying an object that is not live is a programming error, here
`none`. -/
def Pool.Destroy (p : Pool) (a : Ptr) : Option Pool :=
  if a ∈ p.live then some { p with live := p.live.erase a } else none

/-- One entry of the stream buffer: an entity and its cached component
pointers. -/
structure StreamSlot where
  gameObject : Ptr
  text : Ptr
  light : Ptr
  actor : Ptr
  camera : Ptr
  rigidBody : Ptr
  meshRenderer : Ptr
deriving DecidableEq, Repr

/-- The arguments of one `Mesh::AddPlain` call. -/
structure Plain where
  x : Scalar
  y : Scalar
  z : Scalar
  width : Scalar
  height : Scalar
  color : Color
  spriteWidth : Scalar
  spriteHeight : Scalar
  spriteStartX : Scalar
  spriteStartY : Scalar
  subWidth : Int
  subHeight : Int
deriving DecidableEq, Repr

/-- A mesh, as the engine sees it: the sub-meshes added since the last
`ClearSubMeshes`, and the number of `UploadToGPU` calls made on it. -/
structure Mesh where
  subMeshes : List Plain
  uploads : Nat
deriving DecidableEq, Repr

/-- Stands for the renderer's `viewport`. -/
structure Viewport where
  x : Int
  y : Int
  w : Int
  h : Int
deriving DecidableEq, Repr

/-- A pair of integer screen coordinates (`displaySize`, `displayCenter`, the
cursor position). -/
structure Point where
  x : Int
  y : Int
deriving DecidableEq, Repr

/-- The state of `EngineSystemManager` and of the subsystems it drives: the
entities and the objects they point at, the pools, the stream buffer and its
dirty flag, the main scene, the renderer's screen metrics and the cursor. -/
structure Engine where
  objects : Ptr → GameObject
  mem : Memory
  meshes : Ptr → Mesh
  mGameObjects : Pool
  mGameObjectActive : List Ptr
  mComponents : Pool
  payloadPools : ComponentType → Pool
  doUpdateDataStream : Bool
  streamSize : Nat
  streamBuffer : Nat → StreamSlot
  sceneMain : Ptr
  sceneCamera : Ptr → Ptr
  playerWorldPosition : Vec3
  viewport : Viewport
  displaySize : Point
  displayCenter : Point
  cursorPos : Point

/-- The result of running engine code with a bound on the number of steps of
its unbounded loop: it finished with a value, it was aborted (the state reached
is kept), or the bound was used up before the loop ended. -/
inductive Run (α : Type) where
  | finished (value : α) (after : Engine)
  | aborted (fault : Fault) (reached : Engine)
  | outOfFuel

/-- The state a run ended in, when it ended. -/
def Run.state? {α : Type} : Run α → Option Engine
  | .finished _ e => some e
  | .aborted _ e => some e
  | .outOfFuel => none

/-- Embeds `EngineSystemManager::CreateGameObject()`; the new entity is in the
state its constructor leaves. -/
def Engine.CreateGameObject (e : Engine) : Run Ptr :=
  match e.mGameObjects.Create with
  | none => .aborted .capacityExhausted e
  | some (newGameObject, pool) =>
      .finished newGameObject
        { e with
          mGameObjects := pool
          objects := store e.objects newGameObject GameObject.new
          mGameObjectActive := e.mGameObjectActive ++ [newGameObject]
          doUpdateDataStream := true }

/-- The kinds `CreateComponent` and `DestroyComponent` have a case for. -/
def ComponentType.hasPool : ComponentType → Bool
  | .MeshRenderer => true
  | .Camera => true
  | .Light => true
  | .Script => true
  | .RigidBody => true
  | .Actor => true
  | .Text => true
  | _ => false

/-- Embeds `EngineSystemManager::CreateComponent(ComponentType type)`: the
payload comes from the pool of its subsystem, the handle from `mComponents`;
a null result is `nullptr`. -/
def Engine.CreateComponent (e : Engine) (type : ComponentType) : Run Ptr :=
  if type.hasPool then
    match (e.payloadPools type).Create with
    | none => .aborted .capacityExhausted e
    | some (component_object, pool) =>
        let e1 : Engine :=
          { e with payloadPools := fun k => if k = type then pool else e.payloadPools k }
        match e1.mComponents.Create with
        | none => .aborted .capacityExhausted e1
        | some (newComponent, handles) =>
            .finished newComponent
              { e1 with
                mComponents := handles
                mem := { e1.mem with
                         components := store e1.mem.components newComponent
                           ⟨type, component_object⟩ }
                doUpdateDataStream := true }
  else .finished nullptr e

/-- Embeds `EngineSystemManager::DestroyComponent(Component* componentPtr)`. -/
def Engine.DestroyComponent (e : Engine) (componentPtr : Ptr) : Run Bool :=
  if componentPtr = nullptr then .aborted .assertFailed e else
  let componentType := (e.mem.components componentPtr).mType
  if componentType.hasPool then
    match (e.payloadPools componentType).Destroy (e.mem.components componentPtr).mObject with
    | none => .aborted .assertFailed e
    | some pool =>
        let e1 : Engine :=
          { e with payloadPools := fun k => if k = componentType then pool else e.payloadPools k }
        match e1.mComponents.Destroy componentPtr with
        | none => .aborted .assertFailed e1
        | some handles =>
            .finished true { e1 with mComponents := handles, doUpdateDataStream := true }
  else .finished false e

/-- The loop of `DestroyGameObject` over the component list of the entity:
the handles still to be destroyed. -/
def Engine.destroyComponents : List Ptr → Engine → Run Unit
  | [], e => .finished () e
  | componentPtr :: rest, e =>
      match e.DestroyComponent componentPtr with
      | .finished _ e1 => Engine.destroyComponents rest e1
      | .aborted f r => .aborted f r
      | .outOfFuel => .outOfFuel

/-- The first loop of `DestroyGameObject`: the active list without its first
entry equal to `gameObjectPtr`, if it has one. -/
def eraseActive (gameObjectPtr : Ptr) : List Ptr → List Ptr
  | [] => []
  | thisGameObjectPtr :: rest =>
      if gameObjectPtr = thisGameObjectPtr then rest
      else thisGameObjectPtr :: eraseActive gameObjectPtr rest

/-- Embeds `EngineSystemManager::DestroyGameObject(GameObject* gameObjectPtr)`. -/
def Engine.DestroyGameObject (e : Engine) (gameObjectPtr : Ptr) : Run Bool :=
  if gameObjectPtr = nullptr then .aborted .assertFailed e else
  let e1 : Engine :=
    { e with mGameObjectActive := eraseActive gameObjectPtr e.mGameObjectActive }
  match Engine.destroyComponents (e1.objects gameObjectPtr).mComponentList e1 with
  | .aborted f r => .aborted f r
  | .outOfFuel => .outOfFuel
  | .finished _ e2 =>
      match e2.mGameObjects.Destroy gameObjectPtr with
      | none => .aborted .assertFailed e2
      | some pool => .finished true { e2 with mGameObjects := pool, doUpdateDataStream := true }

/-- Embeds `EngineSystemManager::GetGameObjectCount()`. -/
def Engine.GetGameObjectCount (e : Engine) : Nat :=
  e.mGameObjects.Size

/-- Embeds `EngineSystemManager::GetComponentCount()`. -/
def Engine.GetComponentCount (e : Engine) : Nat :=
  e.mComponents.Size

/-- Embeds `EngineSystemManager::GetGameObject(unsigned int index)`. -/
def Engine.GetGameObject (e : Engine) (index : Nat) : Ptr :=
  if h : index < e.mGameObjectActive.length then e.mGameObjectActive[index] else nullptr

/-- A member call `g->f(...)` of `GameObject` made from engine code: `f` runs
on the entity at address `g` and the shared memory, and what it leaves is
written back. -/
def Engine.onObject {α : Type} (e : Engine) (g : Ptr) (f : State → Outcome α) : Run α :=
  match f { obj := e.objects g, mem := e.mem } with
  | .returned v s => .finished v { e with objects := store e.objects g s.obj, mem := s.mem }
  | .aborted fault s =>
      .aborted fault { e with objects := store e.objects g s.obj, mem := s.mem }

/-! ### `EngineSystemManager::Update` -/

/-- The stream-buffer entry written for entity `g` by the rebuild loop. -/
def Engine.slotOf (e : Engine) (g : Ptr) : StreamSlot :=
  { gameObject := g
    text := (e.objects g).mTextCache
    light := (e.objects g).mLightCache
    actor := (e.objects g).mActorCache
    camera := (e.objects g).mCameraCache
    rigidBody := (e.objects g).mRigidBodyCache
    meshRenderer := (e.objects g).mMeshRendererCache }

/-- The stream buffer after the first `n` iterations of the rebuild loop. -/
def Engine.fillStream (e : Engine) : Nat → Nat → StreamSlot
  | 0 => e.streamBuffer
  | n + 1 =>
      match e.mGameObjects.index n with
      | some g => store (Engine.fillStream e n) n (e.slotOf g)
      | none => Engine.fillStream e n

/-- The dirty check of `Update`: `if (doUpdateDataStream) { ... }`. -/
def Engine.rebuildStream (e : Engine) : Engine :=
  if e.doUpdateDataStream then
    { e with
      doUpdateDataStream := false
      streamSize := e.mGameObjects.Size
      streamBuffer := e.fillStream e.mGameObjects.Size }
  else e

/-- The head of `Update`: the position of the main scene's camera is handed to
the AI system. -/
def Engine.updatePlayerPosition (e : Engine) : Engine :=
  if e.sceneMain ≠ nullptr then
    let activeCamera := e.sceneCamera e.sceneMain
    if activeCamera ≠ nullptr then
      { e with playerWorldPosition := (e.mem.cameras activeCamera).transform.position }
    else e
  else e

/-- The loop `while (parent != nullptr)` of `Update`, run for at most `fuel`
iterations: `none` when the chain has not reached `nullptr` by then.  The sums
and products are exact here; `walkParentsRounded` is the same loop with the
result of every operation rounded as the machine does. -/
def walkParents (objects : Ptr → GameObject) : Nat → Ptr → Transform → Option Transform
  | 0, parent, currentTransform =>
      if parent = nullptr then some currentTransform else none
  | fuel + 1, parent, currentTransform =>
      if parent = nullptr then some currentTransform else
      walkParents objects fuel (objects parent).parent
        { currentTransform with
          position := currentTransform.position.add (objects parent).transform.position
          scale := currentTransform.scale.mul (objects parent).transform.scale
          orientation := currentTransform.orientation.mul (objects parent).transform.orientation }

/-- The matrix `translation * rotation * scale` of a transform. -/
def Transform.composed (t : Transform) : Mat4 :=
  ((Mat4.one.translate t.position).mul t.orientation.toMat4).mul (Mat4.one.scale t.scale)

/-- The rigid-body block of `Update`; gives the state and the current
transform after it. -/
def Engine.rigidBodyStep (x : Externals) (e : Engine) (b : StreamSlot)
    (currentTransform : Transform) : Engine × Transform :=
  if b.rigidBody ≠ nullptr then
    let got := e.mem.getTransform b.rigidBody
    let bodyTransform := got.1
    let t1 : Transform :=
      { currentTransform with
        position := bodyTransform.position
        orientation := bodyTransform.orientation
        matrix := x.getOpenGLMatrix bodyTransform }
    let g := e.objects b.gameObject
    let g1 : GameObject :=
      { g with
        transform := { g.transform with position := t1.position, orientation := t1.orientation } }
    let t2 : Transform := { t1 with matrix := t1.matrix.scale g1.transform.scale }
    ({ e with mem := got.2, objects := store e.objects b.gameObject g1 }, t2)
  else (e, currentTransform)

/-- The mesh-renderer block of `Update`. -/
def Engine.meshRendererStep (e : Engine) (b : StreamSlot) (currentTransform : Transform) :
    Engine :=
  if b.meshRenderer ≠ nullptr then
    let r := e.mem.meshRenderers b.meshRenderer
    let r1 : MeshRenderer :=
      { r with transform := { r.transform with matrix := currentTransform.matrix } }
    let r2 : MeshRenderer :=
      if b.rigidBody = nullptr then
        { r1 with
          transform := { r1.transform with
                         position := currentTransform.position
                         orientation := currentTransform.orientation
                         scale := currentTransform.scale } }
      else r1
    { e with mem := { e.mem with meshRenderers := store e.mem.meshRenderers b.meshRenderer r2 } }
  else e

/-- The actor block of `Update`. -/
def Engine.actorStep (e : Engine) (b : StreamSlot) (currentTransform : Transform) : Engine :=
  if b.actor ≠ nullptr then
    if (e.mem.actors b.actor).active then
      if b.rigidBody ≠ nullptr then
        let actorVelocity := (e.mem.actors b.actor).velocity
        let m1 : Memory :=
          { e.mem with
            actors := store e.mem.actors b.actor
              { e.mem.actors b.actor with position := currentTransform.position } }
        { e with
          mem := m1.call (.applyLocalForceAtCenterOfMass b.rigidBody
                  ⟨actorVelocity.x, actorVelocity.y, actorVelocity.z⟩) }
      else e
    else e
  else e

/-- The value of a `char` of the text when it is passed as the `int index`
of `AddMeshSubSprite`; `char` is signed on the target. -/
def charIndex (byte : Nat) : Int :=
  if byte < 128 then byte else (byte : Int) - 256

/-- The loop of `AddMeshSubSprite` that walks the glyph map: the cell
`(subWidth, subHeight)` after `n` more iterations, or `none` when the function
returns from inside the loop. -/
def spriteCell (mapWidth mapHeight : Int) : Nat → Int → Int → Option (Int × Int)
  | 0, subWidth, subHeight => some (subWidth, subHeight)
  | n + 1, subWidth, subHeight =>
      if subWidth + 1 > mapWidth then
        if subHeight + 1 > mapHeight then none
        else spriteCell mapWidth mapHeight n 0 (subHeight + 1)
      else spriteCell mapWidth mapHeight n (subWidth + 1) subHeight

/-- Modelled from the spec: `GameObject::GetComponent<T>()`, declared in a
header that is not among the sources, gives the cached pointer of the kind. -/
def GameObject.GetComponent (o : GameObject) (k : ComponentType) : Ptr :=
  (o.cache k).getD nullptr

/-- Embeds `EngineSystemManager::AddMeshSubSprite(overlayObject, xPos, yPos,
scaleWidth, scaleHeight, index, meshColor)`. -/
def Engine.AddMeshSubSprite (e : Engine) (overlayObject : Ptr) (xPos yPos : Scalar)
    (scaleWidth scaleHeight : Scalar) (index : Int) (meshColor : Color) : Run Unit :=
  let renderer := (e.objects overlayObject).GetComponent .MeshRenderer
  if renderer = nullptr then .aborted .nullDereference e else
  let meshPtr := (e.mem.meshRenderers renderer).mesh
  if meshPtr = nullptr then .finished () e else
  let textPtr := (e.objects overlayObject).GetComponent .Text
  if textPtr = nullptr then .finished () e else
  let txt := e.mem.texts textPtr
  match spriteCell txt.sprite.width txt.sprite.height index.toNat 0 0 with
  | none => .finished () e
  | some (subWidth, subHeight) =>
      let plain : Plain :=
        { x := yPos * txt.height
          y := 0
          z := -(xPos * txt.width)
          width := scaleWidth
          height := scaleHeight
          color := meshColor
          spriteWidth := txt.sprite.subSpriteWidth
          spriteHeight := txt.sprite.subSpriteHeight
          spriteStartX := txt.sprite.subSpriteX
          spriteStartY := txt.sprite.subSpriteY
          subWidth := subWidth
          subHeight := subHeight }
      .finished ()
        { e with
          meshes := store e.meshes meshPtr
            { e.meshes meshPtr with subMeshes := (e.meshes meshPtr).subMeshes ++ [plain] } }

/-- The loop of `AddMeshText` over the characters still to be added; `i` is the
index of the first of them. -/
def Engine.addMeshTextLoop (overlayObject : Ptr) (xPos yPos scaleWidth scaleHeight : Scalar)
    (textColor : Color) : List Nat → Nat → Engine → Run Unit
  | [], _, e => .finished () e
  | c :: rest, i, e =>
      match e.AddMeshSubSprite overlayObject (xPos + i) yPos scaleWidth scaleHeight
          (charIndex c) textColor with
      | .finished _ e1 =>
          Engine.addMeshTextLoop overlayObject xPos yPos scaleWidth scaleHeight textColor
            rest (i + 1) e1
      | .aborted f r => .aborted f r
      | .outOfFuel => .outOfFuel

/-- Embeds `EngineSystemManager::AddMeshText(overlayObject, xPos, yPos,
scaleWidth, scaleHeight, text, textColor)`. -/
def Engine.AddMeshText (e : Engine) (overlayObject : Ptr) (xPos yPos : Scalar)
    (scaleWidth scaleHeight : Scalar) (text : List Nat) (textColor : Color) : Run Unit :=
  let renderer := (e.objects overlayObject).GetComponent .MeshRenderer
  if renderer = nullptr then .aborted .nullDereference e else
  let meshPtr := (e.mem.meshRenderers renderer).mesh
  if meshPtr = nullptr then .finished () e else
  match Engine.addMeshTextLoop overlayObject xPos yPos scaleWidth scaleHeight textColor
      text 0 e with
  | .finished _ e1 =>
      .finished ()
        { e1 with
          meshes := store e1.meshes meshPtr
            { e1.meshes meshPtr with uploads := (e1.meshes meshPtr).uploads + 1 } }
  | .aborted f r => .aborted f r
  | .outOfFuel => .outOfFuel

/-! ### The `float` and `int` arithmetic of the target -/

/-- Rounding to the nearest integer, a tie going to the even one. -/
def roundHalfEven (m : Rat) : Int :=
  if m - ⌊m⌋ < 1 / 2 then ⌊m⌋
  else if 1 / 2 < m - ⌊m⌋ then ⌊m⌋ + 1
  else if ⌊m⌋ % 2 = 0 then ⌊m⌋ else ⌊m⌋ + 1

/-- The exponent of the unit in the last place of the `float` format at the
value `q`: 23 below the exponent of `q`, and `-149` for the subnormal values. -/
def floatUlpExponent (q : Rat) : Int :=
  max (Int.log 2 |q| - 23) (-149)

/-- Stands for the rounding of the exact result of an operation to the `float`
format (IEEE 754 binary32: 24 significant bits, round to nearest, ties to
even).  Results beyond the largest `float`, which the machine rounds to an
infinity, are outside the model, and so is NaN. -/
def roundFloat (q : Rat) : Rat :=
  (roundHalfEven (q / 2 ^ floatUlpExponent q) : Rat) * 2 ^ floatUlpExponent q

/-- The value an `int` holds after an operation with the mathematical result
`n`: `n` modulo `2 ^ 32`, read in two's complement.  Within the range of `int`
this is `n`; beyond it the operation is undefined in C++ and this is what the
target computes. -/
def wrapInt (n : Int) : Int :=
  (n + 2 ^ 31) % 2 ^ 32 - 2 ^ 31

/-- The conversion of an integer to `float`. -/
def floatOfInt (n : Int) : Rat :=
  roundFloat (n : Rat)

/-- The value of `text.size() * size` in the text block: the product is formed
in `size_t`, to which `size` is converted modulo `2 ^ 64`. -/
def textExtent (txt : Text) : Nat :=
  (txt.text.length * (txt.size % (2 ^ 64 : Int)).toNat) % 2 ^ 64

/-- The horizontal offset `transform.position.z` computed by the text block:
the `int` expressions are evaluated in `int`, the `size_t` product in `size_t`,
each value stored in the `float` is converted to `float`, and the compound
assignments `-=` and `+=` are `float` operations. -/
def textOffsetZ (viewport : Viewport) (txt : Text) : Scalar :=
  if txt.canvas.anchorRight then
    roundFloat
      (floatOfInt (wrapInt (viewport.w + wrapInt (txt.size * txt.canvas.x)))
        - floatOfInt (textExtent txt : Int))
  else
    let z : Scalar :=
      roundFloat (floatOfInt (wrapInt (txt.canvas.x * txt.size)) + floatOfInt txt.size)
    if txt.canvas.anchorCenterHorz then
      floatOfInt (wrapInt (viewport.w.tdiv 2 + wrapInt (txt.canvas.x * txt.size)))
    else z

/-- The vertical offset `transform.position.y` computed by the text block, with
the `int` and `float` arithmetic as in `textOffsetZ`. -/
def textOffsetY (viewport : Viewport) (displaySize : Point) (txt : Text) : Scalar :=
  if txt.canvas.anchorTop then
    let t0 : Int := wrapInt (displaySize.y - viewport.h)
    let t1 : Int := wrapInt (t0 + (wrapInt (txt.size * txt.size)).tdiv 2)
    let topAnchorTotal : Int := wrapInt (t1 + wrapInt (txt.size * txt.canvas.y))
    floatOfInt topAnchorTotal
  else
    let y : Scalar :=
      roundFloat
        (floatOfInt (wrapInt (displaySize.y - txt.size))
          - floatOfInt (wrapInt (txt.size * wrapInt (-txt.canvas.y))))
    if txt.canvas.anchorCenterVert then
      let t0 : Int := wrapInt (displaySize.y - viewport.h.tdiv 2)
      let t1 : Int := wrapInt (t0 + (wrapInt (txt.size * txt.size)).tdiv 2)
      let topAnchorTotal : Int :=
        wrapInt (t1 + wrapInt (wrapInt (txt.size * txt.canvas.y) - wrapInt (txt.size * 2)))
      floatOfInt topAnchorTotal
    else y

/-- The text block of `Update`. -/
def Engine.textStep (e : Engine) (b : StreamSlot) : Run Unit :=
  if b.text ≠ nullptr then
    if b.meshRenderer ≠ nullptr then
      let txt := e.mem.texts b.text
      let g := e.objects b.gameObject
      let g1 : GameObject :=
        { g with
          transform := { g.transform with
                         position := { g.transform.position with
                                       z := textOffsetZ e.viewport txt
                                       y := textOffsetY e.viewport e.displaySize txt } } }
      let e1 : Engine := { e with objects := store e.objects b.gameObject g1 }
      let textGlyphWidth := txt.glyphWidth
      let textGlyphHeight := txt.glyphHeight
      let meshPtr := (e1.mem.meshRenderers b.meshRenderer).mesh
      if meshPtr = nullptr then .aborted .nullDereference e1 else
      let e2 : Engine :=
        { e1 with meshes := store e1.meshes meshPtr { e1.meshes meshPtr with subMeshes := [] } }
      e2.AddMeshText b.gameObject 0 0 textGlyphWidth textGlyphHeight txt.text txt.color
    else .finished () e
  else .finished () e

/-- The constant of the yaw limit. -/
def yawLimit : Scalar := 109655 / 1000000

/-- The constant `0.0274f` of the pitch limit: the `float` nearest to `0.0274`,
which is `14710263 / 2 ^ 29`, a little above `0.0274`. -/
def pitchLimit : Scalar := 14710263 / 536870912

/-- The two comparisons of the pitch limit, on whatever value `y` the pitch has
after the pointer increment. -/
def clampPitch (y : Scalar) : Scalar :=
  let y1 : Scalar := if y > pitchLimit then pitchLimit else y
  if y1 < -pitchLimit then -pitchLimit else y1

/-- What a `float` variable holds: a number or NaN (the infinities are left
out). -/
inductive FloatValue where
  | number (q : Scalar)
  | nan
deriving DecidableEq

/-- The comparison `value > limit` of a `float` with a constant; a comparison
with NaN is false. -/
def FloatValue.above (v : FloatValue) (limit : Scalar) : Bool :=
  match v with
  | .number q => decide (q > limit)
  | .nan => false

/-- The comparison `value < limit` of a `float` with a constant; a comparison
with NaN is false. -/
def FloatValue.below (v : FloatValue) (limit : Scalar) : Bool :=
  match v with
  | .number q => decide (q < limit)
  | .nan => false

/-- The two statements of the pitch limit,
`if (y > 0.0274f) y = 0.0274f; if (y < -0.0274f) y = -0.0274f;`, on a pitch
that may be NaN. -/
def clampPitchValue (y : FloatValue) : FloatValue :=
  let y1 : FloatValue := if y.above pitchLimit then .number pitchLimit else y
  if y1.below (-pitchLimit) then .number (-pitchLimit) else y1

/-- The mouse-look block of the camera step: the look angles after the pointer
delta `(dx, dy)` has been applied, the yaw wrapped and the pitch limited. -/
def mouseLook (c : Camera) (dx dy : Int) : LookAngle :=
  let MouseDiffX : Scalar := (dx : Scalar) * c.MouseSensitivityYaw
  let MouseDiffY : Scalar := (dy : Scalar) * c.MouseSensitivityPitch
  let x0 : Scalar := c.lookAngle.x + MouseDiffX * (1 / 100)
  let y0 : Scalar := c.lookAngle.y - MouseDiffY * (1 / 100)
  let x1 : Scalar := if x0 ≥ yawLimit then x0 - yawLimit else x0
  let x2 : Scalar := if x1 ≤ yawLimit then x1 + yawLimit else x1
  let y1 : Scalar := if y0 > pitchLimit then pitchLimit else y0
  let y2 : Scalar := if y1 < -pitchLimit then -pitchLimit else y1
  ⟨x2, y2⟩

/-- The camera block of `Update`. -/
def Engine.cameraStep (e : Engine) (b : StreamSlot) (currentTransform : Transform) : Engine :=
  if b.camera ≠ nullptr then
    let c := e.mem.cameras b.camera
    let c1 : Camera :=
      if c.useMouseLook then
        { c with lookAngle := mouseLook c (e.cursorPos.x - e.displayCenter.x)
                                (e.cursorPos.y - e.displayCenter.y) }
      else c
    let cursor : Point := if c.useMouseLook then e.displayCenter else e.cursorPos
    let c2 : Camera :=
      { c1 with
        transform := { c1.transform with
                       orientation := { c1.transform.orientation with
                                        x := c1.lookAngle.x
                                        y := c1.lookAngle.y }
                       position := currentTransform.position } }
    { e with
      cursorPos := cursor
      mem := { e.mem with cameras := store e.mem.cameras b.camera c2 } }
  else e

/-- The light block of `Update`. -/
def Engine.lightStep (x : Externals) (e : Engine) (b : StreamSlot)
    (currentTransform : Transform) : Engine :=
  if b.light ≠ nullptr then
    { e with
      mem := { e.mem with
               lights := store e.mem.lights b.light
                 { e.mem.lights b.light with
                   position := currentTransform.position
                   direction := x.eulerAngles currentTransform.orientation } } }
  else e

/-- The body of the entity loop of `Update` for one stream-buffer entry. -/
def Engine.updateEntity (x : Externals) (fuel : Nat) (e : Engine) (b : StreamSlot) :
    Run Unit :=
  if b.gameObject = nullptr then .aborted .nullDereference e else
  if (e.objects b.gameObject).isActive = false then .finished () e else
  let g := e.objects b.gameObject
  let t0 : Transform :=
    { Transform.identity with
      position := g.transform.position
      orientation := g.transform.orientation
      scale := g.transform.scale }
  match walkParents e.objects fuel g.parent t0 with
  | none => .outOfFuel
  | some t1 =>
      let t2 : Transform := { t1 with matrix := t1.composed }
      let afterBody := e.rigidBodyStep x b t2
      let e4 := (afterBody.1.meshRendererStep b afterBody.2).actorStep b afterBody.2
      match e4.textStep b with
      | .aborted f r => .aborted f r
      | .outOfFuel => .outOfFuel
      | .finished _ e5 =>
          .finished () ((e5.cameraStep b afterBody.2).lightStep x b afterBody.2)

/-- The entity loop of `Update` over the indices still to be visited. -/
def Engine.updateLoop (x : Externals) (fuel : Nat) : List Nat → Engine → Run Unit
  | [], e => .finished () e
  | i :: rest, e =>
      match e.updateEntity x fuel (e.streamBuffer i) with
      | .finished _ e1 => Engine.updateLoop x fuel rest e1
      | .aborted f r => .aborted f r
      | .outOfFuel => .outOfFuel

/-- Embeds `EngineSystemManager::Update()`; `fuel` bounds the number of
iterations of each walk up a parent chain. -/
def Engine.Update (x : Externals) (fuel : Nat) (e : Engine) : Run Unit :=
  let e1 := e.updatePlayerPosition.rebuildStream
  Engine.updateLoop x fuel (List.range e1.mGameObjects.Size) e1

/-! ### `RenderSystem::RenderFrame` -/

/-- The members of `Material` read by `RenderFrame`. -/
structure Material where
  doDepthTest : Bool
  doBlending : Bool
  doFaceCulling : Bool
  depthFunc : Int
  faceWinding : Int
  faceCullSide : Int
  blendSource : Int
  blendDestination : Int
  blendAlphaSource : Int
  blendAlphaDestination : Int
  color : Color
deriving DecidableEq, Repr

/-- The members of the renderer's `Entity` read by `RenderFrame`;
`transformParent` stands for `transform.parent`. -/
structure Entity where
  mesh : Ptr
  material : Ptr
  script : Ptr
  rigidBody : Ptr
  transformParent : Ptr
deriving DecidableEq, Repr

/-- The members of the main camera read by `RenderFrame`. -/
structure RenderCamera where
  script : Ptr
  useMouseLook : Bool
deriving DecidableEq, Repr

/-- The OpenGL capabilities `RenderFrame` switches. -/
inductive GLCap where
  | DEPTH_TEST
  | CULL_FACE
  | BLEND
deriving DecidableEq, Repr

/-- One call issued by `RenderFrame` on the graphics context or on a
collaborator, with the object it is made on.  The matrices pushed are not
computed here. -/
inductive RenderCall where
  | glViewport (x y w h : Int)
  | glClear
  | glClearColor (color : Color)
  | scriptOnUpdate (script : Ptr)
  | cameraMouseLook (camera : Ptr)
  | meshBind (mesh : Ptr)
  | shaderBind (shader : Ptr)
  | setProjectionMatrix (shader : Ptr)
  | materialBind (material : Ptr)
  | bindTextureSlot (material : Ptr) (slot : Nat)
  | glEnable (cap : GLCap)
  | glDisable (cap : GLCap)
  | glDepthMask (flag : Bool)
  | glDepthFunc (func : Int)
  | glCullFace (side : Int)
  | glFrontFace (winding : Int)
  | glBlendFuncSeparate (source destination alphaSource alphaDestination : Int)
  | setMaterialColor (shader : Ptr) (color : Color)
  | setTextureSampler (shader : Ptr) (slot : Nat)
  | syncRigidBody (entity : Ptr)
  | setModelMatrix (shader : Ptr) (entity : Ptr)
  | drawIndexArray (mesh : Ptr)
  | swapBuffers
deriving DecidableEq, Repr

/-- The state of `RenderSystem` that `RenderFrame` reads and writes, the
objects it reaches, and the calls issued so far (oldest first).  The script
callbacks, `MouseLook` and `SyncRigidBody` are collaborators: they are recorded
and taken not to touch this state. -/
structure RenderSystem where
  cameraMain : Ptr
  skyMain : Ptr
  renderQueue : List Ptr
  currentMesh : Ptr
  currentMaterial : Ptr
  currentShader : Ptr
  viewport : Viewport
  entityQueue : Ptr → List Ptr
  entities : Ptr → Entity
  meshShader : Ptr → Ptr
  materials : Ptr → Material
  cameras : Ptr → RenderCamera
  skyBackground : Ptr → Color
  calls : List RenderCall

/-- Record calls issued by the renderer. -/
def RenderSystem.issue (r : RenderSystem) (cs : List RenderCall) : RenderSystem :=
  { r with calls := r.calls ++ cs }

/-- The calls that set the GPU state from a material, in the order of the
three blocks `// Depth test`, `// Face culling`, `// Blending`. -/
def materialStateCalls (m : Material) : List RenderCall :=
  (if m.doDepthTest then
    [.glEnable .DEPTH_TEST, .glDepthMask m.doDepthTest, .glDepthFunc m.depthFunc]
   else [.glDisable .DEPTH_TEST])
  ++ (if m.doFaceCulling then
    [.glEnable .CULL_FACE, .glCullFace m.faceCullSide, .glFrontFace m.faceWinding]
   else [.glEnable .CULL_FACE])
  ++ (if m.doBlending then
    [.glEnable .BLEND,
     .glBlendFuncSeparate m.blendSource m.blendDestination m.blendAlphaSource
       m.blendAlphaDestination]
   else [.glDisable .BLEND])

/-- The block `// Material texture binding` of `RenderFrame`. -/
def RenderSystem.materialStep (r : RenderSystem) (material : Ptr) :
    Except Fault RenderSystem :=
  if r.currentMaterial ≠ material then
    if material = nullptr then .error .nullDereference else
    let r1 : RenderSystem := { r with currentMaterial := material }
    let m := r1.materials material
    .ok (r1.issue
      ([.materialBind material, .bindTextureSlot material 0]
        ++ materialStateCalls m
        ++ [.shaderBind r1.currentShader, .setMaterialColor r1.currentShader m.color,
            .setTextureSampler r1.currentShader 0]))
  else .ok r

/-- The block `// Update native script` of `RenderFrame`. -/
def RenderSystem.scriptStep (r : RenderSystem) (script : Ptr) : RenderSystem :=
  if script ≠ nullptr then r.issue [.scriptOnUpdate script] else r

/-- The block `// Mesh vertex array binding` of `RenderFrame`. -/
def RenderSystem.meshStep (r : RenderSystem) (mesh : Ptr) : RenderSystem :=
  if r.currentMesh ≠ mesh then
    ({ r with currentMesh := mesh } : RenderSystem).issue [.meshBind mesh]
  else r

/-- The block `// Shader program binding` of `RenderFrame`. -/
def RenderSystem.shaderStep (r : RenderSystem) (shader : Ptr) : RenderSystem :=
  if r.currentShader ≠ shader then
    ({ r with currentShader := shader } : RenderSystem).issue
      [.shaderBind shader, .setProjectionMatrix shader]
  else r

/-- The end of the loop body of `RenderFrame`: the rigid-body sync, the model
matrix and the draw call. -/
def RenderSystem.drawStep (r : RenderSystem) (currentEntity mesh rigidBody : Ptr) :
    RenderSystem :=
  let r1 : RenderSystem :=
    if rigidBody ≠ nullptr then r.issue [.syncRigidBody currentEntity] else r
  r1.issue [.setModelMatrix r1.currentShader currentEntity, .drawIndexArray mesh]

/-- The body of the entity loop of `RenderFrame`. -/
def RenderSystem.drawEntity (r : RenderSystem) (currentEntity : Ptr) :
    Except Fault RenderSystem :=
  if currentEntity = nullptr then .error .nullDereference else
  let ent := r.entities currentEntity
  let r1 := r.scriptStep ent.script
  if ent.mesh = nullptr then .ok r1 else
  let mesh := ent.mesh
  if r1.meshShader mesh = nullptr then .ok r1 else
  let shader := r1.meshShader mesh
  match ((r1.meshStep mesh).shaderStep shader).materialStep ent.material with
  | .error f => .error f
  | .ok r4 => .ok (r4.drawStep currentEntity mesh ent.rigidBody)

/-- The entity loop of `RenderFrame` over the entities of one scene still to
be visited. -/
def RenderSystem.drawEntities : List Ptr → RenderSystem → Except Fault RenderSystem
  | [], r => .ok r
  | currentEntity :: rest, r =>
      match r.drawEntity currentEntity with
      | .ok r1 => RenderSystem.drawEntities rest r1
      | .error f => .error f

/-- The scene loop of `RenderFrame` over the scenes still to be visited. -/
def RenderSystem.drawScenes : List Ptr → RenderSystem → Except Fault RenderSystem
  | [], r => .ok r
  | scenePtr :: rest, r =>
      if scenePtr = nullptr then .error .nullDereference else
      match RenderSystem.drawEntities (r.entityQueue scenePtr) r with
      | .ok r1 => RenderSystem.drawScenes rest r1
      | .error f => .error f

/-- The calls of `RenderFrame` before the scene loop: the viewport and the
clear, the clear colour of the sky (its red, green and blue with the alpha 1),
the script and the mouse look of the main camera. -/
def RenderSystem.frameHeadCalls (r : RenderSystem) : List RenderCall :=
  [.glViewport r.viewport.x r.viewport.y r.viewport.w r.viewport.h, .glClear] ++
  (if r.skyMain ≠ nullptr
    then [.glClearColor { r.skyBackground r.skyMain with a := 1 }] else []) ++
  (if (r.cameras r.cameraMain).script ≠ nullptr
    then [.scriptOnUpdate (r.cameras r.cameraMain).script] else []) ++
  (if (r.cameras r.cameraMain).useMouseLook then [.cameraMouseLook r.cameraMain] else [])

/-- The state in which `RenderFrame` enters the scene loop: the calls of the
head are issued and `currentShader = nullptr` is executed. -/
def RenderSystem.frameHead (r : RenderSystem) : RenderSystem :=
  { r.issue r.frameHeadCalls with currentShader := nullptr }

/-- Embeds `RenderSystem::RenderFrame(float deltaTime)`. -/
def RenderSystem.RenderFrame (r : RenderSystem) : Except Fault RenderSystem :=
  if r.cameraMain = nullptr then .ok r else
  match RenderSystem.drawScenes r.frameHead.renderQueue r.frameHead with
  | .ok r1 => .ok (r1.issue [.swapBuffers])
  | .error f => .error f

/-- Embeds `RenderSystem::RenderSystem()`: an empty render queue, nothing bound,
no main camera; the tables hold the objects that will be reached. -/
def RenderSystem.new (viewport : Viewport) (entityQueue : Ptr → List Ptr)
    (entities : Ptr → Entity) (meshShader : Ptr → Ptr) (materials : Ptr → Material)
    (cameras : Ptr → RenderCamera) (skyBackground : Ptr → Color) (skyMain : Ptr) :
    RenderSystem :=
  { cameraMain := nullptr
    skyMain := skyMain
    renderQueue := []
    currentMesh := nullptr
    currentMaterial := nullptr
    currentShader := nullptr
    viewport := viewport
    entityQueue := entityQueue
    entities := entities
    meshShader := meshShader
    materials := materials
    cameras := cameras
    skyBackground := skyBackground
    calls := [] }

/-- Whether a call is `Bind` on a mesh. -/
def RenderCall.isMeshBind : RenderCall → Bool
  | .meshBind _ => true
  | _ => false

/-- Whether a call is `Bind` on a shader. -/
def RenderCall.isShaderBind : RenderCall → Bool
  | .shaderBind _ => true
  | _ => false

/-- Whether a call is `Bind` on a material. -/
def RenderCall.isMaterialBind : RenderCall → Bool
  | .materialBind _ => true
  | _ => false

/-- Whether a call is `DrawIndexArray`. -/
def RenderCall.isDraw : RenderCall → Bool
  | .drawIndexArray _ => true
  | _ => false

/-- Whether a call is a `Bind` on a mesh, a shader or a material. -/
def RenderCall.isBind (c : RenderCall) : Bool :=
  c.isMeshBind || c.isShaderBind || c.isMaterialBind

/-- Whether a call pushes a uniform to a shader. -/
def RenderCall.isUniformPush : RenderCall → Bool
  | .setProjectionMatrix _ => true
  | .setMaterialColor _ _ => true
  | .setTextureSampler _ _ => true
  | .setModelMatrix _ _ => true
  | _ => false

/-- The entities of all the scenes of a render queue, in queue order. -/
def RenderSystem.queued (r : RenderSystem) : List Ptr :=
  r.renderQueue.flatMap r.entityQueue

/-- Whether an entity has both a mesh and a shader. -/
def RenderSystem.drawable (r : RenderSystem) (entity : Ptr) : Bool :=
  decide ((r.entities entity).mesh ≠ nullptr) &&
    decide (r.meshShader (r.entities entity).mesh ≠ nullptr)

/-- The tables `RenderFrame` only reads are the same in two renderer states. -/
structure SameScene (r r1 : RenderSystem) : Prop where
  cameraMain : r1.cameraMain = r.cameraMain
  skyMain : r1.skyMain = r.skyMain
  renderQueue : r1.renderQueue = r.renderQueue
  viewport : r1.viewport = r.viewport
  entityQueue : r1.entityQueue = r.entityQueue
  entities : r1.entities = r.entities
  meshShader : r1.meshShader = r.meshShader
  materials : r1.materials = r.materials
  cameras : r1.cameras = r.cameras
  skyBackground : r1.skyBackground = r.skyBackground

/-- The calls `new` were issued between the renderer states `r` and `r1`, which
read the same tables. -/
structure Issued (r r1 : RenderSystem) (new : List RenderCall) : Prop where
  scene : SameScene r r1
  calls : r1.calls = r.calls ++ new

/-- The calls of the material block when the material changes. -/
def materialChangeCalls (shader material : Ptr) (m : Material) : List RenderCall :=
  [.materialBind material, .bindTextureSlot material 0] ++ materialStateCalls m ++
    [.shaderBind shader, .setMaterialColor shader m.color, .setTextureSampler shader 0]

/-- The calls the loop body issues for an entity that has a mesh and a shader,
from a state that tracks `(currentMesh, currentShader, currentMaterial)`. -/
def drawnCalls (currentMesh currentShader currentMaterial : Ptr) (ent : Ptr) (e : Entity)
    (shader : Ptr) (m : Material) : List RenderCall :=
  (if e.script ≠ nullptr then [.scriptOnUpdate e.script] else []) ++
  (if currentMesh ≠ e.mesh then [.meshBind e.mesh] else []) ++
  (if currentShader ≠ shader then [.shaderBind shader, .setProjectionMatrix shader] else []) ++
  (if currentMaterial ≠ e.material then materialChangeCalls shader e.material m else []) ++
  ((if e.rigidBody ≠ nullptr then [.syncRigidBody ent] else []) ++
    [.setModelMatrix shader ent, .drawIndexArray e.mesh])

/-- The entities of a list are valid for the loop: none is a null pointer,
and those that have a mesh and a shader have a material. -/
def ValidEntities (r : RenderSystem) (l : List Ptr) : Prop :=
  ∀ ent ∈ l, ent ≠ nullptr ∧ (r.drawable ent = true → (r.entities ent).material ≠ nullptr)

/-- The entities of a list all carry the mesh `M` and the material `T`, and
none is a null pointer. -/
def SharedEntities (r : RenderSystem) (M T : Ptr) (l : List Ptr) : Prop :=
  ∀ ent ∈ l, ent ≠ nullptr ∧ (r.entities ent).mesh = M ∧ (r.entities ent).material = T

/-- The calls issued by a pass of `RenderFrame` over `r`, when it returns. -/
def RenderSystem.frameCalls (r : RenderSystem) : List RenderCall :=
  match r.RenderFrame with
  | .ok r1 => r1.calls.drop r.calls.length
  | .error _ => []

/-- A material for the examples, with the switches its constructor sets. -/
def sampleMaterial : Material :=
  { doDepthTest := true
    doBlending := false
    doFaceCulling := true
    depthFunc := 513
    faceWinding := 2305
    faceCullSide := 1029
    blendSource := 0
    blendDestination := 0
    blendAlphaSource := 0
    blendAlphaDestination := 0
    color := ⟨0, 0, 0, 1⟩ }

/-- A renderer for the examples, as its constructor leaves it, then given the
main camera 1 and the one scene 1: every entity carries the mesh 1, whose
shader is 2, and the material 3; the scene queues the entities of `queue`. -/
def sampleRenderer (queue : List Ptr) : RenderSystem :=
  { RenderSystem.new ⟨0, 0, 800, 600⟩ (fun _ => queue) (fun _ => ⟨1, 3, nullptr, nullptr, nullptr⟩)
      (fun _ => 2) (fun _ => sampleMaterial) (fun _ => ⟨nullptr, false⟩)
      (fun _ => ⟨0, 0, 0, 1⟩) nullptr with
    cameraMain := 1
    renderQueue := [1] }

/-- The renderer of the examples after one pass over its queue. -/
def sampleRendererNext (queue : List Ptr) : RenderSystem :=
  match (sampleRenderer queue).RenderFrame with
  | .ok r1 => r1
  | .error _ => sampleRenderer queue

/-- A renderer whose scene queues an entity without a mesh (entity 1), an
entity whose mesh 5 has no shader (entity 2) and an entity with the mesh 6,
the shader 7 and the material 3 (entity 3). -/
def sampleMixedRenderer : RenderSystem :=
  { RenderSystem.new ⟨0, 0, 800, 600⟩ (fun _ => [1, 2, 3])
      (fun ent =>
        if ent = 1 then ⟨nullptr, 3, 9, nullptr, nullptr⟩
        else if ent = 2 then ⟨5, 3, nullptr, nullptr, nullptr⟩
        else ⟨6, 3, nullptr, nullptr, nullptr⟩)
      (fun mesh => if mesh = 6 then 7 else nullptr) (fun _ => sampleMaterial)
      (fun _ => ⟨nullptr, false⟩) (fun _ => ⟨0, 0, 0, 1⟩) nullptr with
    cameraMain := 1
    renderQueue := [1] }

/-- What the entity loop of `Update` never changes between two engine states:
of an entity everything but its transform, the texts, the mesh a renderer
points at, the mouse-look switch of a camera, the entity pool, the stream
buffer with its size and dirty flag, and the screen metrics. -/
structure SameShape (e e1 : Engine) : Prop where
  objects : ∀ g, { e1.objects g with transform := (e.objects g).transform } = e.objects g
  texts : e1.mem.texts = e.mem.texts
  rendererMesh : ∀ p, (e1.mem.meshRenderers p).mesh = (e.mem.meshRenderers p).mesh
  mouseLook : ∀ p, (e1.mem.cameras p).useMouseLook = (e.mem.cameras p).useMouseLook
  mGameObjects : e1.mGameObjects = e.mGameObjects
  doUpdateDataStream : e1.doUpdateDataStream = e.doUpdateDataStream
  streamSize : e1.streamSize = e.streamSize
  streamBuffer : e1.streamBuffer = e.streamBuffer
  viewport : e1.viewport = e.viewport
  displaySize : e1.displaySize = e.displaySize
  displayCenter : e1.displayCenter = e.displayCenter

/-- Where one pass of the entity loop over the stream-buffer entry `b` may have
written between two engine states: the entity of `b`, the mesh renderer, the
camera, the light and the actor of `b`, and calls on the rigid body of `b`. -/
structure WritesAt (b : StreamSlot) (e e1 : Engine) : Prop where
  objects : ∀ g, g ≠ b.gameObject → e1.objects g = e.objects g
  meshRenderers : ∀ p, p ≠ b.meshRenderer → e1.mem.meshRenderers p = e.mem.meshRenderers p
  cameras : ∀ p, p ≠ b.camera → e1.mem.cameras p = e.mem.cameras p
  lights : ∀ p, p ≠ b.light → e1.mem.lights p = e.mem.lights p
  actors : ∀ p, p ≠ b.actor → e1.mem.actors p = e.mem.actors p
  rigidBodies : e1.mem.rigidBodies = e.mem.rigidBodies
  physicsCalls : ∃ extra, e1.mem.physicsCalls = e.mem.physicsCalls ++ extra ∧
    ∀ c ∈ extra, c = PhysicsCall.getTransform b.rigidBody ∨
      ∃ v, c = PhysicsCall.applyLocalForceAtCenterOfMass b.rigidBody v

/-- Two engine states differ in the meshes only. -/
def OnlyMeshes (e e1 : Engine) : Prop :=
  e1 = { e with meshes := e1.meshes }

/-- The engine state with the transform of the entity at `g` replaced. -/
def Engine.setObjectTransform (e : Engine) (g : Ptr) (tr : Transform) : Engine :=
  { e with objects := store e.objects g { e.objects g with transform := tr } }

/-! ### Conditions on the state `Update` starts in -/

/-- Whether the walk up the parent chain that starts at `parent` reaches
`nullptr` within `fuel` iterations. -/
def chainEnds (objects : Ptr → GameObject) : Nat → Ptr → Bool
  | 0, parent => decide (parent = nullptr)
  | fuel + 1, parent =>
      if parent = nullptr then true else chainEnds objects fuel (objects parent).parent

/-- A stream-buffer entry the loop body gets through: its entity pointer is not
null and, when the entity is active, the walk up its parent chain ends within
`fuel` iterations and a text with a mesh renderer finds the mesh of that
renderer and the mesh renderer of the entity. -/
def SlotReady (e : Engine) (fuel : Nat) (b : StreamSlot) : Prop :=
  b.gameObject ≠ nullptr ∧
  ((e.objects b.gameObject).isActive = true →
    chainEnds e.objects fuel (e.objects b.gameObject).parent = true ∧
    (b.text ≠ nullptr → b.meshRenderer ≠ nullptr →
      (e.mem.meshRenderers b.meshRenderer).mesh ≠ nullptr ∧
      (e.objects b.gameObject).mMeshRendererCache ≠ nullptr))

instance (e : Engine) (fuel : Nat) (b : StreamSlot) : Decidable (SlotReady e fuel b) := by
  unfold SlotReady
  infer_instance

/-- Every entry the entity loop visits is one it gets through. -/
def Engine.Ready (e : Engine) (fuel : Nat) : Prop :=
  ∀ i, i < e.mGameObjects.Size → SlotReady e fuel (e.streamBuffer i)

instance (e : Engine) (fuel : Nat) : Decidable (e.Ready fuel) := by
  unfold Engine.Ready
  infer_instance

/-- The state in which the entity loop of `Update` starts: the head of `Update`
and the dirty check have run. -/
def Engine.beforeLoop (e : Engine) : Engine :=
  e.updatePlayerPosition.rebuildStream

/-- A stream-buffer entry shares no component with the entity `o`: whichever of
its mesh renderer, camera, light, actor and rigid-body pointers equals the
cache pointer of `o` is null. -/
def SlotAvoids (b : StreamSlot) (o : GameObject) : Prop :=
  (b.meshRenderer = o.mMeshRendererCache → o.mMeshRendererCache = nullptr) ∧
  (b.camera = o.mCameraCache → o.mCameraCache = nullptr) ∧
  (b.light = o.mLightCache → o.mLightCache = nullptr) ∧
  (b.actor = o.mActorCache → o.mActorCache = nullptr) ∧
  (b.rigidBody = o.mRigidBodyCache → o.mRigidBodyCache = nullptr)

instance (b : StreamSlot) (o : GameObject) : Decidable (SlotAvoids b o) := by
  unfold SlotAvoids
  infer_instance

/-- Nothing of the entity at `E` was written between two engine states: the
entity itself, the objects its non-null cache pointers address, and the rigid
bodies are the same, and the physics calls made in between are none on its
rigid body. -/
structure Untouched (E : Ptr) (e e1 : Engine) : Prop where
  entity : e1.objects E = e.objects E
  meshRenderer : (e.objects E).mMeshRendererCache ≠ nullptr →
    e1.mem.meshRenderers (e.objects E).mMeshRendererCache
      = e.mem.meshRenderers (e.objects E).mMeshRendererCache
  camera : (e.objects E).mCameraCache ≠ nullptr →
    e1.mem.cameras (e.objects E).mCameraCache = e.mem.cameras (e.objects E).mCameraCache
  light : (e.objects E).mLightCache ≠ nullptr →
    e1.mem.lights (e.objects E).mLightCache = e.mem.lights (e.objects E).mLightCache
  actor : (e.objects E).mActorCache ≠ nullptr →
    e1.mem.actors (e.objects E).mActorCache = e.mem.actors (e.objects E).mActorCache
  rigidBodies : e1.mem.rigidBodies = e.mem.rigidBodies
  physicsCalls : ∃ extra, e1.mem.physicsCalls = e.mem.physicsCalls ++ extra ∧
    ((e.objects E).mRigidBodyCache ≠ nullptr → ∀ c ∈ extra,
      c ≠ PhysicsCall.getTransform (e.objects E).mRigidBodyCache ∧
      ∀ v, c ≠ PhysicsCall.applyLocalForceAtCenterOfMass (e.objects E).mRigidBodyCache v)

/-- The component handles of an entity can all be destroyed: they are distinct
live handles of kinds that have a pool, and their payloads are live objects of
these pools, no two handles of one kind sharing a payload. -/
structure Destroyable (e : Engine) (handles : List Ptr) : Prop where
  nodup : handles.Nodup
  live : ∀ h ∈ handles, h ≠ nullptr ∧ h ∈ e.mComponents.live
  pooled : ∀ h ∈ handles, (e.mem.components h).mType.hasPool = true
  payload : ∀ h ∈ handles,
    (e.mem.components h).mObject ∈ (e.payloadPools (e.mem.components h).mType).live
  exclusive : ∀ h1 ∈ handles, ∀ h2 ∈ handles, h1 ≠ h2 →
    (e.mem.components h1).mType = (e.mem.components h2).mType →
    (e.mem.components h1).mObject ≠ (e.mem.components h2).mObject

/-! ### Engine states for the examples -/

/-- The state a run ended in, or `otherwise` when it did not end. -/
def Run.reached {α : Type} (r : Run α) (otherwise : Engine) : Engine :=
  match r with
  | .finished _ e => e
  | .aborted _ e => e
  | .outOfFuel => otherwise

/-- Embeds the constructor `EngineSystemManager::EngineSystemManager()`: no
main scene, the dirty flag set, a stream of size zero; the pools are empty and
of the capacity given, the memory around the engine is `mem`. -/
def Engine.new (capacity : Nat) (mem : Memory) : Engine :=
  { objects := fun _ => GameObject.new
    mem := mem
    meshes := fun _ => ⟨[], 0⟩
    mGameObjects := ⟨[], capacity⟩
    mGameObjectActive := []
    mComponents := ⟨[], capacity⟩
    payloadPools := fun _ => ⟨[], capacity⟩
    doUpdateDataStream := true
    streamSize := 0
    streamBuffer := fun _ => ⟨nullptr, nullptr, nullptr, nullptr, nullptr, nullptr, nullptr⟩
    sceneMain := nullptr
    sceneCamera := fun _ => nullptr
    playerWorldPosition := ⟨0, 0, 0⟩
    viewport := ⟨0, 0, 0, 0⟩
    displaySize := ⟨0, 0⟩
    displayCenter := ⟨0, 0⟩
    cursorPos := ⟨0, 0⟩ }

/-- Collaborators for the examples: every body matrix is the identity and
every orientation has the Euler angles zero. -/
def sampleExternals : Externals :=
  { getOpenGLMatrix := fun _ => Mat4.one
    eulerAngles := fun _ => ⟨0, 0, 0⟩ }

/-- The calls a client makes on the engine and on its entities in the
examples. -/
inductive ClientCall where
  | createGameObject
  | createComponent (type : ComponentType)
  | addComponent (gameObject component : Ptr)
  | removeComponent (gameObject component : Ptr)
  | deactivate (gameObject : Ptr)
  | setParent (gameObject parent : Ptr)
  | update (fuel : Nat)

/-- The engine state after one call of a client. -/
def Engine.after (e : Engine) : ClientCall → Engine
  | .createGameObject => e.CreateGameObject.reached e
  | .createComponent type => (e.CreateComponent type).reached e
  | .addComponent g c => (e.onObject g (fun s => GameObject.AddComponent g s c)).reached e
  | .removeComponent g c => (e.onObject g (fun s => GameObject.RemoveComponent s c)).reached e
  | .deactivate g => (e.onObject g GameObject.Deactivate).reached e
  | .setParent g p => { e with objects := store e.objects g { e.objects g with parent := p } }
  | .update fuel => (e.Update sampleExternals fuel).reached e

/-- The memory of the scene of the examples: every mesh renderer points at
mesh `1`, every camera has mouse look switched on, and every text is the five
characters `Hello` of size `10`, anchored right at canvas offset zero. -/
def sceneMemory : Memory :=
  { sampleMemory with
    meshRenderers := fun _ => ⟨true, 1, nullptr, Transform.identity⟩
    cameras := fun _ => ⟨Transform.identity, true, ⟨0, 0⟩, 1, 1⟩
    texts := fun _ =>
      ⟨[72, 101, 108, 108, 111], ⟨0, 0, 0, 1⟩, 10, 0, 0, 0, 0,
        ⟨0, 0, true, false, false, false⟩, ⟨0, 0, 0, 0, 16, 16⟩⟩ }

/-- A scene of three entities, built by the calls of a client on a new engine
with a viewport 800 wide and the cursor 10000 pixels off the centre: entity `1`
carries a mesh renderer and a text, entity `2` a camera, and entity `3`, which
is deactivated, a mesh renderer and an actor. -/
def sampleScene : Engine :=
  [ClientCall.createGameObject, .createGameObject, .createGameObject,
    .createComponent .MeshRenderer, .createComponent .Text, .createComponent .Camera,
    .createComponent .MeshRenderer, .createComponent .Actor,
    .addComponent 1 1, .addComponent 1 2, .addComponent 2 3,
    .addComponent 3 4, .addComponent 3 5, .deactivate 3].foldl Engine.after
    { Engine.new 8 sceneMemory with
      viewport := ⟨0, 0, 800, 600⟩
      displaySize := ⟨800, 600⟩
      displayCenter := ⟨400, 300⟩
      cursorPos := ⟨10400, 10300⟩ }

/-- Two active entities, each the parent of the other. -/
def sampleCycle : Engine :=
  [ClientCall.createGameObject, .createGameObject, .setParent 1 2,
    .setParent 2 1].foldl Engine.after (Engine.new 8 sceneMemory)

/-- The pitch of a camera is within the limit and its orientation carries
it. -/
def PitchClamped (cam : Camera) : Prop :=
  -pitchLimit ≤ cam.lookAngle.y ∧ cam.lookAngle.y ≤ pitchLimit ∧
  cam.transform.orientation.y = cam.lookAngle.y

/-! ### States for the examples on the render distance -/

/-- The entity of `sampleFull` after a client has given it a render distance of
500, as `ChunkManager::CreateChunk` does with its chunks. -/
def sampleFar : State :=
  { sampleFull with obj := { sampleFull.obj with renderDistance := 500 } }

/-! ### `StringType::Explode` -/

/-- Stands for `std::getline(iss, token, character)` on a stream whose
characters still to be read are `rest`: `none` when the call fails, nothing
being left to read; otherwise the token read, which ends before the first
`character` or at the end of the input, and the characters left after it, the
`character` that ended the token being consumed. -/
def getline (character : Nat) (rest : List Nat) : Option (List Nat × List Nat) :=
  match rest with
  | [] => none
  | _ :: _ =>
      some (rest.takeWhile (fun c => decide (c ≠ character)),
        (rest.dropWhile (fun c => decide (c ≠ character))).tail)

/-- The loop of `Explode`, given `fuel` calls of `getline`: `rest` is what the
stream still holds and `result` the vector built so far; `none` when the calls
are used up before the stream is. -/
def explodeLoop (character : Nat) : Nat → List Nat → List (List Nat) → Option (List (List Nat))
  | 0, _, _ => none
  | fuel + 1, rest, result =>
      match getline character rest with
      | none => some result
      | some (token, rest1) =>
          if token = [] then explodeLoop character fuel rest1 result
          else explodeLoop character fuel rest1 (result ++ [token])

/-- Embeds `StringType::Explode(std::string value, const char character)`; the
string is kept as its bytes and `fuel` bounds the number of `getline` calls. -/
def StringType.Explode (fuel : Nat) (value : List Nat) (character : Nat) :
    Option (List (List Nat)) :=
  explodeLoop character fuel value []

/-- The maximal non-empty runs of characters of `value` that contain no
`character`, in order: the pieces of `value` between its delimiters, the empty
ones left out. -/
def StringType.runs (character : Nat) (value : List Nat) : List (List Nat) :=
  (value.splitOn character).filter (fun token => decide (token ≠ []))

/-! ### The closed form of the glyph-cell search -/

/-- The cell of glyph `index` in a sprite map `mapWidth + 1` cells wide and
`mapHeight + 1` cells high, counted row by row: column `n mod (w + 1)` and row
`n div (w + 1)`, where `n` is the index, or zero for a negative one; there is
no cell when the row is beyond `mapHeight`. -/
def glyphCell (mapWidth mapHeight index : Int) : Option (Int × Int) :=
  if index.toNat / (mapWidth.toNat + 1) ≤ mapHeight.toNat then
    some (((index.toNat % (mapWidth.toNat + 1) : Nat) : Int),
      ((index.toNat / (mapWidth.toNat + 1) : Nat) : Int))
  else none

/-- The plain `AddMeshSubSprite` is to add for glyph `index` of the text `txt`
at `(xPos, yPos)`, when the glyph has a cell. -/
def glyphPlain (txt : Text) (xPos yPos scaleWidth scaleHeight : Scalar) (index : Int)
    (meshColor : Color) : Option Plain :=
  (glyphCell txt.sprite.width txt.sprite.height index).map fun cell =>
    { x := yPos * txt.height
      y := 0
      z := -(xPos * txt.width)
      width := scaleWidth
      height := scaleHeight
      color := meshColor
      spriteWidth := txt.sprite.subSpriteWidth
      spriteHeight := txt.sprite.subSpriteHeight
      spriteStartX := txt.sprite.subSpriteX
      spriteStartY := txt.sprite.subSpriteY
      subWidth := cell.1
      subHeight := cell.2 }

/-- The plains `AddMeshText` is to add for the characters `text`, the first of
which has the index `start` in the string: one for every character whose glyph
has a cell, the `i`-th character at the horizontal offset `xPos + i`. -/
def textPlains (txt : Text) (xPos yPos scaleWidth scaleHeight : Scalar) (textColor : Color)
    (start : Nat) (text : List Nat) : List Plain :=
  (text.enumFrom start).filterMap fun p =>
    glyphPlain txt (xPos + (p.1 : Scalar)) yPos scaleWidth scaleHeight (charIndex p.2) textColor

/-! ### The GPU state behind the calls of `RenderFrame` -/

/-- The capability a call switches, and to what: `glEnable(cap)` switches `cap`
on, `glDisable(cap)` switches it off, no other call switches a capability. -/
def RenderCall.switches : RenderCall → Option (GLCap × Bool)
  | .glEnable cap => some (cap, true)
  | .glDisable cap => some (cap, false)
  | _ => none

/-- Whether the capability `cap` is enabled after the calls `calls` have been
issued on a context in which it was `before`: the last call that switches it
decides. -/
def capEnabled (cap : GLCap) (before : Bool) (calls : List RenderCall) : Bool :=
  calls.foldl
    (fun state c =>
      match c.switches with
      | some (k, value) => if k = cap then value else state
      | none => state)
    before

/-- Whether a call sets a part of the GPU state that a material owns: a
capability, the depth mask and function, the cull side, the winding or the
blend function. -/
def RenderCall.isStateCall : RenderCall → Bool
  | .glEnable _ => true
  | .glDisable _ => true
  | .glDepthMask _ => true
  | .glDepthFunc _ => true
  | .glCullFace _ => true
  | .glFrontFace _ => true
  | .glBlendFuncSeparate _ _ _ _ => true
  | _ => false

/-- The material of the examples after `Material::DisableCulling()`. -/
def sampleNoCullMaterial : Material :=
  { sampleMaterial with doFaceCulling := false }

/-- The renderer of the examples with one queued entity, its materials having
face culling disabled. -/
def sampleNoCullRenderer : RenderSystem :=
  { sampleRenderer [1] with materials := fun _ => sampleNoCullMaterial }

/-! ### Parent chains and what the walk accumulates -/

/-- The list `chain` is the parent chain that starts at `parent`: its entries
are the entities met by following the parent pointers from `parent`, none of
them null, and the parent of the last one is `nullptr`. -/
def IsChain (objects : Ptr → GameObject) : Ptr → List Ptr → Prop
  | parent, [] => parent = nullptr
  | parent, p :: rest => parent ≠ nullptr ∧ p = parent ∧ IsChain objects (objects p).parent rest

/-- Whether a list is the parent chain that starts at `parent` can be
computed. -/
def IsChain.decidable (objects : Ptr → GameObject) :
    ∀ (chain : List Ptr) (parent : Ptr), Decidable (IsChain objects parent chain)
  | [], parent => inferInstanceAs (Decidable (parent = nullptr))
  | p :: rest, parent =>
      have : Decidable (IsChain objects (objects p).parent rest) :=
        IsChain.decidable objects rest (objects p).parent
      inferInstanceAs
        (Decidable (parent ≠ nullptr ∧ p = parent ∧ IsChain objects (objects p).parent rest))

instance (objects : Ptr → GameObject) (parent : Ptr) (chain : List Ptr) :
    Decidable (IsChain objects parent chain) :=
  IsChain.decidable objects chain parent

/-- The transform the walk is to end with, in the words of the spec: the
position of the entity plus the positions of the entities of its parent chain,
its scale multiplied component-wise by their scales, and its orientation
multiplied on the right by their orientations, nearest parent first; the
matrix is not touched by the walk. -/
def accumulated (objects : Ptr → GameObject) (own : Transform) (chain : List Ptr) : Transform :=
  { own with
    position := chain.foldl (fun acc p => acc.add (objects p).transform.position) own.position
    scale := chain.foldl (fun acc p => acc.mul (objects p).transform.scale) own.scale
    orientation :=
      chain.foldl (fun acc p => acc.mul (objects p).transform.orientation) own.orientation }

/-- The block `// Current transform` of `Update`: the transform the walk starts
with, made of the position, orientation and scale of the entity. -/
def Engine.ownTransform (e : Engine) (g : Ptr) : Transform :=
  { Transform.identity with
    position := (e.objects g).transform.position
    orientation := (e.objects g).transform.orientation
    scale := (e.objects g).transform.scale }

/-- The loop body of `Update` from the end of the walk on, `walked` being the
transform the walk ended with. -/
def Engine.passFrom (x : Externals) (e : Engine) (b : StreamSlot) (walked : Transform) :
    Run Unit :=
  let afterBody := e.rigidBodyStep x b { walked with matrix := walked.composed }
  let e4 := (afterBody.1.meshRendererStep b afterBody.2).actorStep b afterBody.2
  match e4.textStep b with
  | .aborted f r => .aborted f r
  | .outOfFuel => .outOfFuel
  | .finished _ e5 => .finished () ((e5.cameraStep b afterBody.2).lightStep x b afterBody.2)

/-- A family of three entities for the examples, each the child of the next:
entity `1` carries a mesh renderer and an actor, entity `2` a rigid body, a
mesh renderer and an actor, entity `3` nothing; a client has placed them at
`x = 1`, `x = 2` and `x = 10` and has given entity `3` the scale 2. -/
def sampleFamily : Engine :=
  let e : Engine :=
    [ClientCall.createGameObject, .createGameObject, .createGameObject,
      .createComponent .MeshRenderer, .createComponent .Actor, .createComponent .RigidBody,
      .createComponent .MeshRenderer, .createComponent .Actor,
      .addComponent 1 1, .addComponent 1 2, .addComponent 2 3, .addComponent 2 4,
      .addComponent 2 5, .setParent 1 2, .setParent 2 3].foldl Engine.after
      (Engine.new 8 sceneMemory)
  { e with
    objects := fun g =>
      { e.objects g with
        transform :=
          { (e.objects g).transform with
            position := ⟨if g = 3 then 10 else if g = 2 then 2 else 1, 0, 0⟩
            scale := if g = 3 then ⟨2, 2, 2⟩ else ⟨1, 1, 1⟩ } } }

/-- The physics calls the pass of `Update` over the entry `b` may make: reads
of the transform of its rigid body and forces on it. -/
def StreamSlot.Calls (b : StreamSlot) (c : PhysicsCall) : Prop :=
  c = PhysicsCall.getTransform b.rigidBody ∨
    ∃ v, c = PhysicsCall.applyLocalForceAtCenterOfMass b.rigidBody v

/-- The family of the examples with bodies at `(5, 6, 7)` and actors that ask
for the velocity `(3, 0, 4)`. -/
def sampleWalkers : Engine :=
  { sampleFamily with
    mem :=
      { sampleFamily.mem with
        actors := fun _ => ⟨true, ⟨0, 0, 0⟩, ⟨3, 0, 4⟩⟩
        rigidBodies := fun _ => ⟨⟨⟨5, 6, 7⟩, ⟨1, 0, 0, 0⟩⟩, true, nullptr⟩ } }

/-- One entity without a parent, placed at `x = 1` by a client, that carries
an actor and no rigid body. -/
def sampleLoneActor : Engine :=
  let e : Engine :=
    [ClientCall.createGameObject, .createComponent .Actor, .addComponent 1 1].foldl Engine.after
      (Engine.new 8 sceneMemory)
  { e with
    objects := fun g =>
      { e.objects g with
        transform := { (e.objects g).transform with position := ⟨1, 0, 0⟩ } } }

/-! ### `EngineSystemManager::Shutdown` -/

/-- The loop of `Shutdown`,
`while (GetGameObjectCount() > 0) { DestroyGameObject( GetGameObject(0) ); }`,
with a bound on the number of iterations. -/
def Engine.shutdownLoop : Nat → Engine → Run Unit
  | 0, e => if e.GetGameObjectCount > 0 then .outOfFuel else .finished () e
  | fuel + 1, e =>
      if e.GetGameObjectCount > 0 then
        match e.DestroyGameObject (e.GetGameObject 0) with
        | .finished _ e1 => Engine.shutdownLoop fuel e1
        | .aborted f r => .aborted f r
        | .outOfFuel => .outOfFuel
      else .finished () e

/-- Embeds `EngineSystemManager::Shutdown()`: the loop, then the two closing
assertions.  The four `Renderer.DestroyShader` calls between them act on the
shader pool of the renderer, which is no part of the engine state here; they
are taken to return. -/
def Engine.Shutdown (fuel : Nat) (e : Engine) : Run Unit :=
  match Engine.shutdownLoop fuel e with
  | .aborted f r => .aborted f r
  | .outOfFuel => .outOfFuel
  | .finished _ e1 =>
      if e1.GetGameObjectCount = 0 then
        if e1.mComponents.Size = 0 then .finished () e1 else .aborted .assertFailed e1
      else .aborted .assertFailed e1

/-- The component handles of the entities of the active list, in order. -/
def Engine.attached (e : Engine) : List Ptr :=
  e.mGameObjectActive.flatMap (fun g => (e.objects g).mComponentList)

/-- An engine state whose component handles are attached but for `orphans`:
the active list holds the live entities, none of them null; the live handles
are those attached to these entities, each attached once and to one entity,
together with the handles of `orphans`, which no entity lists; and the
attached handles can all be destroyed. -/
structure Engine.TidyBut (e : Engine) (orphans : List Ptr) : Prop where
  entities : e.mGameObjectActive.Perm e.mGameObjects.live
  nonNull : nullptr ∉ e.mGameObjectActive
  handles : (e.attached ++ orphans).Perm e.mComponents.live
  destroyable : Destroyable e e.attached

/-- A new engine in which a client has created one Light component and
attached it to nothing. -/
def sampleOrphan : Engine :=
  [ClientCall.createComponent .Light].foldl Engine.after (Engine.new 8 sceneMemory)

/-- The scene of the examples after a client has created one more Light
component, the handle `6`, and attached it to nothing. -/
def sampleSceneOrphan : Engine :=
  sampleScene.after (.createComponent .Light)

/-- The handles of a list whose kind is one `DestroyComponent` has a case
for. -/
def Engine.pooledHandles (e : Engine) (handles : List Ptr) : List Ptr :=
  handles.filter (fun c => (e.mem.components c).mType.hasPool)

/-- An entity with two components: the Light handle `1`, made by
`CreateComponent`, and the handle `6`, a Transform component the client has
made itself (`CreateComponent` makes none). -/
def sampleWithTransform : Engine :=
  [ClientCall.createGameObject, .createComponent .Light, .addComponent 1 1,
    .addComponent 1 6].foldl Engine.after (Engine.new 8 sceneMemory)

/-- The values the anchor-right branch of the text block forms are within the
range of `int` and are `float` values: the font size is a non-negative `int`,
the product `size * canvas.x` is in the range of `int`, and the sum
`viewport.w + size * canvas.x`, the extent `L * size` and their difference have
a magnitude of at most `2 ^ 24`. -/
def RightOffsetExact (viewport : Viewport) (txt : Text) : Prop :=
  0 ≤ txt.size ∧ txt.size < 2 ^ 31 ∧
  -(2 ^ 31) ≤ txt.size * txt.canvas.x ∧ txt.size * txt.canvas.x < 2 ^ 31 ∧
  -(2 ^ 24) ≤ viewport.w + txt.size * txt.canvas.x ∧
  viewport.w + txt.size * txt.canvas.x ≤ 2 ^ 24 ∧
  (txt.text.length : Int) * txt.size ≤ 2 ^ 24 ∧
  -(2 ^ 24) ≤ viewport.w + txt.size * txt.canvas.x - (txt.text.length : Int) * txt.size ∧
  viewport.w + txt.size * txt.canvas.x - (txt.text.length : Int) * txt.size ≤ 2 ^ 24

instance (viewport : Viewport) (txt : Text) : Decidable (RightOffsetExact viewport txt) := by
  unfold RightOffsetExact
  infer_instance

/-- An entity that received its mesh renderer and its text, anchored right,
after an `Update` had run: the components were created, the frame passed, and
then they were attached; the viewport is 800 wide. -/
def sampleLateText : Engine :=
  [ClientCall.createGameObject, .createComponent .MeshRenderer, .createComponent .Text,
    .update 1, .addComponent 1 1, .addComponent 1 2].foldl Engine.after
    { Engine.new 8 sceneMemory with viewport := ⟨0, 0, 800, 600⟩ }

/-- A camera with mouse look on a deactivated entity; the client has set its
pitch `lookAngle.y` to 1. -/
def sampleIdleCamera : Engine :=
  let e : Engine :=
    [ClientCall.createGameObject, .createComponent .Camera, .addComponent 1 1,
      .deactivate 1].foldl Engine.after (Engine.new 8 sceneMemory)
  { e with
    mem := { e.mem with cameras := fun _ => ⟨Transform.identity, true, ⟨0, 1⟩, 1, 1⟩ } }

/-- A mesh renderer that changed hands between two frames: it was created and
attached to entity `1`, a frame passed, then it was detached, attached to
entity `2`, and entity `2` was deactivated; the client has since moved entity
`1` to `x = 1`.  No call since the frame has set the dirty flag, so the stream
buffer still lists the mesh renderer in the entry of entity `1`. -/
def sampleMovedRenderer : Engine :=
  let e : Engine :=
    [ClientCall.createGameObject, .createGameObject, .createComponent .MeshRenderer,
      .addComponent 1 1, .update 1, .removeComponent 1 1, .addComponent 2 1,
      .deactivate 2].foldl Engine.after (Engine.new 8 sceneMemory)
  { e with
    objects := fun g =>
      if g = 1 then
        { e.objects g with
          transform := { (e.objects g).transform with position := ⟨1, 0, 0⟩ } }
      else e.objects g }

/-! ### The transform walk in the arithmetic of the machine -/

/-- Stands for `glm::vec3` addition (`+=`) with each sum rounded by `round` to
the number format of the components. -/
def Vec3.addRounded (round : Scalar → Scalar) (a b : Vec3) : Vec3 :=
  ⟨round (a.x + b.x), round (a.y + b.y), round (a.z + b.z)⟩

/-- Stands for `glm::vec3` component-wise multiplication (`*=`) with each
product rounded by `round`. -/
def Vec3.mulRounded (round : Scalar → Scalar) (a b : Vec3) : Vec3 :=
  ⟨round (a.x * b.x), round (a.y * b.y), round (a.z * b.z)⟩

/-- Stands for `glm::quat` multiplication (`*=`) with each product, sum and
difference rounded by `round`, formed from left to right. -/
def Quat.mulRounded (round : Scalar → Scalar) (p q : Quat) : Quat :=
  { w := round (round (round (round (p.w * q.w) - round (p.x * q.x)) - round (p.y * q.y))
          - round (p.z * q.z))
    x := round (round (round (round (p.w * q.x) + round (p.x * q.w)) + round (p.y * q.z))
          - round (p.z * q.y))
    y := round (round (round (round (p.w * q.y) + round (p.y * q.w)) + round (p.z * q.x))
          - round (p.x * q.z))
    z := round (round (round (round (p.w * q.z) + round (p.z * q.w)) + round (p.x * q.y))
          - round (p.y * q.x)) }

/-- The transform the walk is to end with when every operation is rounded by
`round`: the position, scale and orientation of the entity combined with those
of the entities of its parent chain one after the other, nearest parent first,
the result of each step being rounded before the next. -/
def accumulatedRounded (round : Scalar → Scalar) (objects : Ptr → GameObject) (own : Transform)
    (chain : List Ptr) : Transform :=
  { own with
    position :=
      chain.foldl (fun acc p => acc.addRounded round (objects p).transform.position)
        own.position
    scale := chain.foldl (fun acc p => acc.mulRounded round (objects p).transform.scale) own.scale
    orientation :=
      chain.foldl (fun acc p => acc.mulRounded round (objects p).transform.orientation)
        own.orientation }

theorem eraseFirst_eq_none {c : Ptr} {l : List Ptr} :
    eraseFirst c l = none ↔ c ∉ l := by
  induction l with
  | nil => simp [eraseFirst]
  | cons x xs ih =>
      by_cases h : c = x
      · simp [eraseFirst, h]
      · simp [eraseFirst, h, ih]

theorem eraseFirst_eq_some {c : Ptr} {l r : List Ptr} (h : eraseFirst c l = some r) :
    c ∈ l ∧ r = l.erase c := by
  induction l generalizing r with
  | nil => simp [eraseFirst] at h
  | cons x xs ih =>
      by_cases hx : c = x
      · subst hx
        simp [eraseFirst] at h
        simp [h]
      · simp only [eraseFirst, ne_eq, hx, not_false_eq_true, if_true, Option.map_eq_some'] at h
        obtain ⟨r1, hr1, rfl⟩ := h
        obtain ⟨hm, he⟩ := ih hr1
        refine ⟨List.mem_cons_of_mem _ hm, ?_⟩
        have hx1 : ¬ x = c := fun e => hx e.symm
        rw [List.erase_cons_tail (by simpa using hx1), he]

theorem eraseFirst_of_mem {c : Ptr} {l : List Ptr} (h : c ∈ l) :
    eraseFirst c l = some (l.erase c) := by
  cases hr : eraseFirst c l with
  | none => exact absurd h (eraseFirst_eq_none.mp hr)
  | some r => rw [(eraseFirst_eq_some hr).2]

/-- What a returning `AddComponent` did: the handle is appended, the handle
table is untouched, the cache of the handle's kind was null and now holds the
payload, and the caches of the other kinds are as before. -/
theorem addComponent_returned {this : Ptr} {s s1 : State} {c : Ptr}
    (h : GameObject.AddComponent this s c = .returned () s1) :
    c ≠ nullptr ∧
    s1.obj.mComponentList = s.obj.mComponentList ++ [c] ∧
    s1.mem.components = s.mem.components ∧
    (∀ k, k ≠ (s.mem.components c).mType → s1.obj.cache k = s.obj.cache k) ∧
    (∀ p, s.obj.cache (s.mem.components c).mType = some p →
      p = nullptr ∧ s1.obj.cache (s.mem.components c).mType = some (s.mem.components c).mObject) := by
  unfold GameObject.AddComponent at h
  by_cases hc : c = nullptr
  · simp [hc] at h
  · refine ⟨hc, ?_⟩
    simp only [hc, if_false] at h
    cases ht : (s.mem.components c).mType <;> simp only [ht] at h <;>
      (try split_ifs at h) <;>
      first
      | cases h; done
      | (cases h
         refine ⟨rfl, rfl, ?_, ?_⟩
         · intro k hk
           cases k <;> simp_all [GameObject.cache]
         · intro p hp
           simp_all [GameObject.cache])

/-- What `RemoveComponent` does with a handle that is not in the list. -/
theorem removeComponent_of_not_mem {s : State} {c : Ptr} (h : c ∉ s.obj.mComponentList) :
    GameObject.RemoveComponent s c = .returned false s := by
  unfold GameObject.RemoveComponent
  rw [eraseFirst_eq_none.mpr h]

/-- What a returning `RemoveComponent` did when it returned `true`: the first
occurrence of the handle is erased, the handle table is untouched, the cache of
the handle's kind was non-null and is now null, and the caches of the other
kinds are as before. -/
theorem removeComponent_returned_true {s s1 : State} {c : Ptr}
    (h : GameObject.RemoveComponent s c = .returned true s1) :
    c ∈ s.obj.mComponentList ∧
    s1.obj.mComponentList = s.obj.mComponentList.erase c ∧
    s1.mem.components = s.mem.components ∧
    (∀ k, k ≠ (s.mem.components c).mType → s1.obj.cache k = s.obj.cache k) ∧
    (∀ p, s1.obj.cache (s.mem.components c).mType = some p → p = nullptr) := by
  unfold GameObject.RemoveComponent at h
  cases hr : eraseFirst c s.obj.mComponentList with
  | none => simp [hr] at h
  | some r =>
      obtain ⟨hm, he⟩ := eraseFirst_eq_some hr
      refine ⟨hm, ?_⟩
      simp only [hr] at h
      by_cases hc : c = nullptr
      · simp [hc] at h
      · simp only [hc, if_false] at h
        cases ht : (s.mem.components c).mType <;> simp only [ht] at h <;>
          (try split_ifs at h) <;>
          first
          | cases h; done
          | (cases h
             refine ⟨he, rfl, ?_, ?_⟩
             · intro k hk
               cases k <;> simp_all [GameObject.cache]
             · intro p hp
               simp_all [GameObject.cache])

/-- A call of `RemoveComponent` that returns `false` changed nothing. -/
theorem removeComponent_returned_false {s s1 : State} {c : Ptr}
    (h : GameObject.RemoveComponent s c = .returned false s1) :
    c ∉ s.obj.mComponentList ∧ s1 = s := by
  unfold GameObject.RemoveComponent at h
  cases hr : eraseFirst c s.obj.mComponentList with
  | none =>
      simp only [hr] at h
      cases h
      exact ⟨eraseFirst_eq_none.mp hr, rfl⟩
  | some r =>
      simp only [hr] at h
      by_cases hc : c = nullptr
      · simp [hc] at h
      · simp only [hc, if_false] at h
        cases ht : (s.mem.components c).mType <;> simp only [ht] at h <;>
          (try split_ifs at h) <;> cases h

theorem cache_eq_none {o : GameObject} {k : ComponentType} :
    o.cache k = none ↔ k = .Script := by
  cases k <;> simp [GameObject.cache]

theorem cache_isSome_congr (o o1 : GameObject) {k : ComponentType} {p : Ptr}
    (h : o.cache k = some p) : ∃ q, o1.cache k = some q := by
  cases k <;> simp_all [GameObject.cache]

theorem handlesOfKind_append (m : Memory) (k : ComponentType) (l r : List Ptr) :
    handlesOfKind m k (l ++ r) = handlesOfKind m k l ++ handlesOfKind m k r := by
  simp [handlesOfKind]

theorem mem_handlesOfKind {m : Memory} {k : ComponentType} {l : List Ptr} {c : Ptr} :
    c ∈ handlesOfKind m k l ↔ c ∈ l ∧ (m.components c).mType = k := by
  simp [handlesOfKind]

theorem handlesOfKind_congr {m m1 : Memory} (h : m1.components = m.components)
    (k : ComponentType) (l : List Ptr) : handlesOfKind m1 k l = handlesOfKind m k l := by
  simp [handlesOfKind, h]

/-- Erasing a handle of kind `k` takes one handle of kind `k` away. -/
theorem handlesOfKind_erase_self {m : Memory} {l : List Ptr} {c : Ptr} (h : c ∈ l) :
    (handlesOfKind m (m.components c).mType l).length =
      (handlesOfKind m (m.components c).mType (l.erase c)).length + 1 := by
  have hp : (handlesOfKind m (m.components c).mType l).Perm
      (handlesOfKind m (m.components c).mType (c :: l.erase c)) :=
    (List.perm_cons_erase h).filter _
  rw [hp.length_eq]
  simp [handlesOfKind]

/-- The handles of a kind that are left after an erasure were there before. -/
theorem handlesOfKind_erase_length_le (m : Memory) (k : ComponentType) (l : List Ptr) (c : Ptr) :
    (handlesOfKind m k (l.erase c)).length ≤ (handlesOfKind m k l).length :=
  ((List.erase_sublist c l).filter _).length_le

theorem consistent_new (m : Memory) : Consistent { obj := GameObject.new, mem := m } where
  nonnull := by simp [GameObject.new]
  payload := by simp [GameObject.new]
  cached := by simp [GameObject.new]
  attached := by
    intro k p h hp
    cases k <;> simp_all [GameObject.cache, GameObject.new]
  single := by simp [GameObject.new, handlesOfKind]

/-- In a consistent state a kind whose cache is null has no handle in the list. -/
theorem Consistent.no_handle_of_null {s : State} (hs : Consistent s) {k : ComponentType}
    (hk : s.obj.cache k = some nullptr) : handlesOfKind s.mem k s.obj.mComponentList = [] := by
  rw [List.eq_nil_iff_forall_not_mem]
  intro c hc
  obtain ⟨hm, ht⟩ := mem_handlesOfKind.mp hc
  have h1 := hs.cached c hm nullptr (by rw [ht]; exact hk)
  exact hs.payload c hm h1.symm

theorem consistent_add {this : Ptr} {s s1 : State} {c : Ptr} (hs : Consistent s)
    (hp : (s.mem.components c).mObject ≠ nullptr)
    (h : GameObject.AddComponent this s c = .returned () s1) : Consistent s1 := by
  obtain ⟨hnull, hl, hm, hother, hself⟩ := addComponent_returned h
  constructor
  · intro c1 hc1
    rw [hl, List.mem_append, List.mem_singleton] at hc1
    rcases hc1 with hc1 | rfl
    · exact hs.nonnull c1 hc1
    · exact hnull
  · intro c1 hc1
    rw [hl, List.mem_append, List.mem_singleton] at hc1
    rw [hm]
    rcases hc1 with hc1 | rfl
    · exact hs.payload c1 hc1
    · exact hp
  · intro c1 hc1 p hcp
    rw [hl, List.mem_append, List.mem_singleton] at hc1
    rw [hm] at hcp ⊢
    rcases hc1 with hc1 | rfl
    · by_cases hk : (s.mem.components c1).mType = (s.mem.components c).mType
      · exfalso
        obtain ⟨q, hq⟩ := cache_isSome_congr s1.obj s.obj hcp
        have hq0 := (hself q (hk ▸ hq)).1
        subst hq0
        exact hs.payload c1 hc1 (hs.cached c1 hc1 nullptr hq).symm
      · rw [hother _ hk] at hcp
        exact hs.cached c1 hc1 p hcp
    · obtain ⟨q, hq⟩ := cache_isSome_congr s1.obj s.obj hcp
      have h2 := (hself q hq).2
      rw [h2] at hcp
      exact (Option.some.inj hcp).symm
  · intro k p hkp hp0
    by_cases hk : k = (s.mem.components c).mType
    · exact ⟨c, by rw [hl]; simp, by rw [hm]; exact hk.symm⟩
    · rw [hother k hk] at hkp
      obtain ⟨c1, hc1, ht⟩ := hs.attached k p hkp hp0
      exact ⟨c1, by rw [hl]; exact List.mem_append_left _ hc1, by rw [hm]; exact ht⟩
  · intro k p hkp
    rw [handlesOfKind_congr hm, hl, handlesOfKind_append]
    by_cases hk : k = (s.mem.components c).mType
    · obtain ⟨q, hq⟩ := cache_isSome_congr s1.obj s.obj hkp
      have hq0 := (hself q (hk ▸ hq)).1
      subst hq0
      rw [hs.no_handle_of_null hq, List.nil_append]
      exact le_trans (List.length_filter_le _ _) (by simp)
    · rw [hother k hk] at hkp
      have : handlesOfKind s.mem k [c] = [] := by
        simp [handlesOfKind]
        exact fun e => hk e.symm
      rw [this, List.append_nil]
      exact hs.single k p hkp

theorem consistent_remove {s s1 : State} {c : Ptr} {found : Bool} (hs : Consistent s)
    (h : GameObject.RemoveComponent s c = .returned found s1) : Consistent s1 := by
  cases found with
  | false => rw [(removeComponent_returned_false h).2]; exact hs
  | true =>
      obtain ⟨hc, hl, hm, hother, hself⟩ := removeComponent_returned_true h
      have hsub : ∀ c1, c1 ∈ s1.obj.mComponentList → c1 ∈ s.obj.mComponentList := by
        intro c1 hc1
        rw [hl] at hc1
        exact List.mem_of_mem_erase hc1
      constructor
      · exact fun c1 hc1 => hs.nonnull c1 (hsub c1 hc1)
      · intro c1 hc1
        rw [hm]
        exact hs.payload c1 (hsub c1 hc1)
      · intro c1 hc1 p hcp
        rw [hm] at hcp ⊢
        by_cases hk : (s.mem.components c1).mType = (s.mem.components c).mType
        · exfalso
          obtain ⟨q, hq⟩ := cache_isSome_congr s1.obj s.obj hcp
          have h1 := hs.single _ q hq
          rw [hk, handlesOfKind_erase_self hc] at h1
          have h2 : c1 ∈ handlesOfKind s.mem (s.mem.components c).mType
              (s.obj.mComponentList.erase c) :=
            mem_handlesOfKind.mpr ⟨hl ▸ hc1, hk⟩
          have h3 := List.length_pos_of_mem h2
          omega
        · rw [hother _ hk] at hcp
          exact hs.cached c1 (hsub c1 hc1) p hcp
      · intro k p hkp hp0
        by_cases hk : k = (s.mem.components c).mType
        · exact absurd (hself p (hk ▸ hkp)) hp0
        · rw [hother k hk] at hkp
          obtain ⟨c1, hc1, ht⟩ := hs.attached k p hkp hp0
          refine ⟨c1, ?_, by rw [hm]; exact ht⟩
          rw [hl]
          refine (List.mem_erase_of_ne ?_).mpr hc1
          rintro rfl
          exact hk ht.symm
      · intro k p hkp
        obtain ⟨q, hq⟩ := cache_isSome_congr s1.obj s.obj hkp
        rw [handlesOfKind_congr hm, hl]
        exact le_trans (handlesOfKind_erase_length_le _ _ _ _) (hs.single k q hq)

/-- Every reachable state is consistent. -/
theorem consistent_of_reachable {this : Ptr} {s : State} (h : Reachable this s) :
    Consistent s := by
  induction h with
  | init m => exact consistent_new m
  | add c _ hp hadd ih => exact consistent_add ih hp hadd
  | remove c found _ hrem ih => exact consistent_remove ih hrem

/-- In a consistent state, removing a handle that is in the list returns `true`. -/
theorem removeComponent_of_mem {s : State} (hs : Consistent s) {c : Ptr}
    (hc : c ∈ s.obj.mComponentList) :
    ∃ s1, GameObject.RemoveComponent s c = .returned true s1 := by
  have hnull : ¬ c = nullptr := hs.nonnull c hc
  have hcache := hs.cached c hc
  have hpay := hs.payload c hc
  unfold GameObject.RemoveComponent
  rw [eraseFirst_of_mem hc]
  simp only [hnull, if_false]
  cases ht : (s.mem.components c).mType <;>
    simp only [ht, GameObject.cache, Option.some.injEq, forall_eq'] at hcache ⊢ <;>
    first
    | exact ⟨_, rfl⟩
    | (rw [if_neg (by rw [hcache]; exact hpay)]
       exact ⟨_, rfl⟩)

/-- An `AddComponent` of a `Script` handle only appends the handle. -/
theorem addComponent_script (this : Ptr) (s : State) (c : Ptr) (hc : c ≠ nullptr)
    (ht : (s.mem.components c).mType = .Script) :
    GameObject.AddComponent this s c =
      .returned () { s with obj := { s.obj with mComponentList := s.obj.mComponentList ++ [c] } } := by
  unfold GameObject.AddComponent
  simp [hc, ht]

theorem reachable_sampleCamera : Reachable 1000 sampleCamera :=
  Reachable.add 1 (Reachable.init sampleMemory) (by decide) rfl

theorem reachable_sampleAttached : Reachable 1000 sampleAttached :=
  Reachable.add 5
    (Reachable.add 3 reachable_sampleCamera (by decide) rfl) (by decide) rfl

theorem reachable_sampleScriptTwice : Reachable 1000 sampleScriptTwice :=
  Reachable.add 3
    (Reachable.add 3 (Reachable.init sampleMemory) (by decide) rfl) (by decide) rfl

/-- Why the handles are required to carry a payload: a camera handle whose
payload is null leaves the camera cache null, so a second one is accepted. -/
theorem null_payload_cameras_both_accepted :
    ReachableAny 1000 sampleNullCameras ∧
    handlesOfKind sampleNullCameras.mem ComponentType.Camera
      sampleNullCameras.obj.mComponentList = [12, 13] ∧
    sampleNullCameras.obj.mCameraCache = nullptr :=
  ⟨ReachableAny.add 13 (ReachableAny.add 12 (ReachableAny.init sampleMemory) rfl) rfl,
    by decide, rfl⟩

/-! ## Claims on `AddComponent` and `RemoveComponent` -/

/-- C1: in every state reachable from a newly constructed entity by calls of
`AddComponent` and `RemoveComponent` that return, the handles attached having
a payload: each of the eight kinds other than `Script` has a cache pointer,
which is non-null if and only if the list contains a handle of that kind; and
for every `i < GetComponentCount()`, `GetComponentIndex(i)` is a handle whose
kind's cache pointer, when its kind is one of the eight, equals the handle's
payload. -/
theorem C1_cache_agrees_with_list (this : Ptr) (s : State) (h : Reachable this s) :
    (∀ k, k ≠ ComponentType.Script →
      ∃ p, s.obj.cache k = some p ∧
        (p ≠ nullptr ↔ ∃ c ∈ s.obj.mComponentList, (s.mem.components c).mType = k)) ∧
    (∀ i, i < s.obj.GetComponentCount →
      ∃ c, s.obj.GetComponentIndex i = some c ∧
        ((s.mem.components c).mType ≠ ComponentType.Script →
          s.obj.cache (s.mem.components c).mType = some (s.mem.components c).mObject)) := by
  have hs := consistent_of_reachable h
  constructor
  · intro k hk
    cases hp : s.obj.cache k with
    | none => exact absurd (cache_eq_none.mp hp) hk
    | some p =>
        refine ⟨p, rfl, fun hp0 => hs.attached k p hp hp0, ?_⟩
        rintro ⟨c, hc, rfl⟩
        rw [hs.cached c hc p hp]
        exact hs.payload c hc
  · intro i hi
    have hi1 : i < s.obj.mComponentList.length := hi
    refine ⟨s.obj.mComponentList[i], List.getElem?_eq_getElem hi1, fun hk => ?_⟩
    cases hp : s.obj.cache (s.mem.components s.obj.mComponentList[i]).mType with
    | none => exact absurd (cache_eq_none.mp hp) hk
    | some p => rw [hs.cached _ (List.getElem_mem hi1) p hp]

/-- C1 at the entity with a camera, a script and a rigid body attached. -/
theorem C1_cache_agrees_with_list_witness :
    Reachable 1000 sampleAttached ∧
    sampleAttached.obj.mComponentList = [1, 3, 5] ∧
    ((∀ k, k ≠ ComponentType.Script →
      ∃ p, sampleAttached.obj.cache k = some p ∧
        (p ≠ nullptr ↔
          ∃ c ∈ sampleAttached.obj.mComponentList, (sampleAttached.mem.components c).mType = k)) ∧
    (∀ i, i < sampleAttached.obj.GetComponentCount →
      ∃ c, sampleAttached.obj.GetComponentIndex i = some c ∧
        ((sampleAttached.mem.components c).mType ≠ ComponentType.Script →
          sampleAttached.obj.cache (sampleAttached.mem.components c).mType =
            some (sampleAttached.mem.components c).mObject))) :=
  ⟨reachable_sampleAttached, rfl,
    C1_cache_agrees_with_list 1000 sampleAttached reachable_sampleAttached⟩

/-- C2: when the cache pointer of one of the eight cached kinds is non-null,
`AddComponent` of a handle of that kind stops on the assertion, and in the
state it stops in that cache pointer, like every other, holds what it held. -/
theorem C2_second_attach_traps (this : Ptr) (s : State) (c p : Ptr) (hc : c ≠ nullptr)
    (hcache : s.obj.cache (s.mem.components c).mType = some p) (hp : p ≠ nullptr) :
    ∃ s1, GameObject.AddComponent this s c = .aborted .assertFailed s1 ∧
      s1.obj.cache (s.mem.components c).mType = some p ∧
      (∀ k, s1.obj.cache k = s.obj.cache k) ∧
      s1.mem = s.mem := by
  have hc0 : ¬ c = nullptr := hc
  unfold GameObject.AddComponent
  simp only [hc0, if_false]
  cases ht : (s.mem.components c).mType <;>
    simp only [ht, GameObject.cache, Option.some.injEq] at hcache ⊢ <;>
    first
    | cases hcache; done
    | (subst hcache
       rw [if_pos hp]
       exact ⟨_, rfl, rfl, fun k => by cases k <;> rfl, rfl⟩)

/-- C2 at the entity that has the camera of handle 1 (payload 10): attaching
the camera of handle 2 stops on the assertion and the camera cache still holds
10. -/
theorem C2_second_attach_traps_witness :
    (2 : Ptr) ≠ nullptr ∧
    sampleCamera.obj.cache (sampleCamera.mem.components 2).mType = some 10 ∧
    (10 : Ptr) ≠ nullptr ∧
    ∃ s1, GameObject.AddComponent 1000 sampleCamera 2 = .aborted .assertFailed s1 ∧
      s1.obj.cache (sampleCamera.mem.components 2).mType = some 10 ∧
      (∀ k, s1.obj.cache k = sampleCamera.obj.cache k) ∧
      s1.mem = sampleCamera.mem :=
  ⟨by decide, rfl, by decide,
    C2_second_attach_traps 1000 sampleCamera 2 10 (by decide) rfl (by decide)⟩

/-- C3, as stated, fails: two `Script` handles attached one after the other to
a new entity are both accepted, and the list then holds two handles of kind
`Script`. -/
theorem C3_two_scripts_accepted :
    ¬ (∀ (this : Ptr) (s : State), ReachableAny this s →
        ∀ k, (handlesOfKind s.mem k s.obj.mComponentList).length ≤ 1) := by
  intro h
  have hr : ReachableAny 1000 sampleTwoScripts :=
    ReachableAny.add 4 (ReachableAny.add 3 (ReachableAny.init sampleMemory) rfl) rfl
  exact absurd (h 1000 sampleTwoScripts hr ComponentType.Script) (by decide)

/-- C3, amended: in every state reachable by calls of `AddComponent` and
`RemoveComponent` that return, the handles attached having a payload, the list
holds at most one handle of each of the eight kinds other than `Script`;
a `Script` handle is always accepted and appended, whatever the list holds. -/
theorem C3_at_most_one_of_cached_kinds (this : Ptr) (s : State) (h : Reachable this s) :
    (∀ k, k ≠ ComponentType.Script →
      (handlesOfKind s.mem k s.obj.mComponentList).length ≤ 1) ∧
    (∀ c, c ≠ nullptr → (s.mem.components c).mType = ComponentType.Script →
      GameObject.AddComponent this s c =
        .returned ()
          { s with obj := { s.obj with mComponentList := s.obj.mComponentList ++ [c] } }) := by
  have hs := consistent_of_reachable h
  constructor
  · intro k hk
    cases hp : s.obj.cache k with
    | none => exact absurd (cache_eq_none.mp hp) hk
    | some p => exact hs.single k p hp
  · exact fun c hc ht => addComponent_script this s c hc ht

/-- C3, amended, at the entity with a camera, a script and a rigid body. -/
theorem C3_at_most_one_of_cached_kinds_witness :
    Reachable 1000 sampleAttached ∧
    ((∀ k, k ≠ ComponentType.Script →
      (handlesOfKind sampleAttached.mem k sampleAttached.obj.mComponentList).length ≤ 1) ∧
    (∀ c, c ≠ nullptr → (sampleAttached.mem.components c).mType = ComponentType.Script →
      GameObject.AddComponent 1000 sampleAttached c =
        .returned ()
          { sampleAttached with
            obj := { sampleAttached.obj with
                     mComponentList := sampleAttached.obj.mComponentList ++ [c] } })) :=
  ⟨reachable_sampleAttached,
    C3_at_most_one_of_cached_kinds 1000 sampleAttached reachable_sampleAttached⟩

/-- C4, as stated, fails: after the `Script` handle 3 has been attached twice,
`RemoveComponent(3)` returns `true` and handle 3 is still in the list. -/
theorem C4_duplicate_script_left :
    ¬ (∀ (this : Ptr) (s : State) (c : Ptr), Reachable this s → c ∈ s.obj.mComponentList →
        ∃ s1, GameObject.RemoveComponent s c = .returned true s1 ∧
          c ∉ s1.obj.mComponentList) := by
  intro h
  obtain ⟨s1, h1, h2⟩ := h 1000 sampleScriptTwice 3 reachable_sampleScriptTwice (by decide)
  have h3 : GameObject.RemoveComponent sampleScriptTwice 3 = .returned true sampleScriptLeft :=
    rfl
  rw [h3] at h1
  cases h1
  exact h2 (by decide)

/-- C4, amended: for every reachable state and every handle `c` in the list,
`RemoveComponent(c)` returns `true`; it takes out the first occurrence of `c`
and keeps the other entries in their order; the cache pointers of the other
kinds are unchanged; and when `c` is of one of the eight kinds other than
`Script`, `c` no longer occurs in the list and the cache pointer of its kind is
null. -/
theorem C4_remove_attached (this : Ptr) (s : State) (c : Ptr) (h : Reachable this s)
    (hc : c ∈ s.obj.mComponentList) :
    ∃ s1, GameObject.RemoveComponent s c = .returned true s1 ∧
      (∃ front back, s.obj.mComponentList = front ++ c :: back ∧ c ∉ front ∧
        s1.obj.mComponentList = front ++ back) ∧
      (∀ k, k ≠ (s.mem.components c).mType → s1.obj.cache k = s.obj.cache k) ∧
      ((s.mem.components c).mType ≠ ComponentType.Script →
        c ∉ s1.obj.mComponentList ∧
        s1.obj.cache (s.mem.components c).mType = some nullptr) := by
  have hs := consistent_of_reachable h
  obtain ⟨s1, h1⟩ := removeComponent_of_mem hs hc
  obtain ⟨_, hl, hm, hother, hself⟩ := removeComponent_returned_true h1
  refine ⟨s1, h1, ?_, hother, fun hk => ⟨?_, ?_⟩⟩
  · obtain ⟨front, back, hf, hsplit, he⟩ := List.exists_erase_eq hc
    exact ⟨front, back, hsplit, hf, by rw [hl, he]⟩
  · intro hc1
    cases hp : s.obj.cache (s.mem.components c).mType with
    | none => exact hk (cache_eq_none.mp hp)
    | some p =>
        have h2 := hs.single _ p hp
        rw [handlesOfKind_erase_self hc] at h2
        have h3 : c ∈ handlesOfKind s.mem (s.mem.components c).mType
            (s.obj.mComponentList.erase c) :=
          mem_handlesOfKind.mpr ⟨hl ▸ hc1, rfl⟩
        have h4 := List.length_pos_of_mem h3
        omega
  · cases hp : s1.obj.cache (s.mem.components c).mType with
    | none => exact absurd (cache_eq_none.mp hp) hk
    | some p => rw [hself p hp]

/-- C4, amended, at the entity with a camera, a script and a rigid body:
removing the script of handle 3. -/
theorem C4_remove_attached_witness :
    Reachable 1000 sampleAttached ∧ 3 ∈ sampleAttached.obj.mComponentList ∧
    ∃ s1, GameObject.RemoveComponent sampleAttached 3 = .returned true s1 ∧
      (∃ front back, sampleAttached.obj.mComponentList = front ++ 3 :: back ∧ 3 ∉ front ∧
        s1.obj.mComponentList = front ++ back) ∧
      (∀ k, k ≠ (sampleAttached.mem.components 3).mType →
        s1.obj.cache k = sampleAttached.obj.cache k) ∧
      ((sampleAttached.mem.components 3).mType ≠ ComponentType.Script →
        3 ∉ s1.obj.mComponentList ∧
        s1.obj.cache (sampleAttached.mem.components 3).mType = some nullptr) :=
  ⟨reachable_sampleAttached, by decide,
    C4_remove_attached 1000 sampleAttached 3 reachable_sampleAttached (by decide)⟩

/-- C5: `RemoveComponent` of a handle that is not in the component list returns
`false` and leaves the entity and the memory exactly as they were: the list
and every cache pointer in particular. -/
theorem C5_remove_absent_returns_false (s : State) (c : Ptr)
    (h : c ∉ s.obj.mComponentList) :
    GameObject.RemoveComponent s c = .returned false s ∧
    (GameObject.RemoveComponent s c).state.obj.mComponentList = s.obj.mComponentList ∧
    (∀ k, (GameObject.RemoveComponent s c).state.obj.cache k = s.obj.cache k) := by
  rw [removeComponent_of_not_mem h]
  exact ⟨rfl, rfl, fun _ => rfl⟩

/-- C5 right after a successful removal: the camera of handle 1 was attached
and removed, and is removed a second time. -/
theorem C5_remove_absent_returns_false_witness :
    GameObject.RemoveComponent sampleCamera 1 = .returned true sampleCameraRemoved ∧
    1 ∉ sampleCameraRemoved.obj.mComponentList ∧
    (GameObject.RemoveComponent sampleCameraRemoved 1 = .returned false sampleCameraRemoved ∧
    (GameObject.RemoveComponent sampleCameraRemoved 1).state.obj.mComponentList =
      sampleCameraRemoved.obj.mComponentList ∧
    (∀ k, (GameObject.RemoveComponent sampleCameraRemoved 1).state.obj.cache k =
      sampleCameraRemoved.obj.cache k)) :=
  ⟨rfl, by decide, C5_remove_absent_returns_false sampleCameraRemoved 1 (by decide)⟩

/-! ## `Activate` and `Deactivate` -/

theorem store_same {β : Type} (table : Ptr → β) (p : Ptr) (v : β) : store table p v p = v := by
  simp [store]

/-- One step of the loop on a valid handle: it goes through, sets the active
state of the handle's component, keeps the active states already set to the
same value, and does not write the handle table nor the cameras, texts,
transforms and panels. -/
theorem setActiveStep_ok (b : Bool) (m : Memory) (c : Ptr) (hc : c ≠ nullptr)
    (hp : (m.components c).mObject ≠ nullptr) :
    ∃ m1, setActiveStep b m c = .ok m1 ∧
      m1.components = m.components ∧ m1.cameras = m.cameras ∧ m1.texts = m.texts ∧
      m1.transforms = m.transforms ∧ m1.panels = m.panels ∧
      ActiveStateIs m1 c b ∧ (∀ c1, ActiveStateIs m c1 b → ActiveStateIs m1 c1 b) := by
  have hc0 : ¬ c = nullptr := hc
  have hp0 : ¬ (m.components c).mObject = nullptr := hp
  unfold setActiveStep
  simp only [hc0, hp0, if_false]
  cases ht : (m.components c).mType <;>
    refine ⟨_, rfl, rfl, rfl, rfl, rfl, rfl, ?_, ?_⟩
  all_goals first
    | (intro c1 h1
       unfold ActiveStateIs at h1 ⊢
       try simp only [Memory.setIsActive]
       obtain ⟨h1, h2, h3, h4, h5⟩ := h1
       refine ⟨?_, ?_, ?_, ?_, ?_⟩ <;> intro hk <;> (try simp only [store]) <;>
         (try split_ifs) <;> simp_all)
    | simp [ActiveStateIs, ht, store_same, Memory.setIsActive]

/-- The loop over a list of valid handles returns; it sets the active state of
every component it visits, keeps those already set to the same value, keeps
the entity it was given, and does not write the handle table nor the cameras,
texts, transforms and panels. -/
theorem setActiveLoop_ok (b : Bool) (o : GameObject) (l : List Ptr) (m : Memory)
    (hl : ∀ c ∈ l, c ≠ nullptr ∧ (m.components c).mObject ≠ nullptr) :
    ∃ m1, setActiveLoop b o l m = .returned () { obj := o, mem := m1 } ∧
      m1.components = m.components ∧ m1.cameras = m.cameras ∧ m1.texts = m.texts ∧
      m1.transforms = m.transforms ∧ m1.panels = m.panels ∧
      (∀ c ∈ l, ActiveStateIs m1 c b) ∧ (∀ c, ActiveStateIs m c b → ActiveStateIs m1 c b) := by
  induction l generalizing m with
  | nil => exact ⟨m, rfl, rfl, rfl, rfl, rfl, rfl, by simp, fun _ h => h⟩
  | cons c rest ih =>
      obtain ⟨hc, hp⟩ := hl c (List.mem_cons_self _ _)
      obtain ⟨m1, h1, hcomp1, hcam1, htext1, htr1, hpan1, hset1, hkeep1⟩ :=
        setActiveStep_ok b m c hc hp
      have hrest : ∀ c1 ∈ rest, c1 ≠ nullptr ∧ (m1.components c1).mObject ≠ nullptr := by
        intro c1 hc1
        rw [hcomp1]
        exact hl c1 (List.mem_cons_of_mem _ hc1)
      obtain ⟨m2, h2, hcomp2, hcam2, htext2, htr2, hpan2, hset2, hkeep2⟩ := ih m1 hrest
      refine ⟨m2, ?_, hcomp2.trans hcomp1, hcam2.trans hcam1, htext2.trans htext1,
        htr2.trans htr1, hpan2.trans hpan1, ?_, fun c1 h => hkeep2 c1 (hkeep1 c1 h)⟩
      · simp only [setActiveLoop, h1]
        exact h2
      · intro c1 hc1
        rcases List.mem_cons.mp hc1 with rfl | hc1
        · exact hkeep2 _ hset1
        · exact hset2 c1 hc1

/-- The loop never writes the entity: whatever the outcome, the entity of the
state reached is the one the loop was given. -/
theorem setActiveLoop_obj (b : Bool) (o : GameObject) (l : List Ptr) (m : Memory) :
    (setActiveLoop b o l m).state.obj = o := by
  induction l generalizing m with
  | nil => rfl
  | cons c rest ih =>
      simp only [setActiveLoop]
      cases setActiveStep b m c with
      | ok m1 => exact ih m1
      | error f => rfl

/-! ## Claims on `SetPosition` and the physics-forwarding members -/

/-- C6: for every entity whose transform cache and rigid-body cache are
non-null and every position `p`, `SetPosition(p)` returns, and afterwards the
transform position and the rigid body's transform position equal `p`, as do
the mesh-renderer transform position, the camera transform position, the actor
position and the light position whenever the component is attached; the rigid
body's orientation is the one it had, and the entity itself is unchanged. -/
theorem C6_setPosition_mirrors_position (s : State) (p : Vec3)
    (ht : s.obj.mTransformCache ≠ nullptr) (hr : s.obj.mRigidBodyCache ≠ nullptr) :
    ∃ s1, GameObject.SetPositionVec s p = .returned () s1 ∧
      s1.obj = s.obj ∧
      (s1.mem.transforms s.obj.mTransformCache).position = p ∧
      (s1.mem.rigidBodies s.obj.mRigidBodyCache).transform.position = p ∧
      (s.obj.mMeshRendererCache ≠ nullptr →
        (s1.mem.meshRenderers s.obj.mMeshRendererCache).transform.position = p) ∧
      (s.obj.mCameraCache ≠ nullptr →
        (s1.mem.cameras s.obj.mCameraCache).transform.position = p) ∧
      (s.obj.mActorCache ≠ nullptr → (s1.mem.actors s.obj.mActorCache).position = p) ∧
      (s.obj.mLightCache ≠ nullptr → (s1.mem.lights s.obj.mLightCache).position = p) ∧
      (s1.mem.rigidBodies s.obj.mRigidBodyCache).transform.orientation =
        (s.mem.rigidBodies s.obj.mRigidBodyCache).transform.orientation := by
  have ht0 : ¬ s.obj.mTransformCache = nullptr := ht
  have hr0 : ¬ s.obj.mRigidBodyCache = nullptr := hr
  have hp : (⟨p.x, p.y, p.z⟩ : Vec3) = p := rfl
  by_cases hm : s.obj.mMeshRendererCache = nullptr <;>
    by_cases hcam : s.obj.mCameraCache = nullptr <;>
    by_cases ha : s.obj.mActorCache = nullptr <;>
    by_cases hl : s.obj.mLightCache = nullptr <;>
    simp only [GameObject.SetPositionVec, GameObject.SetPosition, ht0, hr0, hm, hcam, ha, hl,
      hp, ne_eq, not_true_eq_false, not_false_eq_true, if_true, if_false] <;>
    exact ⟨_, rfl, rfl, by simp [store, Memory.setTransform, Memory.getTransform, Memory.call]⟩

/-- C6 at the entity with every kind of positioned component attached, moved
to `(1, 2, 3)`. -/
theorem C6_setPosition_mirrors_position_witness :
    sampleFull.obj.mTransformCache ≠ nullptr ∧ sampleFull.obj.mRigidBodyCache ≠ nullptr ∧
    ∃ s1, GameObject.SetPositionVec sampleFull ⟨1, 2, 3⟩ = .returned () s1 ∧
      s1.obj = sampleFull.obj ∧
      (s1.mem.transforms sampleFull.obj.mTransformCache).position = ⟨1, 2, 3⟩ ∧
      (s1.mem.rigidBodies sampleFull.obj.mRigidBodyCache).transform.position = ⟨1, 2, 3⟩ ∧
      (sampleFull.obj.mMeshRendererCache ≠ nullptr →
        (s1.mem.meshRenderers sampleFull.obj.mMeshRendererCache).transform.position =
          ⟨1, 2, 3⟩) ∧
      (sampleFull.obj.mCameraCache ≠ nullptr →
        (s1.mem.cameras sampleFull.obj.mCameraCache).transform.position = ⟨1, 2, 3⟩) ∧
      (sampleFull.obj.mActorCache ≠ nullptr →
        (s1.mem.actors sampleFull.obj.mActorCache).position = ⟨1, 2, 3⟩) ∧
      (sampleFull.obj.mLightCache ≠ nullptr →
        (s1.mem.lights sampleFull.obj.mLightCache).position = ⟨1, 2, 3⟩) ∧
      (s1.mem.rigidBodies sampleFull.obj.mRigidBodyCache).transform.orientation =
        (sampleFull.mem.rigidBodies sampleFull.obj.mRigidBodyCache).transform.orientation :=
  ⟨by decide, by decide,
    C6_setPosition_mirrors_position sampleFull ⟨1, 2, 3⟩ (by decide) (by decide)⟩

/-- C7, as stated, fails: on an entity with a transform and no rigid body,
`SetPosition(1, 2, 3)` returns and the transform position, `(0, 0, 0)` before
the call, is `(1, 2, 3)` after it. -/
theorem C7_setPosition_moves_without_body :
    ¬ (∀ (s : State) (p : Vec3), s.obj.mRigidBodyCache = nullptr →
        ∃ s1, GameObject.SetPositionVec s p = .returned () s1 ∧
          (s1.mem.transforms s.obj.mTransformCache).position =
            (s.mem.transforms s.obj.mTransformCache).position) := by
  intro h
  obtain ⟨s1, h1, h2⟩ := h sampleTransformOnly ⟨1, 2, 3⟩ rfl
  have h3 : GameObject.SetPositionVec sampleTransformOnly ⟨1, 2, 3⟩ =
      .returned () (GameObject.SetPositionVec sampleTransformOnly ⟨1, 2, 3⟩).state := rfl
  rw [h3] at h1
  cases h1
  have h4 : ((GameObject.SetPositionVec sampleTransformOnly ⟨1, 2, 3⟩).state.mem.transforms
      sampleTransformOnly.obj.mTransformCache).position = ⟨1, 2, 3⟩ := rfl
  have h5 : (sampleTransformOnly.mem.transforms sampleTransformOnly.obj.mTransformCache).position
      = ⟨0, 0, 0⟩ := rfl
  rw [h4, h5] at h2
  have h6 := congrArg Vec3.x h2
  norm_num at h6

/-- C7, amended: for every entity with a transform cache and no rigid body
attached, `SetPosition(p)` returns, makes no call on the physics collaborator
and leaves the entity and every rigid body as they were; it sets the transform
position to `p`, and likewise the positions held by the mesh renderer, camera,
actor and light that are attached. -/
theorem C7_setPosition_without_body (s : State) (p : Vec3)
    (ht : s.obj.mTransformCache ≠ nullptr) (hr : s.obj.mRigidBodyCache = nullptr) :
    ∃ s1, GameObject.SetPositionVec s p = .returned () s1 ∧
      s1.obj = s.obj ∧
      s1.mem.physicsCalls = s.mem.physicsCalls ∧
      s1.mem.rigidBodies = s.mem.rigidBodies ∧
      (s1.mem.transforms s.obj.mTransformCache).position = p ∧
      (s.obj.mMeshRendererCache ≠ nullptr →
        (s1.mem.meshRenderers s.obj.mMeshRendererCache).transform.position = p) ∧
      (s.obj.mCameraCache ≠ nullptr →
        (s1.mem.cameras s.obj.mCameraCache).transform.position = p) ∧
      (s.obj.mActorCache ≠ nullptr → (s1.mem.actors s.obj.mActorCache).position = p) ∧
      (s.obj.mLightCache ≠ nullptr → (s1.mem.lights s.obj.mLightCache).position = p) := by
  have ht0 : ¬ s.obj.mTransformCache = nullptr := ht
  have hp : (⟨p.x, p.y, p.z⟩ : Vec3) = p := rfl
  by_cases hm : s.obj.mMeshRendererCache = nullptr <;>
    by_cases hcam : s.obj.mCameraCache = nullptr <;>
    by_cases ha : s.obj.mActorCache = nullptr <;>
    by_cases hl : s.obj.mLightCache = nullptr <;>
    simp only [GameObject.SetPositionVec, GameObject.SetPosition, ht0, hr, hm, hcam, ha, hl,
      hp, ne_eq, not_true_eq_false, not_false_eq_true, if_true, if_false] <;>
    exact ⟨_, rfl, rfl, rfl, rfl, by simp [store]⟩

/-- C7, amended, at the entity that has a transform only, moved to `(1, 2, 3)`. -/
theorem C7_setPosition_without_body_witness :
    sampleTransformOnly.obj.mTransformCache ≠ nullptr ∧
    sampleTransformOnly.obj.mRigidBodyCache = nullptr ∧
    ∃ s1, GameObject.SetPositionVec sampleTransformOnly ⟨1, 2, 3⟩ = .returned () s1 ∧
      s1.obj = sampleTransformOnly.obj ∧
      s1.mem.physicsCalls = sampleTransformOnly.mem.physicsCalls ∧
      s1.mem.rigidBodies = sampleTransformOnly.mem.rigidBodies ∧
      (s1.mem.transforms sampleTransformOnly.obj.mTransformCache).position = ⟨1, 2, 3⟩ ∧
      (sampleTransformOnly.obj.mMeshRendererCache ≠ nullptr →
        (s1.mem.meshRenderers sampleTransformOnly.obj.mMeshRendererCache).transform.position =
          ⟨1, 2, 3⟩) ∧
      (sampleTransformOnly.obj.mCameraCache ≠ nullptr →
        (s1.mem.cameras sampleTransformOnly.obj.mCameraCache).transform.position = ⟨1, 2, 3⟩) ∧
      (sampleTransformOnly.obj.mActorCache ≠ nullptr →
        (s1.mem.actors sampleTransformOnly.obj.mActorCache).position = ⟨1, 2, 3⟩) ∧
      (sampleTransformOnly.obj.mLightCache ≠ nullptr →
        (s1.mem.lights sampleTransformOnly.obj.mLightCache).position = ⟨1, 2, 3⟩) :=
  ⟨by decide, rfl,
    C7_setPosition_without_body sampleTransformOnly ⟨1, 2, 3⟩ (by decide) rfl⟩

/-- C8: for every entity with no rigid body attached, each of the
physics-forwarding members (`AddForce`, `AddTorque`, `SetMass`,
`SetLinearDamping`, `SetAngularDamping`, `EnableGravity`, `DisableGravity`,
`CalculatePhysics`, `SetLinearAxisLockFactor`, `SetAngularAxisLockFactor`,
`AddColliderBox`, `AddColliderCapsule`, `AddColliderSphere`, both `AddCollider`,
`SetStatic`, `SetDynamic`, `SetKinematic`), with any arguments, returns and
leaves the whole state as it was: every field of the entity, every object in
memory and the log of calls on the physics collaborator. -/
theorem C8_forwarding_is_noop_without_body (s : State) (op : PhysicsOp)
    (h : s.obj.mRigidBodyCache = nullptr) :
    GameObject.perform s op = .returned () s ∧
    (GameObject.perform s op).state.obj = s.obj ∧
    (GameObject.perform s op).state.mem.physicsCalls = s.mem.physicsCalls := by
  have h1 : GameObject.perform s op = .returned () s := by
    cases op <;>
      simp [GameObject.perform, GameObject.AddForce, GameObject.AddForceVec,
        GameObject.AddTorque, GameObject.AddTorqueVec, GameObject.SetMass,
        GameObject.SetLinearDamping, GameObject.SetAngularDamping, GameObject.EnableGravity,
        GameObject.DisableGravity, GameObject.CalculatePhysics,
        GameObject.SetLinearAxisLockFactor, GameObject.SetAngularAxisLockFactor,
        GameObject.AddColliderBox, GameObject.AddColliderCapsule, GameObject.AddColliderSphere,
        GameObject.AddCollider, GameObject.AddColliderMesh, GameObject.SetStatic,
        GameObject.SetDynamic, GameObject.SetKinematic, h]
  rw [h1]
  exact ⟨rfl, rfl, rfl⟩

/-- C8 at a new entity: `AddCollider` with a null mesh collider, a call that
would dereference the null pointer if a rigid body were attached. -/
theorem C8_forwarding_is_noop_without_body_witness :
    sampleNew.obj.mRigidBodyCache = nullptr ∧
    (GameObject.perform sampleNew (.AddColliderMesh none 1 2 3 4) = .returned () sampleNew ∧
    (GameObject.perform sampleNew (.AddColliderMesh none 1 2 3 4)).state.obj = sampleNew.obj ∧
    (GameObject.perform sampleNew (.AddColliderMesh none 1 2 3 4)).state.mem.physicsCalls =
      sampleNew.mem.physicsCalls) :=
  ⟨rfl, C8_forwarding_is_noop_without_body sampleNew (.AddColliderMesh none 1 2 3 4) rfl⟩

/-! ## Claims on `Activate` and `Deactivate` -/

theorem validHandles_sampleFull : ValidHandles sampleFull := by
  intro c hc
  have h : c ∈ [6, 5, 7, 1, 8, 9, 3] := hc
  simp only [List.mem_cons, List.mem_singleton, List.not_mem_nil, or_false] at h
  rcases h with rfl | rfl | rfl | rfl | rfl | rfl | rfl <;> exact ⟨by decide, by decide⟩

/-- C9: on an entity whose list entries are handles with a payload,
`Activate()` returns with the entity's `isActive` flag `true` and the active
state of every attached `Script`, `RigidBody`, `MeshRenderer`, `Light` and
`Actor` component `true`; `Deactivate()` returns with the flag and each of
those active states `false`; neither writes a camera, a text, a transform or a
panel, nor the handle table. -/
theorem C9_activate_deactivate_fan_out (s : State) (h : ValidHandles s) :
    (∃ s1, GameObject.Activate s = .returned () s1 ∧
      s1.obj.isActive = true ∧
      (∀ c ∈ s.obj.mComponentList, ActiveStateIs s1.mem c true) ∧
      s1.mem.components = s.mem.components ∧ s1.mem.cameras = s.mem.cameras ∧
      s1.mem.texts = s.mem.texts ∧ s1.mem.transforms = s.mem.transforms ∧
      s1.mem.panels = s.mem.panels) ∧
    (∃ s1, GameObject.Deactivate s = .returned () s1 ∧
      s1.obj.isActive = false ∧
      (∀ c ∈ s.obj.mComponentList, ActiveStateIs s1.mem c false) ∧
      s1.mem.components = s.mem.components ∧ s1.mem.cameras = s.mem.cameras ∧
      s1.mem.texts = s.mem.texts ∧ s1.mem.transforms = s.mem.transforms ∧
      s1.mem.panels = s.mem.panels) := by
  constructor
  · obtain ⟨m1, h1, hcomp, hcam, htext, htr, hpan, hset, _⟩ :=
      setActiveLoop_ok true { s.obj with renderDistance := -1, isActive := true }
        s.obj.mComponentList s.mem h
    exact ⟨_, h1, rfl, hset, hcomp, hcam, htext, htr, hpan⟩
  · obtain ⟨m1, h1, hcomp, hcam, htext, htr, hpan, hset, _⟩ :=
      setActiveLoop_ok false { s.obj with renderDistance := -1, isActive := false }
        s.obj.mComponentList s.mem h
    exact ⟨_, h1, rfl, hset, hcomp, hcam, htext, htr, hpan⟩

/-- C9 at the entity with a transform, a rigid body, a mesh renderer, a
camera, a light, an actor and a script attached. -/
theorem C9_activate_deactivate_fan_out_witness :
    ValidHandles sampleFull ∧
    ((∃ s1, GameObject.Activate sampleFull = .returned () s1 ∧
      s1.obj.isActive = true ∧
      (∀ c ∈ sampleFull.obj.mComponentList, ActiveStateIs s1.mem c true) ∧
      s1.mem.components = sampleFull.mem.components ∧ s1.mem.cameras = sampleFull.mem.cameras ∧
      s1.mem.texts = sampleFull.mem.texts ∧ s1.mem.transforms = sampleFull.mem.transforms ∧
      s1.mem.panels = sampleFull.mem.panels) ∧
    (∃ s1, GameObject.Deactivate sampleFull = .returned () s1 ∧
      s1.obj.isActive = false ∧
      (∀ c ∈ sampleFull.obj.mComponentList, ActiveStateIs s1.mem c false) ∧
      s1.mem.components = sampleFull.mem.components ∧ s1.mem.cameras = sampleFull.mem.cameras ∧
      s1.mem.texts = sampleFull.mem.texts ∧ s1.mem.transforms = sampleFull.mem.transforms ∧
      s1.mem.panels = sampleFull.mem.panels)) :=
  ⟨validHandles_sampleFull, C9_activate_deactivate_fan_out sampleFull validHandles_sampleFull⟩

/-- C10: whatever the entity, in the state `Deactivate()` ends in the component
list (contents and order) and every per-kind cache pointer are what they were,
so that `GetComponentCount()` and `GetComponentIndex(i)` give the same values
as before; and `Deactivate()` returns when the list entries are handles with a
payload. -/
theorem C10_deactivate_keeps_components (s : State) :
    (GameObject.Deactivate s).state.obj.mComponentList = s.obj.mComponentList ∧
    (∀ k, (GameObject.Deactivate s).state.obj.cache k = s.obj.cache k) ∧
    (GameObject.Deactivate s).state.obj.GetComponentCount = s.obj.GetComponentCount ∧
    (∀ i, (GameObject.Deactivate s).state.obj.GetComponentIndex i =
      s.obj.GetComponentIndex i) ∧
    (ValidHandles s → (GameObject.Deactivate s).isReturned = true) := by
  have ho : (GameObject.Deactivate s).state.obj =
      { s.obj with renderDistance := -1, isActive := false } :=
    setActiveLoop_obj false _ _ _
  refine ⟨by rw [ho], fun k => by rw [ho]; cases k <;> rfl, by rw [ho]; rfl,
    fun i => by rw [ho]; rfl, fun h => ?_⟩
  obtain ⟨m1, h1, _⟩ :=
    setActiveLoop_ok false { s.obj with renderDistance := -1, isActive := false }
      s.obj.mComponentList s.mem h
  unfold GameObject.Deactivate
  rw [h1]
  rfl

/-- C10 at the entity with a transform, a rigid body, a mesh renderer, a
camera, a light, an actor and a script attached. -/
theorem C10_deactivate_keeps_components_witness :
    ValidHandles sampleFull ∧
    (GameObject.Deactivate sampleFull).isReturned = true ∧
    (GameObject.Deactivate sampleFull).state.obj.mComponentList = [6, 5, 7, 1, 8, 9, 3] ∧
    (GameObject.Deactivate sampleFull).state.obj.GetComponentCount = 7 :=
  ⟨validHandles_sampleFull,
    (C10_deactivate_keeps_components sampleFull).2.2.2.2 validHandles_sampleFull,
    (C10_deactivate_keeps_components sampleFull).1,
    (C10_deactivate_keeps_components sampleFull).2.2.1⟩

/-! ## The render loop -/

theorem SameScene.sceneRefl (r : RenderSystem) : SameScene r r :=
  ⟨rfl, rfl, rfl, rfl, rfl, rfl, rfl, rfl, rfl, rfl⟩

theorem SameScene.sceneTrans {a b c : RenderSystem} (h1 : SameScene a b) (h2 : SameScene b c) :
    SameScene a c :=
  ⟨h2.cameraMain.trans h1.cameraMain, h2.skyMain.trans h1.skyMain,
    h2.renderQueue.trans h1.renderQueue, h2.viewport.trans h1.viewport,
    h2.entityQueue.trans h1.entityQueue, h2.entities.trans h1.entities,
    h2.meshShader.trans h1.meshShader, h2.materials.trans h1.materials,
    h2.cameras.trans h1.cameras, h2.skyBackground.trans h1.skyBackground⟩

theorem Issued.issuedRefl (r : RenderSystem) : Issued r r [] :=
  ⟨SameScene.sceneRefl r, by simp⟩

theorem Issued.issuedTrans {a b c : RenderSystem} {l1 l2 : List RenderCall} (h1 : Issued a b l1)
    (h2 : Issued b c l2) : Issued a c (l1 ++ l2) :=
  ⟨h1.scene.sceneTrans h2.scene, by rw [h2.calls, h1.calls, List.append_assoc]⟩

theorem issued_issue (r : RenderSystem) (cs : List RenderCall) : Issued r (r.issue cs) cs :=
  ⟨⟨rfl, rfl, rfl, rfl, rfl, rfl, rfl, rfl, rfl, rfl⟩, rfl⟩

/-- The script block issues the script update, if there is a script, and
leaves the tracking alone. -/
theorem scriptStep_spec (r : RenderSystem) (script : Ptr) :
    Issued r (r.scriptStep script) (if script ≠ nullptr then [.scriptOnUpdate script] else []) ∧
    (r.scriptStep script).currentMesh = r.currentMesh ∧
    (r.scriptStep script).currentShader = r.currentShader ∧
    (r.scriptStep script).currentMaterial = r.currentMaterial := by
  unfold RenderSystem.scriptStep
  split_ifs with h
  · exact ⟨issued_issue r _, rfl, rfl, rfl⟩
  · exact ⟨Issued.issuedRefl r, rfl, rfl, rfl⟩

/-- The mesh block binds the mesh when it is not the one tracked. -/
theorem meshStep_spec (r : RenderSystem) (mesh : Ptr) :
    Issued r (r.meshStep mesh) (if r.currentMesh ≠ mesh then [.meshBind mesh] else []) ∧
    (r.meshStep mesh).currentMesh = mesh ∧
    (r.meshStep mesh).currentShader = r.currentShader ∧
    (r.meshStep mesh).currentMaterial = r.currentMaterial := by
  unfold RenderSystem.meshStep
  split_ifs with h
  · exact ⟨⟨⟨rfl, rfl, rfl, rfl, rfl, rfl, rfl, rfl, rfl, rfl⟩, rfl⟩, rfl, rfl, rfl⟩
  · exact ⟨Issued.issuedRefl r, not_not.mp h, rfl, rfl⟩

/-- The shader block binds the shader, and pushes the projection matrix, when
it is not the one tracked. -/
theorem shaderStep_spec (r : RenderSystem) (shader : Ptr) :
    Issued r (r.shaderStep shader)
      (if r.currentShader ≠ shader then [.shaderBind shader, .setProjectionMatrix shader]
       else []) ∧
    (r.shaderStep shader).currentMesh = r.currentMesh ∧
    (r.shaderStep shader).currentShader = shader ∧
    (r.shaderStep shader).currentMaterial = r.currentMaterial := by
  unfold RenderSystem.shaderStep
  split_ifs with h
  · exact ⟨⟨⟨rfl, rfl, rfl, rfl, rfl, rfl, rfl, rfl, rfl, rfl⟩, rfl⟩, rfl, rfl, rfl⟩
  · exact ⟨Issued.issuedRefl r, rfl, not_not.mp h, rfl⟩

/-- The material block does nothing when the material is the one tracked; else
it binds the material, sets the GPU state from it and binds the current shader
once more. -/
theorem materialStep_spec (r : RenderSystem) (material : Ptr)
    (hmat : material ≠ nullptr ∨ r.currentMaterial = material) :
    ∃ r1, r.materialStep material = .ok r1 ∧
      Issued r r1
        (if r.currentMaterial ≠ material
          then materialChangeCalls r.currentShader material (r.materials material) else []) ∧
      r1.currentMesh = r.currentMesh ∧ r1.currentShader = r.currentShader ∧
      r1.currentMaterial = material := by
  unfold RenderSystem.materialStep
  by_cases hcur : r.currentMaterial = material
  · rw [if_neg (not_not.mpr hcur), if_neg (not_not.mpr hcur)]
    exact ⟨r, rfl, Issued.issuedRefl r, rfl, rfl, hcur⟩
  · have hne : ¬ material = nullptr := by
      rcases hmat with h | h
      · exact h
      · exact absurd h hcur
    rw [if_pos hcur, if_pos hcur, if_neg hne]
    exact ⟨_, rfl, ⟨⟨rfl, rfl, rfl, rfl, rfl, rfl, rfl, rfl, rfl, rfl⟩, rfl⟩, rfl, rfl, rfl⟩

/-- The end of the loop body issues the sync of the rigid body, if there is
one, the model matrix and one draw call. -/
theorem drawStep_spec (r : RenderSystem) (ent mesh rigidBody : Ptr) :
    Issued r (r.drawStep ent mesh rigidBody)
      ((if rigidBody ≠ nullptr then [.syncRigidBody ent] else []) ++
        [.setModelMatrix r.currentShader ent, .drawIndexArray mesh]) ∧
    (r.drawStep ent mesh rigidBody).currentMesh = r.currentMesh ∧
    (r.drawStep ent mesh rigidBody).currentShader = r.currentShader ∧
    (r.drawStep ent mesh rigidBody).currentMaterial = r.currentMaterial := by
  unfold RenderSystem.drawStep
  split_ifs with h
  · refine ⟨⟨⟨rfl, rfl, rfl, rfl, rfl, rfl, rfl, rfl, rfl, rfl⟩, ?_⟩, rfl, rfl, rfl⟩
    simp [RenderSystem.issue]
  · exact ⟨issued_issue r _, rfl, rfl, rfl⟩

/-- The loop body on an entity that has a mesh and a shader: it returns,
having issued `drawnCalls` and tracking the entity's mesh, shader and
material. -/
theorem drawEntity_drawn (r : RenderSystem) (ent : Ptr) (hent : ent ≠ nullptr)
    (hd : r.drawable ent = true)
    (hmat : (r.entities ent).material ≠ nullptr ∨
      r.currentMaterial = (r.entities ent).material) :
    ∃ r1, r.drawEntity ent = .ok r1 ∧
      Issued r r1
        (drawnCalls r.currentMesh r.currentShader r.currentMaterial ent (r.entities ent)
          (r.meshShader (r.entities ent).mesh) (r.materials (r.entities ent).material)) ∧
      r1.currentMesh = (r.entities ent).mesh ∧
      r1.currentShader = r.meshShader (r.entities ent).mesh ∧
      r1.currentMaterial = (r.entities ent).material := by
  have hent0 : ¬ ent = nullptr := hent
  simp only [RenderSystem.drawable, Bool.and_eq_true, decide_eq_true_eq] at hd
  obtain ⟨hm, hs⟩ := hd
  have hm0 : ¬ (r.entities ent).mesh = nullptr := hm
  obtain ⟨i1, m1, s1, t1⟩ := scriptStep_spec r (r.entities ent).script
  have hs1 : ¬ (r.scriptStep (r.entities ent).script).meshShader (r.entities ent).mesh
      = nullptr := by
    rw [i1.scene.meshShader]; exact hs
  obtain ⟨i2, m2, s2, t2⟩ :=
    meshStep_spec (r.scriptStep (r.entities ent).script) (r.entities ent).mesh
  obtain ⟨i3, m3, s3, t3⟩ :=
    shaderStep_spec ((r.scriptStep (r.entities ent).script).meshStep (r.entities ent).mesh)
      (r.meshShader (r.entities ent).mesh)
  obtain ⟨r4, h4, i4, m4, s4, t4⟩ :=
    materialStep_spec
      (((r.scriptStep (r.entities ent).script).meshStep (r.entities ent).mesh).shaderStep
        (r.meshShader (r.entities ent).mesh)) (r.entities ent).material
      (by rw [t3, t2, t1]; exact hmat)
  obtain ⟨i5, m5, s5, t5⟩ := drawStep_spec r4 ent (r.entities ent).mesh (r.entities ent).rigidBody
  unfold RenderSystem.drawEntity
  have hs0 : ¬ r.meshShader (r.entities ent).mesh = nullptr := hs
  simp only [hent0, if_false, hm0, i1.scene.meshShader, hs0, h4]
  refine ⟨_, rfl, ?_, by rw [m5, m4, m3, m2], by rw [s5, s4, s3], by rw [t5, t4]⟩
  have := (((i1.issuedTrans i2).issuedTrans i3).issuedTrans i4).issuedTrans i5
  rw [m1, s2, s1, t3, t2, t1, s3, i3.scene.materials, i2.scene.materials, i1.scene.materials,
    s4, s3] at this
  simpa [drawnCalls, List.append_assoc] using this

theorem materialStep_sameScene {r r1 : RenderSystem} {material : Ptr}
    (h : r.materialStep material = .ok r1) : SameScene r r1 := by
  unfold RenderSystem.materialStep at h
  split_ifs at h
  · cases h
    exact ⟨rfl, rfl, rfl, rfl, rfl, rfl, rfl, rfl, rfl, rfl⟩
  · cases h
    exact SameScene.sceneRefl r

/-- The loop body never writes the tables it reads. -/
theorem drawEntity_sameScene {r r1 : RenderSystem} {ent : Ptr}
    (h : r.drawEntity ent = .ok r1) : SameScene r r1 := by
  have i1 := (scriptStep_spec r (r.entities ent).script).1.scene
  unfold RenderSystem.drawEntity at h
  by_cases hent : ent = nullptr
  · simp [hent] at h
  by_cases hm : (r.entities ent).mesh = nullptr
  · simp only [hent, if_false, hm, if_true, Except.ok.injEq] at h
    rw [← h]; exact i1
  by_cases hs : (r.scriptStep (r.entities ent).script).meshShader (r.entities ent).mesh = nullptr
  · simp only [hent, if_false, hm, hs, if_true, Except.ok.injEq] at h
    rw [← h]; exact i1
  simp only [hent, if_false, hm, hs] at h
  have i2 := (meshStep_spec (r.scriptStep (r.entities ent).script) (r.entities ent).mesh).1.scene
  have i3 := (shaderStep_spec
    ((r.scriptStep (r.entities ent).script).meshStep (r.entities ent).mesh)
    ((r.scriptStep (r.entities ent).script).meshShader (r.entities ent).mesh)).1.scene
  cases h4 : (((r.scriptStep (r.entities ent).script).meshStep (r.entities ent).mesh).shaderStep
      ((r.scriptStep (r.entities ent).script).meshShader (r.entities ent).mesh)).materialStep
      (r.entities ent).material with
  | error f => simp [h4] at h
  | ok r4 =>
      simp only [h4, Except.ok.injEq] at h
      rw [← h]
      exact (((i1.sceneTrans i2).sceneTrans i3).sceneTrans (materialStep_sameScene h4)).sceneTrans
        (drawStep_spec r4 ent (r.entities ent).mesh (r.entities ent).rigidBody).1.scene

theorem drawEntities_sameScene {l : List Ptr} {r r1 : RenderSystem}
    (h : RenderSystem.drawEntities l r = .ok r1) : SameScene r r1 := by
  induction l generalizing r with
  | nil => cases h; exact SameScene.sceneRefl _
  | cons ent rest ih =>
      simp only [RenderSystem.drawEntities] at h
      cases h2 : r.drawEntity ent with
      | ok r2 =>
          rw [h2] at h
          exact (drawEntity_sameScene h2).sceneTrans (ih h)
      | error f => simp [h2] at h

/-- Running the entity loop over a concatenation is running it over the first
list and then over the second. -/
theorem drawEntities_append (l1 l2 : List Ptr) (r : RenderSystem) :
    RenderSystem.drawEntities (l1 ++ l2) r =
      match RenderSystem.drawEntities l1 r with
      | .ok r1 => RenderSystem.drawEntities l2 r1
      | .error f => .error f := by
  induction l1 generalizing r with
  | nil => rfl
  | cons ent rest ih =>
      simp only [List.cons_append, RenderSystem.drawEntities]
      cases r.drawEntity ent with
      | ok r1 => exact ih r1
      | error f => rfl

/-- The scene loop visits the entities of the queue in queue order. -/
theorem drawScenes_eq_drawEntities (scenes : List Ptr) (r : RenderSystem)
    (h : ∀ sc ∈ scenes, sc ≠ nullptr) :
    RenderSystem.drawScenes scenes r =
      RenderSystem.drawEntities (scenes.flatMap r.entityQueue) r := by
  induction scenes generalizing r with
  | nil => rfl
  | cons sc rest ih =>
      have hsc : ¬ sc = nullptr := h sc (List.mem_cons_self _ _)
      simp only [RenderSystem.drawScenes, hsc, if_false, List.flatMap_cons, drawEntities_append]
      cases hr : RenderSystem.drawEntities (r.entityQueue sc) r with
      | ok r1 =>
          simp only
          rw [ih r1 (fun s hs => h s (List.mem_cons_of_mem _ hs)),
            (drawEntities_sameScene hr).entityQueue]
      | error f => rfl

theorem materialStateCalls_filter_meshBind (m : Material) :
    (materialStateCalls m).filter RenderCall.isMeshBind = [] := by
  unfold materialStateCalls
  cases m.doDepthTest <;> cases m.doFaceCulling <;> cases m.doBlending <;> rfl

theorem materialStateCalls_filter_shaderBind (m : Material) :
    (materialStateCalls m).filter RenderCall.isShaderBind = [] := by
  unfold materialStateCalls
  cases m.doDepthTest <;> cases m.doFaceCulling <;> cases m.doBlending <;> rfl

theorem materialStateCalls_filter_materialBind (m : Material) :
    (materialStateCalls m).filter RenderCall.isMaterialBind = [] := by
  unfold materialStateCalls
  cases m.doDepthTest <;> cases m.doFaceCulling <;> cases m.doBlending <;> rfl

theorem materialStateCalls_filter_draw (m : Material) :
    (materialStateCalls m).filter RenderCall.isDraw = [] := by
  unfold materialStateCalls
  cases m.doDepthTest <;> cases m.doFaceCulling <;> cases m.doBlending <;> rfl

theorem drawnCalls_filter_draw (cm cs ct ent : Ptr) (e : Entity) (shader : Ptr)
    (m : Material) :
    (drawnCalls cm cs ct ent e shader m).filter RenderCall.isDraw = [.drawIndexArray e.mesh] := by
  unfold drawnCalls materialChangeCalls
  split_ifs <;>
    simp only [List.filter_append, materialStateCalls_filter_draw, List.append_nil,
      List.nil_append] <;> rfl

theorem drawnCalls_filter_meshBind (cm cs ct ent : Ptr) (e : Entity) (shader : Ptr)
    (m : Material) :
    (drawnCalls cm cs ct ent e shader m).filter RenderCall.isMeshBind =
      (if cm ≠ e.mesh then [.meshBind e.mesh] else []) := by
  unfold drawnCalls materialChangeCalls
  split_ifs <;>
    simp only [List.filter_append, materialStateCalls_filter_meshBind, List.append_nil,
      List.nil_append] <;> rfl

theorem drawnCalls_filter_shaderBind (cm cs ct ent : Ptr) (e : Entity) (shader : Ptr)
    (m : Material) :
    (drawnCalls cm cs ct ent e shader m).filter RenderCall.isShaderBind =
      (if cs ≠ shader then [.shaderBind shader] else []) ++
      (if ct ≠ e.material then [.shaderBind shader] else []) := by
  unfold drawnCalls materialChangeCalls
  split_ifs <;>
    simp only [List.filter_append, materialStateCalls_filter_shaderBind, List.append_nil,
      List.nil_append] <;> rfl

theorem drawnCalls_filter_materialBind (cm cs ct ent : Ptr) (e : Entity) (shader : Ptr)
    (m : Material) :
    (drawnCalls cm cs ct ent e shader m).filter RenderCall.isMaterialBind =
      (if ct ≠ e.material then [.materialBind e.material] else []) := by
  unfold drawnCalls materialChangeCalls
  split_ifs <;>
    simp only [List.filter_append, materialStateCalls_filter_materialBind, List.append_nil,
      List.nil_append] <;> rfl

/-- An entity without a mesh, or whose mesh has no shader, is skipped: the
loop body stops after the script block. -/
theorem drawEntity_skipped (r : RenderSystem) (ent : Ptr) (hent : ent ≠ nullptr)
    (hskip : r.drawable ent = false) :
    r.drawEntity ent = .ok (r.scriptStep (r.entities ent).script) := by
  have hent0 : ¬ ent = nullptr := hent
  simp only [RenderSystem.drawable, Bool.and_eq_false_iff, decide_eq_false_iff_not,
    ne_eq, not_not] at hskip
  have i1 := (scriptStep_spec r (r.entities ent).script).1.scene
  unfold RenderSystem.drawEntity
  by_cases hm : (r.entities ent).mesh = nullptr
  · simp only [hent0, if_false, hm, if_true]
  · have hs : r.meshShader (r.entities ent).mesh = nullptr := by
      rcases hskip with h | h
      · exact absurd h hm
      · exact h
    simp only [hent0, if_false, hm, i1.meshShader, hs, if_true]

theorem drawable_congr {r r1 : RenderSystem} (h : SameScene r r1) (ent : Ptr) :
    r1.drawable ent = r.drawable ent := by
  unfold RenderSystem.drawable
  rw [h.entities, h.meshShader]

/-- Over valid entities the entity loop returns, and its draw calls are those
of the entities that have a mesh and a shader, in order. -/
theorem drawEntities_draws (l : List Ptr) (r : RenderSystem) (hv : ValidEntities r l) :
    ∃ r1 new, RenderSystem.drawEntities l r = .ok r1 ∧ Issued r r1 new ∧
      new.filter RenderCall.isDraw =
        (l.filter r.drawable).map (fun ent => RenderCall.drawIndexArray (r.entities ent).mesh) := by
  induction l generalizing r with
  | nil => exact ⟨r, [], rfl, Issued.issuedRefl r, rfl⟩
  | cons ent rest ih =>
      obtain ⟨hent, hmat⟩ := hv ent (List.mem_cons_self _ _)
      have step : ∃ r2 new2, r.drawEntity ent = .ok r2 ∧ Issued r r2 new2 ∧
          new2.filter RenderCall.isDraw =
            (if r.drawable ent then [RenderCall.drawIndexArray (r.entities ent).mesh]
             else []) := by
        cases hd : r.drawable ent with
        | false =>
            refine ⟨_, _, drawEntity_skipped r ent hent hd,
              (scriptStep_spec r (r.entities ent).script).1, ?_⟩
            simp only [Bool.false_eq_true, if_false]
            split_ifs <;> rfl
        | true =>
            obtain ⟨r2, h2, i2, _⟩ := drawEntity_drawn r ent hent hd (Or.inl (hmat hd))
            exact ⟨r2, _, h2, i2, by rw [drawnCalls_filter_draw]; rfl⟩
      obtain ⟨r2, new2, h2, i2, f2⟩ := step
      have hv2 : ValidEntities r2 rest := by
        intro e he
        have := hv e (List.mem_cons_of_mem _ he)
        rw [drawable_congr i2.scene, i2.scene.entities]
        exact this
      obtain ⟨r3, new3, h3, i3, f3⟩ := ih r2 hv2
      refine ⟨r3, new2 ++ new3, ?_, i2.issuedTrans i3, ?_⟩
      · simp only [RenderSystem.drawEntities, h2, h3]
      · rw [List.filter_append, f2, f3, List.filter_cons]
        have hd2 : r2.drawable = r.drawable := funext (drawable_congr i2.scene)
        rw [hd2, i2.scene.entities]
        cases r.drawable ent <;> simp

theorem frameHeadCalls_filter_meshBind (r : RenderSystem) :
    r.frameHeadCalls.filter RenderCall.isMeshBind = [] := by
  unfold RenderSystem.frameHeadCalls
  split_ifs <;> rfl

theorem frameHeadCalls_filter_shaderBind (r : RenderSystem) :
    r.frameHeadCalls.filter RenderCall.isShaderBind = [] := by
  unfold RenderSystem.frameHeadCalls
  split_ifs <;> rfl

theorem frameHeadCalls_filter_materialBind (r : RenderSystem) :
    r.frameHeadCalls.filter RenderCall.isMaterialBind = [] := by
  unfold RenderSystem.frameHeadCalls
  split_ifs <;> rfl

theorem frameHeadCalls_filter_draw (r : RenderSystem) :
    r.frameHeadCalls.filter RenderCall.isDraw = [] := by
  unfold RenderSystem.frameHeadCalls
  split_ifs <;> rfl

theorem frameHead_issued (r : RenderSystem) : Issued r r.frameHead r.frameHeadCalls :=
  ⟨⟨rfl, rfl, rfl, rfl, rfl, rfl, rfl, rfl, rfl, rfl⟩, rfl⟩

/-- A pass that enters the scene loop and comes out of it in `r1` returns, and
its calls are those of the head, those of the loop and the buffer swap. -/
theorem renderFrame_of_drawEntities (r r1 : RenderSystem) (new : List RenderCall)
    (hcam : r.cameraMain ≠ nullptr) (hsc : ∀ sc ∈ r.renderQueue, sc ≠ nullptr)
    (h : RenderSystem.drawEntities r.queued r.frameHead = .ok r1)
    (hi : Issued r.frameHead r1 new) :
    r.RenderFrame = .ok (r1.issue [.swapBuffers]) ∧
    r.frameCalls = r.frameHeadCalls ++ new ++ [.swapBuffers] := by
  have hcam0 : ¬ r.cameraMain = nullptr := hcam
  have hq : RenderSystem.drawScenes r.frameHead.renderQueue r.frameHead = .ok r1 := by
    have := drawScenes_eq_drawEntities r.frameHead.renderQueue r.frameHead hsc
    rw [this]
    exact h
  have hf : r.RenderFrame = .ok (r1.issue [.swapBuffers]) := by
    unfold RenderSystem.RenderFrame
    simp only [hcam0, if_false, hq]
  refine ⟨hf, ?_⟩
  unfold RenderSystem.frameCalls
  rw [hf]
  have hc : (r1.issue [.swapBuffers]).calls =
      r.calls ++ (r.frameHeadCalls ++ new ++ [.swapBuffers]) := by
    show r1.calls ++ [RenderCall.swapBuffers] = _
    rw [hi.calls]
    show (r.calls ++ r.frameHeadCalls) ++ new ++ [RenderCall.swapBuffers] = _
    simp [List.append_assoc]
  simp only [hc, List.drop_left]

/-- The entity loop over entities that share the mesh `M` (with shader `S`) and
the material `T`: it returns and draws each of them; the first entity binds
what the tracking does not already hold, the shader a second time when the
material changes, and the others bind nothing. -/
theorem drawEntities_shared (l : List Ptr) (r : RenderSystem) (M S T : Ptr)
    (hM : M ≠ nullptr) (hS : r.meshShader M = S) (hS0 : S ≠ nullptr)
    (hsh : SharedEntities r M T l) (hT : T ≠ nullptr ∨ r.currentMaterial = T) :
    ∃ r1 new, RenderSystem.drawEntities l r = .ok r1 ∧ Issued r r1 new ∧
      new.filter RenderCall.isDraw = List.replicate l.length (.drawIndexArray M) ∧
      (l ≠ [] → r1.currentMesh = M ∧ r1.currentShader = S ∧ r1.currentMaterial = T) ∧
      new.filter RenderCall.isMeshBind =
        (if l ≠ [] ∧ r.currentMesh ≠ M then [.meshBind M] else []) ∧
      new.filter RenderCall.isShaderBind =
        (if l ≠ [] ∧ r.currentShader ≠ S then [.shaderBind S] else []) ++
        (if l ≠ [] ∧ r.currentMaterial ≠ T then [.shaderBind S] else []) ∧
      new.filter RenderCall.isMaterialBind =
        (if l ≠ [] ∧ r.currentMaterial ≠ T then [.materialBind T] else []) := by
  induction l generalizing r with
  | nil => exact ⟨r, [], rfl, Issued.issuedRefl r, rfl, fun h => absurd rfl h, by simp, by simp, by simp⟩
  | cons ent rest ih =>
      obtain ⟨hent, hmesh, hmaterial⟩ := hsh ent (List.mem_cons_self _ _)
      have hd : r.drawable ent = true := by
        simp only [RenderSystem.drawable, Bool.and_eq_true, decide_eq_true_eq]
        rw [hmesh, hS]
        exact ⟨hM, hS0⟩
      obtain ⟨r2, h2, i2, m2, s2, t2⟩ :=
        drawEntity_drawn r ent hent hd (by rw [hmaterial]; exact hT)
      rw [hmesh, hS] at s2
      rw [hmesh] at m2
      rw [hmaterial] at t2
      have hsh2 : SharedEntities r2 M T rest := by
        intro e he
        rw [i2.scene.entities]
        exact hsh e (List.mem_cons_of_mem _ he)
      obtain ⟨r3, new3, h3, i3, d3, b3, fm3, fs3, ft3⟩ :=
        ih r2 (by rw [i2.scene.meshShader]; exact hS) hsh2 (Or.inr t2)
      refine ⟨r3, _, ?_, i2.issuedTrans i3, ?_, ?_, ?_, ?_, ?_⟩
      · simp only [RenderSystem.drawEntities, h2, h3]
      · rw [List.filter_append, drawnCalls_filter_draw, d3, hmesh]
        rfl
      · intro _
        cases rest with
        | nil =>
            simp only [RenderSystem.drawEntities] at h3
            cases h3
            exact ⟨m2, s2, t2⟩
        | cons e2 rest2 => exact b3 (List.cons_ne_nil _ _)
      · rw [List.filter_append, drawnCalls_filter_meshBind, fm3, hmesh]
        simp [m2]
      · rw [List.filter_append, drawnCalls_filter_shaderBind, fs3, hmesh, hS, hmaterial]
        simp [s2, t2]
      · rw [List.filter_append, drawnCalls_filter_materialBind, ft3, hmaterial]
        simp [t2]

/-! ## Claims on `RenderFrame` -/

/-- C15, as stated, fails: a pass that starts with nothing bound over a queue
of one entity calls `Bind` on the shader twice, not once. -/
theorem C15_shader_bound_twice :
    ¬ (∀ (r : RenderSystem) (M S T : Ptr), r.cameraMain ≠ nullptr →
        (r.currentMesh = nullptr ∧ r.currentShader = nullptr ∧ r.currentMaterial = nullptr) →
        M ≠ nullptr → r.meshShader M = S → S ≠ nullptr → T ≠ nullptr →
        (∀ sc ∈ r.renderQueue, sc ≠ nullptr) → SharedEntities r M T r.queued →
        1 ≤ r.queued.length →
        (r.frameCalls.filter RenderCall.isShaderBind).length = 1) := by
  intro h
  have h1 := h (sampleRenderer [1]) 1 2 3 (by decide)
    ⟨rfl, rfl, rfl⟩ (by decide) rfl (by decide) (by decide)
    (by intro sc hsc; have : sc ∈ [1] := hsc; simp at this; subst this; decide)
    (by intro ent hent; have : ent ∈ [1] := hent; simp at this; subst this
        exact ⟨by decide, rfl, rfl⟩)
    (by decide)
  have h2 : (sampleRenderer [1]).frameCalls.filter RenderCall.isShaderBind =
      [.shaderBind 2, .shaderBind 2] := rfl
  rw [h2] at h1
  exact absurd h1 (by decide)

/-- C15, amended: for every `K ≥ 1`, a pass of `RenderFrame` that starts with
nothing bound, has a main camera, and whose render queue holds `K` entities
that all carry the mesh `M` (with shader `S`) and the material `T`, returns,
calls `Bind` on the mesh exactly once and on the material exactly once, calls
`Bind` on the shader exactly twice, and issues exactly `K` draw calls. -/
theorem C15_rebind_counts (r : RenderSystem) (M S T : Ptr) (hcam : r.cameraMain ≠ nullptr)
    (hfresh : r.currentMesh = nullptr ∧ r.currentShader = nullptr ∧
      r.currentMaterial = nullptr)
    (hM : M ≠ nullptr) (hS : r.meshShader M = S) (hS0 : S ≠ nullptr) (hT : T ≠ nullptr)
    (hsc : ∀ sc ∈ r.renderQueue, sc ≠ nullptr) (hsh : SharedEntities r M T r.queued)
    (hK : 1 ≤ r.queued.length) :
    (∃ r1, r.RenderFrame = .ok r1) ∧
    r.frameCalls.filter RenderCall.isMeshBind = [.meshBind M] ∧
    r.frameCalls.filter RenderCall.isMaterialBind = [.materialBind T] ∧
    r.frameCalls.filter RenderCall.isShaderBind = [.shaderBind S, .shaderBind S] ∧
    r.frameCalls.filter RenderCall.isDraw =
      List.replicate r.queued.length (.drawIndexArray M) := by
  have hne : r.queued ≠ [] := by
    intro h
    rw [h] at hK
    exact absurd hK (by decide)
  have hM0 : ¬ (nullptr : Ptr) = M := fun h => hM h.symm
  have hS1 : ¬ (nullptr : Ptr) = S := fun h => hS0 h.symm
  have hT0 : ¬ (nullptr : Ptr) = T := fun h => hT h.symm
  obtain ⟨r1, new, h1, i1, d1, _, fm, fs, ft⟩ :=
    drawEntities_shared r.queued r.frameHead M S T hM hS hS0 hsh (Or.inl hT)
  obtain ⟨hf, hc⟩ := renderFrame_of_drawEntities r r1 new hcam hsc h1 i1
  have hmesh : r.frameHead.currentMesh = nullptr := hfresh.1
  have hshader : r.frameHead.currentShader = nullptr := rfl
  have hmaterial : r.frameHead.currentMaterial = nullptr := hfresh.2.2
  rw [hmesh] at fm
  rw [hshader, hmaterial] at fs
  rw [hmaterial] at ft
  refine ⟨⟨_, hf⟩, ?_, ?_, ?_, ?_⟩
  · rw [hc, List.filter_append, List.filter_append, frameHeadCalls_filter_meshBind, fm]
    simp [hne, hM0, RenderCall.isMeshBind]
  · rw [hc, List.filter_append, List.filter_append, frameHeadCalls_filter_materialBind, ft]
    simp [hne, hT0, RenderCall.isMaterialBind]
  · rw [hc, List.filter_append, List.filter_append, frameHeadCalls_filter_shaderBind, fs]
    simp [hne, hS1, hT0, RenderCall.isShaderBind]
  · rw [hc, List.filter_append, List.filter_append, frameHeadCalls_filter_draw, d1]
    simp [RenderCall.isDraw]

theorem sampleRenderer_scenes (queue : List Ptr) :
    ∀ sc ∈ (sampleRenderer queue).renderQueue, sc ≠ nullptr := by
  intro sc hsc
  have h : sc ∈ [1] := hsc
  simp only [List.mem_singleton] at h
  subst h
  decide

theorem sampleRenderer_shared (queue : List Ptr) (h : ∀ ent ∈ queue, ent ≠ nullptr) :
    SharedEntities (sampleRenderer queue) 1 3 (sampleRenderer queue).queued := by
  intro ent hent
  have hq : (sampleRenderer queue).queued = queue := by
    simp [RenderSystem.queued, sampleRenderer, RenderSystem.new]
  rw [hq] at hent
  exact ⟨h ent hent, rfl, rfl⟩

/-- C15, amended, at a queue of three entities. -/
theorem C15_rebind_counts_witness :
    (sampleRenderer [1, 2, 3]).cameraMain ≠ nullptr ∧
    ((sampleRenderer [1, 2, 3]).currentMesh = nullptr ∧
      (sampleRenderer [1, 2, 3]).currentShader = nullptr ∧
      (sampleRenderer [1, 2, 3]).currentMaterial = nullptr) ∧
    1 ≤ (sampleRenderer [1, 2, 3]).queued.length ∧
    ((∃ r1, (sampleRenderer [1, 2, 3]).RenderFrame = .ok r1) ∧
    (sampleRenderer [1, 2, 3]).frameCalls.filter RenderCall.isMeshBind = [.meshBind 1] ∧
    (sampleRenderer [1, 2, 3]).frameCalls.filter RenderCall.isMaterialBind =
      [.materialBind 3] ∧
    (sampleRenderer [1, 2, 3]).frameCalls.filter RenderCall.isShaderBind =
      [.shaderBind 2, .shaderBind 2] ∧
    (sampleRenderer [1, 2, 3]).frameCalls.filter RenderCall.isDraw =
      List.replicate (sampleRenderer [1, 2, 3]).queued.length (.drawIndexArray 1)) :=
  ⟨by decide, ⟨rfl, rfl, rfl⟩, by decide,
    C15_rebind_counts (sampleRenderer [1, 2, 3]) 1 2 3 (by decide) ⟨rfl, rfl, rfl⟩ (by decide)
      rfl (by decide) (by decide) (sampleRenderer_scenes _)
      (sampleRenderer_shared _ (by decide)) (by decide)⟩

/-- C16, on the code: the head of `RenderFrame` resets the shader tracking
only, the mesh and the material tracked are those the previous pass left; so a
first pass over a queue of one entity binds the mesh, the shader, the material
and the shader again, and a second pass over the same queue binds the shader
alone. -/
theorem C16_only_shader_tracking_reset :
    (∀ r : RenderSystem, r.frameHead.currentShader = nullptr ∧
      r.frameHead.currentMesh = r.currentMesh ∧
      r.frameHead.currentMaterial = r.currentMaterial) ∧
    (sampleRenderer [1]).frameCalls.filter RenderCall.isBind =
      [.meshBind 1, .shaderBind 2, .materialBind 3, .shaderBind 2] ∧
    (sampleRendererNext [1]).renderQueue = (sampleRenderer [1]).renderQueue ∧
    (sampleRendererNext [1]).entityQueue 1 = (sampleRenderer [1]).entityQueue 1 ∧
    (sampleRendererNext [1]).frameCalls.filter RenderCall.isBind = [.shaderBind 2] :=
  ⟨fun _ => ⟨rfl, rfl, rfl⟩, rfl, rfl, rfl, rfl⟩

theorem scriptStep_calls_filter (script : Ptr) :
    (if script ≠ nullptr then [RenderCall.scriptOnUpdate script] else []).filter
        RenderCall.isBind = [] ∧
    (if script ≠ nullptr then [RenderCall.scriptOnUpdate script] else []).filter
        RenderCall.isUniformPush = [] ∧
    (if script ≠ nullptr then [RenderCall.scriptOnUpdate script] else []).filter
        RenderCall.isDraw = [] := by
  split_ifs <;> exact ⟨rfl, rfl, rfl⟩

/-- C17: an entity whose mesh is null, or whose mesh has a null shader, makes
the loop body return having issued no bind, no uniform push and no draw call
and with the tracking of what is bound unchanged; a pass with a main camera
over a valid queue returns and issues as many `DrawIndexArray` calls as there
are queued entities with both a mesh and a shader; and a pass without a main
camera returns having issued no call at all. -/
theorem C17_skip_and_draw_count (r : RenderSystem) :
    (∀ ent, ent ≠ nullptr → r.drawable ent = false →
      ∃ r1 new, r.drawEntity ent = .ok r1 ∧ Issued r r1 new ∧
        new.filter RenderCall.isBind = [] ∧ new.filter RenderCall.isUniformPush = [] ∧
        new.filter RenderCall.isDraw = [] ∧
        r1.currentMesh = r.currentMesh ∧ r1.currentShader = r.currentShader ∧
        r1.currentMaterial = r.currentMaterial) ∧
    (r.cameraMain ≠ nullptr → (∀ sc ∈ r.renderQueue, sc ≠ nullptr) →
      ValidEntities r r.queued →
      (∃ r1, r.RenderFrame = .ok r1) ∧
      (r.frameCalls.filter RenderCall.isDraw).length = r.queued.countP r.drawable) ∧
    (r.cameraMain = nullptr → r.RenderFrame = .ok r ∧ r.frameCalls = []) := by
  refine ⟨?_, ?_, ?_⟩
  · intro ent hent hskip
    obtain ⟨i1, m1, s1, t1⟩ := scriptStep_spec r (r.entities ent).script
    obtain ⟨f1, f2, f3⟩ := scriptStep_calls_filter (r.entities ent).script
    exact ⟨_, _, drawEntity_skipped r ent hent hskip, i1, f1, f2, f3, m1, s1, t1⟩
  · intro hcam hsc hv
    have hv1 : ValidEntities r.frameHead r.queued := hv
    obtain ⟨r1, new, h1, i1, d1⟩ := drawEntities_draws r.queued r.frameHead hv1
    obtain ⟨hf, hc⟩ := renderFrame_of_drawEntities r r1 new hcam hsc h1 i1
    refine ⟨⟨_, hf⟩, ?_⟩
    rw [hc, List.filter_append, List.filter_append, frameHeadCalls_filter_draw, d1]
    simp only [List.nil_append, List.length_append, List.length_map]
    rw [List.countP_eq_length_filter]
    have : r.frameHead.drawable = r.drawable := rfl
    rw [this]
    rfl
  · intro hcam
    have hf : r.RenderFrame = .ok r := by
      unfold RenderSystem.RenderFrame
      rw [if_pos hcam]
    refine ⟨hf, ?_⟩
    unfold RenderSystem.frameCalls
    rw [hf]
    simp

theorem validEntities_sampleMixed :
    ValidEntities sampleMixedRenderer sampleMixedRenderer.queued := by
  intro ent hent
  have h : ent ∈ [1, 2, 3] := hent
  simp only [List.mem_cons, List.mem_singleton, List.not_mem_nil, or_false] at h
  rcases h with rfl | rfl | rfl <;> exact ⟨by decide, fun _ => by decide⟩

/-- C17 at a queue of an entity without a mesh, an entity whose mesh has no
shader and an entity with both: one draw call. -/
theorem C17_skip_and_draw_count_witness :
    sampleMixedRenderer.cameraMain ≠ nullptr ∧
    ValidEntities sampleMixedRenderer sampleMixedRenderer.queued ∧
    sampleMixedRenderer.drawable 1 = false ∧
    sampleMixedRenderer.queued.countP sampleMixedRenderer.drawable = 1 ∧
    (∃ r1, sampleMixedRenderer.RenderFrame = .ok r1) ∧
    (sampleMixedRenderer.frameCalls.filter RenderCall.isDraw).length = 1 ∧
    (∃ r1 new, sampleMixedRenderer.drawEntity 1 = .ok r1 ∧ Issued sampleMixedRenderer r1 new ∧
        new.filter RenderCall.isBind = [] ∧ new.filter RenderCall.isUniformPush = [] ∧
        new.filter RenderCall.isDraw = [] ∧
        r1.currentMesh = sampleMixedRenderer.currentMesh ∧
        r1.currentShader = sampleMixedRenderer.currentShader ∧
        r1.currentMaterial = sampleMixedRenderer.currentMaterial) :=
  ⟨by decide, validEntities_sampleMixed, rfl, rfl,
    ((C17_skip_and_draw_count sampleMixedRenderer).2.1 (by decide)
      (by intro sc hsc; have h : sc ∈ [1] := hsc; simp at h; subst h; decide)
      validEntities_sampleMixed).1,
    ((C17_skip_and_draw_count sampleMixedRenderer).2.1 (by decide)
      (by intro sc hsc; have h : sc ∈ [1] := hsc; simp at h; subst h; decide)
      validEntities_sampleMixed).2,
    (C17_skip_and_draw_count sampleMixedRenderer).1 1 (by decide) rfl⟩

/-! ## The frame of the entity loop of `Update` -/

theorem SameShape.shapeRefl (e : Engine) : SameShape e e :=
  ⟨fun _ => rfl, rfl, fun _ => rfl, fun _ => rfl, rfl, rfl, rfl, rfl, rfl, rfl, rfl⟩

theorem SameShape.shapeTrans {a b c : Engine} (h1 : SameShape a b) (h2 : SameShape b c) :
    SameShape a c where
  objects g := by
    have e1 := h1.objects g
    have e2 := h2.objects g
    rw [← e1, ← e2]
  texts := h2.texts.trans h1.texts
  rendererMesh p := (h2.rendererMesh p).trans (h1.rendererMesh p)
  mouseLook p := (h2.mouseLook p).trans (h1.mouseLook p)
  mGameObjects := h2.mGameObjects.trans h1.mGameObjects
  doUpdateDataStream := h2.doUpdateDataStream.trans h1.doUpdateDataStream
  streamSize := h2.streamSize.trans h1.streamSize
  streamBuffer := h2.streamBuffer.trans h1.streamBuffer
  viewport := h2.viewport.trans h1.viewport
  displaySize := h2.displaySize.trans h1.displaySize
  displayCenter := h2.displayCenter.trans h1.displayCenter

theorem WritesAt.writesRefl (b : StreamSlot) (e : Engine) : WritesAt b e e :=
  ⟨fun _ _ => rfl, fun _ _ => rfl, fun _ _ => rfl, fun _ _ => rfl, fun _ _ => rfl, rfl,
    [], by simp, by simp⟩

theorem WritesAt.writesTrans {b : StreamSlot} {x y z : Engine} (h1 : WritesAt b x y)
    (h2 : WritesAt b y z) : WritesAt b x z where
  objects g hg := (h2.objects g hg).trans (h1.objects g hg)
  meshRenderers p hp := (h2.meshRenderers p hp).trans (h1.meshRenderers p hp)
  cameras p hp := (h2.cameras p hp).trans (h1.cameras p hp)
  lights p hp := (h2.lights p hp).trans (h1.lights p hp)
  actors p hp := (h2.actors p hp).trans (h1.actors p hp)
  rigidBodies := h2.rigidBodies.trans h1.rigidBodies
  physicsCalls := by
    obtain ⟨x1, hx1, hc1⟩ := h1.physicsCalls
    obtain ⟨x2, hx2, hc2⟩ := h2.physicsCalls
    refine ⟨x1 ++ x2, by rw [hx2, hx1, List.append_assoc], ?_⟩
    intro c hc
    rcases List.mem_append.mp hc with h | h
    · exact hc1 c h
    · exact hc2 c h

theorem store_other {β : Type} (table : Ptr → β) (p q : Ptr) (v : β) (h : q ≠ p) :
    store table p v q = table q := by
  simp [store, h]

theorem rigidBodyStep_frame (x : Externals) (e : Engine) (b : StreamSlot) (t : Transform) :
    SameShape e (e.rigidBodyStep x b t).1 ∧ WritesAt b e (e.rigidBodyStep x b t).1 := by
  unfold Engine.rigidBodyStep
  split_ifs with h
  · refine ⟨⟨?_, rfl, fun _ => rfl, fun _ => rfl, rfl, rfl, rfl, rfl, rfl, rfl, rfl⟩,
      ⟨?_, fun _ _ => rfl, fun _ _ => rfl, fun _ _ => rfl, fun _ _ => rfl, rfl, ?_⟩⟩
    · intro g
      by_cases hg : g = b.gameObject
      · subst hg; simp only [store_same]
      · simp only [store_other _ _ _ _ hg]
    · intro g hg
      exact store_other _ _ _ _ hg
    · exact ⟨[.getTransform b.rigidBody], rfl, by simp⟩
  · exact ⟨SameShape.shapeRefl e, WritesAt.writesRefl b e⟩

theorem meshRendererStep_frame (e : Engine) (b : StreamSlot) (t : Transform) :
    SameShape e (e.meshRendererStep b t) ∧ WritesAt b e (e.meshRendererStep b t) := by
  unfold Engine.meshRendererStep
  split_ifs with h h2
  · refine ⟨⟨fun _ => rfl, rfl, ?_, fun _ => rfl, rfl, rfl, rfl, rfl, rfl, rfl, rfl⟩,
      ⟨fun _ _ => rfl, ?_, fun _ _ => rfl, fun _ _ => rfl, fun _ _ => rfl, rfl,
        [], by simp, by simp⟩⟩
    · intro p
      by_cases hp : p = b.meshRenderer
      · subst hp; simp only [store_same]
      · simp only [store_other _ _ _ _ hp]
    · intro p hp
      exact store_other _ _ _ _ hp
  · refine ⟨⟨fun _ => rfl, rfl, ?_, fun _ => rfl, rfl, rfl, rfl, rfl, rfl, rfl, rfl⟩,
      ⟨fun _ _ => rfl, ?_, fun _ _ => rfl, fun _ _ => rfl, fun _ _ => rfl, rfl,
        [], by simp, by simp⟩⟩
    · intro p
      by_cases hp : p = b.meshRenderer
      · subst hp; simp only [store_same]
      · simp only [store_other _ _ _ _ hp]
    · intro p hp
      exact store_other _ _ _ _ hp
  · exact ⟨SameShape.shapeRefl e, WritesAt.writesRefl b e⟩

theorem actorStep_frame (e : Engine) (b : StreamSlot) (t : Transform) :
    SameShape e (e.actorStep b t) ∧ WritesAt b e (e.actorStep b t) := by
  unfold Engine.actorStep
  split_ifs with h h2 h3
  · refine ⟨⟨fun _ => rfl, rfl, fun _ => rfl, fun _ => rfl, rfl, rfl, rfl, rfl, rfl, rfl, rfl⟩,
      ⟨fun _ _ => rfl, fun _ _ => rfl, fun _ _ => rfl, fun _ _ => rfl, ?_, rfl, ?_⟩⟩
    · intro p hp
      exact store_other _ _ _ _ hp
    · exact ⟨[.applyLocalForceAtCenterOfMass b.rigidBody _], rfl,
        by intro c hc; simp only [List.mem_singleton] at hc; exact Or.inr ⟨_, hc⟩⟩
  · exact ⟨SameShape.shapeRefl e, WritesAt.writesRefl b e⟩
  · exact ⟨SameShape.shapeRefl e, WritesAt.writesRefl b e⟩
  · exact ⟨SameShape.shapeRefl e, WritesAt.writesRefl b e⟩

theorem cameraStep_frame (e : Engine) (b : StreamSlot) (t : Transform) :
    SameShape e (e.cameraStep b t) ∧ WritesAt b e (e.cameraStep b t) := by
  unfold Engine.cameraStep
  split_ifs with h
  · refine ⟨⟨fun _ => rfl, rfl, fun _ => rfl, ?_, rfl, rfl, rfl, rfl, rfl, rfl, rfl⟩,
      ⟨fun _ _ => rfl, fun _ _ => rfl, ?_, fun _ _ => rfl, fun _ _ => rfl, rfl,
        [], by simp, by simp⟩⟩
    · intro p
      by_cases hp : p = b.camera
      · subst hp
        simp only [store_same]
        split_ifs <;> rfl
      · simp only [store_other _ _ _ _ hp]
    · intro p hp
      exact store_other _ _ _ _ hp
  · exact ⟨SameShape.shapeRefl e, WritesAt.writesRefl b e⟩

theorem lightStep_frame (x : Externals) (e : Engine) (b : StreamSlot) (t : Transform) :
    SameShape e (e.lightStep x b t) ∧ WritesAt b e (e.lightStep x b t) := by
  unfold Engine.lightStep
  split_ifs with h
  · refine ⟨⟨fun _ => rfl, rfl, fun _ => rfl, fun _ => rfl, rfl, rfl, rfl, rfl, rfl, rfl, rfl⟩,
      ⟨fun _ _ => rfl, fun _ _ => rfl, fun _ _ => rfl, ?_, fun _ _ => rfl, rfl,
        [], by simp, by simp⟩⟩
    intro p hp
    exact store_other _ _ _ _ hp
  · exact ⟨SameShape.shapeRefl e, WritesAt.writesRefl b e⟩

theorem OnlyMeshes.meshesRefl (e : Engine) : OnlyMeshes e e := rfl

theorem OnlyMeshes.meshesTrans {a b c : Engine} (h1 : OnlyMeshes a b) (h2 : OnlyMeshes b c) :
    OnlyMeshes a c := by
  unfold OnlyMeshes at *
  rw [h2, h1]

theorem OnlyMeshes.frame {e e1 : Engine} (h : OnlyMeshes e e1) (b : StreamSlot) :
    SameShape e e1 ∧ WritesAt b e e1 := by
  unfold OnlyMeshes at h
  rw [h]
  exact ⟨⟨fun _ => rfl, rfl, fun _ => rfl, fun _ => rfl, rfl, rfl, rfl, rfl, rfl, rfl, rfl⟩,
    ⟨fun _ _ => rfl, fun _ _ => rfl, fun _ _ => rfl, fun _ _ => rfl, fun _ _ => rfl, rfl,
      [], by simp, by simp⟩⟩

theorem addMeshSubSprite_onlyMeshes (e : Engine) (g : Ptr) (xPos yPos w h : Scalar)
    (index : Int) (color : Color) (e1 : Engine)
    (hr : (e.AddMeshSubSprite g xPos yPos w h index color).state? = some e1) :
    OnlyMeshes e e1 := by
  unfold Engine.AddMeshSubSprite at hr
  dsimp only at hr
  split_ifs at hr
  · cases hr; rfl
  · cases hr; rfl
  · cases hr; rfl
  · split at hr
    · cases hr; rfl
    · cases hr; rfl

theorem addMeshTextLoop_onlyMeshes (g : Ptr) (xPos yPos w h : Scalar) (color : Color)
    (text : List Nat) (i : Nat) (e e1 : Engine)
    (hr : (Engine.addMeshTextLoop g xPos yPos w h color text i e).state? = some e1) :
    OnlyMeshes e e1 := by
  induction text generalizing i e with
  | nil => cases hr; rfl
  | cons c rest ih =>
      simp only [Engine.addMeshTextLoop] at hr
      cases h1 : e.AddMeshSubSprite g (xPos + i) yPos w h (charIndex c) color with
      | finished v e2 =>
          rw [h1] at hr
          exact (addMeshSubSprite_onlyMeshes e g _ _ _ _ _ _ e2 (by rw [h1]; rfl)).meshesTrans
            (ih (i + 1) e2 hr)
      | aborted f r =>
          rw [h1] at hr
          cases hr
          exact addMeshSubSprite_onlyMeshes e g _ _ _ _ _ _ _ (by rw [h1]; rfl)
      | outOfFuel =>
          rw [h1] at hr
          cases hr

theorem addMeshText_onlyMeshes (e : Engine) (g : Ptr) (xPos yPos w h : Scalar)
    (text : List Nat) (color : Color) (e1 : Engine)
    (hr : (e.AddMeshText g xPos yPos w h text color).state? = some e1) :
    OnlyMeshes e e1 := by
  unfold Engine.AddMeshText at hr
  dsimp only at hr
  split_ifs at hr
  · cases hr; rfl
  · cases hr; rfl
  · cases h1 : Engine.addMeshTextLoop g xPos yPos w h color text 0 e with
    | finished v e2 =>
        rw [h1] at hr
        cases hr
        exact (addMeshTextLoop_onlyMeshes g _ _ _ _ _ _ _ e e2 (by rw [h1]; rfl)).meshesTrans rfl
    | aborted f r =>
        rw [h1] at hr
        cases hr
        exact addMeshTextLoop_onlyMeshes g _ _ _ _ _ _ _ e _ (by rw [h1]; rfl)
    | outOfFuel =>
        rw [h1] at hr
        cases hr

theorem setObjectTransform_frame (e : Engine) (b : StreamSlot) (tr : Transform) :
    SameShape e (e.setObjectTransform b.gameObject tr) ∧
    WritesAt b e (e.setObjectTransform b.gameObject tr) := by
  unfold Engine.setObjectTransform
  refine ⟨⟨?_, rfl, fun _ => rfl, fun _ => rfl, rfl, rfl, rfl, rfl, rfl, rfl, rfl⟩,
    ⟨?_, fun _ _ => rfl, fun _ _ => rfl, fun _ _ => rfl, fun _ _ => rfl, rfl,
      [], by simp, by simp⟩⟩
  · intro g
    by_cases hg : g = b.gameObject
    · subst hg; simp only [store_same]
    · simp only [store_other _ _ _ _ hg]
  · intro g hg
    exact store_other _ _ _ _ hg

theorem textStep_frame (e : Engine) (b : StreamSlot) (e1 : Engine)
    (hr : (e.textStep b).state? = some e1) : SameShape e e1 ∧ WritesAt b e e1 := by
  unfold Engine.textStep at hr
  dsimp only at hr
  split_ifs at hr with h1 h2 h3
  · cases hr
    exact setObjectTransform_frame e b _
  · have hm := addMeshText_onlyMeshes _ _ _ _ _ _ _ _ e1 hr
    have h4 := setObjectTransform_frame e b
      { (e.objects b.gameObject).transform with
        position := { (e.objects b.gameObject).transform.position with
                      z := textOffsetZ e.viewport (e.mem.texts b.text)
                      y := textOffsetY e.viewport e.displaySize (e.mem.texts b.text) } }
    have h5 : OnlyMeshes (e.setObjectTransform b.gameObject
        { (e.objects b.gameObject).transform with
          position := { (e.objects b.gameObject).transform.position with
                        z := textOffsetZ e.viewport (e.mem.texts b.text)
                        y := textOffsetY e.viewport e.displaySize (e.mem.texts b.text) } }) e1 := by
      unfold OnlyMeshes at hm ⊢
      rw [hm]
      rfl
    exact ⟨h4.1.shapeTrans (h5.frame b).1, h4.2.writesTrans (h5.frame b).2⟩
  · cases hr
    exact ⟨SameShape.shapeRefl _, WritesAt.writesRefl b _⟩
  · cases hr
    exact ⟨SameShape.shapeRefl _, WritesAt.writesRefl b _⟩

/-- An entry whose entity is not active is skipped. -/
theorem updateEntity_inactive (x : Externals) (fuel : Nat) (e : Engine) (b : StreamSlot)
    (hg : b.gameObject ≠ nullptr) (h : (e.objects b.gameObject).isActive = false) :
    e.updateEntity x fuel b = .finished () e := by
  have hg0 : ¬ b.gameObject = nullptr := hg
  unfold Engine.updateEntity
  rw [if_neg hg0, if_pos h]

/-- Whatever state the loop body ends in, it has kept the shape of the engine
state and has written at the pointers of its stream-buffer entry only. -/
theorem updateEntity_frame (x : Externals) (fuel : Nat) (e : Engine) (b : StreamSlot)
    (e1 : Engine) (hr : (e.updateEntity x fuel b).state? = some e1) :
    SameShape e e1 ∧ WritesAt b e e1 := by
  unfold Engine.updateEntity at hr
  dsimp only at hr
  split_ifs at hr with h1 h2
  · cases hr
    exact ⟨SameShape.shapeRefl _, WritesAt.writesRefl b _⟩
  · cases hr
    exact ⟨SameShape.shapeRefl _, WritesAt.writesRefl b _⟩
  · cases hw : walkParents e.objects fuel (e.objects b.gameObject).parent
        { Transform.identity with
          position := (e.objects b.gameObject).transform.position
          orientation := (e.objects b.gameObject).transform.orientation
          scale := (e.objects b.gameObject).transform.scale } with
    | none =>
        rw [hw] at hr
        cases hr
    | some t1 =>
        rw [hw] at hr
        dsimp only at hr
        generalize ht : ({ t1 with matrix := t1.composed } : Transform) = t2 at hr
        have f1 := rigidBodyStep_frame x e b t2
        generalize (e.rigidBodyStep x b t2) = ab at hr f1
        have f2 := meshRendererStep_frame ab.1 b ab.2
        have f3 := actorStep_frame (ab.1.meshRendererStep b ab.2) b ab.2
        have f123 : SameShape e ((ab.1.meshRendererStep b ab.2).actorStep b ab.2) ∧
            WritesAt b e ((ab.1.meshRendererStep b ab.2).actorStep b ab.2) :=
          ⟨(f1.1.shapeTrans f2.1).shapeTrans f3.1, (f1.2.writesTrans f2.2).writesTrans f3.2⟩
        generalize ((ab.1.meshRendererStep b ab.2).actorStep b ab.2) = e4 at hr f123
        cases h5 : e4.textStep b with
        | aborted f r =>
            rw [h5] at hr
            cases hr
            have f4 := textStep_frame e4 b _ (by rw [h5]; rfl)
            exact ⟨f123.1.shapeTrans f4.1, f123.2.writesTrans f4.2⟩
        | outOfFuel =>
            rw [h5] at hr
            cases hr
        | finished v e5 =>
            rw [h5] at hr
            cases hr
            have f4 := textStep_frame e4 b e5 (by rw [h5]; rfl)
            have f6 := cameraStep_frame e5 b ab.2
            have f7 := lightStep_frame x (e5.cameraStep b ab.2) b ab.2
            exact ⟨((f123.1.shapeTrans f4.1).shapeTrans f6.1).shapeTrans f7.1,
              ((f123.2.writesTrans f4.2).writesTrans f6.2).writesTrans f7.2⟩

/-- A property that every pass of the loop body keeps, whatever state the pass
ends in, holds in whatever state the loop ends in. -/
theorem updateLoop_invariant (x : Externals) (fuel : Nat) (P : Engine → Prop)
    (l : List Nat) (e0 : Engine)
    (hstep : ∀ e i e1, i ∈ l → SameShape e0 e → P e →
      (e.updateEntity x fuel (e.streamBuffer i)).state? = some e1 → P e1)
    (h0 : P e0) (e1 : Engine) (hr : (Engine.updateLoop x fuel l e0).state? = some e1) :
    P e1 := by
  induction l generalizing e0 with
  | nil => cases hr; exact h0
  | cons i rest ih =>
      simp only [Engine.updateLoop] at hr
      cases h1 : e0.updateEntity x fuel (e0.streamBuffer i) with
      | finished v e2 =>
          rw [h1] at hr
          have hs : SameShape e0 e2 :=
            (updateEntity_frame x fuel e0 _ e2 (by rw [h1]; rfl)).1
          refine ih e2 ?_ ?_ hr
          · intro e j e3 hj hsame hP hrun
            exact hstep e j e3 (List.mem_cons_of_mem _ hj) (hs.shapeTrans hsame) hP hrun
          · exact hstep e0 i e2 (List.mem_cons_self _ _) (SameShape.shapeRefl _) h0
              (by rw [h1]; rfl)
      | aborted f r =>
          rw [h1] at hr
          cases hr
          exact hstep e0 i _ (List.mem_cons_self _ _) (SameShape.shapeRefl _) h0 (by rw [h1]; rfl)
      | outOfFuel =>
          rw [h1] at hr
          cases hr

/-- A property that every finishing pass of the loop body keeps holds when the
loop finishes. -/
theorem updateLoop_keeps (x : Externals) (fuel : Nat) (Q : Engine → Prop)
    (l : List Nat) (e0 : Engine)
    (hkeep : ∀ e i e1, i ∈ l → SameShape e0 e → Q e →
      e.updateEntity x fuel (e.streamBuffer i) = .finished () e1 → Q e1)
    (h0 : Q e0) (e1 : Engine) (hr : Engine.updateLoop x fuel l e0 = .finished () e1) :
    Q e1 := by
  induction l generalizing e0 with
  | nil => cases hr; exact h0
  | cons i rest ih =>
      simp only [Engine.updateLoop] at hr
      cases h1 : e0.updateEntity x fuel (e0.streamBuffer i) with
      | aborted f r => rw [h1] at hr; cases hr
      | outOfFuel => rw [h1] at hr; cases hr
      | finished v e2 =>
          rw [h1] at hr
          have hs : SameShape e0 e2 :=
            (updateEntity_frame x fuel e0 _ e2 (by rw [h1]; rfl)).1
          refine ih e2 ?_ ?_ hr
          · intro e j e3 hj hsame hQ hrun
            exact hkeep e j e3 (List.mem_cons_of_mem _ hj) (hs.shapeTrans hsame) hQ hrun
          · exact hkeep e0 i e2 (List.mem_cons_self _ _) (SameShape.shapeRefl _) h0 h1

/-- A property that the pass over index `i0` establishes when it finishes, and
that every finishing pass keeps, holds when the loop finishes. -/
theorem updateLoop_establish (x : Externals) (fuel : Nat) (Q : Engine → Prop)
    (l : List Nat) (e0 : Engine) (i0 : Nat) (hi0 : i0 ∈ l)
    (hest : ∀ e e1, SameShape e0 e →
      e.updateEntity x fuel (e.streamBuffer i0) = .finished () e1 → Q e1)
    (hkeep : ∀ e i e1, i ∈ l → SameShape e0 e → Q e →
      e.updateEntity x fuel (e.streamBuffer i) = .finished () e1 → Q e1)
    (e1 : Engine) (hr : Engine.updateLoop x fuel l e0 = .finished () e1) : Q e1 := by
  induction l generalizing e0 with
  | nil => cases hi0
  | cons i rest ih =>
      simp only [Engine.updateLoop] at hr
      cases h1 : e0.updateEntity x fuel (e0.streamBuffer i) with
      | aborted f r => rw [h1] at hr; cases hr
      | outOfFuel => rw [h1] at hr; cases hr
      | finished v e2 =>
          rw [h1] at hr
          have hs : SameShape e0 e2 :=
            (updateEntity_frame x fuel e0 _ e2 (by rw [h1]; rfl)).1
          have hkeep2 : ∀ e j e3, j ∈ rest → SameShape e2 e → Q e →
              e.updateEntity x fuel (e.streamBuffer j) = .finished () e3 → Q e3 :=
            fun e j e3 hj hsame hQ hrun =>
              hkeep e j e3 (List.mem_cons_of_mem _ hj) (hs.shapeTrans hsame) hQ hrun
          rcases List.mem_cons.mp hi0 with hi | hi
          · subst hi
            exact updateLoop_keeps x fuel Q rest e2 hkeep2
              (hest e0 e2 (SameShape.shapeRefl _) h1) e1 hr
          · exact ih e2 hi (fun e e3 hsame hrun => hest e e3 (hs.shapeTrans hsame) hrun) hkeep2 hr

/-! ## The head of `Update` and the rebuild of the stream buffer -/

theorem update_eq (x : Externals) (fuel : Nat) (e : Engine) :
    e.Update x fuel
      = Engine.updateLoop x fuel (List.range e.beforeLoop.mGameObjects.Size) e.beforeLoop :=
  rfl

theorem updatePlayerPosition_eq (e : Engine) :
    ∃ v, e.updatePlayerPosition = { e with playerWorldPosition := v } := by
  unfold Engine.updatePlayerPosition
  dsimp only
  split_ifs
  · exact ⟨_, rfl⟩
  · exact ⟨_, rfl⟩
  · exact ⟨_, rfl⟩

/-- The state the entity loop starts in differs from the state `Update` starts
in by the AI player position and, when the flag was set, by the stream buffer,
its size and the flag. -/
theorem beforeLoop_frame (e : Engine) :
    e.beforeLoop.objects = e.objects ∧ e.beforeLoop.mem = e.mem ∧
    e.beforeLoop.mGameObjects = e.mGameObjects ∧ e.beforeLoop.viewport = e.viewport ∧
    e.beforeLoop.displaySize = e.displaySize ∧ e.beforeLoop.displayCenter = e.displayCenter ∧
    e.beforeLoop.cursorPos = e.cursorPos := by
  obtain ⟨v, hv⟩ := updatePlayerPosition_eq e
  unfold Engine.beforeLoop Engine.rebuildStream
  rw [hv]
  split_ifs <;> exact ⟨rfl, rfl, rfl, rfl, rfl, rfl, rfl⟩

theorem walkParents_isSome (objects : Ptr → GameObject) (fuel : Nat) (p : Ptr)
    (t : Transform) : (walkParents objects fuel p t).isSome = chainEnds objects fuel p := by
  induction fuel generalizing p t with
  | zero =>
      unfold walkParents chainEnds
      split_ifs with h <;> simp [h]
  | succ n ih =>
      unfold walkParents chainEnds
      split_ifs with h
      · rfl
      · exact ih _ _

theorem chainEnds_congr (o1 o2 : Ptr → GameObject) (h : ∀ g, (o1 g).parent = (o2 g).parent)
    (fuel : Nat) (p : Ptr) : chainEnds o1 fuel p = chainEnds o2 fuel p := by
  induction fuel generalizing p with
  | zero => rfl
  | succ n ih =>
      unfold chainEnds
      rw [h p, ih]

theorem SameShape.parent {e e1 : Engine} (h : SameShape e e1) (g : Ptr) :
    (e1.objects g).parent = (e.objects g).parent :=
  (congrArg GameObject.parent (h.objects g) : _)

theorem SameShape.isActive {e e1 : Engine} (h : SameShape e e1) (g : Ptr) :
    (e1.objects g).isActive = (e.objects g).isActive :=
  (congrArg GameObject.isActive (h.objects g) : _)

theorem SameShape.rendererCache {e e1 : Engine} (h : SameShape e e1) (g : Ptr) :
    (e1.objects g).mMeshRendererCache = (e.objects g).mMeshRendererCache :=
  (congrArg GameObject.mMeshRendererCache (h.objects g) : _)

theorem SameShape.slotReady {e e1 : Engine} (h : SameShape e e1) (fuel : Nat) (b : StreamSlot)
    (hb : SlotReady e fuel b) : SlotReady e1 fuel b := by
  unfold SlotReady at hb ⊢
  rw [h.isActive, h.parent, h.rendererMesh, h.rendererCache,
    chainEnds_congr e1.objects e.objects (fun g => h.parent g)]
  exact hb

/-! ## Runs of `Update` that finish, and the faults of those that do not -/

theorem OnlyMeshes.objects {e e1 : Engine} (h : OnlyMeshes e e1) : e1.objects = e.objects := by
  unfold OnlyMeshes at h
  rw [h]

theorem OnlyMeshes.mem {e e1 : Engine} (h : OnlyMeshes e e1) : e1.mem = e.mem := by
  unfold OnlyMeshes at h
  rw [h]

/-- The only fault of `AddMeshSubSprite` is the null mesh renderer, and it
never runs out of fuel. -/
theorem addMeshSubSprite_cases (e : Engine) (g : Ptr) (xPos yPos w h : Scalar) (index : Int)
    (color : Color) :
    (∃ e1, e.AddMeshSubSprite g xPos yPos w h index color = .finished () e1) ∨
    ((e.objects g).mMeshRendererCache = nullptr ∧
      e.AddMeshSubSprite g xPos yPos w h index color = .aborted .nullDereference e) := by
  unfold Engine.AddMeshSubSprite
  dsimp only
  split_ifs with h1 h2 h3
  · exact Or.inr ⟨h1, rfl⟩
  · exact Or.inl ⟨_, rfl⟩
  · exact Or.inl ⟨_, rfl⟩
  · split
    · exact Or.inl ⟨_, rfl⟩
    · exact Or.inl ⟨_, rfl⟩

theorem addMeshTextLoop_finishes (g : Ptr) (xPos yPos w h : Scalar) (color : Color)
    (text : List Nat) (i : Nat) (e : Engine)
    (hg : (e.objects g).mMeshRendererCache ≠ nullptr) :
    ∃ e1, Engine.addMeshTextLoop g xPos yPos w h color text i e = .finished () e1 := by
  induction text generalizing i e with
  | nil => exact ⟨e, rfl⟩
  | cons c rest ih =>
      simp only [Engine.addMeshTextLoop]
      rcases addMeshSubSprite_cases e g (xPos + i) yPos w h (charIndex c) color with
        ⟨e1, h1⟩ | ⟨h0, _⟩
      · rw [h1]
        have hm := addMeshSubSprite_onlyMeshes e g _ _ _ _ _ _ e1 (by rw [h1]; rfl)
        exact ih (i + 1) e1 (by rw [hm.objects]; exact hg)
      · exact absurd h0 hg

theorem addMeshText_cases (e : Engine) (g : Ptr) (xPos yPos w h : Scalar) (text : List Nat)
    (color : Color) :
    (∃ e1, e.AddMeshText g xPos yPos w h text color = .finished () e1) ∨
    ((e.objects g).mMeshRendererCache = nullptr ∧
      e.AddMeshText g xPos yPos w h text color = .aborted .nullDereference e) := by
  unfold Engine.AddMeshText
  dsimp only
  split_ifs with h1 h2
  · exact Or.inr ⟨h1, rfl⟩
  · exact Or.inl ⟨_, rfl⟩
  · obtain ⟨e1, he1⟩ := addMeshTextLoop_finishes g xPos yPos w h color text 0 e h1
    rw [he1]
    exact Or.inl ⟨_, rfl⟩

/-- The text block finishes or stops at a null pointer. -/
theorem textStep_cases (e : Engine) (b : StreamSlot) :
    (∃ e1, e.textStep b = .finished () e1) ∨
    (∃ r, e.textStep b = .aborted .nullDereference r ∧ b.text ≠ nullptr ∧
      b.meshRenderer ≠ nullptr ∧
      ((e.mem.meshRenderers b.meshRenderer).mesh = nullptr ∨
        (e.objects b.gameObject).mMeshRendererCache = nullptr)) := by
  unfold Engine.textStep
  dsimp only
  split_ifs with h1 h2 h3
  · exact Or.inr ⟨_, rfl, h1, h2, Or.inl h3⟩
  · rcases addMeshText_cases
      { e with
        objects := store e.objects b.gameObject
          { e.objects b.gameObject with
            transform := { (e.objects b.gameObject).transform with
                           position := { (e.objects b.gameObject).transform.position with
                                         z := textOffsetZ e.viewport (e.mem.texts b.text)
                                         y := textOffsetY e.viewport e.displaySize
                                                (e.mem.texts b.text) } } }
        meshes := store e.meshes (e.mem.meshRenderers b.meshRenderer).mesh
          { e.meshes (e.mem.meshRenderers b.meshRenderer).mesh with subMeshes := [] } }
      b.gameObject 0 0 (e.mem.texts b.text).glyphWidth (e.mem.texts b.text).glyphHeight
      (e.mem.texts b.text).text (e.mem.texts b.text).color with ⟨e1, he1⟩ | ⟨h0, he1⟩
    · exact Or.inl ⟨e1, he1⟩
    · refine Or.inr ⟨_, he1, h1, h2, Or.inr ?_⟩
      simp only [store_same] at h0
      exact h0
  · exact Or.inl ⟨_, rfl⟩
  · exact Or.inl ⟨_, rfl⟩

/-- The loop body on an active entity: the walk up the parent chain does not
end within the fuel, or the blocks up to the actor block lead to a state of the
same shape, from which the text, camera and light blocks run. -/
theorem updateEntity_active (x : Externals) (fuel : Nat) (e : Engine) (b : StreamSlot)
    (hg : b.gameObject ≠ nullptr) (hact : (e.objects b.gameObject).isActive = true) :
    (chainEnds e.objects fuel (e.objects b.gameObject).parent = false ∧
      e.updateEntity x fuel b = .outOfFuel) ∨
    (chainEnds e.objects fuel (e.objects b.gameObject).parent = true ∧
      ∃ e4 t, SameShape e e4 ∧ WritesAt b e e4 ∧
      e.updateEntity x fuel b =
        match e4.textStep b with
        | .aborted f r => .aborted f r
        | .outOfFuel => .outOfFuel
        | .finished _ e5 => .finished () ((e5.cameraStep b t).lightStep x b t)) := by
  have hg0 : ¬ b.gameObject = nullptr := hg
  have hact0 : ¬ (e.objects b.gameObject).isActive = false := by simp [hact]
  have hsome := walkParents_isSome e.objects fuel (e.objects b.gameObject).parent
    { Transform.identity with
      position := (e.objects b.gameObject).transform.position
      orientation := (e.objects b.gameObject).transform.orientation
      scale := (e.objects b.gameObject).transform.scale }
  unfold Engine.updateEntity
  rw [if_neg hg0, if_neg hact0]
  dsimp only
  cases hw : walkParents e.objects fuel (e.objects b.gameObject).parent
      { Transform.identity with
        position := (e.objects b.gameObject).transform.position
        orientation := (e.objects b.gameObject).transform.orientation
        scale := (e.objects b.gameObject).transform.scale } with
  | none =>
      rw [hw] at hsome
      exact Or.inl ⟨hsome.symm, rfl⟩
  | some t1 =>
      rw [hw] at hsome
      refine Or.inr ⟨hsome.symm, _, _, ?_, ?_, rfl⟩
      · have f1 := rigidBodyStep_frame x e b { t1 with matrix := t1.composed }
        have f2 := meshRendererStep_frame (e.rigidBodyStep x b { t1 with matrix := t1.composed }).1
          b (e.rigidBodyStep x b { t1 with matrix := t1.composed }).2
        have f3 := actorStep_frame
          ((e.rigidBodyStep x b { t1 with matrix := t1.composed }).1.meshRendererStep b
            (e.rigidBodyStep x b { t1 with matrix := t1.composed }).2) b
          (e.rigidBodyStep x b { t1 with matrix := t1.composed }).2
        exact (f1.1.shapeTrans f2.1).shapeTrans f3.1
      · have f1 := rigidBodyStep_frame x e b { t1 with matrix := t1.composed }
        have f2 := meshRendererStep_frame (e.rigidBodyStep x b { t1 with matrix := t1.composed }).1
          b (e.rigidBodyStep x b { t1 with matrix := t1.composed }).2
        have f3 := actorStep_frame
          ((e.rigidBodyStep x b { t1 with matrix := t1.composed }).1.meshRendererStep b
            (e.rigidBodyStep x b { t1 with matrix := t1.composed }).2) b
          (e.rigidBodyStep x b { t1 with matrix := t1.composed }).2
        exact (f1.2.writesTrans f2.2).writesTrans f3.2

/-- The loop body never stops at an assertion: when it is aborted, a null
pointer was dereferenced. -/
theorem updateEntity_fault (x : Externals) (fuel : Nat) (e : Engine) (b : StreamSlot)
    (f : Fault) (r : Engine) (h : e.updateEntity x fuel b = .aborted f r) :
    f = .nullDereference := by
  by_cases hg : b.gameObject = nullptr
  · unfold Engine.updateEntity at h
    rw [if_pos hg] at h
    cases h
    rfl
  · cases hact : (e.objects b.gameObject).isActive with
    | false =>
        rw [updateEntity_inactive x fuel e b hg hact] at h
        cases h
    | true =>
        rcases updateEntity_active x fuel e b hg hact with ⟨_, h1⟩ | ⟨_, e4, t, _, _, h1⟩
        · rw [h1] at h
          cases h
        · rw [h1] at h
          rcases textStep_cases e4 b with ⟨e5, h5⟩ | ⟨r5, h5, _⟩
          · rw [h5] at h
            cases h
          · rw [h5] at h
            cases h
            rfl

/-- The loop body finishes on an entry that is ready. -/
theorem updateEntity_finishes (x : Externals) (fuel : Nat) (e : Engine) (b : StreamSlot)
    (hb : SlotReady e fuel b) : ∃ e1, e.updateEntity x fuel b = .finished () e1 := by
  obtain ⟨hg, hrest⟩ := hb
  cases hact : (e.objects b.gameObject).isActive with
  | false => exact ⟨e, updateEntity_inactive x fuel e b hg hact⟩
  | true =>
      obtain ⟨hchain, htext⟩ := hrest hact
      rcases updateEntity_active x fuel e b hg hact with ⟨h0, _⟩ | ⟨_, e4, t, hs, _, h1⟩
      · rw [hchain] at h0
        cases h0
      · rw [h1]
        rcases textStep_cases e4 b with ⟨e5, h5⟩ | ⟨r5, _, ht, hm, hnull⟩
        · rw [h5]
          exact ⟨_, rfl⟩
        · obtain ⟨hmesh, hcache⟩ := htext ht hm
          rw [hs.rendererMesh, hs.rendererCache] at hnull
          rcases hnull with h | h
          · exact absurd h hmesh
          · exact absurd h hcache

/-- The entity loop finishes when the entries it visits are ready. -/
theorem updateLoop_finishes (x : Externals) (fuel : Nat) (l : List Nat) (e0 : Engine)
    (hready : ∀ i ∈ l, SlotReady e0 fuel (e0.streamBuffer i)) :
    ∃ e1, Engine.updateLoop x fuel l e0 = .finished () e1 := by
  induction l generalizing e0 with
  | nil => exact ⟨e0, rfl⟩
  | cons i rest ih =>
      obtain ⟨e2, h2⟩ := updateEntity_finishes x fuel e0 _ (hready i (List.mem_cons_self _ _))
      have hs : SameShape e0 e2 := (updateEntity_frame x fuel e0 _ e2 (by rw [h2]; rfl)).1
      simp only [Engine.updateLoop, h2]
      refine ih e2 ?_
      intro j hj
      rw [hs.streamBuffer]
      exact hs.slotReady fuel _ (hready j (List.mem_cons_of_mem _ hj))

/-- The entity loop never stops at an assertion. -/
theorem updateLoop_fault (x : Externals) (fuel : Nat) (l : List Nat) (e0 : Engine)
    (f : Fault) (r : Engine) (h : Engine.updateLoop x fuel l e0 = .aborted f r) :
    f = .nullDereference := by
  induction l generalizing e0 with
  | nil => cases h
  | cons i rest ih =>
      simp only [Engine.updateLoop] at h
      cases h1 : e0.updateEntity x fuel (e0.streamBuffer i) with
      | finished v e2 =>
          rw [h1] at h
          exact ih e2 h
      | aborted f1 r1 =>
          rw [h1] at h
          cases h
          exact updateEntity_fault x fuel e0 _ _ _ h1
      | outOfFuel =>
          rw [h1] at h
          cases h

/-- When the entries the loop will visit are ready, `Update` finishes. -/
theorem update_finishes (x : Externals) (fuel : Nat) (e : Engine)
    (hready : e.beforeLoop.Ready fuel) : ∃ e1, e.Update x fuel = .finished () e1 := by
  rw [update_eq]
  refine updateLoop_finishes x fuel _ _ ?_
  intro i hi
  exact hready i (List.mem_range.mp hi)

/-! ## Entities that are not active -/

theorem Untouched.untouchedRefl (E : Ptr) (e : Engine) : Untouched E e e :=
  ⟨rfl, fun _ => rfl, fun _ => rfl, fun _ => rfl, fun _ => rfl, rfl,
    [], by simp, by simp⟩

theorem Untouched.untouchedTrans {E : Ptr} {a b c : Engine} (h1 : Untouched E a b)
    (h2 : Untouched E b c) : Untouched E a c where
  entity := h2.entity.trans h1.entity
  meshRenderer hne := by
    have h := h2.meshRenderer
    rw [h1.entity] at h
    exact (h hne).trans (h1.meshRenderer hne)
  camera hne := by
    have h := h2.camera
    rw [h1.entity] at h
    exact (h hne).trans (h1.camera hne)
  light hne := by
    have h := h2.light
    rw [h1.entity] at h
    exact (h hne).trans (h1.light hne)
  actor hne := by
    have h := h2.actor
    rw [h1.entity] at h
    exact (h hne).trans (h1.actor hne)
  rigidBodies := h2.rigidBodies.trans h1.rigidBodies
  physicsCalls := by
    obtain ⟨x1, hx1, hc1⟩ := h1.physicsCalls
    obtain ⟨x2, hx2, hc2⟩ := h2.physicsCalls
    rw [h1.entity] at hc2
    refine ⟨x1 ++ x2, by rw [hx2, hx1, List.append_assoc], ?_⟩
    intro hne c hc
    rcases List.mem_append.mp hc with h | h
    · exact hc1 hne c h
    · exact hc2 hne c h

/-- One pass of the loop body writes nothing of an inactive entity whose
components the entry does not share. -/
theorem updateEntity_untouched (x : Externals) (fuel : Nat) (e : Engine) (b : StreamSlot)
    (E : Ptr) (e1 : Engine) (hr : (e.updateEntity x fuel b).state? = some e1)
    (hinactive : (e.objects E).isActive = false)
    (havoid : (e.objects b.gameObject).isActive = true → SlotAvoids b (e.objects E)) :
    Untouched E e e1 := by
  by_cases hg : b.gameObject = nullptr
  · unfold Engine.updateEntity at hr
    rw [if_pos hg] at hr
    cases hr
    exact Untouched.untouchedRefl E _
  · cases hact : (e.objects b.gameObject).isActive with
    | false =>
        rw [updateEntity_inactive x fuel e b hg hact] at hr
        cases hr
        exact Untouched.untouchedRefl E _
    | true =>
        have w := (updateEntity_frame x fuel e b e1 hr).2
        obtain ⟨a1, a2, a3, a4, a5⟩ := havoid hact
        have hE : E ≠ b.gameObject := by
          intro h
          rw [h, hact] at hinactive
          cases hinactive
        refine ⟨w.objects E hE, fun hne => w.meshRenderers _ (fun h => hne (a1 h.symm)),
          fun hne => w.cameras _ (fun h => hne (a2 h.symm)),
          fun hne => w.lights _ (fun h => hne (a3 h.symm)),
          fun hne => w.actors _ (fun h => hne (a4 h.symm)), w.rigidBodies, ?_⟩
        obtain ⟨extra, hx, hc⟩ := w.physicsCalls
        refine ⟨extra, hx, ?_⟩
        intro hne c hmem
        rcases hc c hmem with h | ⟨v, h⟩
        · subst h
          refine ⟨fun heq => ?_, fun v heq => by cases heq⟩
          injection heq with h1
          exact hne (a5 h1)
        · subst h
          refine ⟨fun heq => (by cases heq), fun v2 heq => ?_⟩
          injection heq with h1 _
          exact hne (a5 h1)

/-- The entity loop writes nothing of an inactive entity whose components no
entry of an active entity shares. -/
theorem updateLoop_untouched (x : Externals) (fuel : Nat) (l : List Nat) (e0 : Engine)
    (E : Ptr) (e1 : Engine) (hr : (Engine.updateLoop x fuel l e0).state? = some e1)
    (hinactive : (e0.objects E).isActive = false)
    (havoid : ∀ i ∈ l, (e0.objects (e0.streamBuffer i).gameObject).isActive = true →
      SlotAvoids (e0.streamBuffer i) (e0.objects E)) :
    Untouched E e0 e1 := by
  refine updateLoop_invariant x fuel (fun e => Untouched E e0 e) l e0 ?_
    (Untouched.untouchedRefl E e0) e1 hr
  intro e i e2 hi hs hP hrun
  refine hP.untouchedTrans (updateEntity_untouched x fuel e _ E e2 hrun ?_ ?_)
  · rw [hP.entity]
    exact hinactive
  · rw [hs.streamBuffer, hs.isActive, hP.entity]
    exact havoid i hi

/-! ## C11: inactive entities in `Update` -/

/-- C11, as amended: `EngineSystemManager::Update` performs no transform or
subsystem update for an entity `E` whose `isActive` flag is false, provided no
entry of an active entity in the stream buffer the entity loop runs on lists a
component of `E` (an entry left from before a component changed hands, or a
shared component, would).  In whatever state `Update` ends, the entity (its
transform with position, orientation and scale included) is as before; so are
the mesh renderer, the camera, the light and the actor attached to it, and the
rigid bodies; and among the calls made on the physics collaborator there is
none on its rigid body, so no force is applied to it. -/
theorem C11_inactive_entity_untouched (x : Externals) (fuel : Nat) (e : Engine) (E : Ptr)
    (e1 : Engine) (hinactive : (e.objects E).isActive = false)
    (havoid : ∀ i, i < e.mGameObjects.Size →
      (e.objects (e.beforeLoop.streamBuffer i).gameObject).isActive = true →
      SlotAvoids (e.beforeLoop.streamBuffer i) (e.objects E))
    (hrun : (e.Update x fuel).state? = some e1) :
    e1.objects E = e.objects E ∧
    ((e.objects E).mMeshRendererCache ≠ nullptr →
      e1.mem.meshRenderers (e.objects E).mMeshRendererCache
        = e.mem.meshRenderers (e.objects E).mMeshRendererCache) ∧
    ((e.objects E).mCameraCache ≠ nullptr →
      e1.mem.cameras (e.objects E).mCameraCache = e.mem.cameras (e.objects E).mCameraCache) ∧
    ((e.objects E).mLightCache ≠ nullptr →
      e1.mem.lights (e.objects E).mLightCache = e.mem.lights (e.objects E).mLightCache) ∧
    ((e.objects E).mActorCache ≠ nullptr →
      e1.mem.actors (e.objects E).mActorCache = e.mem.actors (e.objects E).mActorCache) ∧
    e1.mem.rigidBodies = e.mem.rigidBodies ∧
    ∃ extra, e1.mem.physicsCalls = e.mem.physicsCalls ++ extra ∧
      ((e.objects E).mRigidBodyCache ≠ nullptr → ∀ c ∈ extra, ∀ v,
        c ≠ PhysicsCall.applyLocalForceAtCenterOfMass (e.objects E).mRigidBodyCache v) := by
  obtain ⟨ho, hm, hp, _⟩ := beforeLoop_frame e
  rw [update_eq] at hrun
  have h := updateLoop_untouched x fuel _ e.beforeLoop E e1 hrun
    (by rw [ho]; exact hinactive)
    (by
      intro i hi
      rw [ho]
      exact havoid i (by rw [← hp]; exact List.mem_range.mp hi))
  have h1 := h.entity
  have h2 := h.meshRenderer
  have h3 := h.camera
  have h4 := h.light
  have h5 := h.actor
  have h6 := h.rigidBodies
  obtain ⟨extra, hx, hc⟩ := h.physicsCalls
  rw [ho] at h1
  rw [ho, hm] at h2 h3 h4 h5
  rw [hm] at h6 hx
  rw [ho] at hc
  exact ⟨h1, h2, h3, h4, h5, h6, extra, hx, fun hne c hmem => (hc hne c hmem).2⟩

/-- C11 (as amended) at the scene of the examples: entity `3` is deactivated and
keeps its mesh renderer and its actor through an `Update`. -/
theorem C11_inactive_entity_untouched_witness :
    (sampleScene.objects 3).isActive = false ∧
    (sampleScene.objects 3).mMeshRendererCache = 2 ∧
    ((sampleScene.Update sampleExternals 2).reached sampleScene).objects 3
      = sampleScene.objects 3 ∧
    ((sampleScene.Update sampleExternals 2).reached sampleScene).mem.meshRenderers 2
      = sampleScene.mem.meshRenderers 2 := by
  have h := C11_inactive_entity_untouched sampleExternals 2 sampleScene 3
    ((sampleScene.Update sampleExternals 2).reached sampleScene) (by decide) (by decide) rfl
  exact ⟨by decide, by decide, h.1, h.2.1 (by decide)⟩

/-! ## C12: the rebuild of the stream buffer -/

theorem SameShape.slotOf {e e1 : Engine} (h : SameShape e e1) (g : Ptr) :
    e1.slotOf g = e.slotOf g := by
  have h1 : (e1.objects g).mTextCache = (e.objects g).mTextCache :=
    (congrArg GameObject.mTextCache (h.objects g) : _)
  have h2 : (e1.objects g).mLightCache = (e.objects g).mLightCache :=
    (congrArg GameObject.mLightCache (h.objects g) : _)
  have h3 : (e1.objects g).mActorCache = (e.objects g).mActorCache :=
    (congrArg GameObject.mActorCache (h.objects g) : _)
  have h4 : (e1.objects g).mCameraCache = (e.objects g).mCameraCache :=
    (congrArg GameObject.mCameraCache (h.objects g) : _)
  have h5 : (e1.objects g).mRigidBodyCache = (e.objects g).mRigidBodyCache :=
    (congrArg GameObject.mRigidBodyCache (h.objects g) : _)
  have h6 : (e1.objects g).mMeshRendererCache = (e.objects g).mMeshRendererCache :=
    (congrArg GameObject.mMeshRendererCache (h.objects g) : _)
  unfold Engine.slotOf
  rw [h1, h2, h3, h4, h5, h6]

/-- The four structural calls of the engine set the dirty flag whenever they
create or destroy something. -/
theorem structural_calls_set_flag (e : Engine) :
    (∀ g e1, e.CreateGameObject = .finished g e1 → e1.doUpdateDataStream = true) ∧
    (∀ g v e1, e.DestroyGameObject g = .finished v e1 → e1.doUpdateDataStream = true) ∧
    (∀ t c e1, e.CreateComponent t = .finished c e1 → c ≠ nullptr →
      e1.doUpdateDataStream = true) ∧
    (∀ c e1, e.DestroyComponent c = .finished true e1 → e1.doUpdateDataStream = true) := by
  refine ⟨?_, ?_, ?_, ?_⟩
  · intro g e1 h
    unfold Engine.CreateGameObject at h
    split at h
    · cases h
    · cases h
      rfl
  · intro g v e1 h
    unfold Engine.DestroyGameObject at h
    dsimp only at h
    split_ifs at h
    split at h
    · cases h
    · cases h
    · split at h
      · cases h
      · cases h
        rfl
  · intro t c e1 h hc
    unfold Engine.CreateComponent at h
    dsimp only at h
    split_ifs at h
    · split at h
      · cases h
      · split at h
        · cases h
        · cases h
          rfl
    · cases h
      exact absurd rfl hc
  · intro c e1 h
    unfold Engine.DestroyComponent at h
    dsimp only at h
    split_ifs at h
    · split at h
      · cases h
      · split at h
        · cases h
        · cases h
          rfl
    · cases h

/-! ## The `float` and `int` arithmetic of the target -/

theorem roundHalfEven_intCast (z : Int) : roundHalfEven (z : Rat) = z := by
  unfold roundHalfEven
  rw [Int.floor_intCast]
  simp

/-- A value whose quotient by its unit in the last place is an integer is a
`float`: rounding leaves it as it is. -/
theorem roundFloat_of_mantissa (q : Rat) (z : Int)
    (h : q / 2 ^ floatUlpExponent q = (z : Rat)) : roundFloat q = q := by
  unfold roundFloat
  rw [h, roundHalfEven_intCast, ← h]
  have h2 : (2 : Rat) ^ floatUlpExponent q ≠ 0 := zpow_ne_zero _ (by norm_num)
  field_simp

/-- The exponent of a non-zero integer. -/
theorem floatUlpExponent_intCast (n : Int) :
    floatUlpExponent (n : Rat) = (Nat.log 2 n.natAbs : Int) - 23 := by
  unfold floatUlpExponent
  have h1 : |(n : Rat)| = ((n.natAbs : Nat) : Rat) := by
    rw [← Int.cast_abs, Int.abs_eq_natAbs]
    rfl
  rw [h1, Int.log_natCast]
  have h2 : (0 : Int) ≤ (Nat.log 2 n.natAbs : Int) := Int.natCast_nonneg _
  omega

/-- The exponent of the unit in the last place at a value between two
neighbouring powers of two, in the normal range of the format. -/
theorem floatUlpExponent_of_bounds (q : Rat) (e : Int) (h1 : (2 : Rat) ^ e ≤ |q|)
    (h2 : |q| < (2 : Rat) ^ (e + 1)) (he : -126 ≤ e) : floatUlpExponent q = e - 23 := by
  have hpos : (0 : Rat) < |q| := lt_of_lt_of_le (zpow_pos (by norm_num) e) h1
  have hlog : Int.log 2 |q| = e := by
    have ha : e ≤ Int.log 2 |q| :=
      (Int.zpow_le_iff_le_log (by norm_num : 1 < 2) hpos).mp (by exact_mod_cast h1)
    have hb : Int.log 2 |q| < e + 1 :=
      (Int.lt_zpow_iff_log_lt (by norm_num : 1 < 2) hpos).mp (by exact_mod_cast h2)
    omega
  unfold floatUlpExponent
  rw [hlog]
  omega

/-- The integers of magnitude up to `2 ^ 24` are `float` values: the conversion
of such an `int` to `float` is exact. -/
theorem roundFloat_intCast (n : Int) (h : n.natAbs ≤ 2 ^ 24) : roundFloat (n : Rat) = n := by
  by_cases hn : n = 0
  · subst hn
    refine roundFloat_of_mantissa _ 0 ?_
    simp
  have hn0 : n.natAbs ≠ 0 := fun h0 => hn (Int.natAbs_eq_zero.mp h0)
  have hlog : Nat.log 2 n.natAbs < 25 :=
    Nat.log_lt_of_lt_pow hn0 (lt_of_le_of_lt h (by norm_num))
  by_cases h23 : Nat.log 2 n.natAbs ≤ 23
  · obtain ⟨d, hd⟩ : ∃ d : Nat, Nat.log 2 n.natAbs + d = 23 := ⟨23 - Nat.log 2 n.natAbs, by omega⟩
    refine roundFloat_of_mantissa _ (n * 2 ^ d) ?_
    rw [floatUlpExponent_intCast]
    have hk : ((Nat.log 2 n.natAbs : Int) - 23) = -(d : Int) := by omega
    rw [hk, zpow_neg, zpow_natCast, div_inv_eq_mul]
    push_cast
    rfl
  · have h24 : Nat.log 2 n.natAbs = 24 := by omega
    have hge : 2 ^ 24 ≤ n.natAbs := by
      have h3 := Nat.pow_log_le_self 2 hn0
      rwa [h24] at h3
    have habs : n.natAbs = 2 ^ 24 := le_antisymm h hge
    refine roundFloat_of_mantissa _ (n / 2) ?_
    rw [floatUlpExponent_intCast, h24]
    have hdvd : (2 : Int) ∣ n := by
      have h4 : (2 : Int) ∣ (n.natAbs : Int) := by
        rw [habs]
        norm_num
      exact (Int.dvd_natAbs).mp h4
    obtain ⟨m, hm⟩ := hdvd
    rw [hm]
    norm_num

theorem wrapInt_of_range (n : Int) (h1 : -(2 ^ 31) ≤ n) (h2 : n < 2 ^ 31) : wrapInt n = n := by
  unfold wrapInt
  rw [Int.emod_eq_of_lt (by omega) (by omega)]
  omega

theorem floatOfInt_exact (n : Int) (h : n.natAbs ≤ 2 ^ 24) : floatOfInt n = n :=
  roundFloat_intCast n h

/-- The `float` nearest to `0.0274`, the value of the literal `0.0274f`, is
`14710263 / 2 ^ 29`. -/
theorem roundFloat_pitch : roundFloat (274 / 10000) = 14710263 / 536870912 := by
  have hk : floatUlpExponent (274 / 10000) = -6 - 23 :=
    floatUlpExponent_of_bounds _ (-6) (by norm_num [abs_of_pos]) (by norm_num [abs_of_pos])
      (by norm_num)
  have hfloor : ⌊(274 / 10000 : Rat) / 2 ^ (-6 - 23 : Int)⌋ = 14710262 := by
    rw [Int.floor_eq_iff]
    norm_num
  have hz : roundHalfEven ((274 / 10000 : Rat) / 2 ^ (-6 - 23 : Int)) = 14710263 := by
    unfold roundHalfEven
    rw [hfloor]
    norm_num
  unfold roundFloat
  rw [hk, hz]
  norm_num

theorem mouseLook_pitch (c : Camera) (dx dy : Int) :
    -pitchLimit ≤ (mouseLook c dx dy).y ∧ (mouseLook c dx dy).y ≤ pitchLimit := by
  have hpos : (0 : Scalar) < pitchLimit := by norm_num [pitchLimit]
  unfold mouseLook
  dsimp only
  split_ifs with h1 h2 h3 <;> constructor <;> linarith

theorem cameraStep_objects (e : Engine) (b : StreamSlot) (t : Transform) :
    (e.cameraStep b t).objects = e.objects := by
  unfold Engine.cameraStep
  split_ifs <;> rfl

theorem lightStep_objects (x : Externals) (e : Engine) (b : StreamSlot) (t : Transform) :
    (e.lightStep x b t).objects = e.objects := by
  unfold Engine.lightStep
  split_ifs <;> rfl

theorem lightStep_cameras (x : Externals) (e : Engine) (b : StreamSlot) (t : Transform) :
    (e.lightStep x b t).mem.cameras = e.mem.cameras := by
  unfold Engine.lightStep
  split_ifs <;> rfl

/-- The camera block leaves the pitch of a camera with mouse look within the
limit and copies it to the orientation. -/
theorem cameraStep_pitch (e : Engine) (b : StreamSlot) (t : Transform)
    (hcam : b.camera ≠ nullptr) (hlook : (e.mem.cameras b.camera).useMouseLook = true) :
    PitchClamped ((e.cameraStep b t).mem.cameras b.camera) := by
  unfold Engine.cameraStep
  rw [if_pos hcam]
  simp only [hlook, if_true, store_same]
  exact ⟨(mouseLook_pitch _ _ _).1, (mouseLook_pitch _ _ _).2, rfl⟩

/-- A pass of the loop body over an active entity that finishes has run the
text, camera and light blocks, the text block from a state of the same shape. -/
theorem updateEntity_finished_active (x : Externals) (fuel : Nat) (e : Engine)
    (b : StreamSlot) (e1 : Engine) (hr : e.updateEntity x fuel b = .finished () e1)
    (hact : (e.objects b.gameObject).isActive = true) :
    ∃ e4 e5 t, SameShape e e4 ∧ e4.textStep b = .finished () e5 ∧
      e1 = (e5.cameraStep b t).lightStep x b t := by
  by_cases hg : b.gameObject = nullptr
  · unfold Engine.updateEntity at hr
    rw [if_pos hg] at hr
    cases hr
  · rcases updateEntity_active x fuel e b hg hact with ⟨_, h1⟩ | ⟨_, e4, t, hs, _, h1⟩
    · rw [h1] at hr
      cases hr
    · rw [h1] at hr
      cases h5 : e4.textStep b with
      | aborted f r =>
          rw [h5] at hr
          cases hr
      | outOfFuel =>
          rw [h5] at hr
          cases hr
      | finished v e5 =>
          rw [h5] at hr
          cases hr
          exact ⟨e4, e5, t, hs, h5, rfl⟩

/-- A pass of the loop body that finishes leaves the pitch of a camera with
mouse look clamped when it was clamped before, or when the pass is the one of
an active entity over this camera. -/
theorem updateEntity_pitch (x : Externals) (fuel : Nat) (e : Engine) (b : StreamSlot)
    (e1 : Engine) (c : Ptr) (hr : e.updateEntity x fuel b = .finished () e1)
    (hc : c ≠ nullptr) (hlook : (e.mem.cameras c).useMouseLook = true)
    (h : PitchClamped (e.mem.cameras c) ∨
      (b.camera = c ∧ (e.objects b.gameObject).isActive = true)) :
    PitchClamped (e1.mem.cameras c) := by
  cases hact : (e.objects b.gameObject).isActive with
  | false =>
      have hg : b.gameObject ≠ nullptr := by
        intro hg
        unfold Engine.updateEntity at hr
        rw [if_pos hg] at hr
        cases hr
      rw [updateEntity_inactive x fuel e b hg hact] at hr
      cases hr
      rcases h with h | ⟨_, h⟩
      · exact h
      · rw [hact] at h
        cases h
  | true =>
      by_cases hbc : b.camera = c
      · obtain ⟨e4, e5, t, hs, h5, he1⟩ := updateEntity_finished_active x fuel e b e1 hr hact
        have hs5 := (textStep_frame e4 b e5 (by rw [h5]; rfl)).1
        subst he1
        subst hbc
        rw [lightStep_cameras]
        refine cameraStep_pitch e5 b t hc ?_
        rw [hs5.mouseLook, hs.mouseLook]
        exact hlook
      · have w := (updateEntity_frame x fuel e b e1 (by rw [hr]; rfl)).2
        rw [w.cameras c (fun h => hbc h.symm)]
        rcases h with h | ⟨h, _⟩
        · exact h
        · exact absurd h hbc

/-! ## C19: the offset of a text anchored right -/

theorem textStep_offset (e : Engine) (b : StreamSlot) (e1 : Engine)
    (hr : e.textStep b = .finished () e1) (ht : b.text ≠ nullptr)
    (hm : b.meshRenderer ≠ nullptr) :
    (e1.objects b.gameObject).transform.position.z
      = textOffsetZ e.viewport (e.mem.texts b.text) := by
  unfold Engine.textStep at hr
  rw [if_pos ht, if_pos hm] at hr
  dsimp only at hr
  split_ifs at hr with h3
  have ho := (addMeshText_onlyMeshes _ _ _ _ _ _ _ _ e1 (by rw [hr]; rfl)).objects
  rw [ho]
  simp only [store_same]

/-- A pass of the loop body over an active entity with a text and a mesh
renderer that finishes leaves the offset computed by the text block. -/
theorem updateEntity_offset (x : Externals) (fuel : Nat) (e : Engine) (b : StreamSlot)
    (e1 : Engine) (hr : e.updateEntity x fuel b = .finished () e1)
    (hact : (e.objects b.gameObject).isActive = true) (ht : b.text ≠ nullptr)
    (hm : b.meshRenderer ≠ nullptr) :
    (e1.objects b.gameObject).transform.position.z
      = textOffsetZ e.viewport (e.mem.texts b.text) := by
  obtain ⟨e4, e5, t, hs, h5, he1⟩ := updateEntity_finished_active x fuel e b e1 hr hact
  subst he1
  rw [lightStep_objects, cameraStep_objects, textStep_offset e4 b e5 h5 ht hm, hs.viewport,
    hs.texts]

/-! ## C20: the walk up a parent chain that never ends -/

/-- On an active entity whose parent chain does not end within the fuel, the
loop body does not finish. -/
theorem updateEntity_endless (x : Externals) (fuel : Nat) (e : Engine) (b : StreamSlot)
    (hact : (e.objects b.gameObject).isActive = true)
    (hchain : chainEnds e.objects fuel (e.objects b.gameObject).parent = false) (e1 : Engine) :
    e.updateEntity x fuel b ≠ .finished () e1 := by
  intro hr
  by_cases hg : b.gameObject = nullptr
  · unfold Engine.updateEntity at hr
    rw [if_pos hg] at hr
    cases hr
  · rcases updateEntity_active x fuel e b hg hact with ⟨_, h1⟩ | ⟨h1, _⟩
    · rw [h1] at hr
      cases hr
    · rw [hchain] at h1
      cases h1

theorem sampleCycle_chain (n : Nat) :
    chainEnds sampleCycle.objects n 1 = false ∧ chainEnds sampleCycle.objects n 2 = false := by
  induction n with
  | zero => exact ⟨by decide, by decide⟩
  | succ n ih =>
      refine ⟨?_, ?_⟩
      · have h : chainEnds sampleCycle.objects (n + 1) 1
            = chainEnds sampleCycle.objects n 2 := rfl
        rw [h]
        exact ih.2
      · have h : chainEnds sampleCycle.objects (n + 1) 2
            = chainEnds sampleCycle.objects n 1 := rfl
        rw [h]
        exact ih.1

/-- C20: there is no assertion against a cyclic parent chain.  When the entity
loop visits an active entity whose parent chain never reaches `nullptr`, as it
does not when the chain contains a cycle, `EngineSystemManager::Update` does
not finish, however many iterations the walk is given, and it is not stopped by
an assertion either. -/
theorem C20_cyclic_chain_not_asserted (x : Externals) (e : Engine) (i : Nat)
    (hi : i < e.mGameObjects.Size)
    (hactive : (e.objects (e.beforeLoop.streamBuffer i).gameObject).isActive = true)
    (hcycle : ∀ n, chainEnds e.objects n
      (e.objects (e.beforeLoop.streamBuffer i).gameObject).parent = false) :
    ∀ fuel, (∀ e1, e.Update x fuel ≠ .finished () e1) ∧
      (∀ r, e.Update x fuel ≠ .aborted .assertFailed r) := by
  intro fuel
  obtain ⟨ho, _, hp, _⟩ := beforeLoop_frame e
  refine ⟨fun e1 h1 => ?_, fun r h1 => ?_⟩
  · rw [update_eq] at h1
    refine updateLoop_establish x fuel (fun _ => False) _ e.beforeLoop i
      (List.mem_range.mpr (by rw [hp]; exact hi)) ?_ (fun _ _ _ _ _ hQ _ => hQ) e1 h1
    intro e2 e3 hs hrun
    refine updateEntity_endless x fuel e2 _ ?_ ?_ e3 hrun
    · rw [hs.streamBuffer, hs.isActive, ho]
      exact hactive
    · rw [hs.streamBuffer, hs.parent, ho,
        chainEnds_congr e2.objects e.objects (fun g => by rw [hs.parent, ho])]
      exact hcycle fuel
  · rw [update_eq] at h1
    have := updateLoop_fault x fuel _ _ _ _ h1
    cases this

/-- C20 at two active entities that are each the parent of the other: `Update`
neither finishes nor stops at an assertion, for any bound on the walk. -/
theorem C20_cyclic_chain_not_asserted_witness :
    (sampleCycle.objects 1).parent = 2 ∧ (sampleCycle.objects 2).parent = 1 ∧
    ∀ fuel, (∀ e1, sampleCycle.Update sampleExternals fuel ≠ .finished () e1) ∧
      (∀ r, sampleCycle.Update sampleExternals fuel ≠ .aborted .assertFailed r) :=
  ⟨by decide, by decide,
    C20_cyclic_chain_not_asserted sampleExternals sampleCycle 0 (by decide) (by decide)
      (fun n => (sampleCycle_chain n).2)⟩

/-- At the two entities that are each the parent of the other the run of
`Update` uses up every bound on the walk. -/
theorem sampleCycle_update (fuel : Nat) :
    sampleCycle.Update sampleExternals fuel = .outOfFuel := by
  have hl : List.range sampleCycle.beforeLoop.mGameObjects.Size = [0, 1] := by decide
  rw [update_eq, hl]
  simp only [Engine.updateLoop]
  rcases updateEntity_active sampleExternals fuel sampleCycle.beforeLoop
      (sampleCycle.beforeLoop.streamBuffer 0) (by decide) (by decide) with ⟨_, h1⟩ | ⟨h1, _⟩
  · rw [h1]
  · have h2 : chainEnds sampleCycle.objects fuel 2 = true := h1
    rw [(sampleCycle_chain fuel).2] at h2
    cases h2

/-! ## C13: changes of the composition of an entity and the dirty flag -/

theorem eraseActive_eq_erase (g : Ptr) (l : List Ptr) : eraseActive g l = l.erase g := by
  induction l with
  | nil => rfl
  | cons a rest ih =>
      unfold eraseActive
      by_cases h : g = a
      · subst h
        simp
      · rw [if_neg h, ih, List.erase_cons_tail]
        simpa using fun h2 => h h2.symm

/-- The effect of `DestroyComponent` on a live handle of a pooled kind whose
payload is live. -/
theorem destroyComponent_spec (e : Engine) (h : Ptr) (h0 : h ≠ nullptr)
    (hl : h ∈ e.mComponents.live) (hp : (e.mem.components h).mType.hasPool = true)
    (hpay : (e.mem.components h).mObject ∈ (e.payloadPools (e.mem.components h).mType).live) :
    ∃ e1, e.DestroyComponent h = .finished true e1 ∧ e1.mem = e.mem ∧
      e1.objects = e.objects ∧ e1.mGameObjects = e.mGameObjects ∧
      e1.mGameObjectActive = e.mGameObjectActive ∧
      e1.mComponents.live = e.mComponents.live.erase h ∧
      ∀ k, (e1.payloadPools k).live =
        if k = (e.mem.components h).mType then
          (e.payloadPools k).live.erase (e.mem.components h).mObject
        else (e.payloadPools k).live := by
  have h00 : ¬ h = nullptr := h0
  unfold Engine.DestroyComponent
  rw [if_neg h00]
  simp only [hp, if_true, Pool.Destroy, hpay, hl]
  refine ⟨_, rfl, rfl, rfl, rfl, rfl, rfl, ?_⟩
  intro k
  by_cases hk : k = (e.mem.components h).mType
  · subst hk
    simp
  · simp [hk]

theorem destroyable_tail (e e1 : Engine) (h : Ptr) (rest : List Ptr)
    (hd : Destroyable e (h :: rest)) (hmem : e1.mem = e.mem)
    (hlive : e1.mComponents.live = e.mComponents.live.erase h)
    (hpools : ∀ k, (e1.payloadPools k).live =
      if k = (e.mem.components h).mType then
        (e.payloadPools k).live.erase (e.mem.components h).mObject
      else (e.payloadPools k).live) :
    Destroyable e1 rest := by
  have hnd := List.nodup_cons.mp hd.nodup
  have hne : ∀ c ∈ rest, c ≠ h := fun c hc heq => hnd.1 (heq ▸ hc)
  refine ⟨hnd.2, ?_, ?_, ?_, ?_⟩
  · intro c hc
    refine ⟨(hd.live c (List.mem_cons_of_mem _ hc)).1, ?_⟩
    rw [hlive]
    exact (List.mem_erase_of_ne (hne c hc)).mpr (hd.live c (List.mem_cons_of_mem _ hc)).2
  · intro c hc
    rw [hmem]
    exact hd.pooled c (List.mem_cons_of_mem _ hc)
  · intro c hc
    rw [hmem, hpools]
    have hin := hd.payload c (List.mem_cons_of_mem _ hc)
    split_ifs with hk
    · have hx := hd.exclusive c (List.mem_cons_of_mem _ hc) h (List.mem_cons_self _ _)
        (hne c hc) hk
      exact (List.mem_erase_of_ne hx).mpr hin
    · exact hin
  · intro c1 hc1 c2 hc2 h12 ht
    rw [hmem] at ht ⊢
    exact hd.exclusive c1 (List.mem_cons_of_mem _ hc1) c2 (List.mem_cons_of_mem _ hc2) h12 ht

/-- The loop of `DestroyGameObject` over handles that can all be destroyed
finishes; it leaves the entities as they are and takes the handles out of the
handle pool. -/
theorem destroyComponents_spec (handles : List Ptr) (e : Engine)
    (hd : Destroyable e handles) (hpool : e.mComponents.live.Nodup) :
    ∃ e1, Engine.destroyComponents handles e = .finished () e1 ∧
      e1.objects = e.objects ∧ e1.mGameObjects = e.mGameObjects ∧
      e1.mGameObjectActive = e.mGameObjectActive ∧
      e1.mComponents.Size + handles.length = e.mComponents.Size ∧
      e1.mComponents.live.Nodup ∧
      (∀ c, c ∈ e1.mComponents.live → c ∈ e.mComponents.live ∧ c ∉ handles) := by
  induction handles generalizing e with
  | nil => exact ⟨e, rfl, rfl, rfl, rfl, rfl, hpool, fun c hc => ⟨hc, List.not_mem_nil c⟩⟩
  | cons h rest ih =>
      have hh := hd.live h (List.mem_cons_self _ _)
      obtain ⟨e1, hrun, hmem, hobj, hgo, hact, hlive, hpools⟩ :=
        destroyComponent_spec e h hh.1 hh.2 (hd.pooled h (List.mem_cons_self _ _))
          (hd.payload h (List.mem_cons_self _ _))
      have hnd1 : e1.mComponents.live.Nodup := by
        rw [hlive]
        exact hpool.erase h
      obtain ⟨e2, hrun2, hobj2, hgo2, hact2, hsize2, hnd2, hsub2⟩ :=
        ih e1 (destroyable_tail e e1 h rest hd hmem hlive hpools) hnd1
      refine ⟨e2, ?_, hobj2.trans hobj, hgo2.trans hgo, hact2.trans hact, ?_, hnd2, ?_⟩
      · simp only [Engine.destroyComponents, hrun]
        exact hrun2
      · have hlen : e1.mComponents.Size + 1 = e.mComponents.Size := by
          unfold Pool.Size
          rw [hlive, List.length_erase_of_mem hh.2]
          have : 0 < e.mComponents.live.length := List.length_pos_of_mem hh.2
          omega
        rw [List.length_cons]
        omega
      · intro c hc
        obtain ⟨hc1, hc2⟩ := hsub2 c hc
        rw [hlive] at hc1
        refine ⟨List.mem_of_mem_erase hc1, ?_⟩
        intro hmem2
        rcases List.mem_cons.mp hmem2 with heq | hin
        · subst heq
          exact (List.Nodup.not_mem_erase hpool) hc1
        · exact hc2 hin

/-! ## C29: the render distance under `Activate` and `Deactivate` -/

/-- C29: whatever the entity and its prior `renderDistance`, and whether the
loop over the components ends or stops, `Activate()` and `Deactivate()` leave
`renderDistance` at `-1`; and on an entity whose list entries are handles with
a payload, `Deactivate()` followed by `Activate()` returns with the entity and
its components active again and with `renderDistance` at `-1`, not at the value
it had before. -/
theorem C29_activation_resets_render_distance (s : State) :
    (GameObject.Activate s).state.obj.renderDistance = -1 ∧
    (GameObject.Deactivate s).state.obj.renderDistance = -1 ∧
    (ValidHandles s →
      ∃ s1 s2, GameObject.Deactivate s = .returned () s1 ∧
        GameObject.Activate s1 = .returned () s2 ∧
        s2.obj.isActive = true ∧
        (∀ c ∈ s.obj.mComponentList, ActiveStateIs s2.mem c true) ∧
        s2.obj.renderDistance = -1) := by
  have h1 : (GameObject.Activate s).state.obj =
      { s.obj with renderDistance := -1, isActive := true } := setActiveLoop_obj true _ _ _
  have h2 : (GameObject.Deactivate s).state.obj =
      { s.obj with renderDistance := -1, isActive := false } := setActiveLoop_obj false _ _ _
  refine ⟨by rw [h1], by rw [h2], fun h => ?_⟩
  obtain ⟨m1, hd, hcomp, _⟩ :=
    setActiveLoop_ok false { s.obj with renderDistance := -1, isActive := false }
      s.obj.mComponentList s.mem h
  have hv : ∀ c ∈ s.obj.mComponentList, c ≠ nullptr ∧ (m1.components c).mObject ≠ nullptr := by
    intro c hc
    rw [hcomp]
    exact h c hc
  obtain ⟨m2, ha, _, _, _, _, _, hset, _⟩ :=
    setActiveLoop_ok true { s.obj with renderDistance := -1, isActive := true }
      s.obj.mComponentList m1 hv
  exact ⟨_, _, hd, ha, rfl, hset, rfl⟩

/-- C29 at an entity with seven components and a render distance of 500. -/
theorem C29_activation_resets_render_distance_witness :
    sampleFar.obj.renderDistance = 500 ∧ ValidHandles sampleFar ∧
    (GameObject.Activate sampleFar).state.obj.renderDistance = -1 ∧
    (GameObject.Deactivate sampleFar).state.obj.renderDistance = -1 ∧
    ∃ s1 s2, GameObject.Deactivate sampleFar = .returned () s1 ∧
      GameObject.Activate s1 = .returned () s2 ∧
      s2.obj.isActive = true ∧
      (∀ c ∈ sampleFar.obj.mComponentList, ActiveStateIs s2.mem c true) ∧
      s2.obj.renderDistance = -1 :=
  ⟨by decide, validHandles_sampleFull,
    (C29_activation_resets_render_distance sampleFar).1,
    (C29_activation_resets_render_distance sampleFar).2.1,
    (C29_activation_resets_render_distance sampleFar).2.2 validHandles_sampleFull⟩

/-! ## C27: the yaw wrap of the camera block -/

/-- The camera block on a camera with mouse look stores the look angles
computed from the pointer delta and copies the yaw to the orientation. -/
theorem cameraStep_lookAngle (e : Engine) (b : StreamSlot) (t : Transform)
    (hcam : b.camera ≠ nullptr) (hlook : (e.mem.cameras b.camera).useMouseLook = true) :
    ((e.cameraStep b t).mem.cameras b.camera).lookAngle
      = mouseLook (e.mem.cameras b.camera) (e.cursorPos.x - e.displayCenter.x)
          (e.cursorPos.y - e.displayCenter.y) ∧
    ((e.cameraStep b t).mem.cameras b.camera).transform.orientation.x
      = ((e.cameraStep b t).mem.cameras b.camera).lookAngle.x := by
  unfold Engine.cameraStep
  rw [if_pos hcam]
  simp only [hlook, if_true, store_same]
  exact ⟨trivial, trivial⟩

/-- C27: the yaw wrap of `Update`, over exact arithmetic with `m = 0.109655`.
With `x` the yaw look angle after the pointer increment
`dx * MouseSensitivityYaw * 0.01` has been added, the yaw stored is `x + m`
when `x < m`, `x` when `m ≤ x ≤ 2m`, and `x - m` when `x > 2m`; it differs from
`x` by nothing or by exactly `m`; a yaw of zero with a zero pointer delta
becomes `m`; and the camera block of `Update` stores this yaw in `lookAngle.x`
and in `transform.orientation.x` of a camera with mouse look, `dx` being the
offset of the cursor from the display centre. -/
theorem C27_yaw_wrap (c : Camera) (dx dy : Int) (e : Engine) (b : StreamSlot) (t : Transform) :
    yawLimit = 109655 / 1000000 ∧
    (mouseLook c dx dy).x =
      (if c.lookAngle.x + (dx : Scalar) * c.MouseSensitivityYaw * (1 / 100) < yawLimit then
        c.lookAngle.x + (dx : Scalar) * c.MouseSensitivityYaw * (1 / 100) + yawLimit
      else if c.lookAngle.x + (dx : Scalar) * c.MouseSensitivityYaw * (1 / 100)
          ≤ 2 * yawLimit then
        c.lookAngle.x + (dx : Scalar) * c.MouseSensitivityYaw * (1 / 100)
      else c.lookAngle.x + (dx : Scalar) * c.MouseSensitivityYaw * (1 / 100) - yawLimit) ∧
    ((mouseLook c dx dy).x = c.lookAngle.x + (dx : Scalar) * c.MouseSensitivityYaw * (1 / 100) ∨
      (mouseLook c dx dy).x
        = c.lookAngle.x + (dx : Scalar) * c.MouseSensitivityYaw * (1 / 100) + yawLimit ∨
      (mouseLook c dx dy).x
        = c.lookAngle.x + (dx : Scalar) * c.MouseSensitivityYaw * (1 / 100) - yawLimit) ∧
    (c.lookAngle.x = 0 → (mouseLook c 0 dy).x = yawLimit) ∧
    (b.camera ≠ nullptr → (e.mem.cameras b.camera).useMouseLook = true →
      ((e.cameraStep b t).mem.cameras b.camera).lookAngle.x
        = (mouseLook (e.mem.cameras b.camera) (e.cursorPos.x - e.displayCenter.x)
            (e.cursorPos.y - e.displayCenter.y)).x ∧
      ((e.cameraStep b t).mem.cameras b.camera).transform.orientation.x
        = ((e.cameraStep b t).mem.cameras b.camera).lookAngle.x) := by
  have hpos : (0 : Scalar) < yawLimit := by norm_num [yawLimit]
  have hx : (mouseLook c dx dy).x =
      (if c.lookAngle.x + (dx : Scalar) * c.MouseSensitivityYaw * (1 / 100) < yawLimit then
        c.lookAngle.x + (dx : Scalar) * c.MouseSensitivityYaw * (1 / 100) + yawLimit
      else if c.lookAngle.x + (dx : Scalar) * c.MouseSensitivityYaw * (1 / 100)
          ≤ 2 * yawLimit then
        c.lookAngle.x + (dx : Scalar) * c.MouseSensitivityYaw * (1 / 100)
      else c.lookAngle.x + (dx : Scalar) * c.MouseSensitivityYaw * (1 / 100) - yawLimit) := by
    unfold mouseLook
    dsimp only
    generalize c.lookAngle.x + (dx : Scalar) * c.MouseSensitivityYaw * (1 / 100) = x
    split_ifs <;> first | rfl | linarith
  refine ⟨rfl, hx, ?_, ?_, ?_⟩
  · rw [hx]
    split_ifs
    · exact Or.inr (Or.inl rfl)
    · exact Or.inl rfl
    · exact Or.inr (Or.inr rfl)
  · intro h0
    unfold mouseLook
    dsimp only
    rw [h0]
    norm_num [yawLimit]
  · intro hcam hlook
    obtain ⟨h1, h2⟩ := cameraStep_lookAngle e b t hcam hlook
    exact ⟨by rw [h1], h2⟩

/-- C27 at the scene of the examples: the camera of entity `2` has yaw zero;
with a zero pointer delta the yaw stored is `m`, and the camera block on the
entry of entity `2` stores the wrapped yaw. -/
theorem C27_yaw_wrap_witness :
    (sampleScene.mem.cameras 1).lookAngle.x = 0 ∧
    (mouseLook (sampleScene.mem.cameras 1) 0 0).x = yawLimit ∧
    (sampleScene.beforeLoop.streamBuffer 1).camera = 1 ∧
    ((sampleScene.beforeLoop.cameraStep (sampleScene.beforeLoop.streamBuffer 1)
        Transform.identity).mem.cameras 1).lookAngle.x
      = (mouseLook (sampleScene.beforeLoop.mem.cameras 1) 10000 10000).x := by
  have h := C27_yaw_wrap (sampleScene.mem.cameras 1) 0 0 sampleScene.beforeLoop
    (sampleScene.beforeLoop.streamBuffer 1) Transform.identity
  exact ⟨rfl, h.2.2.2.1 rfl, by decide, (h.2.2.2.2 (by decide) rfl).1⟩

/-! ## C26: `CreateComponent` and `DestroyComponent` by kind -/

/-- A slot handed out by a pool is not null and was not live. -/
theorem pool_create_spec (p : Pool) (a : Ptr) (p1 : Pool) (h : p.Create = some (a, p1)) :
    a ≠ nullptr ∧ a ∉ p.live ∧ p1.live = p.live ++ [a] ∧ p1.capacity = p.capacity := by
  unfold Pool.Create at h
  cases hf : p.freeSlot with
  | none =>
      rw [hf] at h
      cases h
  | some s =>
      rw [hf] at h
      cases h
      unfold Pool.freeSlot at hf
      have hmem := List.mem_of_find?_eq_some hf
      have hp := List.find?_some hf
      obtain ⟨i, _, hi⟩ := List.mem_map.mp hmem
      refine ⟨?_, of_decide_eq_true hp, rfl, rfl⟩
      intro h0
      rw [← hi] at h0
      exact absurd h0 (Nat.succ_ne_zero i)

theorem pool_create_of_free (p : Pool) (h : p.freeSlot ≠ none) :
    ∃ a p1, p.Create = some (a, p1) := by
  unfold Pool.Create
  cases hf : p.freeSlot with
  | none => exact absurd hf h
  | some s => exact ⟨s, _, rfl⟩

/-- C26: `CreateComponent(type)` returns, for each `type` among MeshRenderer,
Camera, Light, Script, RigidBody, Actor and Text (the pools having a free
slot), a non-null handle whose type is `type`, with the handle count one
higher and the dirty flag set; for the other types, Transform and Panel, it
returns null and leaves the whole engine state, handle pool and dirty flag
included, as it was.  `DestroyComponent` on a non-null handle tagged Transform
or Panel returns false and leaves the engine state as it was. -/
theorem C26_create_component_by_kind (e : Engine) (type : ComponentType) :
    (type.hasPool = true ↔
      type ∈ [ComponentType.MeshRenderer, .Camera, .Light, .Script, .RigidBody, .Actor,
        .Text]) ∧
    (type.hasPool = false ↔ type ∈ [ComponentType.Transform, .Panel]) ∧
    (type.hasPool = true → (e.payloadPools type).freeSlot ≠ none →
      e.mComponents.freeSlot ≠ none →
      ∃ c e1, e.CreateComponent type = .finished c e1 ∧ c ≠ nullptr ∧
        (e1.mem.components c).mType = type ∧
        e1.GetComponentCount = e.GetComponentCount + 1 ∧
        e1.doUpdateDataStream = true) ∧
    (type.hasPool = false → e.CreateComponent type = .finished nullptr e) ∧
    (∀ c, c ≠ nullptr → (e.mem.components c).mType.hasPool = false →
      e.DestroyComponent c = .finished false e) := by
  refine ⟨by cases type <;> decide, by cases type <;> decide, ?_, ?_, ?_⟩
  · intro hp hfree1 hfree2
    obtain ⟨a, p1, h1⟩ := pool_create_of_free _ hfree1
    obtain ⟨c, p2, h2⟩ := pool_create_of_free _ hfree2
    obtain ⟨hc, _, hlive, _⟩ := pool_create_spec _ _ _ h2
    have hrun : ∃ e1, e.CreateComponent type = .finished c e1 ∧ e1.mComponents = p2 ∧
        e1.mem.components = store e.mem.components c ⟨type, a⟩ ∧
        e1.doUpdateDataStream = true := by
      unfold Engine.CreateComponent
      rw [if_pos hp]
      simp only [h1, h2]
      exact ⟨_, rfl, rfl, rfl, rfl⟩
    obtain ⟨e1, hr, hpool, htable, hflag⟩ := hrun
    refine ⟨c, e1, hr, hc, ?_, ?_, hflag⟩
    · rw [htable, store_same]
    · unfold Engine.GetComponentCount Pool.Size
      rw [hpool, hlive, List.length_append]
      rfl
  · intro hp
    unfold Engine.CreateComponent
    rw [hp]
    rfl
  · intro c hc hp
    have hc0 : ¬ c = nullptr := hc
    unfold Engine.DestroyComponent
    rw [if_neg hc0]
    simp only [hp]
    rfl

/-- C26 at the scene of the examples, whose pools have room: a Light is
created, a Transform is not. -/
theorem C26_create_component_by_kind_witness :
    sampleScene.GetComponentCount = 5 ∧
    (∃ c e1, sampleScene.CreateComponent .Light = .finished c e1 ∧ c ≠ nullptr ∧
      (e1.mem.components c).mType = .Light ∧
      e1.GetComponentCount = sampleScene.GetComponentCount + 1 ∧
      e1.doUpdateDataStream = true) ∧
    sampleScene.CreateComponent .Transform = .finished nullptr sampleScene :=
  ⟨by decide,
    (C26_create_component_by_kind sampleScene .Light).2.2.1 (by decide) (by decide)
      (by decide),
    (C26_create_component_by_kind sampleScene .Transform).2.2.2.1 (by decide)⟩

/-! ## C30: `StringType::Explode` -/

theorem splitOn_cons_eq (d c : Nat) (cs : List Nat) :
    (c :: cs).splitOn d =
      if c = d then [] :: cs.splitOn d else (cs.splitOn d).modifyHead (List.cons c) := by
  unfold List.splitOn
  rw [List.splitOnP_cons]
  by_cases h : c = d
  · simp [h]
  · simp [h]

/-- The pieces of a string: the first piece ends before the first delimiter,
and the pieces of what follows that delimiter come after it. -/
theorem splitOn_takeWhile (d : Nat) (s : List Nat) :
    s.splitOn d =
      match s.dropWhile (fun c => decide (c ≠ d)) with
      | [] => [s.takeWhile (fun c => decide (c ≠ d))]
      | _ :: r => s.takeWhile (fun c => decide (c ≠ d)) :: r.splitOn d := by
  induction s with
  | nil => rfl
  | cons c cs ih =>
      rw [splitOn_cons_eq]
      by_cases h : c = d
      · subst h
        simp
      · rw [if_neg h, ih]
        simp only [List.dropWhile_cons, List.takeWhile_cons, h, ne_eq, not_false_eq_true,
          decide_True, if_true]
        split <;> rfl

theorem splitOn_append_cons (d : Nat) (s1 s2 : List Nat) :
    (s1 ++ d :: s2).splitOn d = s1.splitOn d ++ s2.splitOn d := by
  induction s1 with
  | nil =>
      rw [List.nil_append, splitOn_cons_eq, if_pos rfl, List.splitOn_nil]
      rfl
  | cons c cs ih =>
      rw [List.cons_append, splitOn_cons_eq, splitOn_cons_eq, ih]
      by_cases h : c = d
      · rw [if_pos h, if_pos h]
        rfl
      · rw [if_neg h, if_neg h]
        have hne : cs.splitOn d ≠ [] := List.splitOnP_ne_nil _ _
        cases hs : cs.splitOn d with
        | nil => exact absurd hs hne
        | cons a l => rfl

theorem splitOn_of_not_mem (d : Nat) (s : List Nat) (h : d ∉ s) : s.splitOn d = [s] := by
  induction s with
  | nil => rfl
  | cons c cs ih =>
      have hc : c ≠ d := fun hcd => h (hcd ▸ List.mem_cons_self _ _)
      rw [splitOn_cons_eq, if_neg hc, ih (fun hm => h (List.mem_cons_of_mem _ hm))]
      rfl

theorem not_mem_of_mem_splitOn (d : Nat) (n : Nat) :
    ∀ s : List Nat, s.length ≤ n → ∀ t ∈ s.splitOn d, d ∉ t := by
  induction n with
  | zero =>
      intro s hs t ht
      have : s = [] := List.length_eq_zero.mp (Nat.le_zero.mp hs)
      subst this
      rw [List.splitOn_nil] at ht
      simp only [List.mem_singleton] at ht
      subst ht
      exact List.not_mem_nil _
  | succ n ih =>
      intro s hs t ht
      rw [splitOn_takeWhile] at ht
      have htake : d ∉ s.takeWhile (fun c => decide (c ≠ d)) := by
        intro hm
        have := List.mem_takeWhile_imp hm
        simp at this
      have hlen : (s.dropWhile (fun c => decide (c ≠ d))).length ≤ s.length := by
        have h := congrArg List.length
          (List.takeWhile_append_dropWhile (fun c => decide (c ≠ d)) s)
        rw [List.length_append] at h
        omega
      cases hd : s.dropWhile (fun c => decide (c ≠ d)) with
      | nil =>
          rw [hd] at ht
          simp only [List.mem_singleton] at ht
          subst ht
          exact htake
      | cons a r =>
          rw [hd] at ht hlen
          rcases List.mem_cons.mp ht with h | h
          · subst h
            exact htake
          · refine ih r ?_ t h
            simp only [List.length_cons] at hlen
            omega

/-- The loop of `Explode` with enough calls of `getline` appends the non-empty
pieces of what the stream holds. -/
theorem explodeLoop_spec (d : Nat) (fuel : Nat) :
    ∀ (rest : List Nat) (result : List (List Nat)), rest.length < fuel →
      explodeLoop d fuel rest result = some (result ++ StringType.runs d rest) := by
  induction fuel with
  | zero =>
      intro rest result h
      omega
  | succ n ih =>
      intro rest result h
      cases rest with
      | nil =>
          simp [explodeLoop, getline, StringType.runs]
      | cons c cs =>
          have hlen : ((c :: cs).dropWhile (fun x => decide (x ≠ d))).length
              ≤ (c :: cs).length := by
            have h := congrArg List.length
              (List.takeWhile_append_dropWhile (fun x => decide (x ≠ d)) (c :: cs))
            rw [List.length_append] at h
            omega
          have hruns : StringType.runs d (c :: cs) =
              (if (c :: cs).takeWhile (fun x => decide (x ≠ d)) = [] then []
                else [(c :: cs).takeWhile (fun x => decide (x ≠ d))]) ++
              StringType.runs d ((c :: cs).dropWhile (fun x => decide (x ≠ d))).tail := by
            unfold StringType.runs
            rw [splitOn_takeWhile d (c :: cs)]
            generalize (c :: cs).takeWhile (fun x => decide (x ≠ d)) = tok
            cases hd : (c :: cs).dropWhile (fun x => decide (x ≠ d)) with
            | nil =>
                by_cases ht : tok = []
                · subst ht
                  rfl
                · simp [ht, List.filter]
            | cons a r =>
                by_cases ht : tok = []
                · subst ht
                  rfl
                · simp [ht, List.filter]
          have hrest : ((c :: cs).dropWhile (fun x => decide (x ≠ d))).tail.length < n := by
            have : ((c :: cs).dropWhile (fun x => decide (x ≠ d))).tail.length
                ≤ ((c :: cs).dropWhile (fun x => decide (x ≠ d))).length := by
              rw [List.length_tail]
              omega
            have h3 : (c :: cs).length < n + 1 := h
            by_cases hc : c = d
            · subst hc
              simp only [List.dropWhile_cons, ne_eq, not_true_eq_false, decide_False,
                Bool.false_eq_true, if_false, List.tail_cons]
              simp only [List.length_cons] at h3
              omega
            · have h4 : (c :: cs).dropWhile (fun x => decide (x ≠ d))
                  = cs.dropWhile (fun x => decide (x ≠ d)) := by
                simp [List.dropWhile_cons, hc]
              rw [h4]
              have h5 : (cs.dropWhile (fun x => decide (x ≠ d))).length ≤ cs.length := by
                have h := congrArg List.length
                  (List.takeWhile_append_dropWhile (fun x => decide (x ≠ d)) cs)
                rw [List.length_append] at h
                omega
              rw [List.length_tail]
              simp only [List.length_cons] at h3
              omega
          rw [hruns]
          simp only [explodeLoop, getline]
          by_cases ht : (c :: cs).takeWhile (fun x => decide (x ≠ d)) = []
          · rw [if_pos ht, if_pos ht, ih _ _ hrest]
            rfl
          · rw [if_neg ht, if_neg ht, ih _ _ hrest, List.append_assoc]

theorem runs_append_cons (d : Nat) (s1 s2 : List Nat) :
    StringType.runs d (s1 ++ d :: s2) = StringType.runs d s1 ++ StringType.runs d s2 := by
  unfold StringType.runs
  rw [splitOn_append_cons, List.filter_append]

theorem runs_replicate (d : Nat) (n : Nat) : StringType.runs d (List.replicate n d) = [] := by
  induction n with
  | zero => rfl
  | succ n ih =>
      have h := runs_append_cons d [] (List.replicate n d)
      rw [List.nil_append] at h
      rw [List.replicate_succ, h, ih]
      rfl

/-- C30: `StringType::Explode(s, d)` returns (given at least one `getline` call
more than `s` has characters it ends) exactly the maximal non-empty runs of
characters of `s` that contain no `d`, in order: no token is empty and none
contains `d`; a non-empty string without `d` is its own single token; the
tokens of `s1 d s2` are those of `s1` followed by those of `s2`, so that
leading, trailing and repeated delimiters produce no token; and the empty
string and a string made of delimiters only yield the empty list. -/
theorem C30_explode_runs (s : List Nat) (d : Nat) :
    (∀ fuel, s.length < fuel → StringType.Explode fuel s d = some (StringType.runs d s)) ∧
    (∀ t ∈ StringType.runs d s, t ≠ [] ∧ d ∉ t) ∧
    (s ≠ [] → d ∉ s → StringType.runs d s = [s]) ∧
    (∀ s2, StringType.runs d (s ++ d :: s2) = StringType.runs d s ++ StringType.runs d s2) ∧
    StringType.runs d (d :: s) = StringType.runs d s ∧
    StringType.runs d (s ++ [d]) = StringType.runs d s ∧
    (∀ s2, StringType.runs d (s ++ d :: d :: s2) = StringType.runs d (s ++ d :: s2)) ∧
    StringType.runs d [] = [] ∧
    (∀ n, StringType.runs d (List.replicate n d) = []) := by
  have hnil : StringType.runs d [] = [] := rfl
  have hlead : ∀ s2, StringType.runs d (d :: s2) = StringType.runs d s2 := by
    intro s2
    have h := runs_append_cons d [] s2
    rw [List.nil_append, hnil, List.nil_append] at h
    exact h
  refine ⟨?_, ?_, ?_, runs_append_cons d s, hlead s, ?_, ?_, hnil, runs_replicate d⟩
  · intro fuel hf
    unfold StringType.Explode
    rw [explodeLoop_spec d fuel s [] hf, List.nil_append]
  · intro t ht
    unfold StringType.runs at ht
    obtain ⟨hmem, hne⟩ := List.mem_filter.mp ht
    exact ⟨of_decide_eq_true hne, not_mem_of_mem_splitOn d s.length s (Nat.le_refl _) t hmem⟩
  · intro hs hd
    unfold StringType.runs
    rw [splitOn_of_not_mem d s hd]
    simp [hs]
  · rw [runs_append_cons, hnil, List.append_nil]
  · intro s2
    rw [runs_append_cons, hlead, runs_append_cons]

/-- C30 at the string `a,,b,` with the comma as delimiter: the tokens are `a`
and `b`. -/
theorem C30_explode_runs_witness :
    StringType.Explode 6 [97, 44, 44, 98, 44] 44 = some [[97], [98]] ∧
    StringType.runs 44 [97, 44, 44, 98, 44] = [[97], [98]] ∧
    StringType.runs 44 [97, 98] = [[97, 98]] := by
  have h := C30_explode_runs [97, 44, 44, 98, 44] 44
  have h2 := C30_explode_runs [97, 98] 44
  have hr : StringType.runs 44 [97, 44, 44, 98, 44] = [[97], [98]] := by decide
  refine ⟨?_, hr, h2.2.2.1 (by decide) (by decide)⟩
  rw [h.1 6 (by decide), hr]

/-! ## C28: the glyph-cell search of `AddMeshSubSprite` -/

/-- The loop over the glyph map, started in column `c` of row `r`, ends after
`n` iterations in the cell that lies `n` cells further on, row by row, unless
that cell is beyond the last row. -/
theorem spriteCell_from (w h : Nat) (n : Nat) :
    ∀ c r : Nat, c ≤ w → r ≤ h →
      spriteCell (w : Int) (h : Int) n (c : Int) (r : Int) =
        if (r * (w + 1) + c + n) / (w + 1) ≤ h then
          some ((((r * (w + 1) + c + n) % (w + 1) : Nat) : Int),
            (((r * (w + 1) + c + n) / (w + 1) : Nat) : Int))
        else none := by
  induction n with
  | zero =>
      intro c r hc hr
      have hdiv : (r * (w + 1) + c + 0) / (w + 1) = r := by
        rw [Nat.add_zero, Nat.add_comm, Nat.add_mul_div_right _ _ (Nat.succ_pos w),
          Nat.div_eq_of_lt (by omega), Nat.zero_add]
      have hmod : (r * (w + 1) + c + 0) % (w + 1) = c := by
        rw [Nat.add_zero, Nat.add_comm, Nat.add_mul_mod_self_right, Nat.mod_eq_of_lt (by omega)]
      rw [hdiv, hmod, if_pos hr]
      rfl
  | succ n ih =>
      intro c r hc hr
      unfold spriteCell
      by_cases h1 : (c : Int) + 1 > (w : Int)
      · have hcw : c = w := by omega
        rw [if_pos h1]
        by_cases h2 : (r : Int) + 1 > (h : Int)
        · have hrh : r = h := by omega
          rw [if_pos h2]
          have hbig : ¬ (r * (w + 1) + c + (n + 1)) / (w + 1) ≤ h := by
            have h3 : (h + 1) * (w + 1) ≤ r * (w + 1) + c + (n + 1) := by
              subst hcw hrh
              have : r * (c + 1) + c + (n + 1) = (r + 1) * (c + 1) + n := by ring
              rw [this]
              exact Nat.le_add_right _ _
            have h4 : h + 1 ≤ (r * (w + 1) + c + (n + 1)) / (w + 1) :=
              (Nat.le_div_iff_mul_le (by omega : 0 < w + 1)).mpr h3
            exact Nat.not_le.mpr h4
          rw [if_neg hbig]
        · rw [if_neg h2]
          have hr1 : r + 1 ≤ h := by omega
          have e0 : ((r : Int) + 1) = ((r + 1 : Nat) : Int) := by push_cast; ring
          have ez : (0 : Int) = ((0 : Nat) : Int) := rfl
          rw [e0, ez, ih 0 (r + 1) (Nat.zero_le _) hr1]
          have : (r + 1) * (w + 1) + 0 + n = r * (w + 1) + c + (n + 1) := by
            subst hcw
            ring
          rw [this]
      · rw [if_neg h1]
        have hc1 : c + 1 ≤ w := by omega
        have e0 : ((c : Int) + 1) = ((c + 1 : Nat) : Int) := by push_cast; ring
        rw [e0, ih (c + 1) r hc1 hr]
        have : r * (w + 1) + (c + 1) + n = r * (w + 1) + c + (n + 1) := by ring
        rw [this]

/-- The loop of `AddMeshSubSprite` in closed form, for a map of non-negative
width and height. -/
theorem spriteCell_closed (mapWidth mapHeight index : Int) (hw : 0 ≤ mapWidth)
    (hh : 0 ≤ mapHeight) :
    spriteCell mapWidth mapHeight index.toNat 0 0 = glyphCell mapWidth mapHeight index := by
  obtain ⟨w, rfl⟩ := Int.eq_ofNat_of_zero_le hw
  obtain ⟨h, rfl⟩ := Int.eq_ofNat_of_zero_le hh
  have h0 := spriteCell_from w h index.toNat 0 0 (Nat.zero_le _) (Nat.zero_le _)
  simp only [Nat.zero_mul, Nat.zero_add, Nat.cast_zero] at h0
  rw [h0]
  unfold glyphCell
  simp only [Int.toNat_ofNat]

/-- With a mesh renderer that has a mesh, and a text, `AddMeshSubSprite` adds
the plain of the glyph to the mesh, or nothing when the glyph has no cell. -/
theorem addMeshSubSprite_closed (e : Engine) (g : Ptr) (xPos yPos sw sh : Scalar)
    (index : Int) (color : Color)
    (hr : (e.objects g).GetComponent .MeshRenderer ≠ nullptr)
    (hm : (e.mem.meshRenderers ((e.objects g).GetComponent .MeshRenderer)).mesh ≠ nullptr)
    (ht : (e.objects g).GetComponent .Text ≠ nullptr)
    (hw : 0 ≤ (e.mem.texts ((e.objects g).GetComponent .Text)).sprite.width)
    (hh : 0 ≤ (e.mem.texts ((e.objects g).GetComponent .Text)).sprite.height) :
    ∃ e1, e.AddMeshSubSprite g xPos yPos sw sh index color = .finished () e1 ∧
      OnlyMeshes e e1 ∧
      (e1.meshes (e.mem.meshRenderers ((e.objects g).GetComponent .MeshRenderer)).mesh).subMeshes
        = (e.meshes (e.mem.meshRenderers ((e.objects g).GetComponent .MeshRenderer)).mesh).subMeshes
          ++ (glyphPlain (e.mem.texts ((e.objects g).GetComponent .Text)) xPos yPos sw sh index
              color).toList ∧
      (e1.meshes (e.mem.meshRenderers ((e.objects g).GetComponent .MeshRenderer)).mesh).uploads
        = (e.meshes (e.mem.meshRenderers ((e.objects g).GetComponent .MeshRenderer)).mesh).uploads ∧
      ∀ q, q ≠ (e.mem.meshRenderers ((e.objects g).GetComponent .MeshRenderer)).mesh →
        e1.meshes q = e.meshes q := by
  have hr0 : ¬ (e.objects g).GetComponent .MeshRenderer = nullptr := hr
  have hm0 : ¬ (e.mem.meshRenderers ((e.objects g).GetComponent .MeshRenderer)).mesh = nullptr :=
    hm
  have ht0 : ¬ (e.objects g).GetComponent .Text = nullptr := ht
  unfold Engine.AddMeshSubSprite
  dsimp only
  rw [if_neg hr0, if_neg hm0, if_neg ht0, spriteCell_closed _ _ _ hw hh]
  unfold glyphPlain
  cases glyphCell (e.mem.texts ((e.objects g).GetComponent .Text)).sprite.width
      (e.mem.texts ((e.objects g).GetComponent .Text)).sprite.height index with
  | none =>
      exact ⟨e, rfl, rfl, by simp, rfl, fun _ _ => rfl⟩
  | some cell =>
      obtain ⟨c1, c2⟩ := cell
      refine ⟨_, rfl, rfl, ?_, ?_, ?_⟩
      · simp only [store_same, Option.map_some', Option.toList_some]
      · simp only [store_same]
      · intro q hq
        exact store_other _ _ _ _ hq

/-- With a mesh renderer that has a mesh, and a text, the loop of `AddMeshText`
adds the plains of its characters in order. -/
theorem addMeshTextLoop_closed (g : Ptr) (xPos yPos sw sh : Scalar) (color : Color)
    (text : List Nat) :
    ∀ (i : Nat) (e : Engine),
      (e.objects g).GetComponent .MeshRenderer ≠ nullptr →
      (e.mem.meshRenderers ((e.objects g).GetComponent .MeshRenderer)).mesh ≠ nullptr →
      (e.objects g).GetComponent .Text ≠ nullptr →
      0 ≤ (e.mem.texts ((e.objects g).GetComponent .Text)).sprite.width →
      0 ≤ (e.mem.texts ((e.objects g).GetComponent .Text)).sprite.height →
      ∃ e1, Engine.addMeshTextLoop g xPos yPos sw sh color text i e = .finished () e1 ∧
        OnlyMeshes e e1 ∧
        (e1.meshes (e.mem.meshRenderers ((e.objects g).GetComponent .MeshRenderer)).mesh).subMeshes
          = (e.meshes
              (e.mem.meshRenderers ((e.objects g).GetComponent .MeshRenderer)).mesh).subMeshes
            ++ textPlains (e.mem.texts ((e.objects g).GetComponent .Text)) xPos yPos sw sh color
                i text ∧
        (e1.meshes (e.mem.meshRenderers ((e.objects g).GetComponent .MeshRenderer)).mesh).uploads
          = (e.meshes
              (e.mem.meshRenderers ((e.objects g).GetComponent .MeshRenderer)).mesh).uploads ∧
        ∀ q, q ≠ (e.mem.meshRenderers ((e.objects g).GetComponent .MeshRenderer)).mesh →
          e1.meshes q = e.meshes q := by
  induction text with
  | nil =>
      intro i e _ _ _ _ _
      exact ⟨e, rfl, rfl, by simp [textPlains], rfl, fun _ _ => rfl⟩
  | cons c rest ih =>
      intro i e hr hm ht hw hh
      obtain ⟨e2, h2, hm2, hs2, hu2, ho2⟩ :=
        addMeshSubSprite_closed e g (xPos + i) yPos sw sh (charIndex c) color hr hm ht hw hh
      have hobj := hm2.objects
      have hmem := hm2.mem
      obtain ⟨e3, h3, hm3, hs3, hu3, ho3⟩ := ih (i + 1) e2
        (by rw [hobj]; exact hr) (by rw [hobj, hmem]; exact hm) (by rw [hobj]; exact ht)
        (by rw [hobj, hmem]; exact hw) (by rw [hobj, hmem]; exact hh)
      rw [hobj, hmem] at hs3 hu3 ho3
      refine ⟨e3, ?_, hm2.meshesTrans hm3, ?_, hu3.trans hu2, ?_⟩
      · simp only [Engine.addMeshTextLoop, h2]
        exact h3
      · rw [hs3, hs2, List.append_assoc]
        congr 1
        unfold textPlains
        rw [List.enumFrom_cons, List.filterMap_cons]
        cases glyphPlain (e.mem.texts ((e.objects g).GetComponent .Text)) (xPos + (i : Scalar))
            yPos sw sh (charIndex c) color <;> rfl
      · intro q hq
        rw [ho3 q hq, ho2 q hq]

/-- With a mesh renderer that has a mesh, and a text, `AddMeshText` adds the
plains of the characters of the string and uploads the mesh once. -/
theorem addMeshText_closed (e : Engine) (g : Ptr) (xPos yPos sw sh : Scalar)
    (text : List Nat) (color : Color)
    (hr : (e.objects g).GetComponent .MeshRenderer ≠ nullptr)
    (hm : (e.mem.meshRenderers ((e.objects g).GetComponent .MeshRenderer)).mesh ≠ nullptr)
    (ht : (e.objects g).GetComponent .Text ≠ nullptr)
    (hw : 0 ≤ (e.mem.texts ((e.objects g).GetComponent .Text)).sprite.width)
    (hh : 0 ≤ (e.mem.texts ((e.objects g).GetComponent .Text)).sprite.height) :
    ∃ e1, e.AddMeshText g xPos yPos sw sh text color = .finished () e1 ∧
      (e1.meshes (e.mem.meshRenderers ((e.objects g).GetComponent .MeshRenderer)).mesh).subMeshes
        = (e.meshes (e.mem.meshRenderers ((e.objects g).GetComponent .MeshRenderer)).mesh).subMeshes
          ++ textPlains (e.mem.texts ((e.objects g).GetComponent .Text)) xPos yPos sw sh color
              0 text ∧
      (e1.meshes (e.mem.meshRenderers ((e.objects g).GetComponent .MeshRenderer)).mesh).uploads
        = (e.meshes (e.mem.meshRenderers ((e.objects g).GetComponent .MeshRenderer)).mesh).uploads
          + 1 := by
  have hr0 : ¬ (e.objects g).GetComponent .MeshRenderer = nullptr := hr
  have hm0 : ¬ (e.mem.meshRenderers ((e.objects g).GetComponent .MeshRenderer)).mesh = nullptr :=
    hm
  obtain ⟨e2, h2, _, hs2, hu2, _⟩ :=
    addMeshTextLoop_closed g xPos yPos sw sh color text 0 e hr hm ht hw hh
  unfold Engine.AddMeshText
  dsimp only
  rw [if_neg hr0, if_neg hm0, h2]
  refine ⟨_, rfl, ?_, ?_⟩
  · simp only [store_same]
    exact hs2
  · simp only [store_same]
    rw [hu2]

theorem textPlains_length (txt : Text) (xPos yPos sw sh : Scalar) (color : Color)
    (start : Nat) (text : List Nat) :
    (textPlains txt xPos yPos sw sh color start text).length ≤ text.length := by
  unfold textPlains
  refine (List.length_filterMap_le _ _).trans ?_
  rw [List.enumFrom_length]

/-- The cell of a glyph in integer arithmetic: for an index `n ≥ 0` column
`n mod (w + 1)` and row `n div (w + 1)` when the row is at most `h`, and for a
negative index the cell `(0, 0)`. -/
theorem glyphCell_eq (mapWidth mapHeight index : Int) (hw : 0 ≤ mapWidth)
    (hh : 0 ≤ mapHeight) :
    (0 ≤ index → glyphCell mapWidth mapHeight index =
      if index / (mapWidth + 1) ≤ mapHeight then
        some (index % (mapWidth + 1), index / (mapWidth + 1))
      else none) ∧
    (index < 0 → glyphCell mapWidth mapHeight index = some (0, 0)) := by
  obtain ⟨w, rfl⟩ := Int.eq_ofNat_of_zero_le hw
  obtain ⟨h, rfl⟩ := Int.eq_ofNat_of_zero_le hh
  constructor
  · intro hi
    obtain ⟨n, rfl⟩ := Int.eq_ofNat_of_zero_le hi
    unfold glyphCell
    simp only [Int.toNat_ofNat]
    have hd : ((n / (w + 1) : Nat) : Int) = (n : Int) / ((w : Int) + 1) := by
      push_cast
      rfl
    have hm : ((n % (w + 1) : Nat) : Int) = (n : Int) % ((w : Int) + 1) := by
      push_cast
      rfl
    rw [hd, hm]
    by_cases hle : n / (w + 1) ≤ h
    · have hle2 : (n : Int) / ((w : Int) + 1) ≤ (h : Int) := by
        rw [← hd]
        exact_mod_cast hle
      rw [if_pos hle, if_pos hle2]
    · have hle2 : ¬ (n : Int) / ((w : Int) + 1) ≤ (h : Int) := by
        rw [← hd]
        exact_mod_cast hle
      rw [if_neg hle, if_neg hle2]
  · intro hi
    have h0 : index.toNat = 0 := Int.toNat_eq_zero.mpr (le_of_lt hi)
    unfold glyphCell
    rw [h0]
    simp

/-- C28: the glyph-cell search of `AddMeshSubSprite` has a closed form.  For a
sprite map of width `w ≥ 0` and height `h ≥ 0` the loop ends, for an index
`n ≥ 0`, in column `n mod (w + 1)` and row `n div (w + 1)` when
`n div (w + 1) ≤ h`, and returns from inside otherwise; for a negative index it
ends in the cell `(0, 0)`.  On an entity with a text and a mesh renderer that
has a mesh, `AddMeshSubSprite` returns having added one plain with that cell,
or nothing when the glyph has no cell; and `AddMeshText` returns having added,
in order, at most one plain per character, the plain of the `i`-th character
computed at the horizontal offset `xPos + i`, and having uploaded the mesh
once. -/
theorem C28_glyph_cell_closed_form (e : Engine) (g : Ptr) (xPos yPos sw sh : Scalar)
    (index : Int) (color : Color) (text : List Nat)
    (hr : (e.objects g).GetComponent .MeshRenderer ≠ nullptr)
    (hm : (e.mem.meshRenderers ((e.objects g).GetComponent .MeshRenderer)).mesh ≠ nullptr)
    (ht : (e.objects g).GetComponent .Text ≠ nullptr)
    (hw : 0 ≤ (e.mem.texts ((e.objects g).GetComponent .Text)).sprite.width)
    (hh : 0 ≤ (e.mem.texts ((e.objects g).GetComponent .Text)).sprite.height) :
    spriteCell (e.mem.texts ((e.objects g).GetComponent .Text)).sprite.width
        (e.mem.texts ((e.objects g).GetComponent .Text)).sprite.height index.toNat 0 0
      = glyphCell (e.mem.texts ((e.objects g).GetComponent .Text)).sprite.width
          (e.mem.texts ((e.objects g).GetComponent .Text)).sprite.height index ∧
    (0 ≤ index →
      glyphCell (e.mem.texts ((e.objects g).GetComponent .Text)).sprite.width
          (e.mem.texts ((e.objects g).GetComponent .Text)).sprite.height index =
        if index / ((e.mem.texts ((e.objects g).GetComponent .Text)).sprite.width + 1)
            ≤ (e.mem.texts ((e.objects g).GetComponent .Text)).sprite.height then
          some (index % ((e.mem.texts ((e.objects g).GetComponent .Text)).sprite.width + 1),
            index / ((e.mem.texts ((e.objects g).GetComponent .Text)).sprite.width + 1))
        else none) ∧
    (index < 0 →
      glyphCell (e.mem.texts ((e.objects g).GetComponent .Text)).sprite.width
          (e.mem.texts ((e.objects g).GetComponent .Text)).sprite.height index = some (0, 0)) ∧
    (∃ e1, e.AddMeshSubSprite g xPos yPos sw sh index color = .finished () e1 ∧
      (e1.meshes (e.mem.meshRenderers ((e.objects g).GetComponent .MeshRenderer)).mesh).subMeshes
        = (e.meshes (e.mem.meshRenderers ((e.objects g).GetComponent .MeshRenderer)).mesh).subMeshes
          ++ (glyphPlain (e.mem.texts ((e.objects g).GetComponent .Text)) xPos yPos sw sh index
              color).toList) ∧
    (∃ e1, e.AddMeshText g xPos yPos sw sh text color = .finished () e1 ∧
      (e1.meshes (e.mem.meshRenderers ((e.objects g).GetComponent .MeshRenderer)).mesh).subMeshes
        = (e.meshes (e.mem.meshRenderers ((e.objects g).GetComponent .MeshRenderer)).mesh).subMeshes
          ++ textPlains (e.mem.texts ((e.objects g).GetComponent .Text)) xPos yPos sw sh color
              0 text ∧
      (e1.meshes (e.mem.meshRenderers ((e.objects g).GetComponent .MeshRenderer)).mesh).uploads
        = (e.meshes (e.mem.meshRenderers ((e.objects g).GetComponent .MeshRenderer)).mesh).uploads
          + 1) ∧
    (textPlains (e.mem.texts ((e.objects g).GetComponent .Text)) xPos yPos sw sh color 0
      text).length ≤ text.length := by
  obtain ⟨e1, h1, _, hs1, _⟩ := addMeshSubSprite_closed e g xPos yPos sw sh index color hr hm ht
    hw hh
  exact ⟨spriteCell_closed _ _ _ hw hh, (glyphCell_eq _ _ _ hw hh).1, (glyphCell_eq _ _ _ hw hh).2,
    ⟨e1, h1, hs1⟩, addMeshText_closed e g xPos yPos sw sh text color hr hm ht hw hh,
    textPlains_length _ _ _ _ _ _ _ _⟩

/-- C28 at the scene of the examples: the glyph map of the text of entity `1`
is 17 cells wide and high, and the glyph `72` lies in column 4 of row 4. -/
theorem C28_glyph_cell_closed_form_witness :
    (sampleScene.mem.texts 1).sprite.width = 16 ∧ (sampleScene.mem.texts 1).sprite.height = 16 ∧
    spriteCell 16 16 72 0 0 = some (4, 4) ∧
    glyphCell 16 16 (-3) = some (0, 0) ∧
    (∃ e1, sampleScene.AddMeshSubSprite 1 0 0 1 1 72 ⟨0, 0, 0, 1⟩ = .finished () e1 ∧
      ((e1.meshes 1).subMeshes.map fun p => (p.subWidth, p.subHeight)) = [(4, 4)]) ∧
    (∃ e1, sampleScene.AddMeshText 1 0 0 1 1 [72, 101] ⟨0, 0, 0, 1⟩ = .finished () e1 ∧
      ((e1.meshes 1).subMeshes.map fun p => (p.subWidth, p.subHeight)) = [(4, 4), (16, 5)] ∧
      (e1.meshes 1).uploads = 1) := by
  have h := C28_glyph_cell_closed_form sampleScene 1 0 0 1 1 72 ⟨0, 0, 0, 1⟩ [72, 101]
    (by decide) (by decide) (by decide) (by decide) (by decide)
  have h2 := C28_glyph_cell_closed_form sampleScene 1 0 0 1 1 (-3) ⟨0, 0, 0, 1⟩ []
    (by decide) (by decide) (by decide) (by decide) (by decide)
  obtain ⟨hcell, _, _, ⟨e1, hr1, hs1⟩, ⟨e2, hr2, hs2, hu2⟩, _⟩ := h
  have hg : glyphCell 16 16 72 = some (4, 4) := by decide
  refine ⟨by decide, by decide, ?_, h2.2.2.1 (by decide), ⟨e1, hr1, ?_⟩, ⟨e2, hr2, ?_, hu2⟩⟩
  · exact hcell.trans hg
  · have hs : (e1.meshes 1).subMeshes = (sampleScene.meshes 1).subMeshes
        ++ (glyphPlain (sampleScene.mem.texts 1) 0 0 1 1 72 ⟨0, 0, 0, 1⟩).toList := hs1
    rw [hs]
    decide
  · have hs : (e2.meshes 1).subMeshes = (sampleScene.meshes 1).subMeshes
        ++ textPlains (sampleScene.mem.texts 1) 0 0 1 1 ⟨0, 0, 0, 1⟩ 0 [72, 101] := hs2
    rw [hs]
    decide

/-! ## C24: the GPU state set from a material -/

theorem capEnabled_append (cap : GLCap) (before : Bool) (a b : List RenderCall) :
    capEnabled cap before (a ++ b) = capEnabled cap (capEnabled cap before a) b := by
  unfold capEnabled
  rw [List.foldl_append]

/-- What the three state blocks of a material change leave enabled: the depth
test and the blending as the material says, the face culling always. -/
theorem capEnabled_materialStateCalls (m : Material) (before : Bool) :
    capEnabled .DEPTH_TEST before (materialStateCalls m) = m.doDepthTest ∧
    capEnabled .BLEND before (materialStateCalls m) = m.doBlending ∧
    capEnabled .CULL_FACE before (materialStateCalls m) = true := by
  unfold materialStateCalls
  cases m.doDepthTest <;> cases m.doFaceCulling <;> cases m.doBlending <;>
    exact ⟨rfl, rfl, rfl⟩

theorem capEnabled_materialChangeCalls (shader material : Ptr) (m : Material)
    (cap : GLCap) (before : Bool) :
    capEnabled cap before (materialChangeCalls shader material m)
      = capEnabled cap before (materialStateCalls m) := by
  unfold materialChangeCalls
  rw [capEnabled_append, capEnabled_append]
  rfl

/-- The calls of the loop body on a drawable entity whose material is not the
one tracked leave the capabilities as the state blocks of the material do. -/
theorem capEnabled_drawnCalls (cm cs cmat ent : Ptr) (e : Entity) (shader : Ptr)
    (m : Material) (cap : GLCap) (before : Bool) (hchange : cmat ≠ e.material) :
    capEnabled cap before (drawnCalls cm cs cmat ent e shader m)
      = capEnabled cap before (materialStateCalls m) := by
  have h1 : ∀ s, capEnabled cap s
      (if e.script ≠ nullptr then [RenderCall.scriptOnUpdate e.script] else []) = s := by
    intro s
    split_ifs <;> rfl
  have h2 : ∀ s, capEnabled cap s
      (if cm ≠ e.mesh then [RenderCall.meshBind e.mesh] else []) = s := by
    intro s
    split_ifs <;> rfl
  have h3 : ∀ s, capEnabled cap s
      (if cs ≠ shader then [RenderCall.shaderBind shader, .setProjectionMatrix shader]
        else []) = s := by
    intro s
    split_ifs <;> rfl
  have h4 : ∀ s, capEnabled cap s
      (if e.rigidBody ≠ nullptr then [RenderCall.syncRigidBody ent] else []) = s := by
    intro s
    split_ifs <;> rfl
  have h5 : ∀ s, capEnabled cap s
      [RenderCall.setModelMatrix shader ent, .drawIndexArray e.mesh] = s := fun _ => rfl
  unfold drawnCalls
  rw [if_pos hchange]
  simp only [capEnabled_append, h1, h2, h3, h4, h5, capEnabled_materialChangeCalls]

/-- The calls of the loop body on an entity whose material is the one tracked
set no part of the GPU state. -/
theorem drawnCalls_no_state (cm cs cmat ent : Ptr) (e : Entity) (shader : Ptr)
    (m : Material) (hsame : cmat = e.material) :
    (drawnCalls cm cs cmat ent e shader m).filter RenderCall.isStateCall = [] := by
  unfold drawnCalls
  rw [if_neg (not_not.mpr hsame)]
  simp only [List.filter_append, List.append_nil]
  split_ifs <;> rfl

/-- C24, on the code: on every material change in the loop body of
`RenderFrame` the depth test ends enabled exactly when the new material has
`doDepthTest` and blending exactly when it has `doBlending`, but face culling
ends enabled whatever `doFaceCulling` says, also for a material with culling
disabled; and on an entity whose material is the one tracked no call sets a
part of the GPU state. -/
theorem C24_culling_enabled_on_every_change (r : RenderSystem) (ent : Ptr)
    (before : GLCap → Bool) (hent : ent ≠ nullptr) (hd : r.drawable ent = true)
    (hmat : (r.entities ent).material ≠ nullptr) :
    ∃ r1 new, r.drawEntity ent = .ok r1 ∧ Issued r r1 new ∧
      (r.currentMaterial ≠ (r.entities ent).material →
        capEnabled .DEPTH_TEST (before .DEPTH_TEST) new
          = (r.materials (r.entities ent).material).doDepthTest ∧
        capEnabled .BLEND (before .BLEND) new
          = (r.materials (r.entities ent).material).doBlending ∧
        capEnabled .CULL_FACE (before .CULL_FACE) new = true) ∧
      (r.currentMaterial = (r.entities ent).material →
        new.filter RenderCall.isStateCall = []) := by
  obtain ⟨r1, h1, hi, _⟩ := drawEntity_drawn r ent hent hd (Or.inl hmat)
  refine ⟨r1, _, h1, hi, ?_, ?_⟩
  · intro hchange
    rw [capEnabled_drawnCalls _ _ _ _ _ _ _ _ _ hchange,
      capEnabled_drawnCalls _ _ _ _ _ _ _ _ _ hchange,
      capEnabled_drawnCalls _ _ _ _ _ _ _ _ _ hchange]
    exact ⟨(capEnabled_materialStateCalls _ _).1, (capEnabled_materialStateCalls _ _).2.1,
      (capEnabled_materialStateCalls _ _).2.2⟩
  · intro hsame
    exact drawnCalls_no_state _ _ _ _ _ _ _ hsame

/-- C24 at a material with face culling disabled: the loop body binds it on a
context without face culling, and face culling ends enabled. -/
theorem C24_culling_enabled_on_every_change_witness :
    (sampleNoCullRenderer.materials (sampleNoCullRenderer.entities 1).material).doFaceCulling
      = false ∧
    ∃ r1 new, sampleNoCullRenderer.drawEntity 1 = .ok r1 ∧ Issued sampleNoCullRenderer r1 new ∧
      capEnabled .CULL_FACE false new = true := by
  obtain ⟨r1, new, h1, hi, hchange, _⟩ :=
    C24_culling_enabled_on_every_change sampleNoCullRenderer 1 (fun _ => false) (by decide)
      (by decide) (by decide)
  exact ⟨by decide, r1, new, h1, hi, (hchange (by decide)).2.2⟩

/-! ## C21: the walk up the parent chain -/

/-- The loop body on an active entity whose walk ends is the rest of the body
run from the transform the walk ended with. -/
theorem updateEntity_walked (x : Externals) (fuel : Nat) (e : Engine) (b : StreamSlot)
    (walked : Transform) (hg : b.gameObject ≠ nullptr)
    (hact : (e.objects b.gameObject).isActive = true)
    (hw : walkParents e.objects fuel (e.objects b.gameObject).parent
      (e.ownTransform b.gameObject) = some walked) :
    e.updateEntity x fuel b = e.passFrom x b walked := by
  have hg0 : ¬ b.gameObject = nullptr := hg
  have hact0 : ¬ (e.objects b.gameObject).isActive = false := by simp [hact]
  unfold Engine.ownTransform at hw
  unfold Engine.updateEntity
  rw [if_neg hg0, if_neg hact0]
  dsimp only
  rw [hw]
  rfl

theorem textStep_mem (e : Engine) (b : StreamSlot) (e1 : Engine)
    (h : e.textStep b = .finished () e1) : e1.mem = e.mem := by
  unfold Engine.textStep at h
  dsimp only at h
  split_ifs at h with h1 h2 h3
  · exact (addMeshText_onlyMeshes _ _ _ _ _ _ _ _ e1 (congrArg Run.state? h)).mem
  · cases h; rfl
  · cases h; rfl

/-- The text block writes the `y` and `z` of the position of the entity, and
only when the entry has a text and a mesh renderer. -/
theorem textStep_objects (e : Engine) (b : StreamSlot) (e1 : Engine)
    (h : e.textStep b = .finished () e1) :
    (e1.objects b.gameObject).transform.orientation
      = (e.objects b.gameObject).transform.orientation ∧
    (e1.objects b.gameObject).transform.scale = (e.objects b.gameObject).transform.scale ∧
    (e1.objects b.gameObject).transform.position.x
      = (e.objects b.gameObject).transform.position.x ∧
    (b.text = nullptr ∨ b.meshRenderer = nullptr → e1.objects = e.objects) := by
  unfold Engine.textStep at h
  dsimp only at h
  split_ifs at h with h1 h2 h3
  · have ho := (addMeshText_onlyMeshes _ _ _ _ _ _ _ _ e1 (congrArg Run.state? h)).objects
    rw [ho]
    simp only [store_same]
    refine ⟨trivial, trivial, trivial, fun hn => ?_⟩
    rcases hn with hn | hn
    · exact absurd hn h1
    · exact absurd hn h2
  · cases h
    exact ⟨rfl, rfl, rfl, fun _ => rfl⟩
  · cases h
    exact ⟨rfl, rfl, rfl, fun _ => rfl⟩

theorem cameraStep_mem (e : Engine) (b : StreamSlot) (t : Transform) :
    ∃ c, (e.cameraStep b t).mem = { e.mem with cameras := c } := by
  unfold Engine.cameraStep
  split_ifs
  · exact ⟨_, rfl⟩
  · exact ⟨_, rfl⟩

theorem lightStep_mem (x : Externals) (e : Engine) (b : StreamSlot) (t : Transform) :
    ∃ l, (e.lightStep x b t).mem = { e.mem with lights := l } := by
  unfold Engine.lightStep
  split_ifs
  · exact ⟨_, rfl⟩
  · exact ⟨_, rfl⟩

theorem actorStep_objects (e : Engine) (b : StreamSlot) (t : Transform) :
    (e.actorStep b t).objects = e.objects ∧
    (e.actorStep b t).mem.meshRenderers = e.mem.meshRenderers ∧
    (e.actorStep b t).mem.rigidBodies = e.mem.rigidBodies := by
  unfold Engine.actorStep
  split_ifs <;> exact ⟨rfl, rfl, rfl⟩

theorem meshRendererStep_objects (e : Engine) (b : StreamSlot) (t : Transform) :
    (e.meshRendererStep b t).objects = e.objects ∧
    (e.meshRendererStep b t).mem.actors = e.mem.actors ∧
    (e.meshRendererStep b t).mem.physicsCalls = e.mem.physicsCalls ∧
    (e.meshRendererStep b t).mem.rigidBodies = e.mem.rigidBodies := by
  unfold Engine.meshRendererStep
  split_ifs <;> exact ⟨rfl, rfl, rfl, rfl⟩

/-- What a pass that finishes leaves, in terms of the blocks up to the actor
block: the mesh renderers are those the mesh-renderer block left, the actors
and the physics calls those the actor block left, and of the entity only the
`y` and `z` of its position may differ from what the rigid-body block left. -/
theorem passFrom_finished (x : Externals) (e : Engine) (b : StreamSlot) (t : Transform)
    (e1 : Engine) (h : e.passFrom x b t = .finished () e1) :
    e1.mem.meshRenderers
      = ((e.rigidBodyStep x b { t with matrix := t.composed }).1.meshRendererStep b
          (e.rigidBodyStep x b { t with matrix := t.composed }).2).mem.meshRenderers ∧
    e1.mem.actors
      = (((e.rigidBodyStep x b { t with matrix := t.composed }).1.meshRendererStep b
          (e.rigidBodyStep x b { t with matrix := t.composed }).2).actorStep b
          (e.rigidBodyStep x b { t with matrix := t.composed }).2).mem.actors ∧
    e1.mem.physicsCalls
      = (((e.rigidBodyStep x b { t with matrix := t.composed }).1.meshRendererStep b
          (e.rigidBodyStep x b { t with matrix := t.composed }).2).actorStep b
          (e.rigidBodyStep x b { t with matrix := t.composed }).2).mem.physicsCalls ∧
    (e1.objects b.gameObject).transform.orientation
      = ((e.rigidBodyStep x b { t with matrix := t.composed }).1.objects
          b.gameObject).transform.orientation ∧
    (e1.objects b.gameObject).transform.scale
      = ((e.rigidBodyStep x b { t with matrix := t.composed }).1.objects
          b.gameObject).transform.scale ∧
    (e1.objects b.gameObject).transform.position.x
      = ((e.rigidBodyStep x b { t with matrix := t.composed }).1.objects
          b.gameObject).transform.position.x ∧
    (b.text = nullptr ∨ b.meshRenderer = nullptr →
      e1.objects = (e.rigidBodyStep x b { t with matrix := t.composed }).1.objects) := by
  unfold Engine.passFrom at h
  dsimp only at h
  generalize (e.rigidBodyStep x b { t with matrix := t.composed }) = ab at h ⊢
  obtain ⟨ho3, hm3, _⟩ := actorStep_objects (ab.1.meshRendererStep b ab.2) b ab.2
  obtain ⟨ho2, _⟩ := meshRendererStep_objects ab.1 b ab.2
  cases h5 : ((ab.1.meshRendererStep b ab.2).actorStep b ab.2).textStep b with
  | aborted f r =>
      rw [h5] at h
      cases h
  | outOfFuel =>
      rw [h5] at h
      cases h
  | finished v e5 =>
      rw [h5] at h
      cases h
      have hmem := textStep_mem _ b e5 h5
      obtain ⟨t1, t2, t3, t4⟩ := textStep_objects _ b e5 h5
      obtain ⟨c, hc⟩ := cameraStep_mem e5 b ab.2
      obtain ⟨l, hl⟩ := lightStep_mem x (e5.cameraStep b ab.2) b ab.2
      rw [ho3, ho2] at t1 t2 t3 t4
      refine ⟨?_, ?_, ?_, ?_, ?_, ?_, ?_⟩
      · rw [hl, hc, hmem, hm3]
      · rw [hl, hc, hmem]
      · rw [hl, hc, hmem]
      · rw [lightStep_objects, cameraStep_objects]
        exact t1
      · rw [lightStep_objects, cameraStep_objects]
        exact t2
      · rw [lightStep_objects, cameraStep_objects]
        exact t3
      · intro hn
        rw [lightStep_objects, cameraStep_objects]
        exact t4 hn

/-- A pass of the loop body over an active entity that finishes is the rest of
the body run from some transform the walk ended with. -/
theorem updateEntity_finished_walked (x : Externals) (fuel : Nat) (e : Engine)
    (b : StreamSlot) (e1 : Engine) (hr : e.updateEntity x fuel b = .finished () e1)
    (hact : (e.objects b.gameObject).isActive = true) :
    ∃ walked, e.passFrom x b walked = .finished () e1 := by
  by_cases hg : b.gameObject = nullptr
  · unfold Engine.updateEntity at hr
    rw [if_pos hg] at hr
    cases hr
  · cases hw : walkParents e.objects fuel (e.objects b.gameObject).parent
        (e.ownTransform b.gameObject) with
    | none =>
        have h1 := walkParents_isSome e.objects fuel (e.objects b.gameObject).parent
          (e.ownTransform b.gameObject)
        rw [hw] at h1
        rcases updateEntity_active x fuel e b hg hact with ⟨_, h2⟩ | ⟨h2, _⟩
        · rw [h2] at hr
          cases hr
        · rw [h2] at h1
          cases h1
    | some walked =>
        rw [updateEntity_walked x fuel e b walked hg hact hw] at hr
        exact ⟨walked, hr⟩

/-- A property `Q` of the state after `Update` that the pass over the entry
`i0` establishes, from a state in which the invariant `I` holds, and that the
passes over the other entries keep, as they keep `I`. -/
theorem updateLoop_pass (x : Externals) (fuel : Nat) (I Q : Engine → Prop)
    (l : List Nat) (hnd : l.Nodup) (e0 : Engine) (i0 : Nat) (hi0 : i0 ∈ l) (h0 : I e0)
    (hI : ∀ e j e1, j ∈ l → j ≠ i0 → SameShape e0 e → I e →
      e.updateEntity x fuel (e.streamBuffer j) = .finished () e1 → I e1)
    (hpass : ∀ e e1, SameShape e0 e → I e →
      e.updateEntity x fuel (e.streamBuffer i0) = .finished () e1 → Q e1)
    (hQ : ∀ e j e1, j ∈ l → j ≠ i0 → SameShape e0 e → Q e →
      e.updateEntity x fuel (e.streamBuffer j) = .finished () e1 → Q e1)
    (e1 : Engine) (hr : Engine.updateLoop x fuel l e0 = .finished () e1) : Q e1 := by
  induction l generalizing e0 with
  | nil => cases hi0
  | cons i rest ih =>
      obtain ⟨hnot, hnd2⟩ := List.nodup_cons.mp hnd
      simp only [Engine.updateLoop] at hr
      cases h1 : e0.updateEntity x fuel (e0.streamBuffer i) with
      | aborted f r => rw [h1] at hr; cases hr
      | outOfFuel => rw [h1] at hr; cases hr
      | finished v e2 =>
          rw [h1] at hr
          have hs : SameShape e0 e2 :=
            (updateEntity_frame x fuel e0 _ e2 (by rw [h1]; rfl)).1
          rcases List.mem_cons.mp hi0 with hi | hi
          · subst hi
            refine updateLoop_keeps x fuel Q rest e2 ?_
              (hpass e0 e2 (SameShape.shapeRefl _) h0 h1) e1 hr
            intro e j e3 hj hsame hq hrun
            exact hQ e j e3 (List.mem_cons_of_mem _ hj) (fun h => hnot (h ▸ hj))
              (hs.shapeTrans hsame) hq hrun
          · have hne : i ≠ i0 := fun h => hnot (h ▸ hi)
            refine ih hnd2 e2 hi
              (hI e0 i e2 (List.mem_cons_self _ _) hne (SameShape.shapeRefl _) h0 h1) ?_ ?_ ?_ hr
            · intro e j e3 hj hj0 hsame hi2 hrun
              exact hI e j e3 (List.mem_cons_of_mem _ hj) hj0 (hs.shapeTrans hsame) hi2 hrun
            · intro e e3 hsame hi2 hrun
              exact hpass e e3 (hs.shapeTrans hsame) hi2 hrun
            · intro e j e3 hj hj0 hsame hq hrun
              exact hQ e j e3 (List.mem_cons_of_mem _ hj) hj0 (hs.shapeTrans hsame) hq hrun

/-- The lifting of a property of one pass to `Update`: when the entries are
ready `Update` finishes, and a property that the pass over entry `i`
establishes from what the other passes leave alone, and that the other passes
leave alone, holds afterwards. -/
theorem update_pass (x : Externals) (fuel : Nat) (e : Engine) (i : Nat)
    (hi : i < e.mGameObjects.Size) (hready : e.beforeLoop.Ready fuel) (I Q : Engine → Prop)
    (h0 : I e.beforeLoop)
    (hI : ∀ j, j < e.mGameObjects.Size → j ≠ i → ∀ e2 e3,
      WritesAt (e.beforeLoop.streamBuffer j) e2 e3 → I e2 → I e3)
    (hpass : ∀ e2 e3, SameShape e.beforeLoop e2 → I e2 →
      e2.updateEntity x fuel (e.beforeLoop.streamBuffer i) = .finished () e3 → Q e3)
    (hQ : ∀ j, j < e.mGameObjects.Size → j ≠ i → ∀ e2 e3,
      WritesAt (e.beforeLoop.streamBuffer j) e2 e3 → Q e2 → Q e3) :
    ∃ e1, e.Update x fuel = .finished () e1 ∧ Q e1 := by
  obtain ⟨e1, h1⟩ := update_finishes x fuel e hready
  obtain ⟨_, _, hp, _⟩ := beforeLoop_frame e
  refine ⟨e1, h1, ?_⟩
  rw [update_eq] at h1
  refine updateLoop_pass x fuel I Q _ (List.nodup_range _) e.beforeLoop i
    (List.mem_range.mpr (by rw [hp]; exact hi)) h0 ?_ ?_ ?_ e1 h1
  · intro e2 j e3 hj hj0 hs hi2 hrun
    have w := (updateEntity_frame x fuel e2 _ e3 (by rw [hrun]; rfl)).2
    rw [hs.streamBuffer] at w
    exact hI j (by rw [← hp]; exact List.mem_range.mp hj) hj0 e2 e3 w hi2
  · intro e2 e3 hs hi2 hrun
    rw [hs.streamBuffer] at hrun
    exact hpass e2 e3 hs hi2 hrun
  · intro e2 j e3 hj hj0 hs hq hrun
    have w := (updateEntity_frame x fuel e2 _ e3 (by rw [hrun]; rfl)).2
    rw [hs.streamBuffer] at w
    exact hQ j (by rw [← hp]; exact List.mem_range.mp hj) hj0 e2 e3 w hq

/-! ## C22: the rigid-body block -/

/-- The rigid-body block on an entry with a rigid body: the current transform
takes the position and orientation of the body and the matrix of the body
scaled by the scale of the entity itself, the entity takes the position and
orientation of the body, and one `getTransform` call is made. -/
theorem rigidBodyStep_body (x : Externals) (e : Engine) (b : StreamSlot) (t : Transform)
    (hb : b.rigidBody ≠ nullptr) :
    (e.rigidBodyStep x b t).2.position = (e.mem.rigidBodies b.rigidBody).transform.position ∧
    (e.rigidBodyStep x b t).2.orientation
      = (e.mem.rigidBodies b.rigidBody).transform.orientation ∧
    (e.rigidBodyStep x b t).2.matrix
      = (x.getOpenGLMatrix (e.mem.rigidBodies b.rigidBody).transform).scale
          (e.objects b.gameObject).transform.scale ∧
    ((e.rigidBodyStep x b t).1.objects b.gameObject).transform.position
      = (e.mem.rigidBodies b.rigidBody).transform.position ∧
    ((e.rigidBodyStep x b t).1.objects b.gameObject).transform.orientation
      = (e.mem.rigidBodies b.rigidBody).transform.orientation ∧
    ((e.rigidBodyStep x b t).1.objects b.gameObject).transform.scale
      = (e.objects b.gameObject).transform.scale ∧
    (e.rigidBodyStep x b t).1.mem.physicsCalls
      = e.mem.physicsCalls ++ [PhysicsCall.getTransform b.rigidBody] ∧
    (e.rigidBodyStep x b t).1.mem.actors = e.mem.actors ∧
    (e.rigidBodyStep x b t).1.mem.meshRenderers = e.mem.meshRenderers := by
  unfold Engine.rigidBodyStep
  rw [if_pos hb]
  dsimp only
  simp only [store_same]
  refine ⟨?_, ?_, ?_, ?_, ?_, ?_, ?_, ?_, ?_⟩ <;> trivial

/-- The mesh-renderer block hands the matrix of the current transform to the
mesh renderer. -/
theorem meshRendererStep_matrix (e : Engine) (b : StreamSlot) (t : Transform)
    (hm : b.meshRenderer ≠ nullptr) :
    ((e.meshRendererStep b t).mem.meshRenderers b.meshRenderer).transform.matrix = t.matrix := by
  unfold Engine.meshRendererStep
  rw [if_pos hm]
  simp only [store_same]
  split_ifs <;> rfl

/-- One pass over an active entity with a rigid body: what it leaves in the
entity and in the mesh renderer. -/
theorem updateEntity_body (x : Externals) (fuel : Nat) (e : Engine) (b : StreamSlot)
    (e1 : Engine) (hr : e.updateEntity x fuel b = .finished () e1)
    (hact : (e.objects b.gameObject).isActive = true) (hb : b.rigidBody ≠ nullptr) :
    (e1.objects b.gameObject).transform.orientation
      = (e.mem.rigidBodies b.rigidBody).transform.orientation ∧
    (e1.objects b.gameObject).transform.position.x
      = (e.mem.rigidBodies b.rigidBody).transform.position.x ∧
    (b.text = nullptr ∨ b.meshRenderer = nullptr →
      (e1.objects b.gameObject).transform.position
        = (e.mem.rigidBodies b.rigidBody).transform.position) ∧
    (b.meshRenderer ≠ nullptr →
      (e1.mem.meshRenderers b.meshRenderer).transform.matrix
        = (x.getOpenGLMatrix (e.mem.rigidBodies b.rigidBody).transform).scale
            (e.objects b.gameObject).transform.scale) := by
  obtain ⟨walked, hp⟩ := updateEntity_finished_walked x fuel e b e1 hr hact
  obtain ⟨h1, _, _, h4, h5, h6, h7⟩ := passFrom_finished x e b walked e1 hp
  obtain ⟨_, _, r3, r4, r5, r6, _, _, _⟩ :=
    rigidBodyStep_body x e b { walked with matrix := walked.composed } hb
  refine ⟨h4.trans r5, ?_, ?_, ?_⟩
  · rw [h6, r4]
  · intro ht
    rw [h7 ht, r4]
  · intro hm
    rw [h1, meshRendererStep_matrix _ b _ hm, r3]

/-- What `Update` leaves of an active entity with a rigid body, in an entry of
its own: the orientation of the body, the position of the body (behind a text
with a mesh renderer only its `x`), and in the mesh renderer the matrix of the
body scaled by the scale of the entity itself. -/
theorem update_body (x : Externals) (fuel : Nat) (e : Engine) (i : Nat)
    (hi : i < e.mGameObjects.Size) (hready : e.beforeLoop.Ready fuel)
    (hactive : (e.objects (e.beforeLoop.streamBuffer i).gameObject).isActive = true)
    (hbody : (e.beforeLoop.streamBuffer i).rigidBody ≠ nullptr)
    (hown : ∀ j, j < e.mGameObjects.Size → j ≠ i →
      (e.beforeLoop.streamBuffer j).gameObject ≠ (e.beforeLoop.streamBuffer i).gameObject ∧
      ((e.beforeLoop.streamBuffer i).meshRenderer ≠ nullptr →
        (e.beforeLoop.streamBuffer j).meshRenderer
          ≠ (e.beforeLoop.streamBuffer i).meshRenderer)) :
    ∃ e1, e.Update x fuel = .finished () e1 ∧
      (e1.objects (e.beforeLoop.streamBuffer i).gameObject).transform.orientation
        = (e.mem.rigidBodies (e.beforeLoop.streamBuffer i).rigidBody).transform.orientation ∧
      (e1.objects (e.beforeLoop.streamBuffer i).gameObject).transform.position.x
        = (e.mem.rigidBodies (e.beforeLoop.streamBuffer i).rigidBody).transform.position.x ∧
      ((e.beforeLoop.streamBuffer i).text = nullptr ∨
          (e.beforeLoop.streamBuffer i).meshRenderer = nullptr →
        (e1.objects (e.beforeLoop.streamBuffer i).gameObject).transform.position
          = (e.mem.rigidBodies (e.beforeLoop.streamBuffer i).rigidBody).transform.position) ∧
      ((e.beforeLoop.streamBuffer i).meshRenderer ≠ nullptr →
        (e1.mem.meshRenderers (e.beforeLoop.streamBuffer i).meshRenderer).transform.matrix
          = (x.getOpenGLMatrix
              (e.mem.rigidBodies (e.beforeLoop.streamBuffer i).rigidBody).transform).scale
              (e.objects (e.beforeLoop.streamBuffer i).gameObject).transform.scale) := by
  obtain ⟨ho, hm, _⟩ := beforeLoop_frame e
  refine update_pass x fuel e i hi hready
    (fun e2 => e2.objects (e.beforeLoop.streamBuffer i).gameObject
        = e.objects (e.beforeLoop.streamBuffer i).gameObject ∧
      e2.mem.rigidBodies = e.mem.rigidBodies) _ ⟨by rw [ho], by rw [hm]⟩ ?_ ?_ ?_
  · intro j hj hji e2 e3 w hI
    exact ⟨(w.objects _ (fun h => (hown j hj hji).1 h.symm)).trans hI.1,
      w.rigidBodies.trans hI.2⟩
  · intro e2 e3 hs hI hrun
    have h := updateEntity_body x fuel e2 _ e3 hrun (by rw [hI.1]; exact hactive) hbody
    rw [hI.1, hI.2] at h
    exact h
  · intro j hj hji e2 e3 w hQ
    obtain ⟨q1, q2, q3, q4⟩ := hQ
    have hg := w.objects _ (fun h => (hown j hj hji).1 h.symm)
    refine ⟨by rw [hg]; exact q1, by rw [hg]; exact q2, fun h => by rw [hg]; exact q3 h,
      fun h => ?_⟩
    rw [w.meshRenderers _ (fun h2 => (hown j hj hji).2 h h2.symm)]
    exact q4 h

/-- C22, on the code: for an active entity with a rigid body, in an entry of
its own, `EngineSystemManager::Update` finishes and leaves in the transform of
the entity the orientation of the physics transform and its position (behind a
text with a mesh renderer the text block rewrites `y` and `z`, so only `x`),
and the matrix handed to the mesh renderer is the physics matrix scaled by the
scale of the entity itself, not by the scale accumulated along the parent
chain. -/
theorem C22_physics_matrix_own_scale (x : Externals) (fuel : Nat) (e : Engine) (i : Nat)
    (hi : i < e.mGameObjects.Size) (hready : e.beforeLoop.Ready fuel)
    (hactive : (e.objects (e.beforeLoop.streamBuffer i).gameObject).isActive = true)
    (hbody : (e.beforeLoop.streamBuffer i).rigidBody ≠ nullptr)
    (hown : ∀ j, j < e.mGameObjects.Size → j ≠ i →
      (e.beforeLoop.streamBuffer j).gameObject ≠ (e.beforeLoop.streamBuffer i).gameObject ∧
      ((e.beforeLoop.streamBuffer i).meshRenderer ≠ nullptr →
        (e.beforeLoop.streamBuffer j).meshRenderer
          ≠ (e.beforeLoop.streamBuffer i).meshRenderer)) :
    ∃ e1, e.Update x fuel = .finished () e1 ∧
      (e1.objects (e.beforeLoop.streamBuffer i).gameObject).transform.orientation
        = (e.mem.rigidBodies (e.beforeLoop.streamBuffer i).rigidBody).transform.orientation ∧
      (e1.objects (e.beforeLoop.streamBuffer i).gameObject).transform.position.x
        = (e.mem.rigidBodies (e.beforeLoop.streamBuffer i).rigidBody).transform.position.x ∧
      ((e.beforeLoop.streamBuffer i).text = nullptr ∨
          (e.beforeLoop.streamBuffer i).meshRenderer = nullptr →
        (e1.objects (e.beforeLoop.streamBuffer i).gameObject).transform.position
          = (e.mem.rigidBodies (e.beforeLoop.streamBuffer i).rigidBody).transform.position) ∧
      ((e.beforeLoop.streamBuffer i).meshRenderer ≠ nullptr →
        (e1.mem.meshRenderers (e.beforeLoop.streamBuffer i).meshRenderer).transform.matrix
          = (x.getOpenGLMatrix
              (e.mem.rigidBodies (e.beforeLoop.streamBuffer i).rigidBody).transform).scale
              (e.objects (e.beforeLoop.streamBuffer i).gameObject).transform.scale) :=
  update_body x fuel e i hi hready hactive hbody hown

/-- C22 at the family of the examples: entity `2`, the second entry, has a
rigid body and the mesh renderer `2`; its own scale is 1, and the matrix handed
to the mesh renderer is the matrix of the body scaled by 1. -/
theorem C22_physics_matrix_own_scale_witness :
    (sampleFamily.objects 2).transform.scale = ⟨1, 1, 1⟩ ∧
    ∃ e1, sampleFamily.Update sampleExternals 2 = .finished () e1 ∧
      (e1.objects 2).transform.position = (sampleFamily.mem.rigidBodies 1).transform.position ∧
      (e1.mem.meshRenderers 2).transform.matrix
        = (sampleExternals.getOpenGLMatrix (sampleFamily.mem.rigidBodies 1).transform).scale
            ⟨1, 1, 1⟩ := by
  obtain ⟨e1, h1, _, _, h3, h4⟩ := C22_physics_matrix_own_scale sampleExternals 2 sampleFamily 1
    (by decide) (by decide) (by decide) (by decide) (by decide)
  exact ⟨by decide, e1, h1, h3 (Or.inl (by decide)), h4 (by decide)⟩

/-- C22 as the specification words it fails at the family of the examples: the
parent of entity `2` has the scale 2, so the scale accumulated along the chain
of entity `2` is 2, and the matrix `Update` hands to the mesh renderer of
entity `2` is not the matrix of the body scaled by 2. -/
theorem C22_matrix_not_accumulated_scale :
    IsChain sampleFamily.objects (sampleFamily.objects 2).parent [3] ∧
    (accumulated sampleFamily.objects (sampleFamily.ownTransform 2) [3]).scale = ⟨2, 2, 2⟩ ∧
    ∃ e1, sampleFamily.Update sampleExternals 2 = .finished () e1 ∧
      (e1.mem.meshRenderers 2).transform.matrix
        ≠ (sampleExternals.getOpenGLMatrix (sampleFamily.mem.rigidBodies 1).transform).scale
            (accumulated sampleFamily.objects (sampleFamily.ownTransform 2) [3]).scale := by
  have hs : (accumulated sampleFamily.objects (sampleFamily.ownTransform 2) [3]).scale
      = ⟨2, 2, 2⟩ := by
    have hs2 : (accumulated sampleFamily.objects (sampleFamily.ownTransform 2) [3]).scale
        = ⟨(1 : Scalar) * 2, (1 : Scalar) * 2, (1 : Scalar) * 2⟩ := rfl
    rw [hs2]
    norm_num
  obtain ⟨e1, h1, _, _, _, h4⟩ := update_body sampleExternals 2 sampleFamily 1
    (by decide) (by decide) (by decide) (by decide) (by decide)
  refine ⟨by decide, hs, e1, h1, ?_⟩
  have h5 : (e1.mem.meshRenderers 2).transform.matrix
      = Mat4.one.scale ⟨1, 1, 1⟩ := h4 (by decide)
  rw [h5, hs]
  show Mat4.one.scale ⟨1, 1, 1⟩ ≠ Mat4.one.scale ⟨2, 2, 2⟩
  intro h
  have h6 : ((Mat4.one.scale ⟨1, 1, 1⟩).c0.x : Scalar) = (Mat4.one.scale ⟨2, 2, 2⟩).c0.x := by
    rw [h]
  simp [Mat4.scale, Mat4.one, Vec4.smul] at h6

/-! ## C23: the actor block -/

/-- The actor block on an entry with an active actor and a rigid body: the
actor takes the position of the current transform, and one force, the velocity
the actor had, is applied to the rigid body. -/
theorem actorStep_body (e : Engine) (b : StreamSlot) (t : Transform)
    (ha : b.actor ≠ nullptr) (hon : (e.mem.actors b.actor).active = true)
    (hb : b.rigidBody ≠ nullptr) :
    (e.actorStep b t).mem.actors b.actor = { e.mem.actors b.actor with position := t.position } ∧
    (e.actorStep b t).mem.physicsCalls
      = e.mem.physicsCalls ++ [PhysicsCall.applyLocalForceAtCenterOfMass b.rigidBody
          ⟨(e.mem.actors b.actor).velocity.x, (e.mem.actors b.actor).velocity.y,
            (e.mem.actors b.actor).velocity.z⟩] := by
  unfold Engine.actorStep
  rw [if_pos ha, if_pos hon, if_pos hb]
  dsimp only [Memory.call]
  simp only [store_same]
  exact ⟨trivial, trivial⟩

/-- The actor block on an entry without a rigid body does nothing. -/
theorem actorStep_free (e : Engine) (b : StreamSlot) (t : Transform)
    (hb : b.rigidBody = nullptr) : e.actorStep b t = e := by
  unfold Engine.actorStep
  rw [if_neg (not_not.mpr hb)]
  split_ifs <;> rfl

/-- The rigid-body block on an entry without a rigid body does nothing. -/
theorem rigidBodyStep_free (x : Externals) (e : Engine) (b : StreamSlot) (t : Transform)
    (hb : b.rigidBody = nullptr) : e.rigidBodyStep x b t = (e, t) := by
  unfold Engine.rigidBodyStep
  rw [if_neg (not_not.mpr hb)]

/-- One pass over an active entity with an active actor: with a rigid body the
actor takes the position of the body and the log gains the read of the body
transform and one force; without a rigid body neither the actors nor the log
change. -/
theorem updateEntity_actor (x : Externals) (fuel : Nat) (e : Engine) (b : StreamSlot)
    (e1 : Engine) (hr : e.updateEntity x fuel b = .finished () e1)
    (hact : (e.objects b.gameObject).isActive = true) :
    (b.actor ≠ nullptr → (e.mem.actors b.actor).active = true → b.rigidBody ≠ nullptr →
      e1.mem.actors b.actor
        = { e.mem.actors b.actor with
            position := (e.mem.rigidBodies b.rigidBody).transform.position } ∧
      e1.mem.physicsCalls
        = e.mem.physicsCalls ++ [PhysicsCall.getTransform b.rigidBody,
            PhysicsCall.applyLocalForceAtCenterOfMass b.rigidBody
              ⟨(e.mem.actors b.actor).velocity.x, (e.mem.actors b.actor).velocity.y,
                (e.mem.actors b.actor).velocity.z⟩]) ∧
    (b.rigidBody = nullptr →
      e1.mem.actors = e.mem.actors ∧ e1.mem.physicsCalls = e.mem.physicsCalls) := by
  obtain ⟨walked, hp⟩ := updateEntity_finished_walked x fuel e b e1 hr hact
  obtain ⟨_, h2, h3, _⟩ := passFrom_finished x e b walked e1 hp
  refine ⟨?_, ?_⟩
  · intro ha hon hb
    obtain ⟨r1, _, _, _, _, _, r7, r8, _⟩ :=
      rigidBodyStep_body x e b { walked with matrix := walked.composed } hb
    obtain ⟨_, m2, m3, _⟩ := meshRendererStep_objects
      (e.rigidBodyStep x b { walked with matrix := walked.composed }).1 b
      (e.rigidBodyStep x b { walked with matrix := walked.composed }).2
    have hon2 : (((e.rigidBodyStep x b { walked with matrix := walked.composed }).1.meshRendererStep
        b (e.rigidBodyStep x b { walked with matrix := walked.composed }).2).mem.actors
          b.actor).active = true := by
      rw [m2, r8]
      exact hon
    obtain ⟨a1, a2⟩ := actorStep_body _ b
      (e.rigidBodyStep x b { walked with matrix := walked.composed }).2 ha hon2 hb
    rw [h2, h3, a1, a2, m2, m3, r8, r7, r1, List.append_assoc]
    exact ⟨rfl, rfl⟩
  · intro hb
    rw [h2, h3, actorStep_free _ b _ hb, rigidBodyStep_free x e b _ hb]
    obtain ⟨_, m2, m3, _⟩ := meshRendererStep_objects e b
      { walked with matrix := walked.composed }
    exact ⟨m2, m3⟩

/-- What `Update` leaves of an active actor on an active entity, in an entry
of its own: with a rigid body the actor has the position of the body, and the
log has the read of the body transform and one force, the velocity of the
actor, next to each other among the calls of the other entries; without a
rigid body the actor is as it was and every new call is one of another entry. -/
theorem update_actor (x : Externals) (fuel : Nat) (e : Engine) (i : Nat)
    (hi : i < e.mGameObjects.Size) (hready : e.beforeLoop.Ready fuel)
    (hactive : (e.objects (e.beforeLoop.streamBuffer i).gameObject).isActive = true)
    (hactor : (e.beforeLoop.streamBuffer i).actor ≠ nullptr)
    (hon : (e.mem.actors (e.beforeLoop.streamBuffer i).actor).active = true)
    (hown : ∀ j, j < e.mGameObjects.Size → j ≠ i →
      (e.beforeLoop.streamBuffer j).gameObject ≠ (e.beforeLoop.streamBuffer i).gameObject ∧
      (e.beforeLoop.streamBuffer j).actor ≠ (e.beforeLoop.streamBuffer i).actor) :
    ∃ e1, e.Update x fuel = .finished () e1 ∧
      ((e.beforeLoop.streamBuffer i).rigidBody ≠ nullptr →
        e1.mem.actors (e.beforeLoop.streamBuffer i).actor
          = { e.mem.actors (e.beforeLoop.streamBuffer i).actor with
              position :=
                (e.mem.rigidBodies (e.beforeLoop.streamBuffer i).rigidBody).transform.position } ∧
        ∃ earlier later,
          e1.mem.physicsCalls
            = e.mem.physicsCalls ++ earlier
              ++ [PhysicsCall.getTransform (e.beforeLoop.streamBuffer i).rigidBody,
                  PhysicsCall.applyLocalForceAtCenterOfMass (e.beforeLoop.streamBuffer i).rigidBody
                    ⟨(e.mem.actors (e.beforeLoop.streamBuffer i).actor).velocity.x,
                      (e.mem.actors (e.beforeLoop.streamBuffer i).actor).velocity.y,
                      (e.mem.actors (e.beforeLoop.streamBuffer i).actor).velocity.z⟩]
              ++ later ∧
          ∀ c ∈ earlier ++ later, ∃ j, j < e.mGameObjects.Size ∧ j ≠ i ∧
            (e.beforeLoop.streamBuffer j).Calls c) ∧
      ((e.beforeLoop.streamBuffer i).rigidBody = nullptr →
        e1.mem.actors (e.beforeLoop.streamBuffer i).actor
          = e.mem.actors (e.beforeLoop.streamBuffer i).actor ∧
        ∃ others, e1.mem.physicsCalls = e.mem.physicsCalls ++ others ∧
          ∀ c ∈ others, ∃ j, j < e.mGameObjects.Size ∧ j ≠ i ∧
            (e.beforeLoop.streamBuffer j).Calls c) := by
  obtain ⟨ho, hm, _⟩ := beforeLoop_frame e
  refine update_pass x fuel e i hi hready
    (fun e2 => e2.objects (e.beforeLoop.streamBuffer i).gameObject
        = e.objects (e.beforeLoop.streamBuffer i).gameObject ∧
      e2.mem.rigidBodies = e.mem.rigidBodies ∧
      e2.mem.actors (e.beforeLoop.streamBuffer i).actor
        = e.mem.actors (e.beforeLoop.streamBuffer i).actor ∧
      ∃ others, e2.mem.physicsCalls = e.mem.physicsCalls ++ others ∧
        ∀ c ∈ others, ∃ j, j < e.mGameObjects.Size ∧ j ≠ i ∧
          (e.beforeLoop.streamBuffer j).Calls c) _
    ⟨by rw [ho], by rw [hm], by rw [hm], [], by rw [hm, List.append_nil],
      fun c hc => absurd hc (List.not_mem_nil c)⟩ ?_ ?_ ?_
  · intro j hj hji e2 e3 w hI
    obtain ⟨i1, i2, i3, others, i4, i5⟩ := hI
    obtain ⟨extra, w1, w2⟩ := w.physicsCalls
    refine ⟨(w.objects _ (fun h => (hown j hj hji).1 h.symm)).trans i1, w.rigidBodies.trans i2,
      (w.actors _ (fun h => (hown j hj hji).2 h.symm)).trans i3, others ++ extra, ?_, ?_⟩
    · rw [w1, i4, List.append_assoc]
    · intro c hc
      rcases List.mem_append.mp hc with h | h
      · exact i5 c h
      · exact ⟨j, hj, hji, w2 c h⟩
  · intro e2 e3 hs hI hrun
    obtain ⟨i1, i2, i3, others, i4, i5⟩ := hI
    obtain ⟨p1, p2⟩ := updateEntity_actor x fuel e2 _ e3 hrun (by rw [i1]; exact hactive)
    refine ⟨?_, ?_⟩
    · intro hb
      obtain ⟨q1, q2⟩ := p1 hactor (by rw [i3]; exact hon) hb
      rw [i2, i3] at q1
      rw [i3, i4] at q2
      refine ⟨q1, others, [], ?_, ?_⟩
      · rw [q2, List.append_nil]
      · rw [List.append_nil]
        exact i5
    · intro hb
      obtain ⟨q1, q2⟩ := p2 hb
      exact ⟨by rw [q1]; exact i3, others, by rw [q2]; exact i4, i5⟩
  · intro j hj hji e2 e3 w hQ
    obtain ⟨extra, w1, w2⟩ := w.physicsCalls
    have ha := w.actors _ (fun h => (hown j hj hji).2 h.symm)
    refine ⟨?_, ?_⟩
    · intro hb
      obtain ⟨q1, earlier, later, q2, q3⟩ := hQ.1 hb
      refine ⟨ha.trans q1, earlier, later ++ extra, ?_, ?_⟩
      · rw [w1, q2]
        simp only [List.append_assoc]
      · intro c hc
        rw [← List.append_assoc] at hc
        rcases List.mem_append.mp hc with h | h
        · exact q3 c h
        · exact ⟨j, hj, hji, w2 c h⟩
    · intro hb
      obtain ⟨q1, others, q2, q3⟩ := hQ.2 hb
      refine ⟨ha.trans q1, others ++ extra, ?_, ?_⟩
      · rw [w1, q2, List.append_assoc]
      · intro c hc
        rcases List.mem_append.mp hc with h | h
        · exact q3 c h
        · exact ⟨j, hj, hji, w2 c h⟩

/-- One pass over an active entity without a rigid body, and without a text
or without a mesh renderer, leaves the entities as they were. -/
theorem updateEntity_free (x : Externals) (fuel : Nat) (e : Engine) (b : StreamSlot)
    (e1 : Engine) (hr : e.updateEntity x fuel b = .finished () e1)
    (hact : (e.objects b.gameObject).isActive = true) (hb : b.rigidBody = nullptr)
    (ht : b.text = nullptr ∨ b.meshRenderer = nullptr) : e1.objects = e.objects := by
  obtain ⟨walked, hp⟩ := updateEntity_finished_walked x fuel e b e1 hr hact
  obtain ⟨_, _, _, _, _, _, h7⟩ := passFrom_finished x e b walked e1 hp
  rw [h7 ht, rigidBodyStep_free x e b _ hb]

/-- What `Update` leaves of an active entity without a rigid body, and without
a text or without a mesh renderer, in an entry of its own: the entity as it
was. -/
theorem update_free (x : Externals) (fuel : Nat) (e : Engine) (i : Nat)
    (hi : i < e.mGameObjects.Size) (hready : e.beforeLoop.Ready fuel)
    (hactive : (e.objects (e.beforeLoop.streamBuffer i).gameObject).isActive = true)
    (hbody : (e.beforeLoop.streamBuffer i).rigidBody = nullptr)
    (htext : (e.beforeLoop.streamBuffer i).text = nullptr ∨
      (e.beforeLoop.streamBuffer i).meshRenderer = nullptr)
    (hown : ∀ j, j < e.mGameObjects.Size → j ≠ i →
      (e.beforeLoop.streamBuffer j).gameObject ≠ (e.beforeLoop.streamBuffer i).gameObject) :
    ∃ e1, e.Update x fuel = .finished () e1 ∧
      e1.objects (e.beforeLoop.streamBuffer i).gameObject
        = e.objects (e.beforeLoop.streamBuffer i).gameObject := by
  obtain ⟨ho, _⟩ := beforeLoop_frame e
  refine update_pass x fuel e i hi hready
    (fun e2 => e2.objects (e.beforeLoop.streamBuffer i).gameObject
        = e.objects (e.beforeLoop.streamBuffer i).gameObject) _
    (by show e.beforeLoop.objects _ = _; rw [ho]) ?_ ?_ ?_
  · intro j hj hji e2 e3 w hI
    exact (w.objects _ (fun h => hown j hj hji h.symm)).trans hI
  · intro e2 e3 hs hI hrun
    rw [updateEntity_free x fuel e2 _ e3 hrun (by rw [hI]; exact hactive) hbody htext]
    exact hI
  · intro j hj hji e2 e3 w hQ
    exact (w.objects _ (fun h => hown j hj hji h.symm)).trans hQ

/-- C23, on the code: for an active entity with an active actor, in an entry
of its own, `EngineSystemManager::Update` finishes; when a rigid body is
attached the actor ends with the position of the physics transform, which is
the position the entity took, and its velocity is applied to the rigid body as
one local force at the centre of mass, right after the read of the body
transform; when no rigid body is attached the actor is not written at all and
the pass applies no force. -/
theorem C23_actor_position_needs_body (x : Externals) (fuel : Nat) (e : Engine) (i : Nat)
    (hi : i < e.mGameObjects.Size) (hready : e.beforeLoop.Ready fuel)
    (hactive : (e.objects (e.beforeLoop.streamBuffer i).gameObject).isActive = true)
    (hactor : (e.beforeLoop.streamBuffer i).actor ≠ nullptr)
    (hon : (e.mem.actors (e.beforeLoop.streamBuffer i).actor).active = true)
    (hown : ∀ j, j < e.mGameObjects.Size → j ≠ i →
      (e.beforeLoop.streamBuffer j).gameObject ≠ (e.beforeLoop.streamBuffer i).gameObject ∧
      (e.beforeLoop.streamBuffer j).actor ≠ (e.beforeLoop.streamBuffer i).actor) :
    ∃ e1, e.Update x fuel = .finished () e1 ∧
      ((e.beforeLoop.streamBuffer i).rigidBody ≠ nullptr →
        e1.mem.actors (e.beforeLoop.streamBuffer i).actor
          = { e.mem.actors (e.beforeLoop.streamBuffer i).actor with
              position :=
                (e.mem.rigidBodies (e.beforeLoop.streamBuffer i).rigidBody).transform.position } ∧
        ∃ earlier later,
          e1.mem.physicsCalls
            = e.mem.physicsCalls ++ earlier
              ++ [PhysicsCall.getTransform (e.beforeLoop.streamBuffer i).rigidBody,
                  PhysicsCall.applyLocalForceAtCenterOfMass (e.beforeLoop.streamBuffer i).rigidBody
                    ⟨(e.mem.actors (e.beforeLoop.streamBuffer i).actor).velocity.x,
                      (e.mem.actors (e.beforeLoop.streamBuffer i).actor).velocity.y,
                      (e.mem.actors (e.beforeLoop.streamBuffer i).actor).velocity.z⟩]
              ++ later ∧
          ∀ c ∈ earlier ++ later, ∃ j, j < e.mGameObjects.Size ∧ j ≠ i ∧
            (e.beforeLoop.streamBuffer j).Calls c) ∧
      ((e.beforeLoop.streamBuffer i).rigidBody = nullptr →
        e1.mem.actors (e.beforeLoop.streamBuffer i).actor
          = e.mem.actors (e.beforeLoop.streamBuffer i).actor ∧
        ∃ others, e1.mem.physicsCalls = e.mem.physicsCalls ++ others ∧
          ∀ c ∈ others, ∃ j, j < e.mGameObjects.Size ∧ j ≠ i ∧
            (e.beforeLoop.streamBuffer j).Calls c) :=
  update_actor x fuel e i hi hready hactive hactor hon hown

/-- C23 at the walkers of the examples: entity `2`, the second entry, has the
rigid body `1` at `(5, 6, 7)` and the actor `2` with the velocity `(3, 0, 4)`;
after `Update` the actor is at `(5, 6, 7)` and the log holds the read of the
body transform followed by the force `(3, 0, 4)`. -/
theorem C23_actor_position_needs_body_witness :
    ∃ e1, sampleWalkers.Update sampleExternals 2 = .finished () e1 ∧
      (e1.mem.actors 2).position = ⟨5, 6, 7⟩ ∧
      ∃ earlier later, e1.mem.physicsCalls
        = earlier ++ [PhysicsCall.getTransform 1,
            PhysicsCall.applyLocalForceAtCenterOfMass 1 ⟨3, 0, 4⟩] ++ later := by
  obtain ⟨e1, h1, h2, _⟩ := C23_actor_position_needs_body sampleExternals 2 sampleWalkers 1
    (by decide) (by decide) (by decide) (by decide) (by decide) (by decide)
  obtain ⟨h3, earlier, later, h4, _⟩ := h2 (by decide)
  have h5 : e1.mem.actors 2 = ⟨true, ⟨5, 6, 7⟩, ⟨3, 0, 4⟩⟩ := h3
  refine ⟨e1, h1, ?_, sampleWalkers.mem.physicsCalls ++ earlier, later, h4⟩
  rw [h5]

/-- C23 as the specification words it fails at the lone actor of the examples:
the entity has no parent and stays at `x = 1`, its actor is active, no rigid
body is attached, and after `Update` the actor is still at the origin. -/
theorem C23_actor_without_body_not_moved :
    (sampleLoneActor.beforeLoop.streamBuffer 0).gameObject = 1 ∧
    (sampleLoneActor.beforeLoop.streamBuffer 0).actor = 1 ∧
    (sampleLoneActor.beforeLoop.streamBuffer 0).rigidBody = nullptr ∧
    (sampleLoneActor.objects 1).isActive = true ∧
    (sampleLoneActor.mem.actors 1).active = true ∧
    ∃ e1, sampleLoneActor.Update sampleExternals 1 = .finished () e1 ∧
      (e1.objects 1).parent = nullptr ∧
      (e1.objects 1).transform.position = ⟨1, 0, 0⟩ ∧
      (e1.mem.actors 1).position = ⟨0, 0, 0⟩ ∧
      (e1.mem.actors 1).position ≠ (e1.objects 1).transform.position := by
  obtain ⟨e1, h1, _, h2⟩ := update_actor sampleExternals 1 sampleLoneActor 0
    (by decide) (by decide) (by decide) (by decide) (by decide) (by decide)
  obtain ⟨e2, h3, h4⟩ := update_free sampleExternals 1 sampleLoneActor 0
    (by decide) (by decide) (by decide) (by decide) (Or.inl (by decide)) (by decide)
  rw [h1] at h3
  cases h3
  have h5 : e1.objects 1 = sampleLoneActor.objects 1 := h4
  have h6 : e1.mem.actors 1 = sampleLoneActor.mem.actors 1 := (h2 (by decide)).1
  refine ⟨by decide, by decide, by decide, by decide, by decide, e1, h1, ?_, ?_, ?_, ?_⟩
  · rw [h5]
    decide
  · rw [h5]
    rfl
  · rw [h6]
    rfl
  · rw [h5, h6]
    intro h
    have h7 : ((0 : Scalar)) = 1 := congrArg Vec3.x h
    norm_num at h7

/-! ## C25: `Shutdown` -/

/-- The loop of `DestroyGameObject` over the first handles of a list of
handles that can all be destroyed and that, with the handles of `orphans`, are
the live handles: it finishes and leaves the other handles, which can still
all be destroyed, and the orphans as the live handles. -/
theorem destroyComponents_keeps (handles others orphans : List Ptr) (e : Engine)
    (hd : Destroyable e (handles ++ others))
    (hperm : (handles ++ others ++ orphans).Perm e.mComponents.live) :
    ∃ e1, Engine.destroyComponents handles e = .finished () e1 ∧
      e1.objects = e.objects ∧ e1.mGameObjects = e.mGameObjects ∧
      e1.mGameObjectActive = e.mGameObjectActive ∧
      Destroyable e1 others ∧ (others ++ orphans).Perm e1.mComponents.live := by
  induction handles generalizing e with
  | nil => exact ⟨e, rfl, rfl, rfl, rfl, hd, hperm⟩
  | cons h rest ih =>
      have hin : h ∈ h :: (rest ++ others) := List.mem_cons_self _ _
      have hh := hd.live h hin
      obtain ⟨e1, hrun, hmem, hobj, hgo, hact, hlive, hpools⟩ :=
        destroyComponent_spec e h hh.1 hh.2 (hd.pooled h hin) (hd.payload h hin)
      have hperm1 : (rest ++ others ++ orphans).Perm e1.mComponents.live := by
        rw [hlive]
        have hp := List.Perm.erase h hperm
        rw [List.cons_append, List.cons_append, List.erase_cons_head] at hp
        exact hp
      obtain ⟨e2, hrun2, hobj2, hgo2, hact2, hd2, hperm2⟩ :=
        ih e1 (destroyable_tail e e1 h (rest ++ others) hd hmem hlive hpools) hperm1
      refine ⟨e2, ?_, hobj2.trans hobj, hgo2.trans hgo, hact2.trans hact, hd2, hperm2⟩
      simp only [Engine.destroyComponents, hrun]
      exact hrun2

/-- One iteration of the loop of `Shutdown`: the first entity of the active
list is destroyed with the handles it lists, and the state is as tidy as
before, with the same orphans. -/
theorem destroyGameObject_tidy (e : Engine) (orphans : List Ptr) (g : Ptr) (rest : List Ptr)
    (hact : e.mGameObjectActive = g :: rest) (ht : e.TidyBut orphans) :
    ∃ e1, e.DestroyGameObject (e.GetGameObject 0) = .finished true e1 ∧ e1.TidyBut orphans ∧
      e1.mGameObjectActive = rest := by
  have hget : e.GetGameObject 0 = g := by
    unfold Engine.GetGameObject
    simp [hact]
  have hg : ¬ g = nullptr := by
    intro h
    apply ht.nonNull
    rw [hact, ← h]
    exact List.mem_cons_self _ _
  have hatt : e.attached = (e.objects g).mComponentList
      ++ rest.flatMap (fun p => (e.objects p).mComponentList) := by
    unfold Engine.attached
    rw [hact, List.flatMap_cons]
  have hd0 := ht.destroyable
  have hp0 := ht.handles
  rw [hatt] at hd0 hp0
  obtain ⟨e2, hrun, hobj, hgo, hact2, hd2, hperm2⟩ :=
    destroyComponents_keeps (e.objects g).mComponentList
      (rest.flatMap (fun p => (e.objects p).mComponentList)) orphans
      { e with mGameObjectActive := eraseActive g e.mGameObjectActive }
      ⟨hd0.nodup, hd0.live, hd0.pooled, hd0.payload, hd0.exclusive⟩ hp0
  have hlive : g ∈ e.mGameObjects.live :=
    ht.entities.subset (by rw [hact]; exact List.mem_cons_self _ _)
  have hin : g ∈ e2.mGameObjects.live := by
    rw [hgo]
    exact hlive
  have herase : eraseActive g e.mGameObjectActive = rest := by
    rw [hact]
    simp [eraseActive]
  rw [hget]
  unfold Engine.DestroyGameObject
  rw [if_neg hg]
  simp only [hrun, Pool.Destroy, hin, if_true]
  have hact3 : e2.mGameObjectActive = rest := hact2.trans herase
  have hatt3 : Engine.attached
      { e2 with mGameObjects := { e2.mGameObjects with live := e2.mGameObjects.live.erase g },
                doUpdateDataStream := true }
      = rest.flatMap (fun p => (e.objects p).mComponentList) := by
    show e2.mGameObjectActive.flatMap (fun p => (e2.objects p).mComponentList) = _
    rw [hact3, hobj]
  refine ⟨_, rfl, ⟨?_, ?_, ?_, ?_⟩, hact3⟩
  · show e2.mGameObjectActive.Perm (e2.mGameObjects.live.erase g)
    rw [hact3, hgo]
    show rest.Perm (e.mGameObjects.live.erase g)
    have hp := List.Perm.erase g ht.entities
    rw [hact, List.erase_cons_head] at hp
    exact hp
  · show nullptr ∉ e2.mGameObjectActive
    rw [hact3]
    intro h
    apply ht.nonNull
    rw [hact]
    exact List.mem_cons_of_mem _ h
  · rw [hatt3]
    exact hperm2
  · rw [hatt3]
    exact ⟨hd2.nodup, hd2.live, hd2.pooled, hd2.payload, hd2.exclusive⟩

/-- In a tidy state the entity count is the length of the active list. -/
theorem tidy_count (e : Engine) (orphans : List Ptr) (ht : e.TidyBut orphans) :
    e.GetGameObjectCount = e.mGameObjectActive.length :=
  ht.entities.length_eq.symm

/-- The loop of `Shutdown`, given as many iterations as there are entities,
finishes with no entity left and with the orphans as the live handles: the
handles no entity lists are not destroyed. -/
theorem shutdownLoop_tidy (fuel : Nat) (e : Engine) (orphans : List Ptr)
    (ht : e.TidyBut orphans) (hfuel : e.GetGameObjectCount ≤ fuel) :
    ∃ e1, Engine.shutdownLoop fuel e = .finished () e1 ∧ e1.GetGameObjectCount = 0 ∧
      orphans.Perm e1.mComponents.live := by
  have hempty : ∀ e2 : Engine, e2.TidyBut orphans → e2.GetGameObjectCount = 0 →
      orphans.Perm e2.mComponents.live := by
    intro e2 ht2 h0
    rw [tidy_count e2 orphans ht2] at h0
    have hnil : e2.mGameObjectActive = [] := List.length_eq_zero.mp h0
    have hatt : e2.attached = [] := by
      unfold Engine.attached
      rw [hnil]
      rfl
    have hp := ht2.handles
    rw [hatt, List.nil_append] at hp
    exact hp
  induction fuel generalizing e with
  | zero =>
      have h0 : e.GetGameObjectCount = 0 := Nat.le_zero.mp hfuel
      refine ⟨e, ?_, h0, hempty e ht h0⟩
      simp [Engine.shutdownLoop, h0]
  | succ fuel ih =>
      by_cases h0 : e.GetGameObjectCount = 0
      · refine ⟨e, ?_, h0, hempty e ht h0⟩
        simp [Engine.shutdownLoop, h0]
      · have hpos : e.GetGameObjectCount > 0 := Nat.pos_of_ne_zero h0
        have hlen := tidy_count e orphans ht
        cases hact : e.mGameObjectActive with
        | nil =>
            rw [hact] at hlen
            exact absurd hlen h0
        | cons g rest =>
            obtain ⟨e1, hrun, ht1, hact1⟩ := destroyGameObject_tidy e orphans g rest hact ht
            have hfuel1 : e1.GetGameObjectCount ≤ fuel := by
              rw [tidy_count e1 orphans ht1, hact1]
              rw [hlen, hact, List.length_cons] at hfuel
              omega
            obtain ⟨e2, hrun2, h2⟩ := ih e1 ht1 hfuel1
            refine ⟨e2, ?_, h2⟩
            simp only [Engine.shutdownLoop, hpos, if_true, hrun]
            exact hrun2

/-- `Shutdown` on a state all of whose handles are attached, given as many
iterations as there are entities, returns with both closing assertions true. -/
theorem shutdown_tidy (fuel : Nat) (e : Engine) (ht : e.TidyBut [])
    (hfuel : e.GetGameObjectCount ≤ fuel) :
    ∃ e1, e.Shutdown fuel = .finished () e1 ∧ e1.GetGameObjectCount = 0 ∧
      e1.GetComponentCount = 0 := by
  obtain ⟨e1, hrun, h1, h2⟩ := shutdownLoop_tidy fuel e [] ht hfuel
  have h3 : e1.mComponents.Size = 0 := by
    unfold Pool.Size
    rw [← h2.length_eq]
    rfl
  refine ⟨e1, ?_, h1, h3⟩
  unfold Engine.Shutdown
  simp only [hrun, h1, h3, if_true]

/-- The scene of the examples has all its handles attached, and `Shutdown`
takes it down in three iterations. -/
theorem shutdown_sampleScene :
    sampleScene.attached = [1, 2, 3, 4, 5] ∧
    ∃ e1, sampleScene.Shutdown 3 = .finished () e1 ∧ e1.GetGameObjectCount = 0 ∧
      e1.GetComponentCount = 0 :=
  ⟨by decide,
    shutdown_tidy 3 sampleScene
      ⟨by decide, by decide, by decide, ⟨by decide, by decide, by decide, by decide, by decide⟩⟩
      (by decide)⟩

/-- C25, on the code: `Shutdown` destroys component handles only through the
entities that list them.  In an engine state whose live entities are those of
the active list and whose attached handles can all be destroyed, but in which
some live handles `orphans` are attached to no entity (handles that
`CreateComponent` returned and no `AddComponent` received), `Shutdown` ends its
loop with no entity left and then stops at the closing assertion
`assert(mComponents.Size() == 0)`: the orphans are still live. -/
theorem C25_shutdown_leaves_unattached_handles (fuel : Nat) (e : Engine) (orphans : List Ptr)
    (ht : e.TidyBut orphans) (horphans : orphans ≠ [])
    (hfuel : e.GetGameObjectCount ≤ fuel) :
    ∃ e1, e.Shutdown fuel = .aborted .assertFailed e1 ∧ e1.GetGameObjectCount = 0 ∧
      e1.GetComponentCount = orphans.length ∧ orphans.Perm e1.mComponents.live := by
  obtain ⟨e1, hrun, h1, h2⟩ := shutdownLoop_tidy fuel e orphans ht hfuel
  have h3 : e1.mComponents.Size = orphans.length := h2.length_eq.symm
  have h4 : ¬ e1.mComponents.Size = 0 := by
    rw [h3]
    exact fun h => horphans (List.length_eq_zero.mp h)
  refine ⟨e1, ?_, h1, h3, h2⟩
  unfold Engine.Shutdown
  simp only [hrun, h1, h4, if_true, if_false]

/-- C25 at a new engine on which `CreateComponent(Light)` was called once:
no entity, one live handle; `Shutdown` stops at the assertion on the handle
count, whatever the bound on its loop.  And at the scene of the examples with
one more component created and not attached: three entities, six live handles
of which the handle `6` is attached to nothing; `Shutdown` destroys the
entities and five handles and stops at the same assertion, the count being 1. -/
theorem C25_shutdown_leaves_unattached_handles_witness :
    (sampleOrphan.GetGameObjectCount = 0 ∧ sampleOrphan.GetComponentCount = 1 ∧
      ∀ fuel, ∃ e1, sampleOrphan.Shutdown fuel = .aborted .assertFailed e1 ∧
        e1.GetComponentCount = 1) ∧
    (sampleSceneOrphan.GetGameObjectCount = 3 ∧ sampleSceneOrphan.GetComponentCount = 6 ∧
      sampleSceneOrphan.attached = [1, 2, 3, 4, 5] ∧
      ∃ e1, sampleSceneOrphan.Shutdown 3 = .aborted .assertFailed e1 ∧
        e1.GetGameObjectCount = 0 ∧ e1.GetComponentCount = 1) := by
  refine ⟨⟨by decide, by decide, fun fuel => ?_⟩, by decide, by decide, by decide, ?_⟩
  · obtain ⟨e1, h1, _, h3, _⟩ := C25_shutdown_leaves_unattached_handles fuel sampleOrphan [1]
      ⟨by decide, by decide, by decide,
        ⟨by decide, by decide, by decide, by decide, by decide⟩⟩
      (by decide)
      (Nat.le_trans (Nat.le_of_eq (by decide : sampleOrphan.GetGameObjectCount = 0))
        (Nat.zero_le fuel))
    exact ⟨e1, h1, h3⟩
  · obtain ⟨e1, h1, h2, h3, _⟩ := C25_shutdown_leaves_unattached_handles 3 sampleSceneOrphan [6]
      ⟨by decide, by decide, by decide,
        ⟨by decide, by decide, by decide, by decide, by decide⟩⟩
      (by decide) (by decide)
    exact ⟨e1, h1, h2, h3⟩

/-! ## C14: `DestroyGameObject` -/

/-- On a non-null handle of a kind without a case, `DestroyComponent` returns
false and changes nothing. -/
theorem destroyComponent_skip (e : Engine) (c : Ptr) (hc : c ≠ nullptr)
    (hp : (e.mem.components c).mType.hasPool = false) :
    e.DestroyComponent c = .finished false e := by
  have hc0 : ¬ c = nullptr := hc
  unfold Engine.DestroyComponent
  rw [if_neg hc0]
  simp only [hp]
  rfl

/-- The loop of `DestroyGameObject` over a list of non-null handles whose
handles of the pooled kinds can all be destroyed: it finishes, passes over the
handles of the other kinds, takes the pooled handles out of the handle pool and
nothing else, and leaves the entities and the memory as they are. -/
theorem destroyComponents_mixed (handles : List Ptr) (e : Engine)
    (hnn : ∀ c ∈ handles, c ≠ nullptr)
    (hd : Destroyable e (e.pooledHandles handles)) (hpool : e.mComponents.live.Nodup) :
    ∃ e1, Engine.destroyComponents handles e = .finished () e1 ∧
      e1.objects = e.objects ∧ e1.mem = e.mem ∧ e1.mGameObjects = e.mGameObjects ∧
      e1.mGameObjectActive = e.mGameObjectActive ∧
      e1.mComponents.Size + (e.pooledHandles handles).length = e.mComponents.Size ∧
      e1.mComponents.live.Nodup ∧
      (∀ c, c ∈ e1.mComponents.live ↔ c ∈ e.mComponents.live ∧ c ∉ e.pooledHandles handles) := by
  induction handles generalizing e with
  | nil =>
      exact ⟨e, rfl, rfl, rfl, rfl, rfl, rfl, hpool,
        fun c => ⟨fun hc => ⟨hc, List.not_mem_nil c⟩, fun hc => hc.1⟩⟩
  | cons h rest ih =>
      have hh0 : h ≠ nullptr := hnn h (List.mem_cons_self _ _)
      have hnn1 : ∀ c ∈ rest, c ≠ nullptr := fun c hc => hnn c (List.mem_cons_of_mem _ hc)
      by_cases hp : (e.mem.components h).mType.hasPool = true
      · have hfil : e.pooledHandles (h :: rest) = h :: e.pooledHandles rest := by
          unfold Engine.pooledHandles
          simp only [List.filter_cons, hp, if_true]
        rw [hfil] at hd ⊢
        have hin : h ∈ h :: e.pooledHandles rest := List.mem_cons_self _ _
        have hh := hd.live h hin
        obtain ⟨e1, hrun, hmem, hobj, hgo, hact, hlive, hpools⟩ :=
          destroyComponent_spec e h hh.1 hh.2 (hd.pooled h hin) (hd.payload h hin)
        have hnd1 : e1.mComponents.live.Nodup := by
          rw [hlive]
          exact hpool.erase h
        have hsame : e1.pooledHandles rest = e.pooledHandles rest := by
          unfold Engine.pooledHandles
          rw [hmem]
        have hd1 : Destroyable e1 (e1.pooledHandles rest) := by
          rw [hsame]
          exact destroyable_tail e e1 h (e.pooledHandles rest) hd hmem hlive hpools
        obtain ⟨e2, hrun2, hobj2, hmem2, hgo2, hact2, hsize2, hnd2, hiff2⟩ :=
          ih e1 hnn1 hd1 hnd1
        rw [hsame] at hsize2 hiff2
        refine ⟨e2, ?_, hobj2.trans hobj, hmem2.trans hmem, hgo2.trans hgo, hact2.trans hact,
          ?_, hnd2, ?_⟩
        · simp only [Engine.destroyComponents, hrun]
          exact hrun2
        · have hlen : e1.mComponents.Size + 1 = e.mComponents.Size := by
            unfold Pool.Size
            rw [hlive, List.length_erase_of_mem hh.2]
            have : 0 < e.mComponents.live.length := List.length_pos_of_mem hh.2
            omega
          rw [List.length_cons]
          omega
        · intro c
          rw [hiff2, hlive, hpool.mem_erase_iff, List.mem_cons]
          constructor
          · rintro ⟨⟨hne, hc⟩, hnot⟩
            exact ⟨hc, fun h2 => h2.elim hne hnot⟩
          · rintro ⟨hc, hnot⟩
            exact ⟨⟨fun h2 => hnot (Or.inl h2), hc⟩, fun h2 => hnot (Or.inr h2)⟩
      · have hp0 : (e.mem.components h).mType.hasPool = false := by
          cases hb : (e.mem.components h).mType.hasPool
          · rfl
          · exact absurd hb hp
        have hfil : e.pooledHandles (h :: rest) = e.pooledHandles rest := by
          unfold Engine.pooledHandles
          simp only [List.filter_cons, hp0, Bool.false_eq_true, if_false]
        rw [hfil] at hd ⊢
        obtain ⟨e2, hrun2, h2⟩ := ih e hnn1 hd hpool
        refine ⟨e2, ?_, h2⟩
        simp only [Engine.destroyComponents, destroyComponent_skip e h hh0 hp0]
        exact hrun2

/-- The effect of `DestroyGameObject` on a live entity whose component list
holds non-null handles, those of the pooled kinds being such that they can all
be destroyed. -/
theorem destroyGameObject_mixed (e : Engine) (g : Ptr) (hg : g ≠ nullptr)
    (hlive : g ∈ e.mGameObjects.live)
    (hnn : ∀ c ∈ (e.objects g).mComponentList, c ≠ nullptr)
    (hhandles : Destroyable e (e.pooledHandles (e.objects g).mComponentList))
    (hpool : e.mComponents.live.Nodup) :
    ∃ e1, e.DestroyGameObject g = .finished true e1 ∧
      e1.mGameObjectActive = e.mGameObjectActive.erase g ∧
      (∀ c, c ∈ e1.mComponents.live ↔
        c ∈ e.mComponents.live ∧ c ∉ e.pooledHandles (e.objects g).mComponentList) ∧
      e1.GetComponentCount + (e.pooledHandles (e.objects g).mComponentList).length
        = e.GetComponentCount ∧
      e1.GetGameObjectCount + 1 = e.GetGameObjectCount ∧
      e1.doUpdateDataStream = true ∧
      e1.objects = e.objects ∧ e1.mem = e.mem := by
  have hg0 : ¬ g = nullptr := hg
  obtain ⟨e2, hrun, hobj, hmem, hgo, hact, hsize, _, hiff⟩ :=
    destroyComponents_mixed (e.objects g).mComponentList
      { e with mGameObjectActive := eraseActive g e.mGameObjectActive } hnn
      ⟨hhandles.nodup, hhandles.live, hhandles.pooled, hhandles.payload, hhandles.exclusive⟩
      hpool
  have hin : g ∈ e2.mGameObjects.live := by
    rw [hgo]
    exact hlive
  unfold Engine.DestroyGameObject
  rw [if_neg hg0]
  simp only [hrun, Pool.Destroy, hin, if_true]
  refine ⟨_, rfl, ?_, hiff, hsize, ?_, rfl, hobj, hmem⟩
  · show e2.mGameObjectActive = e.mGameObjectActive.erase g
    rw [hact]
    exact eraseActive_eq_erase g _
  · show (e2.mGameObjects.live.erase g).length + 1 = e.mGameObjects.live.length
    have hlen : 0 < e.mGameObjects.live.length := List.length_pos_of_mem hlive
    rw [hgo]
    show (e.mGameObjects.live.erase g).length + 1 = e.mGameObjects.live.length
    rw [List.length_erase_of_mem hlive]
    omega

/-- C14 fails for an entity that carries a Transform component: the entity
lists two handles, the Light handle `1` of the engine and the Transform handle
`6`; `DestroyGameObject` returns true, but `DestroyComponent` returns false for
the Transform handle without destroying anything, and the component-handle
count drops by one, from 1 to 0, not by the two attached components. -/
theorem C14_transform_handle_not_destroyed :
    1 ∈ sampleWithTransform.mGameObjects.live ∧
    (sampleWithTransform.objects 1).mComponentList = [1, 6] ∧
    (sampleWithTransform.mem.components 6).mType = .Transform ∧
    sampleWithTransform.GetComponentCount = 1 ∧
    sampleWithTransform.DestroyComponent 6 = .finished false sampleWithTransform ∧
    ∃ e1, sampleWithTransform.DestroyGameObject 1 = .finished true e1 ∧
      e1.GetComponentCount = 0 ∧
      e1.GetComponentCount + (sampleWithTransform.objects 1).mComponentList.length
        ≠ sampleWithTransform.GetComponentCount := by
  obtain ⟨e1, h1, _, _, h4, _⟩ := destroyGameObject_mixed sampleWithTransform 1 (by decide)
    (by decide) (by decide) ⟨by decide, by decide, by decide, by decide, by decide⟩ (by decide)
  have h5 : e1.GetComponentCount + 1 = 1 := h4
  have h6 : e1.GetComponentCount = 0 := by omega
  refine ⟨by decide, by decide, by decide, by decide,
    destroyComponent_skip _ 6 (by decide) (by decide), e1, h1, h6, ?_⟩
  rw [h6]
  decide

/-- C14, as amended: for a live GameObject `g` whose component list holds
non-null handles, of which those of the kinds that have a pool are distinct
live handles with live payloads that no two of them share,
`DestroyGameObject(g)` returns true; it removes the first entry `g` of the
active list and keeps the others in order; it destroys the handles of the list
that are of a pooled kind, and only these (a handle is live afterwards exactly
when it was live and is no pooled handle of the list, and the handle count
drops by the number of the pooled handles of the list); it passes over the
handles tagged Transform or Panel, for which `DestroyComponent` returns false
and changes nothing; it releases the slot of `g` (the GameObject count drops by
one) and leaves the dirty flag set.  The handles are destroyed, not detached:
neither the entity with its component list nor the handle table is written. -/
theorem C14_destroy_game_object (e : Engine) (g : Ptr) (hg : g ≠ nullptr)
    (hlive : g ∈ e.mGameObjects.live)
    (hnn : ∀ c ∈ (e.objects g).mComponentList, c ≠ nullptr)
    (hhandles : Destroyable e (e.pooledHandles (e.objects g).mComponentList))
    (hpool : e.mComponents.live.Nodup) :
    ∃ e1, e.DestroyGameObject g = .finished true e1 ∧
      e1.mGameObjectActive = e.mGameObjectActive.erase g ∧
      (∀ c, c ∈ e1.mComponents.live ↔
        c ∈ e.mComponents.live ∧ c ∉ e.pooledHandles (e.objects g).mComponentList) ∧
      (∀ c ∈ (e.objects g).mComponentList, (e.mem.components c).mType.hasPool = true →
        c ∉ e1.mComponents.live) ∧
      e1.GetComponentCount + (e.pooledHandles (e.objects g).mComponentList).length
        = e.GetComponentCount ∧
      (∀ c ∈ (e.objects g).mComponentList,
        (e.mem.components c).mType ∈ [ComponentType.Transform, .Panel] →
        ∀ e2 : Engine, e2.mem = e.mem → e2.DestroyComponent c = .finished false e2) ∧
      e1.GetGameObjectCount + 1 = e.GetGameObjectCount ∧
      e1.doUpdateDataStream = true ∧
      e1.objects g = e.objects g ∧ e1.mem.components = e.mem.components := by
  obtain ⟨e1, h1, h2, h3, h4, h5, h6, h7, h8⟩ :=
    destroyGameObject_mixed e g hg hlive hnn hhandles hpool
  refine ⟨e1, h1, h2, h3, ?_, h4, ?_, h5, h6, by rw [h7], by rw [h8]⟩
  · intro c hc hp hmem
    exact ((h3 c).mp hmem).2 (List.mem_filter.mpr ⟨hc, hp⟩)
  · intro c hc hk e2 hm
    refine destroyComponent_skip e2 c (hnn c hc) ?_
    rw [hm]
    rcases List.mem_cons.mp hk with h | h
    · rw [h]
      rfl
    · rw [List.mem_singleton.mp h]
      rfl

/-- C14 (as amended) at the scene of the examples, where entity `1` carries the
handles `1` and `2` and destroying it brings the handle count from 5 to 3, and
at the entity with a Transform component, where the Light handle is destroyed
and the Transform handle is passed over. -/
theorem C14_destroy_game_object_witness :
    ((sampleScene.objects 1).mComponentList = [1, 2] ∧ sampleScene.GetComponentCount = 5 ∧
      ∃ e1, sampleScene.DestroyGameObject 1 = .finished true e1 ∧
        e1.mGameObjectActive = [2, 3] ∧ e1.GetComponentCount + 2 = 5 ∧
        1 ∉ e1.mComponents.live ∧ 2 ∉ e1.mComponents.live ∧ 3 ∈ e1.mComponents.live) ∧
    ((sampleWithTransform.objects 1).mComponentList = [1, 6] ∧
      ∃ e1, sampleWithTransform.DestroyGameObject 1 = .finished true e1 ∧
        1 ∉ e1.mComponents.live ∧ e1.GetComponentCount + 1 = 1 ∧
        (e1.objects 1).mComponentList = [1, 6]) := by
  obtain ⟨e1, h1, h2, h3, h4, h5, _⟩ := C14_destroy_game_object sampleScene 1 (by decide)
    (by decide) (by decide) ⟨by decide, by decide, by decide, by decide, by decide⟩ (by decide)
  obtain ⟨e2, k1, _, _, k4, k5, _, _, _, k9, _⟩ := C14_destroy_game_object sampleWithTransform 1
    (by decide) (by decide) (by decide)
    ⟨by decide, by decide, by decide, by decide, by decide⟩ (by decide)
  refine ⟨⟨by decide, by decide, e1, h1, h2, h5, h4 1 (by decide) (by decide),
    h4 2 (by decide) (by decide), (h3 3).mpr ⟨by decide, by decide⟩⟩,
    by decide, e2, k1, k4 1 (by decide) (by decide), k5, ?_⟩
  rw [k9]
  decide

/-! ## C19: the offset of a text anchored right -/

theorem floatOfInt_of_range (n : Int) (h1 : -(2 ^ 24) ≤ n) (h2 : n ≤ 2 ^ 24) :
    floatOfInt n = n :=
  floatOfInt_exact n (by omega)

/-- The offset of a text anchored right when the values formed on the way are
within the range of `int` and are `float` values. -/
theorem textOffsetZ_right (viewport : Viewport) (txt : Text)
    (hanchor : txt.canvas.anchorRight = true) (hfits : RightOffsetExact viewport txt) :
    textOffsetZ viewport txt
      = (viewport.w : Scalar) + (txt.size : Scalar) * (txt.canvas.x : Scalar)
        - (txt.text.length : Scalar) * (txt.size : Scalar) := by
  obtain ⟨hsize, hsmall, hp1, hp2, hs1, hs2, hext, hr1, hr2⟩ := hfits
  obtain ⟨n, hn⟩ := Int.eq_ofNat_of_zero_le hsize
  have hn31 : n < 2 ^ 31 := by
    rw [hn] at hsmall
    exact_mod_cast hsmall
  have hmod : (txt.size % (2 ^ 64 : Int)).toNat = n := by
    rw [hn, Int.emod_eq_of_lt (by positivity) (by
      have : (n : Int) < 2 ^ 31 := by exact_mod_cast hn31
      linarith)]
    rfl
  have hprod : txt.text.length * n ≤ 2 ^ 24 := by
    rw [hn] at hext
    exact_mod_cast hext
  have hextent : (textExtent txt : Int) = (txt.text.length : Int) * txt.size := by
    unfold textExtent
    rw [hmod, Nat.mod_eq_of_lt (lt_of_le_of_lt hprod (by norm_num)), hn]
    push_cast
    rfl
  have hext0 : (0 : Int) ≤ (txt.text.length : Int) * txt.size :=
    mul_nonneg (Int.natCast_nonneg _) hsize
  unfold textOffsetZ
  rw [if_pos hanchor, wrapInt_of_range _ hp1 hp2,
    wrapInt_of_range _ (by omega) (by omega), floatOfInt_of_range _ hs1 hs2, hextent,
    floatOfInt_of_range _ (by omega) hext]
  have hcast : ((viewport.w + txt.size * txt.canvas.x : Int) : Scalar)
      - (((txt.text.length : Int) * txt.size : Int) : Scalar)
      = ((viewport.w + txt.size * txt.canvas.x - (txt.text.length : Int) * txt.size : Int)
          : Scalar) := by
    push_cast
    ring
  rw [hcast]
  have hround := floatOfInt_of_range _ hr1 hr2
  unfold floatOfInt at hround
  rw [hround]
  push_cast
  ring

/-- What `Update` leaves as the horizontal offset of an active entity with a
text and a mesh renderer in its entry, the entry being its own: the value the
text block computes. -/
theorem update_offset (x : Externals) (fuel : Nat) (e : Engine) (i : Nat)
    (hi : i < e.mGameObjects.Size) (hready : e.beforeLoop.Ready fuel)
    (hactive : (e.objects (e.beforeLoop.streamBuffer i).gameObject).isActive = true)
    (htext : (e.beforeLoop.streamBuffer i).text ≠ nullptr)
    (hrenderer : (e.beforeLoop.streamBuffer i).meshRenderer ≠ nullptr)
    (hown : ∀ j, j < e.mGameObjects.Size → j ≠ i →
      (e.beforeLoop.streamBuffer j).gameObject ≠ (e.beforeLoop.streamBuffer i).gameObject) :
    ∃ e1, e.Update x fuel = .finished () e1 ∧
      (e1.objects (e.beforeLoop.streamBuffer i).gameObject).transform.position.z
        = textOffsetZ e.viewport (e.mem.texts (e.beforeLoop.streamBuffer i).text) := by
  obtain ⟨e1, h1⟩ := update_finishes x fuel e hready
  obtain ⟨ho, hm, hp, hv, _⟩ := beforeLoop_frame e
  refine ⟨e1, h1, ?_⟩
  rw [update_eq] at h1
  have hest : ∀ e2 e3, SameShape e.beforeLoop e2 →
      e2.updateEntity x fuel (e2.streamBuffer i) = .finished () e3 →
      (e3.objects (e.beforeLoop.streamBuffer i).gameObject).transform.position.z
        = textOffsetZ e.viewport (e.mem.texts (e.beforeLoop.streamBuffer i).text) := by
    intro e2 e3 hs hrun
    rw [hs.streamBuffer] at hrun
    rw [updateEntity_offset x fuel e2 _ e3 hrun
      (by rw [hs.isActive, ho]; exact hactive) htext hrenderer, hs.viewport, hs.texts, hv, hm]
  exact updateLoop_establish x fuel
    (fun e2 => (e2.objects (e.beforeLoop.streamBuffer i).gameObject).transform.position.z
      = textOffsetZ e.viewport (e.mem.texts (e.beforeLoop.streamBuffer i).text))
    _ e.beforeLoop i (List.mem_range.mpr (by rw [hp]; exact hi)) hest
    (fun e2 j e3 hj hs hQ hrun => by
      by_cases hji : j = i
      · subst hji
        exact hest e2 e3 hs hrun
      · have w := (updateEntity_frame x fuel e2 _ e3 (by rw [hrun]; rfl)).2
        have hne := hown j (by rw [← hp]; exact List.mem_range.mp hj) hji
        show (e3.objects (e.beforeLoop.streamBuffer i).gameObject).transform.position.z
          = textOffsetZ e.viewport (e.mem.texts (e.beforeLoop.streamBuffer i).text)
        rw [w.objects _ (by rw [hs.streamBuffer]; exact fun h => hne h.symm)]
        exact hQ)
    e1 h1

/-- C19 fails for a text that was attached after the stream buffer was last
rebuilt: the entity is active and holds a mesh renderer and a text anchored
right with `L = 5`, `S = 10` and `canvas.x = 0` under a viewport 800 wide, but
its entry in the buffer lists neither, `Update` does not rebuild the buffer, and
the offset `transform.position.z` stays 0 instead of becoming 750. -/
theorem C19_late_text_not_placed :
    (sampleLateText.objects 1).isActive = true ∧
    (sampleLateText.objects 1).mMeshRendererCache = 1 ∧
    (sampleLateText.objects 1).mTextCache = 1 ∧
    (sampleLateText.mem.texts 1).canvas.anchorRight = true ∧
    (sampleLateText.mem.texts 1).text.length = 5 ∧ (sampleLateText.mem.texts 1).size = 10 ∧
    (sampleLateText.mem.texts 1).canvas.x = 0 ∧ sampleLateText.viewport.w = 800 ∧
    ∃ e1, sampleLateText.Update sampleExternals 1 = .finished () e1 ∧
      (e1.objects 1).transform.position.z = 0 :=
  ⟨by decide, by decide, by decide, by decide, by decide, by decide, by decide, by decide,
    (sampleLateText.Update sampleExternals 1).reached sampleLateText, rfl, by decide⟩

/-- C19, as amended: for an active entity whose entry in the stream buffer, an
entry of its own, lists a text anchored right and a mesh renderer, when the
font size `S` is a non-negative `int`, `S * canvas.x` is in the range of `int`
and `viewport.w + S * canvas.x`, `L * S` and their difference have a magnitude
of at most `2 ^ 24` (so that no `int` operation overflows and every value
stored in the `float` is exact), `EngineSystemManager::Update` finishes and
leaves the horizontal offset `transform.position.z` of the entity at
`viewport.w + S * canvas.x - L * S`, where `L` is the length of the string. -/
theorem C19_right_anchor_offset (x : Externals) (fuel : Nat) (e : Engine) (i : Nat)
    (hi : i < e.mGameObjects.Size) (hready : e.beforeLoop.Ready fuel)
    (hactive : (e.objects (e.beforeLoop.streamBuffer i).gameObject).isActive = true)
    (htext : (e.beforeLoop.streamBuffer i).text ≠ nullptr)
    (hrenderer : (e.beforeLoop.streamBuffer i).meshRenderer ≠ nullptr)
    (hanchor : (e.mem.texts (e.beforeLoop.streamBuffer i).text).canvas.anchorRight = true)
    (hfits : RightOffsetExact e.viewport (e.mem.texts (e.beforeLoop.streamBuffer i).text))
    (hown : ∀ j, j < e.mGameObjects.Size → j ≠ i →
      (e.beforeLoop.streamBuffer j).gameObject ≠ (e.beforeLoop.streamBuffer i).gameObject) :
    ∃ e1, e.Update x fuel = .finished () e1 ∧
      (e1.objects (e.beforeLoop.streamBuffer i).gameObject).transform.position.z
        = (e.viewport.w : Scalar)
          + ((e.mem.texts (e.beforeLoop.streamBuffer i).text).size : Scalar)
            * ((e.mem.texts (e.beforeLoop.streamBuffer i).text).canvas.x : Scalar)
          - ((e.mem.texts (e.beforeLoop.streamBuffer i).text).text.length : Scalar)
            * ((e.mem.texts (e.beforeLoop.streamBuffer i).text).size : Scalar) := by
  obtain ⟨e1, h1, h2⟩ := update_offset x fuel e i hi hready hactive htext hrenderer hown
  exact ⟨e1, h1, h2.trans (textOffsetZ_right e.viewport _ hanchor hfits)⟩

/-- C19 (as amended) at the scene of the examples: the text of entity `1` has
`L = 5` characters of size `S = 10`, the viewport is 800 wide and `canvas.x` is
zero; the offset is 750. -/
theorem C19_right_anchor_offset_witness :
    (sampleScene.mem.texts 1).text.length = 5 ∧ (sampleScene.mem.texts 1).size = 10 ∧
    (sampleScene.mem.texts 1).canvas.x = 0 ∧ sampleScene.viewport.w = 800 ∧
    ∃ e1, sampleScene.Update sampleExternals 2 = .finished () e1 ∧
      (e1.objects 1).transform.position.z = 750 := by
  refine ⟨by decide, by decide, by decide, by decide, ?_⟩
  obtain ⟨e1, h1, h2⟩ := C19_right_anchor_offset sampleExternals 2 sampleScene 0 (by decide)
    (by decide) (by decide) (by decide) (by decide) (by decide) (by decide) (by decide)
  refine ⟨e1, h1, ?_⟩
  have h3 : (e1.objects 1).transform.position.z
      = ((800 : Int) : Scalar) + ((10 : Int) : Scalar) * ((0 : Int) : Scalar)
        - ((5 : Nat) : Scalar) * ((10 : Int) : Scalar) := h2
  rw [h3]
  norm_num

/-! ## C18: the pitch limit of the camera block, continued -/

/-- The two comparisons leave every value within the limit. -/
theorem clampPitch_range (y : Scalar) :
    -pitchLimit ≤ clampPitch y ∧ clampPitch y ≤ pitchLimit := by
  have hpos : (0 : Scalar) < pitchLimit := by norm_num [pitchLimit]
  unfold clampPitch
  dsimp only
  split_ifs <;> constructor <;> linarith

/-- The pitch the mouse-look block stores is the incremented pitch put through
the two comparisons. -/
theorem mouseLook_clampPitch (c : Camera) (dx dy : Int) :
    (mouseLook c dx dy).y
      = clampPitch (c.lookAngle.y - (dy : Scalar) * c.MouseSensitivityPitch * (1 / 100)) :=
  rfl

/-- On a number the two statements of the pitch limit act as `clampPitch`; a
NaN passes both comparisons and stays. -/
theorem clampPitchValue_cases :
    (∀ q, clampPitchValue (.number q) = .number (clampPitch q)) ∧
    clampPitchValue .nan = .nan := by
  refine ⟨fun q => ?_, rfl⟩
  unfold clampPitchValue clampPitch FloatValue.above
  dsimp only
  by_cases h1 : q > pitchLimit
  · simp only [h1, decide_True, if_true, FloatValue.below]
    split_ifs <;> simp_all
  · simp only [h1, decide_False, if_false, FloatValue.below, Bool.false_eq_true]
    split_ifs <;> simp_all

/-- C18 fails in three ways.  At the scene of the examples, whose cursor is 10000
pixels off the centre, the camera of entity `2` ends with the pitch
`-0.0274f`, the `float` constant of the code, which is `-14710263 / 2 ^ 29` and
lies below `-0.0274`, outside `[-0.0274, 0.0274]`.  And a camera with
mouse look whose entity is deactivated is not visited by `Update`: its pitch,
set to 1 by the client, is 1 afterwards.  And a pitch that is NaN passes both
comparisons of the limit and stays NaN. -/
theorem C18_pitch_outside_decimal_interval :
    clampPitchValue .nan = .nan ∧
    (sampleScene.cursorPos.y - sampleScene.displayCenter.y = 10000 ∧
      (sampleScene.beforeLoop.streamBuffer 1).camera = 1 ∧
      ∃ e1, sampleScene.Update sampleExternals 2 = .finished () e1 ∧
        (e1.mem.cameras 1).lookAngle.y = -(14710263 / 536870912) ∧
        (e1.mem.cameras 1).lookAngle.y < -(274 / 10000)) ∧
    ((sampleIdleCamera.objects 1).mCameraCache = 1 ∧
      (sampleIdleCamera.mem.cameras 1).useMouseLook = true ∧
      (sampleIdleCamera.mem.cameras 1).lookAngle.y = 1 ∧
      ∃ e1, sampleIdleCamera.Update sampleExternals 1 = .finished () e1 ∧
        (e1.mem.cameras 1).lookAngle.y = 1 ∧ pitchLimit < (e1.mem.cameras 1).lookAngle.y) := by
  have hlook : (((sampleScene.Update sampleExternals 2).reached sampleScene).mem.cameras
      1).lookAngle = mouseLook (sampleScene.mem.cameras 1) 10000 10000 := rfl
  have hcam : sampleScene.mem.cameras 1 = ⟨Transform.identity, true, ⟨0, 0⟩, 1, 1⟩ := rfl
  have hy : (mouseLook (sampleScene.mem.cameras 1) 10000 10000).y
      = -(14710263 / 536870912) := by
    rw [mouseLook_clampPitch, hcam]
    unfold clampPitch
    norm_num [pitchLimit]
  have hidle : (((sampleIdleCamera.Update sampleExternals 1).reached sampleIdleCamera).mem.cameras
      1).lookAngle.y = 1 := rfl
  refine ⟨rfl, ⟨by decide, by decide,
    (sampleScene.Update sampleExternals 2).reached sampleScene, rfl, ?_, ?_⟩,
    by decide, by decide, rfl,
    (sampleIdleCamera.Update sampleExternals 1).reached sampleIdleCamera, rfl, hidle, ?_⟩
  · rw [hlook, hy]
  · rw [hlook, hy]
    norm_num
  · rw [hidle]
    norm_num [pitchLimit]

/-- C18, as amended: for a camera with mouse look enabled that the entity loop
visits in the entry of an active entity, for every prior pitch and every
pointer delta (the values the state `e` holds are arbitrary numbers),
`EngineSystemManager::Update` finishes and leaves the pitch `lookAngle.y` of
the camera in `[-L, L]`, and `transform.orientation.y` equal to it, where `L`
is the `float` constant `0.0274f` of the code: the `float` nearest to `0.0274`,
which is `14710263 / 2 ^ 29` and lies above `0.0274`.  The bound does not
depend on how the pointer increment is rounded: the two comparisons bring every
number into `[-L, L]` (on a number they act as `clampPitch`). -/
theorem C18_pitch_clamped (x : Externals) (fuel : Nat) (e : Engine) (i : Nat)
    (hi : i < e.mGameObjects.Size) (hready : e.beforeLoop.Ready fuel)
    (hactive : (e.objects (e.beforeLoop.streamBuffer i).gameObject).isActive = true)
    (hcam : (e.beforeLoop.streamBuffer i).camera ≠ nullptr)
    (hlook : (e.mem.cameras (e.beforeLoop.streamBuffer i).camera).useMouseLook = true) :
    pitchLimit = roundFloat (274 / 10000) ∧ pitchLimit = 14710263 / 536870912 ∧
    (274 / 10000 : Scalar) < pitchLimit ∧
    (∀ y, -pitchLimit ≤ clampPitch y ∧ clampPitch y ≤ pitchLimit) ∧
    (∀ q, clampPitchValue (.number q) = .number (clampPitch q)) ∧
    (∀ c dx dy, (mouseLook c dx dy).y
      = clampPitch (c.lookAngle.y - (dy : Scalar) * c.MouseSensitivityPitch * (1 / 100))) ∧
    ∃ e1, e.Update x fuel = .finished () e1 ∧
      -pitchLimit ≤ (e1.mem.cameras (e.beforeLoop.streamBuffer i).camera).lookAngle.y ∧
      (e1.mem.cameras (e.beforeLoop.streamBuffer i).camera).lookAngle.y ≤ pitchLimit ∧
      (e1.mem.cameras (e.beforeLoop.streamBuffer i).camera).transform.orientation.y
        = (e1.mem.cameras (e.beforeLoop.streamBuffer i).camera).lookAngle.y := by
  refine ⟨roundFloat_pitch.symm, rfl, by norm_num [pitchLimit], clampPitch_range,
    clampPitchValue_cases.1, mouseLook_clampPitch, ?_⟩
  obtain ⟨e1, h1⟩ := update_finishes x fuel e hready
  obtain ⟨ho, hm, hp, _⟩ := beforeLoop_frame e
  refine ⟨e1, h1, ?_⟩
  rw [update_eq] at h1
  have hlook0 : ∀ e2, SameShape e.beforeLoop e2 →
      (e2.mem.cameras (e.beforeLoop.streamBuffer i).camera).useMouseLook = true := by
    intro e2 hs
    rw [hs.mouseLook, hm]
    exact hlook
  exact updateLoop_establish x fuel
    (fun e2 => PitchClamped (e2.mem.cameras (e.beforeLoop.streamBuffer i).camera))
    _ e.beforeLoop i (List.mem_range.mpr (by rw [hp]; exact hi))
    (fun e2 e3 hs hrun =>
      updateEntity_pitch x fuel e2 _ e3 _ hrun hcam (hlook0 e2 hs)
        (Or.inr ⟨by rw [hs.streamBuffer], by
          rw [hs.streamBuffer, hs.isActive, ho]
          exact hactive⟩))
    (fun e2 j e3 _ hs hQ hrun =>
      updateEntity_pitch x fuel e2 _ e3 _ hrun hcam (hlook0 e2 hs) (Or.inl hQ))
    e1 h1

/-- C18 (as amended) at the scene of the examples: the cursor is 10000 pixels
off the centre in both directions, and the camera of entity `2` ends within the
limit `L`. -/
theorem C18_pitch_clamped_witness :
    sampleScene.cursorPos.y - sampleScene.displayCenter.y = 10000 ∧
    (sampleScene.beforeLoop.streamBuffer 1).camera = 1 ∧
    ∃ e1, sampleScene.Update sampleExternals 2 = .finished () e1 ∧
      -(14710263 / 536870912 : Scalar) ≤ (e1.mem.cameras 1).lookAngle.y ∧
      (e1.mem.cameras 1).lookAngle.y ≤ 14710263 / 536870912 ∧
      (e1.mem.cameras 1).transform.orientation.y = (e1.mem.cameras 1).lookAngle.y :=
  ⟨by decide, by decide,
    (C18_pitch_clamped sampleExternals 2 sampleScene 1 (by decide) (by decide) (by decide)
      (by decide) (by decide)).2.2.2.2.2.2⟩

/-- C11 fails for an inactive entity whose mesh renderer is still listed in the
stream-buffer entry of an active entity: entity `2` is inactive and holds the
mesh renderer `1`, which entity `1` held when the buffer was last rebuilt;
`Update` does not rebuild the buffer, and its pass over the entry of entity `1`
writes the transform of that mesh renderer. -/
theorem C11_stale_slot_writes_renderer :
    (sampleMovedRenderer.objects 2).isActive = false ∧
    (sampleMovedRenderer.objects 2).mMeshRendererCache = 1 ∧
    (sampleMovedRenderer.objects 1).mMeshRendererCache = nullptr ∧
    sampleMovedRenderer.doUpdateDataStream = false ∧
    (sampleMovedRenderer.streamBuffer 0).meshRenderer = 1 ∧
    (sampleMovedRenderer.mem.meshRenderers 1).transform.position = ⟨0, 0, 0⟩ ∧
    ∃ e1, sampleMovedRenderer.Update sampleExternals 1 = .finished () e1 ∧
      (e1.mem.meshRenderers 1).transform.position = ⟨1, 0, 0⟩ :=
  ⟨by decide, by decide, by decide, by decide, by decide, by decide,
    (sampleMovedRenderer.Update sampleExternals 1).reached sampleMovedRenderer, rfl,
    by decide⟩

/-! ## C21: the walk up the parent chain -/

/-- In exact arithmetic the transform accumulated step by step is
`accumulated`. -/
theorem accumulatedRounded_id (objects : Ptr → GameObject) (own : Transform)
    (chain : List Ptr) : accumulatedRounded id objects own chain = accumulated objects own chain :=
  rfl

end SandStorm
